import Mathlib

/-!
The msvcrt locale functions (dlls/msvcrt/locale.c).

A shallow embedding of the locale resolution and locale-state code of
`dlls/msvcrt/locale.c`, followed by theorems about it.

Conventions of the embedding.

* A C string is the list of its characters before the terminating NUL.
* `Option` at the outside of a result stands for undefined behaviour of the C
  code (a store outside the object it indexes): `none` is "the C code has no
  defined result here".  A `NULL` pointer result is an inner `Option`.
* Heap allocation always succeeds.
* Everything the file obtains from kernel32 (locale fields, the resource
  enumeration, codepage data) is a field of `Provider`.
-/

namespace Msvcrt

/-! ## C strings -/

/-- A C string: the characters before the terminating NUL. -/
abbrev CStr := List Char

/-- The C string of a string literal. -/
def cstr (s : String) : CStr := s.toList

/-- Max length of country/language/CP string (`MAX_ELEM_LEN`). -/
def MAX_ELEM_LEN : Nat := 64

/-- Size of the static buffer of `construct_lc_all` (`MAX_LOCALE_LENGTH`). -/
def MAX_LOCALE_LENGTH : Nat := 256

/-- The libc `tolower` in the "C" locale: only `A`..`Z` are mapped. -/
def tolower (c : Char) : Char :=
  if 65 ≤ c.toNat ∧ c.toNat ≤ 90 then Char.ofNat (c.toNat + 32) else c

/-- The libc `strncasecmp (a, b, n)`: compares at most `n` characters after
lower-casing.  The result is 0 when no difference is found; at a difference it
is the difference of the lowered characters, and `-1` / `1` when one string
ends first (only the sign and the zero test are used by the callers). -/
def strncasecmp : CStr → CStr → Nat → Int
  | _, _, 0 => 0
  | [], [], _ + 1 => 0
  | [], _ :: _, _ + 1 => -1
  | _ :: _, [], _ + 1 => 1
  | a :: as, b :: bs, n + 1 =>
    if tolower a = tolower b then strncasecmp as bs n
    else ((tolower a).toNat : Int) - ((tolower b).toNat : Int)

/-- The libc `strcasecmp (a, b)`. -/
def strcasecmp : CStr → CStr → Int
  | [], [] => 0
  | [], _ :: _ => -1
  | _ :: _, [] => 1
  | a :: as, b :: bs =>
    if tolower a = tolower b then strcasecmp as bs
    else ((tolower a).toNat : Int) - ((tolower b).toNat : Int)

/-- The libc `strcmp (a, b) == 0` test. -/
def strcmp_eq (a b : CStr) : Bool := decide (a = b)

/-- The index of the first occurrence of `c`, as `strchr` finds it
(`none` for a `NULL` result). -/
def strchr : CStr → Char → Option Nat
  | [], _ => none
  | a :: as, c => if a = c then some 0 else (strchr as c).map (· + 1)

/-- The kernel32 `lstrcpynA (dst, src, n)`: the string left in `dst`, at most
`n - 1` characters of `src`. -/
def lstrcpynA (src : CStr) (n : Nat) : CStr := src.take (n - 1)

/-! ## The Locale Data Provider -/

/-- The locale information types (`LCTYPE` constants of winnls.h) that the file
queries. Day names are numbered 1..7, month names 1..12. -/
inductive LCTYPE where
  | LOCALE_ILANGUAGE
  | LOCALE_SENGLANGUAGE
  | LOCALE_SABBREVLANGNAME
  | LOCALE_SISO639LANGNAME
  | LOCALE_SENGCOUNTRY
  | LOCALE_SABBREVCTRYNAME
  | LOCALE_SISO3166CTRYNAME
  | LOCALE_IDEFAULTCODEPAGE
  | LOCALE_IDEFAULTANSICODEPAGE
  | LOCALE_SINTLSYMBOL
  | LOCALE_SCURRENCY
  | LOCALE_SMONDECIMALSEP
  | LOCALE_SMONTHOUSANDSEP
  | LOCALE_SMONGROUPING
  | LOCALE_SPOSITIVESIGN
  | LOCALE_SNEGATIVESIGN
  | LOCALE_IINTLCURRDIGITS
  | LOCALE_ICURRDIGITS
  | LOCALE_IPOSSYMPRECEDES
  | LOCALE_IPOSSEPBYSPACE
  | LOCALE_INEGSYMPRECEDES
  | LOCALE_INEGSEPBYSPACE
  | LOCALE_IPOSSIGNPOSN
  | LOCALE_INEGSIGNPOSN
  | LOCALE_SDECIMAL
  | LOCALE_STHOUSAND
  | LOCALE_SGROUPING
  | LOCALE_SABBREVDAYNAME (k : Nat)
  | LOCALE_SDAYNAME (k : Nat)
  | LOCALE_SABBREVMONTHNAME (k : Nat)
  | LOCALE_SMONTHNAME (k : Nat)
  | LOCALE_S1159
  | LOCALE_S2359
  | LOCALE_SSHORTDATE
  | LOCALE_SLONGDATE
  | LOCALE_STIMEFORMAT
  deriving DecidableEq, Repr

/-- The `CPINFO` structure filled by `GetCPInfo`: the maximal character size
and the lead-byte ranges (pairs of bytes, ended by a pair of zeros). -/
structure CPINFO where
  MaxCharSize : Nat
  LeadByte : List Nat

/-- The environment of the file: the kernel32 services it consumes and the
declarations it takes from other files.

* `GetLocaleInfoA lcid nouseroverride lctype` is the string the call leaves in
  the caller's buffer, `none` when the call returns 0.  The flag is the
  `LOCALE_NOUSEROVERRIDE` bit of the request.  Strings are taken to fit the
  buffer they are requested into.
* `GetLocaleInfoW` is the same for the wide-character call.
* `languages` is the sequence of language ids that `EnumResourceLanguagesA`
  passes to its callback for the `LOCALE_ILANGUAGE` string resource of
  kernel32.
* `GetStringTypeA lcid b` is the `CT_CTYPE1` word written for the one-byte
  string `b`, `none` when the call writes nothing.
* `LCMapStringA lcid upper src` is the 256-byte table written for `src`,
  `none` when the call writes nothing.
* `MSVCRT__ctype` is the static classification table of ctype.c (257 words).
* `_MSVCR_VER` is the C runtime version the file is compiled for.
* `cached_locale_size` is `sizeof (data->cached_locale)` of msvcrt.h. -/
structure Provider where
  GetLocaleInfoA : Nat → Bool → LCTYPE → Option CStr
  GetLocaleInfoW : Nat → Bool → LCTYPE → Option (List Nat)
  languages : List Nat
  IsValidCodePage : Nat → Bool
  GetSystemDefaultLCID : Nat
  GetCPInfo : Nat → Option CPINFO
  GetStringTypeA : Nat → Nat → Option Nat
  LCMapStringA : Nat → Bool → List Nat → Option (List Nat)
  LocaleNameToLCID : List Nat → Nat
  LCIDToLocaleName : Nat → Option (List Nat)
  MSVCRT__ctype : List Nat
  _MSVCR_VER : Nat
  cached_locale_size : Nat

/-! ## Language identifiers (winnt.h) -/

/-- The winnt.h `PRIMARYLANGID`: the low ten bits of a language id. -/
def PRIMARYLANGID (lgid : Nat) : Nat := lgid % 1024

/-- The winnt.h `MAKELCID (lgid, srtid)`: sort id in the high word, language
id in the low word. -/
def MAKELCID (lgid srtid : Nat) : Nat := (srtid % 65536) * 65536 + lgid % 65536

def LANG_NEUTRAL : Nat := 0
def LANG_ENGLISH : Nat := 9
def SORT_DEFAULT : Nat := 0

/-! ## The candidate matcher -/

def FOUND_LANGUAGE : Nat := 4
def FOUND_COUNTRY : Nat := 2
def FOUND_CODEPAGE : Nat := 1

def CONTINUE_LOOKING : Bool := true
def STOP_LOOKING : Bool := false

/-- The search record `locale_search_t`. -/
structure locale_search_t where
  search_language : CStr
  search_country : CStr
  search_codepage : CStr
  found_codepage : CStr
  match_flags : Nat
  found_lang_id : Nat
  deriving DecidableEq, Repr

/-- The function `compare_info`: get and compare locale info with a given
string. `1` is `true`, `0` is `false`. -/
def compare_info (P : Provider) (lcid : Nat) (flags : LCTYPE) (cmp : CStr)
    (exact : Bool) : Bool :=
  if cmp = [] then false
  else
    let buff := (P.GetLocaleInfoA lcid true flags).getD []
    if buff = [] then false
    else
      /- Partial matches are only allowed on language/country names -/
      let len := cmp.length
      if exact || decide (len ≤ 3) then decide (strcasecmp cmp buff = 0)
      else decide (strncasecmp cmp buff len = 0)

/-- The "Check Language" condition of `find_best_locale_proc`. -/
def check_language (P : Provider) (lcid : Nat) (res : locale_search_t) : Bool :=
  compare_info P lcid .LOCALE_SISO639LANGNAME res.search_language true ||
  compare_info P lcid .LOCALE_SABBREVLANGNAME res.search_language true ||
  compare_info P lcid .LOCALE_SENGLANGUAGE res.search_language false

/-- The "Check Country" condition of `find_best_locale_proc`. -/
def check_country (P : Provider) (lcid : Nat) (res : locale_search_t) : Bool :=
  compare_info P lcid .LOCALE_SISO3166CTRYNAME res.search_country true ||
  compare_info P lcid .LOCALE_SABBREVCTRYNAME res.search_country true ||
  compare_info P lcid .LOCALE_SENGCOUNTRY res.search_country false

/-- The "Check codepage" condition of `find_best_locale_proc`. -/
def check_codepage (P : Provider) (lcid : Nat) (res : locale_search_t) : Bool :=
  compare_info P lcid .LOCALE_IDEFAULTCODEPAGE res.search_codepage true ||
  compare_info P lcid .LOCALE_IDEFAULTANSICODEPAGE res.search_codepage true

/-- The enumeration callback `find_best_locale_proc`: the value returned
(continue or stop) and the search record it leaves. -/
def find_best_locale_proc (P : Provider) (LangID : Nat) (res : locale_search_t) :
    Bool × locale_search_t :=
  let lcid := MAKELCID LangID SORT_DEFAULT
  if PRIMARYLANGID LangID = LANG_NEUTRAL then (CONTINUE_LOOKING, res)
  else
    /- Check Language -/
    let lang := check_language P lcid res
    if !lang && (res.match_flags &&& FOUND_LANGUAGE != 0) then (CONTINUE_LOOKING, res)
    else
      let flags := if lang then 0 ||| FOUND_LANGUAGE else 0
      /- Check Country -/
      let country := check_country P lcid res
      if !country && (flags == 0 && (res.match_flags &&& FOUND_COUNTRY != 0)) then
        (CONTINUE_LOOKING, res)
      else
        let flags := if country then flags ||| FOUND_COUNTRY else flags
        /- Check codepage -/
        let codepage := check_codepage P lcid res
        if !codepage && (flags == 0 && (res.match_flags &&& FOUND_CODEPAGE != 0)) then
          (CONTINUE_LOOKING, res)
        else
          let flags := if codepage then flags ||| FOUND_CODEPAGE else flags
          let res := if codepage then { res with found_codepage := res.search_codepage } else res
          /- Found a better match than previously -/
          let res := if flags > res.match_flags then
              { res with match_flags := flags, found_lang_id := LangID }
            else res
          if flags &&& (FOUND_LANGUAGE ||| FOUND_COUNTRY ||| FOUND_CODEPAGE) =
              (FOUND_LANGUAGE ||| FOUND_COUNTRY ||| FOUND_CODEPAGE) then
            (STOP_LOOKING, res)
          else (CONTINUE_LOOKING, res)

/-- The kernel32 `EnumResourceLanguagesA`: the callback is called on each
language id in turn until it returns `FALSE`. -/
def EnumResourceLanguagesA {σ : Type} (cb : Nat → σ → Bool × σ) : List Nat → σ → σ
  | [], s => s
  | l :: ls, s =>
    match cb l s with
    | (true, s1) => EnumResourceLanguagesA cb ls s1
    | (false, s1) => s1

/-- The score of a candidate as the specification words it: 4 if the
language matches, plus 2 if the country matches, plus 1 if the codepage
matches. -/
def score (P : Provider) (res : locale_search_t) (LangID : Nat) : Nat :=
  (if check_language P (MAKELCID LangID SORT_DEFAULT) res then 4 else 0) +
  (if check_country P (MAKELCID LangID SORT_DEFAULT) res then 2 else 0) +
  (if check_codepage P (MAKELCID LangID SORT_DEFAULT) res then 1 else 0)

/-! ## The locale record -/

/-- The category numbers of msvcrt.h. -/
def MSVCRT_LC_ALL : Nat := 0
def MSVCRT_LC_COLLATE : Nat := 1
def MSVCRT_LC_CTYPE : Nat := 2
def MSVCRT_LC_MONETARY : Nat := 3
def MSVCRT_LC_NUMERIC : Nat := 4
def MSVCRT_LC_TIME : Nat := 5
def MSVCRT_LC_MIN : Nat := 0
def MSVCRT_LC_MAX : Nat := 5

/-- The `LC_ID` structure: three unsigned 16-bit words. -/
structure LC_ID where
  wLanguage : Nat
  wCountry : Nat
  wCodePage : Nat
  deriving DecidableEq, Repr

/-- One entry of `lc_category[]`: the descriptor string and its reference
count, each a pointer that may be `NULL`. -/
structure lc_category_t where
  locale : Option CStr
  refcount : Option Nat
  deriving DecidableEq, Repr

/-- The structure `MSVCRT_lconv`. String members are pointers (`none` is
`NULL`), the grouping members are arrays of `char`, the digit and sign members
are `char`. The `_W_` members exist from `_MSVCR_VER` 100 on. -/
structure MSVCRT_lconv where
  decimal_point : Option CStr
  thousands_sep : Option CStr
  grouping : Option (List Int)
  int_curr_symbol : Option CStr
  currency_symbol : Option CStr
  mon_decimal_point : Option CStr
  mon_thousands_sep : Option CStr
  mon_grouping : Option (List Int)
  positive_sign : Option CStr
  negative_sign : Option CStr
  int_frac_digits : Int
  frac_digits : Int
  p_cs_precedes : Int
  p_sep_by_space : Int
  n_cs_precedes : Int
  n_sep_by_space : Int
  p_sign_posn : Int
  n_sign_posn : Int
  _W_decimal_point : Option (List Nat)
  _W_thousands_sep : Option (List Nat)
  _W_int_curr_symbol : Option (List Nat)
  _W_currency_symbol : Option (List Nat)
  _W_mon_decimal_point : Option (List Nat)
  _W_mon_thousands_sep : Option (List Nat)
  _W_positive_sign : Option (List Nat)
  _W_negative_sign : Option (List Nat)
  deriving DecidableEq, Repr

/-- The structure `MSVCRT___lc_time_data`: the strings `str.str[i]` and
`wstr.wstr[i]` in the order of `time_data`, then the locale id (before
`_MSVCR_VER` 110) or the locale name (from 110 on). -/
structure MSVCRT___lc_time_data where
  str : List CStr
  wstr : List (List Nat)
  lcid : Nat
  locname : Option (List Nat)
  deriving DecidableEq, Repr

/-- The structure `MSVCRT_threadlocinfo`. Arrays indexed by category are
functions of the category number. `pctype` is the 256-entry table the pointer
designates; `pclmap` and `pcumap` are `none` while their 256 bytes are
allocated but not yet written. -/
structure MSVCRT_threadlocinfo where
  refcount : Nat
  lc_codepage : Nat
  lc_collate_cp : Nat
  lc_handle : Nat → Nat
  lc_id : Nat → LC_ID
  lc_category : Nat → lc_category_t
  lc_clike : Nat
  mb_cur_max : Nat
  lconv_intl_refcount : Option Nat
  lconv_num_refcount : Option Nat
  lconv_mon_refcount : Option Nat
  lconv : MSVCRT_lconv
  ctype1_refcount : Option Nat
  ctype1 : Option (List Nat)
  pctype : Option (List Nat)
  pclmap : Option (List Nat)
  pcumap : Option (List Nat)
  lc_time_curr : Option MSVCRT___lc_time_data
  lc_name : Nat → Option (List Nat)

/-- The part of `thread_data_t` (msvcrt.h) the file uses: the per-thread
locale and the single-slot cache of `MSVCRT_locale_to_LCID`. -/
structure thread_data_t where
  have_locale : Bool
  locinfo : Option MSVCRT_threadlocinfo
  cached_locale : CStr
  cached_lcid : Nat
  cached_cp : Nat

/-! ## Resolving a locale specification -/

/-- Friendly country strings and language names abbreviations
(`_country_synonyms`), as pairs. -/
def _country_synonyms : List (String × String) :=
  [ ("american", "enu"),
    ("american english", "enu"),
    ("american-english", "enu"),
    ("english-american", "enu"),
    ("english-us", "enu"),
    ("english-usa", "enu"),
    ("us", "enu"),
    ("usa", "enu"),
    ("australian", "ena"),
    ("english-aus", "ena"),
    ("belgian", "nlb"),
    ("french-belgian", "frb"),
    ("canadian", "enc"),
    ("english-can", "enc"),
    ("french-canadian", "frc"),
    ("chinese", "chs"),
    ("chinese-simplified", "chs"),
    ("chinese-traditional", "cht"),
    ("dutch-belgian", "nlb"),
    ("english-nz", "enz"),
    ("uk", "eng"),
    ("english-uk", "eng"),
    ("french-swiss", "frs"),
    ("swiss", "des"),
    ("german-swiss", "des"),
    ("italian-swiss", "its"),
    ("german-austrian", "dea"),
    ("portuguese", "ptb"),
    ("portuguese-brazil", "ptb"),
    ("spanish-mexican", "esm"),
    ("norwegian-bokmal", "nor"),
    ("norwegian-nynorsk", "non"),
    ("spanish-modern", "esn") ]

/-- The loop of `remap_synonym` over the rest of the table. -/
def remap_synonym_from : List (String × String) → CStr → CStr
  | [], name => name
  | (syn, code) :: rest, name =>
    if strcasecmp (cstr syn) name = 0 then cstr code else remap_synonym_from rest name

/-- The function `remap_synonym`: map a synonym to an ISO code. -/
def remap_synonym (name : CStr) : CStr := remap_synonym_from _country_synonyms name

/-- The libc `isspace` in the "C" locale. -/
def isspace (c : Char) : Bool := decide (c.toNat = 32) || decide (9 ≤ c.toNat ∧ c.toNat ≤ 13)

/-- The digits loop of `atoi`. -/
def atoi_digits : CStr → Int → Int
  | [], acc => acc
  | c :: cs, acc =>
    if 48 ≤ c.toNat ∧ c.toNat ≤ 57 then atoi_digits cs (acc * 10 + ((c.toNat : Int) - 48))
    else acc

/-- The sign and digits part of `atoi`. -/
def atoi_signed : CStr → Int
  | [] => 0
  | c :: cs =>
    if c = '-' then - atoi_digits cs 0
    else if c = '+' then atoi_digits cs 0
    else atoi_digits (c :: cs) 0

/-- The number written by the subject sequence of `strtol (s, NULL, 10)`:
leading white space, an optional sign, decimal digits, as a mathematical
integer. -/
def strtol_subject : CStr → Int
  | [] => 0
  | c :: cs => if isspace c then strtol_subject cs else atoi_signed (c :: cs)

/-- The limits of `long` (64 bits). -/
def LONG_MAX : Int := 9223372036854775807
def LONG_MIN : Int := -9223372036854775808

/-- The libc `strtol (s, NULL, 10)`: a value outside the range of `long` is
replaced by `LONG_MAX` or `LONG_MIN`. -/
def strtol (s : CStr) : Int := max LONG_MIN (min LONG_MAX (strtol_subject s))

/-- The conversion of a `long` to `int`: the low 32 bits, read as a signed
number. -/
def long_to_int (x : Int) : Int := (x + 2147483648) % 4294967296 - 2147483648

/-- The libc `atoi`, that is `(int) strtol (s, NULL, 10)`: the number written
by the string when it fits an `int`; beyond the range of `long` the value
saturates, and only the low 32 bits are kept. -/
def atoi (s : CStr) : Int := long_to_int (strtol s)

/-- The store `buf[idx] = 0` into a buffer of `MAX_ELEM_LEN` characters
holding the string `buf`: the string left in the buffer, `none` when the index
is outside the buffer. -/
def store_nul (buf : CStr) (idx : Int) : Option CStr :=
  if 0 ≤ idx ∧ idx < (MAX_ELEM_LEN : Int) then some (buf.take idx.toNat) else none

/-- The call `GetLocaleInfoA (lcid, lctype, buf, size)` as a store into `buf`:
a failing call leaves the buffer as it was. -/
def GetLocaleInfoA_into (P : Provider) (lcid : Nat) (nouseroverride : Bool) (lctype : LCTYPE)
    (buf : CStr) : CStr :=
  (P.GetLocaleInfoA lcid nouseroverride lctype).getD buf

/-- The value returned for "not found": `(LCID) -1`. -/
def LCID_FAIL : Nat := 4294967295

/-- Lines 227-247 of `MSVCRT_locale_to_LCID`: the search record after the
descriptor is split at the first `.` and the first `_`. `none` when one of the
terminator stores falls outside its buffer. -/
def split_locale (locale : CStr) : Option locale_search_t :=
  let cp := strchr locale '.'
  let region := strchr locale '_'
  let search_language := lstrcpynA locale MAX_ELEM_LEN
  (match region with
    | some r =>
      (if r < MAX_ELEM_LEN then store_nul search_language (r : Int) else some search_language).map
        fun l => (l, lstrcpynA (locale.drop (r + 1)) MAX_ELEM_LEN)
    | none => some (search_language, [])).bind fun (search_language, search_country) =>
  (match cp with
    | some c =>
      (match region with
        | some r =>
          if (c : Int) - (r : Int) - 1 < (MAX_ELEM_LEN : Int) then
            store_nul search_country ((c : Int) - (r : Int) - 1)
          else some search_country
        | none => some search_country).bind fun search_country =>
      (if c < MAX_ELEM_LEN then store_nul search_language (c : Int)
        else some search_language).map fun search_language =>
      (search_language, search_country, lstrcpynA (locale.drop (c + 1)) MAX_ELEM_LEN)
    | none => some (search_language, search_country, [])).map
  fun (search_language, search_country, search_codepage) =>
    { search_language := search_language, search_country := search_country,
      search_codepage := search_codepage, found_codepage := [], match_flags := 0,
      found_lang_id := 0 }

/-- Lines 249-253 of `MSVCRT_locale_to_LCID`: the synonym table is applied
when country and codepage are both empty, and the country "China" is
replaced. -/
def normalize_search (search : locale_search_t) : locale_search_t :=
  let search :=
    if search.search_country = [] ∧ search.search_codepage = [] then
      { search with search_language := remap_synonym search.search_language }
    else search
  if strcasecmp search.search_country (cstr "China") = 0 then
    { search with search_country := cstr "People's Republic of China" }
  else search

/-- Lines 259-297 of `MSVCRT_locale_to_LCID`, after the enumeration: `none`
is the return of -1, otherwise the locale id and the final contents of
`found_codepage`. -/
def locale_to_LCID_finish (P : Provider) (search : locale_search_t) : Option (Nat × CStr) :=
  if search.match_flags = 0 then none
  /- If we were given something that didn't match, fail -/
  else if search.search_country ≠ [] ∧ search.match_flags &&& FOUND_COUNTRY = 0 then none
  else
    let lcid := MAKELCID search.found_lang_id SORT_DEFAULT
    /- Populate partial locale, translating LCID to locale string elements -/
    if search.match_flags &&& FOUND_CODEPAGE = 0 then
      /- Even if a codepage is not enumerated for a locale it can be set if valid -/
      if search.search_codepage ≠ [] then
        if P.IsValidCodePage ((atoi search.search_codepage) % 4294967296).toNat then
          some (lcid, search.search_codepage)
        else
          /- Special codepage values: OEM & ANSI -/
          if strcasecmp search.search_codepage (cstr "OCP") = 0 then
            let found := GetLocaleInfoA_into P lcid false .LOCALE_IDEFAULTCODEPAGE
              search.found_codepage
            if atoi found = 0 then none else some (lcid, found)
          else if strcasecmp search.search_codepage (cstr "ACP") = 0 then
            let found := GetLocaleInfoA_into P lcid false .LOCALE_IDEFAULTANSICODEPAGE
              search.found_codepage
            if atoi found = 0 then none else some (lcid, found)
          else none
      else
        /- Prefer ANSI codepages if present -/
        let found := GetLocaleInfoA_into P lcid false .LOCALE_IDEFAULTANSICODEPAGE
          search.found_codepage
        if found = [] ∨ atoi found = 0 then
          some (lcid, GetLocaleInfoA_into P lcid false .LOCALE_IDEFAULTCODEPAGE found)
        else some (lcid, found)
    else some (lcid, search.found_codepage)

/-- Lines 227-297 of `MSVCRT_locale_to_LCID`, the matching algorithm without
the cache: the outer `none` is a store outside a buffer, the inner `none` is
the return of -1, otherwise the locale id and the final `found_codepage`. -/
def locale_to_LCID_search (P : Provider) (locale : CStr) : Option (Option (Nat × CStr)) :=
  (split_locale locale).map fun search =>
    locale_to_LCID_finish P
      (EnumResourceLanguagesA (find_best_locale_proc P) P.languages (normalize_search search))

/-- The function `MSVCRT_locale_to_LCID` (find the LCID for a locale
specification). `codepage` is `none` for a `NULL` pointer, otherwise the value
the pointer designates; the result is the returned locale id, the value then
designated by `codepage`, and the thread data. -/
def MSVCRT_locale_to_LCID (P : Provider) (data : thread_data_t)
    (locale : CStr) (codepage : Option Nat) : Option (Nat × Option Nat × thread_data_t) :=
  if strcmp_eq locale data.cached_locale then
    some (data.cached_lcid, codepage.map (fun _ => data.cached_cp % 65536), data)
  else
    (locale_to_LCID_search P locale).map fun r =>
      match r with
      | none => (LCID_FAIL, codepage, data)
      | some (lcid, found_codepage) =>
        let codepage1 := codepage.map fun _ => ((atoi found_codepage) % 65536).toNat
        let data1 :=
          if locale.length < P.cached_locale_size then
            { data with
              cached_locale := locale
              cached_lcid := lcid
              cached_cp := match codepage1 with
                | some v => v
                | none => ((atoi found_codepage) % 4294967296).toNat }
          else data
        (lcid, codepage1, data1)

/-! ## Building a locale record -/

/-- The lead-byte flag of a classification word (`MSVCRT__LEADBYTE`). -/
def MSVCRT__LEADBYTE : Nat := 32768

/-- The default ANSI codepage number `CP_ACP`. -/
def CP_ACP : Nat := 0

/-- The conversion of an `int` to `char`. -/
def to_char (x : Int) : Int := (x + 128) % 256 - 128

/-- The digits loop of `update_threadlocinfo_category` that reads the
language id from its hexadecimal string into an unsigned 16-bit word. -/
def parse_wLanguage : CStr → Nat → Nat
  | [], w => w
  | c :: cs, w =>
    parse_wLanguage cs
      ((((w : Int) * 16 +
        (if c.toNat ≤ 57 then (c.toNat : Int) - 48 else (c.toNat : Int) - 97 + 10)) % 65536).toNat)

/-- The output of `sprintf (buf, "%d", n)` for a non-negative `n`. -/
def decimal (n : Nat) : CStr := Nat.toDigits 10 n

/-- The function `update_threadlocinfo_category`: set lc_handle, lc_id and
lc_category in a threadlocinfo struct. The Boolean is the value returned
(`TRUE` on allocation failure only). `none` when `buf[len-1]` is stored with
`len` 0, or the descriptor does not fit `buf`. -/
def update_threadlocinfo_category (P : Provider) (lcid cp : Nat)
    (locinfo : MSVCRT_threadlocinfo) (category : Nat) : Option (Bool × MSVCRT_threadlocinfo) :=
  let id0 := locinfo.lc_id category
  let id1 : LC_ID :=
    match P.GetLocaleInfoA lcid true .LOCALE_ILANGUAGE with
    | some buf =>
      { id0 with wLanguage := parse_wLanguage buf 0, wCountry := parse_wLanguage buf 0 }
    | none => id0
  let id2 : LC_ID := { id1 with wCodePage := cp }
  match P.GetLocaleInfoA lcid true .LOCALE_SENGLANGUAGE with
  | none => none
  | some language =>
    let buf : CStr :=
      match P.GetLocaleInfoA lcid true .LOCALE_SENGCOUNTRY with
      | some country => language ++ '_' :: country ++ '.' :: decimal cp
      | none => language ++ '.' :: decimal cp
    if 256 < buf.length + 1 then none
    else
      some (false,
        { locinfo with
          lc_id := Function.update locinfo.lc_id category id2
          lc_handle := Function.update locinfo.lc_handle category lcid
          lc_category := Function.update locinfo.lc_category category
            { locale := some buf, refcount := some 1 } })

/-- The function `set_lc_locale_name`: below `_MSVCR_VER` 110 it does nothing
and returns `TRUE`. -/
def set_lc_locale_name (P : Provider) (locinfo : MSVCRT_threadlocinfo) (cat : Nat) :
    Bool × MSVCRT_threadlocinfo :=
  if 110 ≤ P._MSVCR_VER then
    let lcid := locinfo.lc_handle cat
    match P.GetLocaleInfoW lcid true .LOCALE_SISO639LANGNAME with
    | none => (false, locinfo)
    | some buf =>
      if P.LocaleNameToLCID buf ≠ lcid then
        match P.LCIDToLocaleName lcid with
        | none => (false, locinfo)
        | some name => (true, { locinfo with lc_name := Function.update locinfo.lc_name cat (some name) })
      else (true, { locinfo with lc_name := Function.update locinfo.lc_name cat (some buf) })
  else (true, locinfo)

/-- The function `category_needs_update`. -/
def category_needs_update (cat : Nat) (user_cat : Int) (locinfo : Option MSVCRT_threadlocinfo)
    (lcid cp : Nat) : Bool :=
  match locinfo with
  | none => true
  | some l =>
    if user_cat ≠ (cat : Int) ∧ user_cat ≠ (MSVCRT_LC_ALL : Int) then false
    else decide (lcid ≠ l.lc_handle cat) || decide (cp ≠ (l.lc_id cat).wCodePage)

/-- The category token test of the composite branch of `create_locinfo`
(the chain of `memcmp`): the category named and the rest of the string. -/
def category_token (locale : CStr) : Option (Nat × CStr) :=
  if (cstr "COLLATE=").isPrefixOf locale then
    some (MSVCRT_LC_COLLATE, locale.drop (cstr "COLLATE=").length)
  else if (cstr "CTYPE=").isPrefixOf locale then
    some (MSVCRT_LC_CTYPE, locale.drop (cstr "CTYPE=").length)
  else if (cstr "MONETARY=").isPrefixOf locale then
    some (MSVCRT_LC_MONETARY, locale.drop (cstr "MONETARY=").length)
  else if (cstr "NUMERIC=").isPrefixOf locale then
    some (MSVCRT_LC_NUMERIC, locale.drop (cstr "NUMERIC=").length)
  else if (cstr "TIME=").isPrefixOf locale then
    some (MSVCRT_LC_TIME, locale.drop (cstr "TIME=").length)
  else none

/-- The test `locale[0]=='C' && (locale[1]==';' || locale[1]=='\0')`. -/
def clause_is_C : CStr → Bool
  | ['C'] => true
  | 'C' :: ';' :: _ => true
  | _ => false

/-- The loop of the composite branch of `create_locinfo` (lines 944-982),
entered with `locale` at an "LC_" and run for at most `fuel` clauses. The
result is `none` inside when `NULL` is returned, otherwise the arrays `lcid`
and `cp`; the outer `none` is a copy of a clause longer than `buf`. -/
def parse_composite (P : Provider) : Nat → CStr → (Nat → Nat) → (Nat → Nat) → thread_data_t →
    Option (Option ((Nat → Nat) × (Nat → Nat)) × thread_data_t)
  | 0, _, _, _, _ => none
  | fuel + 1, locale, lcid, cp, data =>
    match category_token (locale.drop 3) with
    | none => some (none, data)
    | some (i, locale) =>
      let p := strchr locale ';'
      (if clause_is_C locale then some (0, some CP_ACP, data)
        else
          match p with
          | some k =>
            if k < 256 then MSVCRT_locale_to_LCID P data (locale.take k) (some (cp i))
            else none
          | none => MSVCRT_locale_to_LCID P data locale (some (cp i))).bind
      fun (l, c, data) =>
        let lcid := Function.update lcid i l
        let cp := Function.update cp i (c.getD 0)
        if l = LCID_FAIL then some (none, data)
        else
          match p with
          | none => some (some (lcid, cp), data)
          | some k =>
            if (cstr "LC_").isPrefixOf (locale.drop (k + 1)) then
              parse_composite P fuel (locale.drop (k + 1)) lcid cp data
            else some (some (lcid, cp), data)

/-- Lines 928-992 of `create_locinfo`: the arrays `lcid[6]` and `cp[6]`
computed from the descriptor (`none` inside when `NULL` is returned). -/
def create_locinfo_lcids (P : Provider) (locale : CStr) (data : thread_data_t) :
    Option (Option ((Nat → Nat) × (Nat → Nat)) × thread_data_t) :=
  if locale = ['C'] then
    some (some (fun _ => 0, Function.update (fun _ => 0) 0 CP_ACP), data)
  else if locale = [] then
    match P.GetLocaleInfoA P.GetSystemDefaultLCID true .LOCALE_IDEFAULTANSICODEPAGE with
    | none => none
    | some buf =>
      some (some (fun _ => P.GetSystemDefaultLCID, fun _ => ((atoi buf) % 65536).toNat), data)
  else if (cstr "LC_").isPrefixOf locale then
    parse_composite P (locale.length + 1) locale (fun _ => 0) (fun _ => 0) data
  else
    (MSVCRT_locale_to_LCID P data locale (some 0)).map fun (l, c, data) =>
      if l = LCID_FAIL then (none, data)
      else (some (fun _ => l, fun _ => c.getD 0), data)

/-- The record right after allocation in `create_locinfo` (lines 994-1013):
zero-filled, reference count 1, a zero-filled `lconv`, and the two case maps
allocated but not written. -/
def locinfo_fresh : MSVCRT_threadlocinfo :=
  { refcount := 1, lc_codepage := 0, lc_collate_cp := 0,
    lc_handle := fun _ => 0, lc_id := fun _ => ⟨0, 0, 0⟩,
    lc_category := fun _ => ⟨none, none⟩,
    lc_clike := 0, mb_cur_max := 0,
    lconv_intl_refcount := none, lconv_num_refcount := none, lconv_mon_refcount := none,
    lconv :=
      { decimal_point := none, thousands_sep := none, grouping := none,
        int_curr_symbol := none, currency_symbol := none, mon_decimal_point := none,
        mon_thousands_sep := none, mon_grouping := none, positive_sign := none,
        negative_sign := none, int_frac_digits := 0, frac_digits := 0, p_cs_precedes := 0,
        p_sep_by_space := 0, n_cs_precedes := 0, n_sep_by_space := 0, p_sign_posn := 0,
        n_sign_posn := 0, _W_decimal_point := none, _W_thousands_sep := none,
        _W_int_curr_symbol := none, _W_currency_symbol := none, _W_mon_decimal_point := none,
        _W_mon_thousands_sep := none, _W_positive_sign := none, _W_negative_sign := none },
    ctype1_refcount := none, ctype1 := none, pctype := none, pclmap := none, pcumap := none,
    lc_time_curr := none, lc_name := fun _ => none }

/-- The branch taken when `category_needs_update` is false: the locale id and
the codepage of the category are copied from the old record. -/
def reuse_category (locinfo old_locinfo : MSVCRT_threadlocinfo) (cat : Nat) :
    MSVCRT_threadlocinfo :=
  { locinfo with
    lc_handle := Function.update locinfo.lc_handle cat (old_locinfo.lc_handle cat)
    lc_id := Function.update locinfo.lc_id cat
      { locinfo.lc_id cat with wCodePage := (old_locinfo.lc_id cat).wCodePage } }

/-- The store `lc_category[cat].locale = MSVCRT__strdup ("C")`. -/
def set_locale_C (locinfo : MSVCRT_threadlocinfo) (cat : Nat) : MSVCRT_threadlocinfo :=
  { locinfo with
    lc_category := Function.update locinfo.lc_category cat
      { locinfo.lc_category cat with locale := some (cstr "C") } }

/-- The test `category==MSVCRT_LC_ALL || category==cat`. -/
def selects (category : Int) (cat : Nat) : Bool :=
  decide (category = (MSVCRT_LC_ALL : Int)) || decide (category = (cat : Int))

/-- The Collate part of `create_locinfo` (lines 1015-1033). -/
def build_collate (P : Provider) (category : Int) (old_locinfo : Option MSVCRT_threadlocinfo)
    (lcid cp : Nat → Nat) (locinfo : MSVCRT_threadlocinfo) :
    Option (Option MSVCRT_threadlocinfo) :=
  match old_locinfo,
    category_needs_update MSVCRT_LC_COLLATE category old_locinfo (lcid MSVCRT_LC_COLLATE)
      (cp MSVCRT_LC_COLLATE) with
  | some old, false => some (some (reuse_category locinfo old MSVCRT_LC_COLLATE))
  | _, _ =>
    if lcid MSVCRT_LC_COLLATE ≠ 0 ∧ selects category MSVCRT_LC_COLLATE = true then
      (update_threadlocinfo_category P (lcid MSVCRT_LC_COLLATE) (cp MSVCRT_LC_COLLATE) locinfo
        MSVCRT_LC_COLLATE).map fun (failed, locinfo) =>
        if failed then none
        else
          let locinfo :=
            { locinfo with lc_collate_cp := (locinfo.lc_id MSVCRT_LC_COLLATE).wCodePage }
          match set_lc_locale_name P locinfo MSVCRT_LC_COLLATE with
          | (false, _) => none
          | (true, locinfo) => some locinfo
    else some (some (set_locale_C locinfo MSVCRT_LC_COLLATE))

/-- The lead-byte ranges read by the loop
`for(i=0; cp_info.LeadByte[i+1]!=0; i+=2)`: `none` when the loop reads past the
end of the array. -/
def lead_byte_ranges : List Nat → Option (List (Nat × Nat))
  | lo :: hi :: rest =>
    if hi = 0 then some []
    else (lead_byte_ranges rest).map fun rs => (lo, hi) :: rs
  | _ => none

/-- Whether byte `b` lies in one of the lead-byte ranges. -/
def in_lead_ranges (ranges : List (Nat × Nat)) (b : Nat) : Bool :=
  ranges.any fun r => decide (r.1 ≤ b) && decide (b ≤ r.2)

/-- The classification table `ctype1` built for a locale (257 words): entry 0
is 0, entry `b + 1` is the `CT_CTYPE1` word of byte `b` (0 when the provider
writes nothing), with the lead-byte flag set for the bytes of the ranges. -/
def build_ctype1 (P : Provider) (lcid : Nat) (ranges : List (Nat × Nat)) : List Nat :=
  0 :: (List.range 256).map fun b =>
    let w := (P.GetStringTypeA lcid b).getD 0
    if in_lead_ranges ranges b then w ||| MSVCRT__LEADBYTE else w

/-- The source buffer of the two `LCMapStringA` calls: a space for a lead
byte, otherwise the byte itself. -/
def case_map_source (pctype : List Nat) : List Nat :=
  (List.range 256).map fun i =>
    if (pctype.getD i 0) &&& MSVCRT__LEADBYTE ≠ 0 then 32 else i

/-- The lower-case map of the "C" locale (lines 1112-1115). -/
def pclmap_C : List Nat :=
  (List.range 256).map fun i => if 65 ≤ i ∧ i ≤ 90 then i - 65 + 97 else i

/-- The upper-case map of the "C" locale (lines 1112-1115). -/
def pcumap_C : List Nat :=
  (List.range 256).map fun i => if 97 ≤ i ∧ i ≤ 122 then i - 97 + 65 else i

/-- The Ctype category of the "C" locale (lines 1099-1116): the static
classification table, one byte per character, the ASCII case maps. -/
def ctype_C (P : Provider) (locinfo : MSVCRT_threadlocinfo) : MSVCRT_threadlocinfo :=
  { set_locale_C locinfo MSVCRT_LC_CTYPE with
    lc_clike := 1
    mb_cur_max := 1
    pctype := some (P.MSVCRT__ctype.drop 1)
    pclmap := some pclmap_C
    pcumap := some pcumap_C }

/-- The Ctype part of `create_locinfo` (lines 1035-1116). -/
def build_ctype (P : Provider) (category : Int) (old_locinfo : Option MSVCRT_threadlocinfo)
    (lcid cp : Nat → Nat) (locinfo : MSVCRT_threadlocinfo) :
    Option (Option MSVCRT_threadlocinfo) :=
  match old_locinfo,
    category_needs_update MSVCRT_LC_CTYPE category old_locinfo (lcid MSVCRT_LC_CTYPE)
      (cp MSVCRT_LC_CTYPE) with
  | some old, false => some (some (reuse_category locinfo old MSVCRT_LC_CTYPE))
  | _, _ =>
    if lcid MSVCRT_LC_CTYPE ≠ 0 ∧ selects category MSVCRT_LC_CTYPE = true then
      (update_threadlocinfo_category P (lcid MSVCRT_LC_CTYPE) (cp MSVCRT_LC_CTYPE) locinfo
        MSVCRT_LC_CTYPE).bind fun (failed, locinfo) =>
        if failed then some none
        else
          let locinfo :=
            { locinfo with
              lc_codepage := (locinfo.lc_id MSVCRT_LC_CTYPE).wCodePage
              lc_clike := 1 }
          match P.GetCPInfo locinfo.lc_codepage with
          | none => some none
          | some cp_info =>
            (lead_byte_ranges cp_info.LeadByte).map fun ranges =>
              let ctype1 := build_ctype1 P (lcid MSVCRT_LC_CTYPE) ranges
              let locinfo :=
                { locinfo with
                  mb_cur_max := cp_info.MaxCharSize
                  ctype1_refcount := some 1
                  ctype1 := some ctype1
                  pctype := some (ctype1.drop 1) }
              match set_lc_locale_name P locinfo MSVCRT_LC_CTYPE with
              | (false, _) => none
              | (true, locinfo) =>
                let buf := case_map_source (ctype1.drop 1)
                some { locinfo with
                  pclmap := P.LCMapStringA (lcid MSVCRT_LC_CTYPE) false buf
                  pcumap := P.LCMapStringA (lcid MSVCRT_LC_CTYPE) true buf }
    else some (some (ctype_C P locinfo))

/-- A step of `create_locinfo` whose failure makes the function return
`NULL`: the outer level is kept for undefined behaviour. -/
def or_null {α β : Type} (x : Option α) (f : α → Option (Option β)) : Option (Option β) :=
  match x with
  | none => some none
  | some a => f a

/-- The loop that converts a grouping string such as "3;0" into the array of
`char` of `lconv`: the bytes written. `none` when the loop reads the buffer
past the terminator of the string. -/
def grouping_bytes : CStr → Option (List Int)
  | [] => none
  | [c] => some (((c.toNat : Int) - 48) :: (if c ≠ '0' then [127] else []))
  | c :: d :: rest =>
    if d = ';' then (grouping_bytes rest).map fun bs => ((c.toNat : Int) - 48) :: bs
    else some (((c.toNat : Int) - 48) :: (if c ≠ '0' then [127] else []))

/-- The number of bytes allocated for a grouping array: with `i` the length
of the string including its terminator, `i/2 + (buf[i-2]=='0' ? 0 : 1)` when
`i > 1`, otherwise `i`. -/
def grouping_alloc (buf : CStr) : Nat :=
  let i := buf.length + 1
  if 1 < i then i / 2 + (if buf.getLast? = some '0' then 0 else 1) else i

/-- The grouping array built from the provider's grouping string (lines
1175-1188 and 1431-1444): `none` when the loop reads past the string or writes
more bytes than were allocated. -/
def convert_grouping (buf : CStr) : Option (List Int) :=
  (grouping_bytes buf).bind fun bs => if bs.length ≤ grouping_alloc buf then some bs else none

/-- The monetary members of `lconv` in the order they are filled. -/
structure monetary_fields where
  int_curr_symbol : CStr
  currency_symbol : CStr
  mon_decimal_point : CStr
  mon_thousands_sep : CStr
  mon_grouping : List Int
  positive_sign : CStr
  negative_sign : CStr
  int_frac_digits : Int
  frac_digits : Int
  p_cs_precedes : Int
  p_sep_by_space : Int
  n_cs_precedes : Int
  n_sep_by_space : Int
  p_sign_posn : Int
  n_sign_posn : Int

/-- The provider queries of the Monetary part (lines 1139-1270), in order:
each failing query makes `create_locinfo` return `NULL`. -/
def query_monetary (P : Provider) (lcid : Nat) : Option (Option monetary_fields) :=
  or_null (P.GetLocaleInfoA lcid true .LOCALE_SINTLSYMBOL) fun int_curr_symbol =>
  or_null (P.GetLocaleInfoA lcid true .LOCALE_SCURRENCY) fun currency_symbol =>
  or_null (P.GetLocaleInfoA lcid true .LOCALE_SMONDECIMALSEP) fun mon_decimal_point =>
  or_null (P.GetLocaleInfoA lcid true .LOCALE_SMONTHOUSANDSEP) fun mon_thousands_sep =>
  or_null (P.GetLocaleInfoA lcid true .LOCALE_SMONGROUPING) fun grouping =>
  (convert_grouping grouping).bind fun mon_grouping =>
  or_null (P.GetLocaleInfoA lcid true .LOCALE_SPOSITIVESIGN) fun positive_sign =>
  or_null (P.GetLocaleInfoA lcid true .LOCALE_SNEGATIVESIGN) fun negative_sign =>
  or_null (P.GetLocaleInfoA lcid true .LOCALE_IINTLCURRDIGITS) fun int_frac_digits =>
  or_null (P.GetLocaleInfoA lcid true .LOCALE_ICURRDIGITS) fun frac_digits =>
  or_null (P.GetLocaleInfoA lcid true .LOCALE_IPOSSYMPRECEDES) fun p_cs_precedes =>
  or_null (P.GetLocaleInfoA lcid true .LOCALE_IPOSSEPBYSPACE) fun p_sep_by_space =>
  or_null (P.GetLocaleInfoA lcid true .LOCALE_INEGSYMPRECEDES) fun n_cs_precedes =>
  or_null (P.GetLocaleInfoA lcid true .LOCALE_INEGSEPBYSPACE) fun n_sep_by_space =>
  or_null (P.GetLocaleInfoA lcid true .LOCALE_IPOSSIGNPOSN) fun p_sign_posn =>
  or_null (P.GetLocaleInfoA lcid true .LOCALE_INEGSIGNPOSN) fun n_sign_posn =>
  some (some
    { int_curr_symbol := int_curr_symbol, currency_symbol := currency_symbol,
      mon_decimal_point := mon_decimal_point, mon_thousands_sep := mon_thousands_sep,
      mon_grouping := mon_grouping, positive_sign := positive_sign,
      negative_sign := negative_sign,
      int_frac_digits := to_char (atoi int_frac_digits),
      frac_digits := to_char (atoi frac_digits),
      p_cs_precedes := to_char (atoi p_cs_precedes),
      p_sep_by_space := to_char (atoi p_sep_by_space),
      n_cs_precedes := to_char (atoi n_cs_precedes),
      n_sep_by_space := to_char (atoi n_sep_by_space),
      p_sign_posn := to_char (atoi p_sign_posn),
      n_sign_posn := to_char (atoi n_sign_posn) })

/-- The wide monetary members (lines 1272-1326, from `_MSVCR_VER` 100 on). -/
structure monetary_fields_W where
  _W_int_curr_symbol : List Nat
  _W_currency_symbol : List Nat
  _W_mon_decimal_point : List Nat
  _W_mon_thousands_sep : List Nat
  _W_positive_sign : List Nat
  _W_negative_sign : List Nat

/-- The wide provider queries of the Monetary part. -/
def query_monetary_W (P : Provider) (lcid : Nat) : Option monetary_fields_W :=
  (P.GetLocaleInfoW lcid true .LOCALE_SINTLSYMBOL).bind fun a =>
  (P.GetLocaleInfoW lcid true .LOCALE_SCURRENCY).bind fun b =>
  (P.GetLocaleInfoW lcid true .LOCALE_SMONDECIMALSEP).bind fun c =>
  (P.GetLocaleInfoW lcid true .LOCALE_SMONTHOUSANDSEP).bind fun d =>
  (P.GetLocaleInfoW lcid true .LOCALE_SPOSITIVESIGN).bind fun e =>
  (P.GetLocaleInfoW lcid true .LOCALE_SNEGATIVESIGN).map fun f =>
    { _W_int_curr_symbol := a, _W_currency_symbol := b, _W_mon_decimal_point := c,
      _W_mon_thousands_sep := d, _W_positive_sign := e, _W_negative_sign := f }

/-- The stores of the monetary members into `lconv`. -/
def set_monetary (lconv : MSVCRT_lconv) (m : monetary_fields) : MSVCRT_lconv :=
  { lconv with
    int_curr_symbol := some m.int_curr_symbol
    currency_symbol := some m.currency_symbol
    mon_decimal_point := some m.mon_decimal_point
    mon_thousands_sep := some m.mon_thousands_sep
    mon_grouping := some m.mon_grouping
    positive_sign := some m.positive_sign
    negative_sign := some m.negative_sign
    int_frac_digits := m.int_frac_digits
    frac_digits := m.frac_digits
    p_cs_precedes := m.p_cs_precedes
    p_sep_by_space := m.p_sep_by_space
    n_cs_precedes := m.n_cs_precedes
    n_sep_by_space := m.n_sep_by_space
    p_sign_posn := m.p_sign_posn
    n_sign_posn := m.n_sign_posn }

/-- The stores of the wide monetary members into `lconv`. -/
def set_monetary_W (lconv : MSVCRT_lconv) (w : monetary_fields_W) : MSVCRT_lconv :=
  { lconv with
    _W_int_curr_symbol := some w._W_int_curr_symbol
    _W_currency_symbol := some w._W_currency_symbol
    _W_mon_decimal_point := some w._W_mon_decimal_point
    _W_mon_thousands_sep := some w._W_mon_thousands_sep
    _W_positive_sign := some w._W_positive_sign
    _W_negative_sign := some w._W_negative_sign }

/-- The monetary members of the "C" locale (lines 1333-1363): empty strings,
an empty grouping array, and `charmax` in every digit and sign member. -/
def monetary_C (charmax : Nat) : monetary_fields :=
  { int_curr_symbol := [], currency_symbol := [], mon_decimal_point := [],
    mon_thousands_sep := [], mon_grouping := [0], positive_sign := [], negative_sign := [],
    int_frac_digits := to_char charmax, frac_digits := to_char charmax,
    p_cs_precedes := to_char charmax, p_sep_by_space := to_char charmax,
    n_cs_precedes := to_char charmax, n_sep_by_space := to_char charmax,
    p_sign_posn := to_char charmax, n_sign_posn := to_char charmax }

/-- The wide monetary members of the "C" locale (lines 1366-1385). -/
def monetary_W_C : monetary_fields_W :=
  { _W_int_curr_symbol := [], _W_currency_symbol := [], _W_mon_decimal_point := [],
    _W_mon_thousands_sep := [], _W_positive_sign := [], _W_negative_sign := [] }

/-- The Monetary category of the "C" locale (lines 1332-1389). -/
def monetary_C_record (P : Provider) (charmax : Nat) (locinfo : MSVCRT_threadlocinfo) :
    MSVCRT_threadlocinfo :=
  let locinfo := { locinfo with lconv := set_monetary locinfo.lconv (monetary_C charmax) }
  let locinfo :=
    if 100 ≤ P._MSVCR_VER then
      { locinfo with lconv := set_monetary_W locinfo.lconv monetary_W_C }
    else locinfo
  set_locale_C locinfo MSVCRT_LC_MONETARY

/-- The Monetary part of `create_locinfo` (lines 1118-1389). -/
def build_monetary (P : Provider) (charmax : Nat) (category : Int)
    (old_locinfo : Option MSVCRT_threadlocinfo) (lcid cp : Nat → Nat)
    (locinfo : MSVCRT_threadlocinfo) : Option (Option MSVCRT_threadlocinfo) :=
  match old_locinfo,
    category_needs_update MSVCRT_LC_MONETARY category old_locinfo (lcid MSVCRT_LC_MONETARY)
      (cp MSVCRT_LC_MONETARY) with
  | some old, false => some (some (reuse_category locinfo old MSVCRT_LC_MONETARY))
  | _, _ =>
    if lcid MSVCRT_LC_MONETARY ≠ 0 ∧ selects category MSVCRT_LC_MONETARY = true then
      (update_threadlocinfo_category P (lcid MSVCRT_LC_MONETARY) (cp MSVCRT_LC_MONETARY) locinfo
        MSVCRT_LC_MONETARY).bind fun (failed, locinfo) =>
        if failed then some none
        else
          let locinfo :=
            { locinfo with lconv_intl_refcount := some 1, lconv_mon_refcount := some 1 }
          (query_monetary P (lcid MSVCRT_LC_MONETARY)).map fun q =>
            q.bind fun m =>
              let locinfo := { locinfo with lconv := set_monetary locinfo.lconv m }
              (if 100 ≤ P._MSVCR_VER then
                (query_monetary_W P (lcid MSVCRT_LC_MONETARY)).map fun w =>
                  { locinfo with lconv := set_monetary_W locinfo.lconv w }
              else some locinfo).bind fun locinfo =>
              match set_lc_locale_name P locinfo MSVCRT_LC_MONETARY with
              | (false, _) => none
              | (true, locinfo) => some locinfo
    else some (some (monetary_C_record P charmax locinfo))

/-- The Numeric category of the "C" locale (lines 1470-1500): decimal point
".", empty thousands separator, empty grouping. -/
def numeric_C (P : Provider) (locinfo : MSVCRT_threadlocinfo) : MSVCRT_threadlocinfo :=
  let locinfo :=
    { locinfo with
      lconv :=
        { locinfo.lconv with
          decimal_point := some (cstr ".")
          thousands_sep := some []
          grouping := some [0] } }
  let locinfo :=
    if 100 ≤ P._MSVCR_VER then
      { locinfo with
        lconv :=
          { locinfo.lconv with
            _W_decimal_point := some [46]
            _W_thousands_sep := some [] } }
    else locinfo
  set_locale_C locinfo MSVCRT_LC_NUMERIC

/-- The Numeric part of `create_locinfo` (lines 1391-1500). -/
def build_numeric (P : Provider) (category : Int) (old_locinfo : Option MSVCRT_threadlocinfo)
    (lcid cp : Nat → Nat) (locinfo : MSVCRT_threadlocinfo) :
    Option (Option MSVCRT_threadlocinfo) :=
  match old_locinfo,
    category_needs_update MSVCRT_LC_NUMERIC category old_locinfo (lcid MSVCRT_LC_NUMERIC)
      (cp MSVCRT_LC_NUMERIC) with
  | some old, false => some (some (reuse_category locinfo old MSVCRT_LC_NUMERIC))
  | _, _ =>
    if lcid MSVCRT_LC_NUMERIC ≠ 0 ∧ selects category MSVCRT_LC_NUMERIC = true then
      (update_threadlocinfo_category P (lcid MSVCRT_LC_NUMERIC) (cp MSVCRT_LC_NUMERIC) locinfo
        MSVCRT_LC_NUMERIC).bind fun (failed, locinfo) =>
        if failed then some none
        else
          let locinfo :=
            { locinfo with lconv_intl_refcount := some 1, lconv_num_refcount := some 1 }
          or_null (P.GetLocaleInfoA (lcid MSVCRT_LC_NUMERIC) true .LOCALE_SDECIMAL)
            fun decimal_point =>
          or_null (P.GetLocaleInfoA (lcid MSVCRT_LC_NUMERIC) true .LOCALE_STHOUSAND)
            fun thousands_sep =>
          or_null (P.GetLocaleInfoA (lcid MSVCRT_LC_NUMERIC) true .LOCALE_SGROUPING)
            fun buf =>
          (convert_grouping buf).map fun grouping =>
            let locinfo :=
              { locinfo with
                lconv :=
                  { locinfo.lconv with
                    decimal_point := some decimal_point
                    thousands_sep := some thousands_sep
                    grouping := some grouping } }
            (if 100 ≤ P._MSVCR_VER then
              (P.GetLocaleInfoW (lcid MSVCRT_LC_NUMERIC) true .LOCALE_SDECIMAL).bind fun wd =>
              (P.GetLocaleInfoW (lcid MSVCRT_LC_NUMERIC) true .LOCALE_STHOUSAND).map fun wt =>
                { locinfo with
                  lconv :=
                    { locinfo.lconv with
                      _W_decimal_point := some wd
                      _W_thousands_sep := some wt } }
            else some locinfo).bind fun locinfo =>
            match set_lc_locale_name P locinfo MSVCRT_LC_NUMERIC with
            | (false, _) => none
            | (true, locinfo) => some locinfo
    else some (some (numeric_C P locinfo))

/-- The table `time_data` of `create_locinfo`. -/
def time_data : List LCTYPE :=
  [ .LOCALE_SABBREVDAYNAME 7, .LOCALE_SABBREVDAYNAME 1, .LOCALE_SABBREVDAYNAME 2,
    .LOCALE_SABBREVDAYNAME 3, .LOCALE_SABBREVDAYNAME 4, .LOCALE_SABBREVDAYNAME 5,
    .LOCALE_SABBREVDAYNAME 6,
    .LOCALE_SDAYNAME 7, .LOCALE_SDAYNAME 1, .LOCALE_SDAYNAME 2, .LOCALE_SDAYNAME 3,
    .LOCALE_SDAYNAME 4, .LOCALE_SDAYNAME 5, .LOCALE_SDAYNAME 6,
    .LOCALE_SABBREVMONTHNAME 1, .LOCALE_SABBREVMONTHNAME 2, .LOCALE_SABBREVMONTHNAME 3,
    .LOCALE_SABBREVMONTHNAME 4, .LOCALE_SABBREVMONTHNAME 5, .LOCALE_SABBREVMONTHNAME 6,
    .LOCALE_SABBREVMONTHNAME 7, .LOCALE_SABBREVMONTHNAME 8, .LOCALE_SABBREVMONTHNAME 9,
    .LOCALE_SABBREVMONTHNAME 10, .LOCALE_SABBREVMONTHNAME 11, .LOCALE_SABBREVMONTHNAME 12,
    .LOCALE_SMONTHNAME 1, .LOCALE_SMONTHNAME 2, .LOCALE_SMONTHNAME 3, .LOCALE_SMONTHNAME 4,
    .LOCALE_SMONTHNAME 5, .LOCALE_SMONTHNAME 6, .LOCALE_SMONTHNAME 7, .LOCALE_SMONTHNAME 8,
    .LOCALE_SMONTHNAME 9, .LOCALE_SMONTHNAME 10, .LOCALE_SMONTHNAME 11, .LOCALE_SMONTHNAME 12,
    .LOCALE_S1159, .LOCALE_S2359,
    .LOCALE_SSHORTDATE, .LOCALE_SLONGDATE,
    .LOCALE_STIMEFORMAT ]

def cloc_short_date : CStr := cstr "MM/dd/yy"
def cloc_long_date : CStr := cstr "dddd, MMMM dd, yyyy"
def cloc_time : CStr := cstr "HH:mm:ss"

/-- The wide form of a string constant. -/
def wide (s : CStr) : List Nat := s.map Char.toNat

/-- The size loop of the Time part (lines 1525-1545): whether every query it
makes succeeds. The date formats are not queried for the "C" locale. -/
def time_sizes_ok (P : Provider) (lcid_tmp : Nat) (nouseroverride is_C : Bool) : Bool :=
  time_data.all fun t =>
    if t = .LOCALE_SSHORTDATE ∧ is_C = true then true
    else if t = .LOCALE_SLONGDATE ∧ is_C = true then true
    else (P.GetLocaleInfoA lcid_tmp nouseroverride t).isSome &&
      (P.GetLocaleInfoW lcid_tmp nouseroverride t).isSome

/-- The narrow strings stored by the first fill loop (lines 1557-1572). -/
def time_strings (P : Provider) (lcid_tmp : Nat) (nouseroverride is_C : Bool) : List CStr :=
  time_data.map fun t =>
    if t = .LOCALE_SSHORTDATE ∧ is_C = true then cloc_short_date
    else if t = .LOCALE_SLONGDATE ∧ is_C = true then cloc_long_date
    else if t = .LOCALE_STIMEFORMAT ∧ is_C = true then cloc_time
    else (P.GetLocaleInfoA lcid_tmp nouseroverride t).getD []

/-- The wide strings stored by the second fill loop (lines 1573-1588). -/
def time_wstrings (P : Provider) (lcid_tmp : Nat) (nouseroverride is_C : Bool) :
    List (List Nat) :=
  time_data.map fun t =>
    if t = .LOCALE_SSHORTDATE ∧ is_C = true then wide cloc_short_date
    else if t = .LOCALE_SLONGDATE ∧ is_C = true then wide cloc_long_date
    else if t = .LOCALE_STIMEFORMAT ∧ is_C = true then wide cloc_time
    else (P.GetLocaleInfoW lcid_tmp nouseroverride t).getD []

/-- The block `lc_time_curr` built for the locale id `lcid` of the Time
category (lines 1523-1595); `none` when a query of the size loop fails. The
byte sizes of the block are not modelled. -/
def build_time_data (P : Provider) (lcid : Nat) : Option MSVCRT___lc_time_data :=
  let nouseroverride := decide (lcid = 0)
  let lcid_tmp := if lcid ≠ 0 then lcid else MAKELCID LANG_ENGLISH SORT_DEFAULT
  if time_sizes_ok P lcid_tmp nouseroverride (decide (lcid = 0)) then
    some
      { str := time_strings P lcid_tmp nouseroverride (decide (lcid = 0))
        wstr := time_wstrings P lcid_tmp nouseroverride (decide (lcid = 0))
        lcid := if 110 ≤ P._MSVCR_VER then 0 else lcid
        locname := if 110 ≤ P._MSVCR_VER then P.LCIDToLocaleName lcid else none }
  else none

/-- The Time part of `create_locinfo` (lines 1502-1596). -/
def build_time (P : Provider) (category : Int) (old_locinfo : Option MSVCRT_threadlocinfo)
    (lcid cp : Nat → Nat) (locinfo : MSVCRT_threadlocinfo) :
    Option (Option MSVCRT_threadlocinfo) :=
  match old_locinfo,
    category_needs_update MSVCRT_LC_TIME category old_locinfo (lcid MSVCRT_LC_TIME)
      (cp MSVCRT_LC_TIME) with
  | some old, false => some (some (reuse_category locinfo old MSVCRT_LC_TIME))
  | _, _ =>
    (if lcid MSVCRT_LC_TIME ≠ 0 ∧ selects category MSVCRT_LC_TIME = true then
      (update_threadlocinfo_category P (lcid MSVCRT_LC_TIME) (cp MSVCRT_LC_TIME) locinfo
        MSVCRT_LC_TIME).map fun (failed, locinfo) =>
        if failed then none
        else
          match set_lc_locale_name P locinfo MSVCRT_LC_TIME with
          | (false, _) => none
          | (true, locinfo) => some locinfo
    else some (some (set_locale_C locinfo MSVCRT_LC_TIME))).map fun r =>
      r.bind fun locinfo =>
        (build_time_data P (lcid MSVCRT_LC_TIME)).map fun t =>
          { locinfo with lc_time_curr := some t }

/-- Lines 994-1598 of `create_locinfo`: the record is allocated and the five
categories are built in turn from the arrays `lcid` and `cp`. -/
def build_categories (P : Provider) (charmax : Nat) (category : Int)
    (old_locinfo : Option MSVCRT_threadlocinfo) (lcid cp : Nat → Nat) :
    Option (Option MSVCRT_threadlocinfo) :=
  (build_collate P category old_locinfo lcid cp locinfo_fresh).bind fun r1 =>
  (or_null r1 (build_ctype P category old_locinfo lcid cp)).bind fun r2 =>
  (or_null r2 (build_monetary P charmax category old_locinfo lcid cp)).bind fun r3 =>
  (or_null r3 (build_numeric P category old_locinfo lcid cp)).bind fun r4 =>
  or_null r4 (build_time P category old_locinfo lcid cp)

/-- The function `create_locinfo`. The result is the pointer returned
(`none` inside for `NULL`) and the thread data, whose cache the resolutions
may have filled. `charmax` is the static variable of that name. -/
def create_locinfo (P : Provider) (charmax : Nat) (category : Int) (locale : Option CStr)
    (old_locinfo : Option MSVCRT_threadlocinfo) (data : thread_data_t) :
    Option (Option MSVCRT_threadlocinfo × thread_data_t) :=
  match locale with
  | none => some (none, data)
  | some locale =>
    if category < (MSVCRT_LC_MIN : Int) ∨ category > (MSVCRT_LC_MAX : Int) then some (none, data)
    else
      (create_locinfo_lcids P locale data).bind fun (arrays, data) =>
        match arrays with
        | none => some (none, data)
        | some (lcid, cp) =>
          (build_categories P charmax category old_locinfo lcid cp).map fun r => (r, data)

/-! ## The locale registry -/

/-- The global variables of the file: the process-wide record
`MSVCRT_locale->locinfo` (`none` while `MSVCRT_locale` is `NULL`), the
read-only mirrors, and `charmax`. -/
structure Globals where
  MSVCRT_locale : Option MSVCRT_threadlocinfo
  MSVCRT__pctype : Option (List Nat)
  MSVCRT___lc_codepage : Nat
  MSVCRT___lc_collate_cp : Nat
  MSVCRT___lc_handle : Nat → Nat
  MSVCRT___mb_cur_max : Nat
  charmax : Nat

/-- The function `get_locinfo`: the record the calling thread uses. -/
def get_locinfo (g : Globals) (data : thread_data_t) : Option MSVCRT_threadlocinfo :=
  if !data.have_locale then g.MSVCRT_locale else data.locinfo

/-- The function `construct_lc_all`: the string returned by setlocale for
`LC_ALL`. `none` when a descriptor pointer is `NULL` or the composite string
does not fit the static buffer. -/
def construct_lc_all (locinfo : MSVCRT_threadlocinfo) : Option CStr :=
  match (locinfo.lc_category MSVCRT_LC_COLLATE).locale,
    (locinfo.lc_category MSVCRT_LC_CTYPE).locale,
    (locinfo.lc_category MSVCRT_LC_MONETARY).locale,
    (locinfo.lc_category MSVCRT_LC_NUMERIC).locale,
    (locinfo.lc_category MSVCRT_LC_TIME).locale with
  | some a, some b, some c, some d, some e =>
    if a = b ∧ b = c ∧ c = d ∧ d = e then some a
    else
      let current_lc_all := cstr "LC_COLLATE=" ++ a ++ cstr ";LC_CTYPE=" ++ b ++
        cstr ";LC_MONETARY=" ++ c ++ cstr ";LC_NUMERIC=" ++ d ++ cstr ";LC_TIME=" ++ e
      if current_lc_all.length < MAX_LOCALE_LENGTH then some current_lc_all else none
  | _, _, _, _, _ => none

/-- Whether `MSVCRT_setlocale` installs a category: the locale id or the
codepage of the new record differs from the current one. -/
def category_differs (locinfo newlocinfo : MSVCRT_threadlocinfo) (cat : Nat) : Bool :=
  decide (locinfo.lc_handle cat ≠ newlocinfo.lc_handle cat) ||
  decide ((locinfo.lc_id cat).wCodePage ≠ (newlocinfo.lc_id cat).wCodePage)

/-- The stores common to the five installs: locale id, `lc_id`, the
descriptor string and its reference count, and (from `_MSVCR_VER` 110 on) the
locale name. -/
def install_common (P : Provider) (locinfo newlocinfo : MSVCRT_threadlocinfo) (cat : Nat) :
    MSVCRT_threadlocinfo :=
  { locinfo with
    lc_handle := Function.update locinfo.lc_handle cat (newlocinfo.lc_handle cat)
    lc_id := Function.update locinfo.lc_id cat (newlocinfo.lc_id cat)
    lc_category := Function.update locinfo.lc_category cat (newlocinfo.lc_category cat)
    lc_name :=
      if 110 ≤ P._MSVCR_VER then Function.update locinfo.lc_name cat (newlocinfo.lc_name cat)
      else locinfo.lc_name }

/-- Lines 1700-1716 of `MSVCRT_setlocale`. -/
def install_collate (P : Provider) (locinfo newlocinfo : MSVCRT_threadlocinfo) :
    MSVCRT_threadlocinfo :=
  if category_differs locinfo newlocinfo MSVCRT_LC_COLLATE then
    { install_common P locinfo newlocinfo MSVCRT_LC_COLLATE with
      lc_collate_cp := newlocinfo.lc_collate_cp }
  else locinfo

/-- Lines 1718-1744 of `MSVCRT_setlocale`. -/
def install_ctype (P : Provider) (locinfo newlocinfo : MSVCRT_threadlocinfo) :
    MSVCRT_threadlocinfo :=
  if category_differs locinfo newlocinfo MSVCRT_LC_CTYPE then
    { install_common P locinfo newlocinfo MSVCRT_LC_CTYPE with
      lc_codepage := newlocinfo.lc_codepage
      lc_clike := newlocinfo.lc_clike
      mb_cur_max := newlocinfo.mb_cur_max
      ctype1_refcount := newlocinfo.ctype1_refcount
      ctype1 := newlocinfo.ctype1
      pctype := newlocinfo.pctype
      pclmap := newlocinfo.pclmap
      pcumap := newlocinfo.pcumap }
  else locinfo

/-- Lines 1746-1800 of `MSVCRT_setlocale`. -/
def install_monetary (P : Provider) (locinfo newlocinfo : MSVCRT_threadlocinfo) :
    MSVCRT_threadlocinfo :=
  if category_differs locinfo newlocinfo MSVCRT_LC_MONETARY then
    let lconv : MSVCRT_lconv :=
      { locinfo.lconv with
        int_curr_symbol := newlocinfo.lconv.int_curr_symbol
        currency_symbol := newlocinfo.lconv.currency_symbol
        mon_decimal_point := newlocinfo.lconv.mon_decimal_point
        mon_thousands_sep := newlocinfo.lconv.mon_thousands_sep
        mon_grouping := newlocinfo.lconv.mon_grouping
        positive_sign := newlocinfo.lconv.positive_sign
        negative_sign := newlocinfo.lconv.negative_sign
        int_frac_digits := newlocinfo.lconv.int_frac_digits
        frac_digits := newlocinfo.lconv.frac_digits
        p_cs_precedes := newlocinfo.lconv.p_cs_precedes
        p_sep_by_space := newlocinfo.lconv.p_sep_by_space
        n_cs_precedes := newlocinfo.lconv.n_cs_precedes
        n_sep_by_space := newlocinfo.lconv.n_sep_by_space
        p_sign_posn := newlocinfo.lconv.p_sign_posn
        n_sign_posn := newlocinfo.lconv.n_sign_posn }
    let lconv : MSVCRT_lconv :=
      if 100 ≤ P._MSVCR_VER then
        { lconv with
          _W_int_curr_symbol := newlocinfo.lconv._W_int_curr_symbol
          _W_currency_symbol := newlocinfo.lconv._W_currency_symbol
          _W_mon_decimal_point := newlocinfo.lconv._W_mon_decimal_point
          _W_mon_thousands_sep := newlocinfo.lconv._W_mon_thousands_sep
          _W_positive_sign := newlocinfo.lconv._W_positive_sign
          _W_negative_sign := newlocinfo.lconv._W_negative_sign }
      else lconv
    { install_common P locinfo newlocinfo MSVCRT_LC_MONETARY with lconv := lconv }
  else locinfo

/-- Lines 1802-1831 of `MSVCRT_setlocale`. -/
def install_numeric (P : Provider) (locinfo newlocinfo : MSVCRT_threadlocinfo) :
    MSVCRT_threadlocinfo :=
  if category_differs locinfo newlocinfo MSVCRT_LC_NUMERIC then
    let lconv : MSVCRT_lconv :=
      { locinfo.lconv with
        decimal_point := newlocinfo.lconv.decimal_point
        thousands_sep := newlocinfo.lconv.thousands_sep
        grouping := newlocinfo.lconv.grouping }
    let lconv : MSVCRT_lconv :=
      if 100 ≤ P._MSVCR_VER then
        { lconv with
          _W_decimal_point := newlocinfo.lconv._W_decimal_point
          _W_thousands_sep := newlocinfo.lconv._W_thousands_sep }
      else lconv
    { install_common P locinfo newlocinfo MSVCRT_LC_NUMERIC with lconv := lconv }
  else locinfo

/-- Lines 1833-1850 of `MSVCRT_setlocale`. -/
def install_time (P : Provider) (locinfo newlocinfo : MSVCRT_threadlocinfo) :
    MSVCRT_threadlocinfo :=
  if category_differs locinfo newlocinfo MSVCRT_LC_TIME then
    { install_common P locinfo newlocinfo MSVCRT_LC_TIME with
      lc_time_curr := newlocinfo.lc_time_curr }
  else locinfo

/-- Lines 1700-1850 of `MSVCRT_setlocale`: the five installs in turn. -/
def install_categories (P : Provider) (locinfo newlocinfo : MSVCRT_threadlocinfo) :
    MSVCRT_threadlocinfo :=
  install_time P
    (install_numeric P
      (install_monetary P
        (install_ctype P (install_collate P locinfo newlocinfo) newlocinfo) newlocinfo)
      newlocinfo)
    newlocinfo

/-- Lines 1855-1864 of `MSVCRT_setlocale`: the mirrors are refreshed from
`locinfo`, which here is the process-wide record. -/
def refresh_mirrors (g : Globals) (locinfo : MSVCRT_threadlocinfo) : Globals :=
  { g with
    MSVCRT___lc_codepage := locinfo.lc_codepage
    MSVCRT___lc_collate_cp := locinfo.lc_collate_cp
    MSVCRT___mb_cur_max := locinfo.mb_cur_max
    MSVCRT__pctype := locinfo.pctype
    MSVCRT___lc_handle := fun i =>
      if MSVCRT_LC_MIN ≤ i ∧ i ≤ MSVCRT_LC_MAX then locinfo.lc_handle i
      else g.MSVCRT___lc_handle i }

/-- The function `MSVCRT_setlocale`. The result is the pointer returned
(`none` inside for `NULL`), the globals and the thread data. The record
designated by `get_locinfo` is the process-wide one exactly when the thread
has no private locale. -/
def MSVCRT_setlocale (P : Provider) (g : Globals) (data : thread_data_t) (category : Int)
    (locale : Option CStr) : Option (Option CStr × Globals × thread_data_t) :=
  (get_locinfo g data).bind fun locinfo =>
  if category < (MSVCRT_LC_MIN : Int) ∨ category > (MSVCRT_LC_MAX : Int) then
    some (none, g, data)
  else
    match locale with
    | none =>
      if category = (MSVCRT_LC_ALL : Int) then
        (construct_lc_all locinfo).map fun r => (some r, g, data)
      else some ((locinfo.lc_category category.toNat).locale, g, data)
    | some locale =>
      (create_locinfo P g.charmax category (some locale) (some locinfo) data).bind
      fun (newlocinfo, data) =>
        match newlocinfo with
        | none => some (none, g, data)
        | some newlocinfo =>
          let locinfo := install_categories P locinfo newlocinfo
          let (g, data) :=
            if !data.have_locale then
              (refresh_mirrors { g with MSVCRT_locale := some locinfo } locinfo, data)
            else (g, { data with locinfo := some locinfo })
          if category = (MSVCRT_LC_ALL : Int) then
            (construct_lc_all locinfo).map fun r => (some r, g, data)
          else some ((locinfo.lc_category category.toNat).locale, g, data)

/-- The function `MSVCRT__create_locale`, as far as the locale record goes
(the multibyte record filled by `_setmbcp_l` belongs to mbcs.c). -/
def MSVCRT__create_locale (P : Provider) (charmax : Nat) (category : Int) (locale : Option CStr)
    (data : thread_data_t) : Option (Option MSVCRT_threadlocinfo × thread_data_t) :=
  create_locinfo P charmax category locale none data

/-- The function `msvcrt_init_locale`: the value returned, the globals and
the thread data. -/
def msvcrt_init_locale (P : Provider) (g : Globals) (data : thread_data_t) :
    Option (Bool × Globals × thread_data_t) :=
  (MSVCRT__create_locale P g.charmax 0 (some (cstr "C")) data).map fun (loc, data) =>
    match loc with
    | none => (false, { g with MSVCRT_locale := none }, data)
    | some locinfo => (true, refresh_mirrors { g with MSVCRT_locale := some locinfo } locinfo, data)

/-! ## Views used by the statements -/

/-- The data a record holds for one category, grouped as `MSVCRT_setlocale`
installs it. -/
inductive category_data where
  | collate (lc_collate_cp : Nat)
  | ctype (lc_codepage lc_clike mb_cur_max : Nat) (ctype1_refcount : Option Nat)
      (ctype1 pctype pclmap pcumap : Option (List Nat))
  | monetary (strings : List (Option CStr)) (mon_grouping : Option (List Int))
      (digits : List Int) (wide_strings : List (Option (List Nat)))
  | numeric (decimal_point thousands_sep : Option CStr) (grouping : Option (List Int))
      (_W_decimal_point _W_thousands_sep : Option (List Nat))
  | time (lc_time_curr : Option MSVCRT___lc_time_data)
  | other
  deriving DecidableEq

/-- The data of category `cat` in a record. -/
def category_data_of (l : MSVCRT_threadlocinfo) (cat : Nat) : category_data :=
  if cat = MSVCRT_LC_COLLATE then .collate l.lc_collate_cp
  else if cat = MSVCRT_LC_CTYPE then
    .ctype l.lc_codepage l.lc_clike l.mb_cur_max l.ctype1_refcount l.ctype1 l.pctype l.pclmap
      l.pcumap
  else if cat = MSVCRT_LC_MONETARY then
    .monetary
      [l.lconv.int_curr_symbol, l.lconv.currency_symbol, l.lconv.mon_decimal_point,
        l.lconv.mon_thousands_sep, l.lconv.positive_sign, l.lconv.negative_sign]
      l.lconv.mon_grouping
      [l.lconv.int_frac_digits, l.lconv.frac_digits, l.lconv.p_cs_precedes,
        l.lconv.p_sep_by_space, l.lconv.n_cs_precedes, l.lconv.n_sep_by_space,
        l.lconv.p_sign_posn, l.lconv.n_sign_posn]
      [l.lconv._W_int_curr_symbol, l.lconv._W_currency_symbol, l.lconv._W_mon_decimal_point,
        l.lconv._W_mon_thousands_sep, l.lconv._W_positive_sign, l.lconv._W_negative_sign]
  else if cat = MSVCRT_LC_NUMERIC then
    .numeric l.lconv.decimal_point l.lconv.thousands_sep l.lconv.grouping
      l.lconv._W_decimal_point l.lconv._W_thousands_sep
  else if cat = MSVCRT_LC_TIME then .time l.lc_time_curr
  else .other

/-- Everything a record holds for one category: locale id, `lc_id`,
descriptor string and reference count, locale name, and the data. -/
structure category_block where
  lc_handle : Nat
  lc_id : LC_ID
  lc_category : lc_category_t
  lc_name : Option (List Nat)
  data : category_data
  deriving DecidableEq

/-- The block of category `cat` in a record. -/
def category_block_of (l : MSVCRT_threadlocinfo) (cat : Nat) : category_block :=
  { lc_handle := l.lc_handle cat, lc_id := l.lc_id cat, lc_category := l.lc_category cat,
    lc_name := l.lc_name cat, data := category_data_of l cat }

/-- A category number among the five categories. -/
def is_category (cat : Nat) : Prop := MSVCRT_LC_COLLATE ≤ cat ∧ cat ≤ MSVCRT_LC_TIME

/-- Modelled from the spec: the initial (empty) thread state. The function
msvcrt_get_thread_data, which allocates a thread's data zero-filled, is not in
this file. -/
def thread_data_initial : thread_data_t :=
  { have_locale := false, locinfo := none, cached_locale := [], cached_lcid := 0,
    cached_cp := 0 }

/-- The full matching algorithm on a descriptor, with no cache: the outer
`none` is a store outside a buffer, the inner `none` is failure, otherwise the
locale id and the codepage as the 16-bit value handed to the caller. -/
def resolve_nocache (P : Provider) (locale : CStr) : Option (Option (Nat × Nat)) :=
  (locale_to_LCID_search P locale).map fun r =>
    r.map fun (lcid, found_codepage) => (lcid, ((atoi found_codepage) % 65536).toNat)

/-- The outcome of a call of `MSVCRT_locale_to_LCID` with a non-null
`codepage` pointer, in the form of `resolve_nocache`: failure when -1 is
returned, otherwise the locale id and the codepage stored. -/
def resolve_cached (P : Provider) (data : thread_data_t) (locale : CStr) :
    Option (Option (Nat × Nat)) :=
  (MSVCRT_locale_to_LCID P data locale (some 0)).map fun (lcid, codepage, _) =>
    if lcid = LCID_FAIL then none else some (lcid, codepage.getD 0)

/-- The cache slot is sound: it is the initial empty slot, or it holds a
descriptor together with what the full algorithm computes for it. -/
def cache_ok (P : Provider) (data : thread_data_t) : Prop :=
  (data.cached_locale = [] ∧ data.cached_lcid = 0 ∧ data.cached_cp = 0) ∨
  ∃ found_codepage,
    locale_to_LCID_search P data.cached_locale = some (some (data.cached_lcid, found_codepage)) ∧
    data.cached_cp % 65536 = ((atoi found_codepage) % 65536).toNat

/-! ## Predicates used by the statements -/

/-- What a category builder did to category `X` when it ran its locale
branch: the locale id and codepage requested are stored and a descriptor
string is set. -/
def locale_built (X : Nat) (lcid cp : Nat → Nat) (l' : MSVCRT_threadlocinfo) : Prop :=
  l'.lc_handle X = lcid X ∧ (l'.lc_id X).wCodePage = cp X ∧
    ∃ buf, (l'.lc_category X).locale = some buf

/-- The record a category builder leaves when it runs its "C" branch on `l`;
`t` is the time block built for the Time category. -/
def C_record (P : Provider) (charmax : Nat) (X : Nat) (t : Option MSVCRT___lc_time_data)
    (l : MSVCRT_threadlocinfo) : MSVCRT_threadlocinfo :=
  if X = MSVCRT_LC_COLLATE then set_locale_C l MSVCRT_LC_COLLATE
  else if X = MSVCRT_LC_CTYPE then ctype_C P l
  else if X = MSVCRT_LC_MONETARY then monetary_C_record P charmax l
  else if X = MSVCRT_LC_NUMERIC then numeric_C P l
  else { set_locale_C l MSVCRT_LC_TIME with lc_time_curr := t }

/-- The block of category `X` in the record assembled from the arrays `lcid`
and `cp`: it repeats the locale id and codepage of the old record (reuse), or
holds the requested locale id and codepage with a descriptor (built from the
locale), or is the "C" block. -/
def built_outcome (P : Provider) (charmax : Nat) (category : Int)
    (old : Option MSVCRT_threadlocinfo) (lcid cp : Nat → Nat) (X : Nat)
    (new : MSVCRT_threadlocinfo) : Prop :=
  (∃ o, old = some o ∧ category_needs_update X category old (lcid X) (cp X) = false ∧
      category_block_of new X = category_block_of (reuse_category locinfo_fresh o X) X) ∨
  (category_needs_update X category old (lcid X) (cp X) = true ∧ lcid X ≠ 0 ∧
      selects category X = true ∧ locale_built X lcid cp new) ∨
  (category_needs_update X category old (lcid X) (cp X) = true ∧
      ¬ (lcid X ≠ 0 ∧ selects category X = true) ∧
      ∃ t, (X = MSVCRT_LC_TIME → build_time_data P (lcid X) = t ∧ t ≠ none) ∧
        category_block_of new X = category_block_of (C_record P charmax X t locinfo_fresh) X)

/-- The data of a category without the members that exist from `_MSVCR_VER`
100 on. -/
def category_data.narrow : category_data → category_data
  | .monetary s g d _ => .monetary s g d []
  | .numeric a b c _ _ => .numeric a b c none none
  | x => x

/-- The install step of `MSVCRT_setlocale` for category `X`. -/
def install_one (P : Provider) (X : Nat) (l n : MSVCRT_threadlocinfo) : MSVCRT_threadlocinfo :=
  if X = MSVCRT_LC_COLLATE then install_collate P l n
  else if X = MSVCRT_LC_CTYPE then install_ctype P l n
  else if X = MSVCRT_LC_MONETARY then install_monetary P l n
  else if X = MSVCRT_LC_NUMERIC then install_numeric P l n
  else install_time P l n

/-! ## A concrete provider for the examples -/

/-- The narrow locale fields of a small provider: English (neutral, id 9),
English - United States (1033), English - United Kingdom (2057) and
French - France (1036). -/
def demo_info (lcid : Nat) (t : LCTYPE) : Option CStr :=
  if lcid = 1033 ∨ lcid = 2057 ∨ lcid = 1036 ∨ lcid = 9 then
    match t with
    | .LOCALE_ILANGUAGE =>
      some (cstr (if lcid = 1033 then "0409" else if lcid = 2057 then "0809"
        else if lcid = 1036 then "040c" else "0009"))
    | .LOCALE_SENGLANGUAGE => some (cstr (if lcid = 1036 then "French" else "English"))
    | .LOCALE_SABBREVLANGNAME =>
      some (cstr (if lcid = 1033 then "ENU" else if lcid = 2057 then "ENG"
        else if lcid = 1036 then "FRA" else "ENU"))
    | .LOCALE_SISO639LANGNAME => some (cstr (if lcid = 1036 then "fr" else "en"))
    | .LOCALE_SENGCOUNTRY =>
      some (cstr (if lcid = 2057 then "United Kingdom" else if lcid = 1036 then "France"
        else "United States"))
    | .LOCALE_SABBREVCTRYNAME =>
      some (cstr (if lcid = 2057 then "GBR" else if lcid = 1036 then "FRA" else "USA"))
    | .LOCALE_SISO3166CTRYNAME =>
      some (cstr (if lcid = 2057 then "GB" else if lcid = 1036 then "FR" else "US"))
    | .LOCALE_IDEFAULTCODEPAGE => some (cstr (if lcid = 1033 ∨ lcid = 9 then "437" else "850"))
    | .LOCALE_IDEFAULTANSICODEPAGE => some (cstr "1252")
    | .LOCALE_SINTLSYMBOL =>
      some (cstr (if lcid = 2057 then "GBP" else if lcid = 1036 then "EUR" else "USD"))
    | .LOCALE_SCURRENCY => some (cstr (if lcid = 1036 then "EUR" else "$"))
    | .LOCALE_SMONDECIMALSEP => some (cstr (if lcid = 1036 then "," else "."))
    | .LOCALE_SMONTHOUSANDSEP => some (cstr (if lcid = 1036 then " " else ","))
    | .LOCALE_SMONGROUPING => some (cstr "3;0")
    | .LOCALE_SPOSITIVESIGN => some []
    | .LOCALE_SNEGATIVESIGN => some (cstr "-")
    | .LOCALE_IINTLCURRDIGITS => some (cstr "2")
    | .LOCALE_ICURRDIGITS => some (cstr "2")
    | .LOCALE_IPOSSYMPRECEDES => some (cstr (if lcid = 1036 then "0" else "1"))
    | .LOCALE_IPOSSEPBYSPACE => some (cstr (if lcid = 1036 then "1" else "0"))
    | .LOCALE_INEGSYMPRECEDES => some (cstr (if lcid = 1036 then "0" else "1"))
    | .LOCALE_INEGSEPBYSPACE => some (cstr (if lcid = 1036 then "1" else "0"))
    | .LOCALE_IPOSSIGNPOSN => some (cstr "1")
    | .LOCALE_INEGSIGNPOSN => some (cstr "1")
    | .LOCALE_SDECIMAL => some (cstr (if lcid = 1036 then "," else "."))
    | .LOCALE_STHOUSAND => some (cstr (if lcid = 1036 then " " else ","))
    | .LOCALE_SGROUPING => some (cstr "3;0")
    | .LOCALE_SABBREVDAYNAME k => some (cstr (if lcid = 1036 then "j" else "d") ++ decimal k)
    | .LOCALE_SDAYNAME k => some (cstr (if lcid = 1036 then "jour" else "day") ++ decimal k)
    | .LOCALE_SABBREVMONTHNAME k => some (cstr "m" ++ decimal k)
    | .LOCALE_SMONTHNAME k => some (cstr (if lcid = 1036 then "mois" else "month") ++ decimal k)
    | .LOCALE_S1159 => some (cstr (if lcid = 1036 then "" else "AM"))
    | .LOCALE_S2359 => some (cstr (if lcid = 1036 then "" else "PM"))
    | .LOCALE_SSHORTDATE => some (cstr (if lcid = 1036 then "dd/MM/yyyy" else "M/d/yyyy"))
    | .LOCALE_SLONGDATE => some (cstr (if lcid = 1036 then "dddd d MMMM yyyy"
        else "dddd, MMMM dd, yyyy"))
    | .LOCALE_STIMEFORMAT => some (cstr (if lcid = 1036 then "HH:mm:ss" else "h:mm:ss tt"))
  else none

/-- A small provider: the four locales of `demo_info`, enumerated after a
language-neutral id, with codepages 437, 850 and 1252, all single-byte. -/
def demoProvider : Provider :=
  { GetLocaleInfoA := fun lcid _ t => demo_info lcid t
    GetLocaleInfoW := fun lcid _ t => (demo_info lcid t).map wide
    languages := [1024, 1033, 2057, 1036]
    IsValidCodePage := fun n => decide (n = 437 ∨ n = 850 ∨ n = 1252)
    GetSystemDefaultLCID := 1033
    GetCPInfo := fun n =>
      if n = 437 ∨ n = 850 ∨ n = 1252 then
        some { MaxCharSize := 1, LeadByte := List.replicate 12 0 }
      else none
    GetStringTypeA := fun _ b =>
      some (if 65 ≤ b ∧ b ≤ 90 then 1 else if 97 ≤ b ∧ b ≤ 122 then 2
        else if 48 ≤ b ∧ b ≤ 57 then 4 else 0)
    LCMapStringA := fun _ upper src =>
      some (src.map fun i =>
        if upper then (if 97 ≤ i ∧ i ≤ 122 then i - 32 else i)
        else (if 65 ≤ i ∧ i ≤ 90 then i + 32 else i))
    LocaleNameToLCID := fun _ => 0
    LCIDToLocaleName := fun lcid =>
      if lcid = 1033 then some (wide (cstr "en-US")) else if lcid = 2057 then some (wide (cstr "en-GB"))
      else if lcid = 1036 then some (wide (cstr "fr-FR")) else none
    MSVCRT__ctype := List.replicate 257 0
    _MSVCR_VER := 0
    cached_locale_size := 32 }

/-- The globals before `msvcrt_init_locale` has run. -/
def globals_initial : Globals :=
  { MSVCRT_locale := none, MSVCRT__pctype := none, MSVCRT___lc_codepage := 0,
    MSVCRT___lc_collate_cp := 0, MSVCRT___lc_handle := fun _ => 0, MSVCRT___mb_cur_max := 1,
    charmax := 127 }

/-- The scenario of the composite partial update: start-up, then
`setlocale (LC_ALL, "French")`, then
`setlocale (LC_ALL, "LC_COLLATE=French;LC_CTYPE=C")`. The result lists the
locale ids of Collate, Ctype, Monetary, Numeric and Time before and after the
last call. -/
def demo_composite_update : Option (List Nat × List Nat) :=
  (msvcrt_init_locale demoProvider globals_initial thread_data_initial).bind fun (_, g1, d1) =>
  (MSVCRT_setlocale demoProvider g1 d1 0 (some (cstr "French"))).bind fun (_, g2, d2) =>
  (get_locinfo g2 d2).bind fun R =>
  (MSVCRT_setlocale demoProvider g2 d2 0 (some (cstr "LC_COLLATE=French;LC_CTYPE=C"))).bind
  fun (_, g3, d3) =>
  (get_locinfo g3 d3).map fun cur =>
    ([1, 2, 3, 4, 5].map R.lc_handle, [1, 2, 3, 4, 5].map cur.lc_handle)

/-! ## Thread scope and the states the registry can reach -/

def MSVCRT__ENABLE_PER_THREAD_LOCALE : Int := 1
def MSVCRT__DISABLE_PER_THREAD_LOCALE : Int := 2

/-- The function `_configthreadlocale` (compiled from `_MSVCR_VER` 80 on):
the value returned, the globals and the thread data. -/
def _configthreadlocale (P : Provider) (g : Globals) (data : thread_data_t) (type : Int) :
    Option (Int × Globals × thread_data_t) :=
  let ret :=
    if data.have_locale then MSVCRT__ENABLE_PER_THREAD_LOCALE
    else MSVCRT__DISABLE_PER_THREAD_LOCALE
  if type = MSVCRT__ENABLE_PER_THREAD_LOCALE then
    if !data.have_locale then
      /- Copy current global locale -/
      (MSVCRT_setlocale P g data (MSVCRT_LC_ALL : Int) none).bind fun (s, g, data) =>
      (MSVCRT__create_locale P g.charmax (MSVCRT_LC_ALL : Int) s data).map fun (locale, data) =>
        match locale with
        | none => (-1, g, data)
        | some locinfo => (ret, g, { data with locinfo := some locinfo, have_locale := true })
    else some (ret, g, data)
  else if type = MSVCRT__DISABLE_PER_THREAD_LOCALE then
    if data.have_locale then
      some (ret, g, { data with locinfo := g.MSVCRT_locale, have_locale := false })
    else some (ret, g, data)
  else if type = 0 then some (ret, g, data)
  else some (-1, g, data)

/-- The function `__lconv_init`: this is used to make chars unsigned. -/
def __lconv_init (g : Globals) : Int × Globals := (0, { g with charmax := 255 })

/-- The state of the registry: the globals and the data of every thread. -/
structure World where
  g : Globals
  threads : Nat → thread_data_t

/-- The states the registry reaches: after a successful start-up by some
thread, any thread may call `MSVCRT_setlocale`, `_configthreadlocale`,
`MSVCRT__create_locale` or `__lconv_init`, in any order, each call running to
its end. -/
inductive Reachable (P : Provider) : World → Prop
  | init (t : Nat) (g : Globals) (data : thread_data_t) :
    msvcrt_init_locale P globals_initial thread_data_initial = some (true, g, data) →
    Reachable P ⟨g, Function.update (fun _ => thread_data_initial) t data⟩
  | setlocale (w : World) (t : Nat) (category : Int) (locale : Option CStr)
      (r : Option CStr) (g : Globals) (data : thread_data_t) :
    Reachable P w →
    MSVCRT_setlocale P w.g (w.threads t) category locale = some (r, g, data) →
    Reachable P ⟨g, Function.update w.threads t data⟩
  | configthreadlocale (w : World) (t : Nat) (type : Int) (r : Int) (g : Globals)
      (data : thread_data_t) :
    Reachable P w →
    _configthreadlocale P w.g (w.threads t) type = some (r, g, data) →
    Reachable P ⟨g, Function.update w.threads t data⟩
  | create_locale (w : World) (t : Nat) (category : Int) (locale : Option CStr)
      (r : Option MSVCRT_threadlocinfo) (data : thread_data_t) :
    Reachable P w →
    MSVCRT__create_locale P w.g.charmax category locale (w.threads t) = some (r, data) →
    Reachable P ⟨w.g, Function.update w.threads t data⟩
  | lconv_init (w : World) :
    Reachable P w → Reachable P ⟨(__lconv_init w.g).2, w.threads⟩

/-- The part of the "C" block that the record invariant `record_ok` keeps
track of: codepage 0, descriptor "C", and for Numeric the decimal point ".",
an empty thousands separator and the grouping [0], for Ctype one byte per
character. It is weaker than being the "C" block: the data of Collate,
Monetary and Time are not constrained by it. The full "C" block is the block
of `C_record`. -/
def block_is_C (b : category_block) (X : Nat) : Prop :=
  b.lc_id.wCodePage = 0 ∧ b.lc_category.locale = some (cstr "C") ∧
  (X = MSVCRT_LC_NUMERIC →
    b.data.narrow = .numeric (some (cstr ".")) (some []) (some [0]) none none) ∧
  (X = MSVCRT_LC_CTYPE → ∃ a b1 c d e f g, b.data = .ctype a b1 1 c d e f g)

/-- The invariant of a record: a category whose locale id is 0 holds the
"C" block. -/
def record_ok (l : MSVCRT_threadlocinfo) : Prop :=
  ∀ X, is_category X → l.lc_handle X = 0 → block_is_C (category_block_of l X) X

/-- The invariant of the registry: the time block of the "C" locale can be
built, the process-wide record and every private record satisfy `record_ok`,
and every cache slot is sound. -/
def world_ok (P : Provider) (w : World) : Prop :=
  build_time_data P 0 ≠ none ∧
  (∃ l, w.g.MSVCRT_locale = some l ∧ record_ok l) ∧
  (∀ t, (w.threads t).have_locale = true → ∃ l, (w.threads t).locinfo = some l ∧ record_ok l) ∧
  (∀ t, cache_ok P (w.threads t))

/-! ## Composite descriptors as the specification describes them -/

/-- The name of a category in a composite descriptor. -/
def category_name (X : Nat) : CStr :=
  if X = MSVCRT_LC_COLLATE then cstr "COLLATE"
  else if X = MSVCRT_LC_CTYPE then cstr "CTYPE"
  else if X = MSVCRT_LC_MONETARY then cstr "MONETARY"
  else if X = MSVCRT_LC_NUMERIC then cstr "NUMERIC"
  else cstr "TIME"

/-- The clause LC_<CATEGORY>=<value> of a category and a value. -/
def render_clause (c : Nat × CStr) : CStr :=
  cstr "LC_" ++ category_name c.1 ++ '=' :: c.2

/-- The composite descriptor made of a list of clauses separated by ';'. -/
def render_clauses : List (Nat × CStr) → CStr
  | [] => []
  | [c] => render_clause c
  | c :: d :: cs => render_clause c ++ ';' :: render_clauses (d :: cs)

/-- The clauses are well formed: there is at least one, each names one of the
five categories, no value holds a ';', and every value that is followed by
another clause fits the 256-byte buffer `buf` it is copied to. -/
def clauses_fit : List (Nat × CStr) → Prop
  | [] => False
  | [c] => is_category c.1 ∧ ';' ∉ c.2
  | c :: d :: cs => (is_category c.1 ∧ ';' ∉ c.2 ∧ c.2.length < 256) ∧ clauses_fit (d :: cs)

/-- The resolution of one clause value, as the specification words it: a
value of exactly "C" is the minimal default (locale id 0, codepage 0) and the
matcher is not invoked; any other value is resolved by
`MSVCRT_locale_to_LCID` on that value alone. `cp0` is the codepage the
category holds before the clause. -/
def resolve_clause (P : Provider) (data : thread_data_t) (value : CStr) (cp0 : Nat) :
    Option (Nat × Nat × thread_data_t) :=
  if value = ['C'] then some (0, 0, data)
  else (MSVCRT_locale_to_LCID P data value (some cp0)).map fun (l, c, data) => (l, c.getD 0, data)

/-- The assignment of the clauses, as the specification words it: the
clauses are taken in order, each one gives its own category the resolution of
its own value, and the first value that does not resolve makes the whole
assignment fail (`none` inside). -/
def assign_clauses (P : Provider) : List (Nat × CStr) → (Nat → Nat) → (Nat → Nat) →
    thread_data_t → Option (Option ((Nat → Nat) × (Nat → Nat)) × thread_data_t)
  | [], lcid, cp, data => some (some (lcid, cp), data)
  | c :: cs, lcid, cp, data =>
    (resolve_clause P data c.2 (cp c.1)).bind fun (l, k, data) =>
      if l = LCID_FAIL then some (none, data)
      else assign_clauses P cs (Function.update lcid c.1 l) (Function.update cp c.1 k) data

/-- The globals and the data of the calling thread after start-up with the
demo provider. -/
def demo_started : Globals × thread_data_t :=
  ((msvcrt_init_locale demoProvider globals_initial thread_data_initial).getD
    (false, globals_initial, thread_data_initial)).2

/-- The globals and the data of the calling thread after start-up and
`setlocale (LC_ALL, "French")` with the demo provider. -/
def demo_french : Globals × thread_data_t :=
  ((MSVCRT_setlocale demoProvider demo_started.1 demo_started.2 0 (some (cstr "French"))).getD
    (none, demo_started)).2

/-- The globals and the data of the calling thread after start-up,
`setlocale (LC_ALL, "French")` and
`setlocale (LC_ALL, "LC_COLLATE=French;LC_CTYPE=C")` with the demo provider. -/
def demo_composite : Globals × thread_data_t :=
  ((MSVCRT_setlocale demoProvider demo_french.1 demo_french.2 0
    (some (render_clauses [(MSVCRT_LC_COLLATE, cstr "French"), (MSVCRT_LC_CTYPE, cstr "C")]))).getD
      (none, demo_french)).2

/-- The registry after start-up by thread 0 with the demo provider. -/
def demo_world : World :=
  ⟨demo_started.1, Function.update (fun _ => thread_data_initial) 0 demo_started.2⟩

/-- The search for the language "French" alone, before the enumeration. -/
def demo_search : locale_search_t :=
  { search_language := cstr "French", search_country := [], search_codepage := [],
    found_codepage := [], match_flags := 0, found_lang_id := 0 }

/-- The globals and the data of the calling thread after start-up and
`setlocale (LC_NUMERIC, "French")` with the demo provider. -/
def demo_numeric : Globals × thread_data_t :=
  ((MSVCRT_setlocale demoProvider demo_started.1 demo_started.2 (MSVCRT_LC_NUMERIC : Int)
    (some (cstr "French"))).getD (none, demo_started)).2

/-- The search record that the enumeration of `MSVCRT_locale_to_LCID` leaves
for the split descriptor `search` (lines 249-257): the tokens normalised, then
every candidate of the provider passed to `find_best_locale_proc`. -/
def final_search (P : Provider) (search : locale_search_t) : locale_search_t :=
  EnumResourceLanguagesA (find_best_locale_proc P) P.languages (normalize_search search)

/-- The globals and the data of the calling thread after start-up and two
calls of `setlocale (LC_ALL, "French")` with the demo provider. -/
def demo_french_again : Globals × thread_data_t :=
  ((MSVCRT_setlocale demoProvider demo_french.1 demo_french.2 0 (some (cstr "French"))).getD
    (none, demo_french)).2

/-- The data of a second thread that enabled its private scope after the
start-up with the demo provider. -/
def demo_private : thread_data_t :=
  ((_configthreadlocale demoProvider demo_started.1 thread_data_initial
    MSVCRT__ENABLE_PER_THREAD_LOCALE).getD (0, demo_started.1, thread_data_initial)).2.2

/-- The registry after start-up by thread 0 with the demo provider, thread 1
having enabled its private scope. -/
def demo_two_threads : World :=
  ⟨demo_started.1,
    Function.update (Function.update (fun _ => thread_data_initial) 0 demo_started.2) 1
      demo_private⟩

/-- The mirror invariant: the global mirrors hold the fields of the
process-wide record. -/
def mirrors_ok (g : Globals) : Prop :=
  ∃ l, g.MSVCRT_locale = some l ∧
    g.MSVCRT___lc_codepage = l.lc_codepage ∧
    g.MSVCRT___lc_collate_cp = l.lc_collate_cp ∧
    g.MSVCRT___mb_cur_max = l.mb_cur_max ∧
    g.MSVCRT__pctype = l.pctype ∧
    ∀ i, MSVCRT_LC_MIN ≤ i → i ≤ MSVCRT_LC_MAX → g.MSVCRT___lc_handle i = l.lc_handle i

/-- The demo provider with another English name for Monday. -/
def demoProvider2 : Provider :=
  { demoProvider with
    GetLocaleInfoA := fun lcid _ t =>
      if t = .LOCALE_SDAYNAME 1 then some (cstr "Monday") else demo_info lcid t }

/-- The fields that the Monetary part of `create_locinfo` queries with
`GetLocaleInfoA` (lines 1139-1270), in order. -/
def monetary_queries : List LCTYPE :=
  [ .LOCALE_SINTLSYMBOL, .LOCALE_SCURRENCY, .LOCALE_SMONDECIMALSEP, .LOCALE_SMONTHOUSANDSEP,
    .LOCALE_SMONGROUPING, .LOCALE_SPOSITIVESIGN, .LOCALE_SNEGATIVESIGN,
    .LOCALE_IINTLCURRDIGITS, .LOCALE_ICURRDIGITS, .LOCALE_IPOSSYMPRECEDES,
    .LOCALE_IPOSSEPBYSPACE, .LOCALE_INEGSYMPRECEDES, .LOCALE_INEGSEPBYSPACE,
    .LOCALE_IPOSSIGNPOSN, .LOCALE_INEGSIGNPOSN ]

/-- The fields that the Numeric part of `create_locinfo` queries with
`GetLocaleInfoA` (lines 1412-1444), in order. -/
def numeric_queries : List LCTYPE :=
  [ .LOCALE_SDECIMAL, .LOCALE_STHOUSAND, .LOCALE_SGROUPING ]

/-- The clauses `cs`, each one followed by ';', and then the text `rest`. -/
def render_clauses_then : List (Nat × CStr) → CStr → CStr
  | [], rest => rest
  | c :: cs, rest => render_clause c ++ ';' :: render_clauses_then cs rest

/-- The descriptor Language[_Country][.Codepage] made of its components. -/
def render_descriptor (language : CStr) (country codepage : Option CStr) : CStr :=
  language ++ (match country with
    | some c => '_' :: c
    | none => []) ++ (match codepage with
    | some p => '.' :: p
    | none => [])

/-- The locale data of a provider that knows the two Spanish locales 1034
(traditional sort) and 3082 (modern sort): they share the English names of
language and country and differ in the abbreviated language name. The other
fields are those the demo provider has for 1036. -/
def spanish_info (lcid : Nat) (t : LCTYPE) : Option CStr :=
  if lcid = 1034 ∨ lcid = 3082 then
    match t with
    | .LOCALE_ILANGUAGE => some (cstr (if lcid = 1034 then "040a" else "0c0a"))
    | .LOCALE_SENGLANGUAGE => some (cstr "Spanish")
    | .LOCALE_SABBREVLANGNAME => some (cstr (if lcid = 1034 then "ESP" else "ESN"))
    | .LOCALE_SISO639LANGNAME => some (cstr "es")
    | .LOCALE_SENGCOUNTRY => some (cstr "Spain")
    | .LOCALE_SABBREVCTRYNAME => some (cstr "ESP")
    | .LOCALE_SISO3166CTRYNAME => some (cstr "ES")
    | t => demo_info 1036 t
  else demo_info lcid t

/-- The demo provider with the two Spanish locales as its candidates. -/
def spanishProvider : Provider :=
  { demoProvider with
    GetLocaleInfoA := fun lcid _ t => spanish_info lcid t
    GetLocaleInfoW := fun lcid _ t => (spanish_info lcid t).map wide
    languages := [1024, 1034, 3082] }

/-- The globals and the data of the calling thread after start-up and
`setlocale (LC_ALL, "spanish-modern")` with the Spanish provider. -/
def spanish_modern : Globals × thread_data_t :=
  ((msvcrt_init_locale spanishProvider globals_initial thread_data_initial).bind
    fun (_, g, data) =>
      (MSVCRT_setlocale spanishProvider g data 0 (some (cstr "spanish-modern"))).map
        fun r => r.2).getD (globals_initial, thread_data_initial)

/-- The plain scan, as the specification words it: every candidate that is
not language-neutral is scored on all three fields, and the best (score and
candidate) is replaced only on a strictly greater score. No candidate is
skipped and the scan never stops early. -/
def plain_scan (P : Provider) (res : locale_search_t) : List Nat → Nat × Nat → Nat × Nat
  | [], best => best
  | l :: ls, best =>
    if PRIMARYLANGID l = LANG_NEUTRAL then plain_scan P res ls best
    else if best.1 < score P res l then plain_scan P res ls (score P res l, l)
    else plain_scan P res ls best

/-- The globals and the data of the calling thread after start-up and
`setlocale (LC_ALL, "LC_COLLATE=;LC_CTYPE=French")` with the demo provider. -/
def demo_empty_clause : Globals × thread_data_t :=
  ((MSVCRT_setlocale demoProvider demo_started.1 demo_started.2 0
    (some (cstr "LC_COLLATE=;LC_CTYPE=French"))).getD (none, demo_started)).2

/-- The character of a decimal digit. -/
def digit_char (d : Nat) : Char := Char.ofNat (48 + d)

/-- The grouping string d1;d2;...;dn of a list of digits, as the provider
reports it. -/
def grouping_string : List Nat → CStr
  | [] => []
  | [d] => [digit_char d]
  | d :: e :: ds => digit_char d :: ';' :: grouping_string (e :: ds)

/-- The grouping array the specification describes for the digits d1..dn:
the digits themselves, followed by 127 when the last digit is not 0. -/
def grouping_array (ds : List Nat) : List Int :=
  ds.map (fun (d : Nat) => (d : Int)) ++ (if ds.getLast? = some 0 then [] else [127])

/-- The demo provider with a double-byte codepage: the bytes 129..159 are
lead bytes. -/
def dbcsProvider : Provider :=
  { demoProvider with
    GetCPInfo := fun n =>
      if n = 437 ∨ n = 850 ∨ n = 1252 then
        some { MaxCharSize := 2, LeadByte := [129, 159, 0, 0, 0, 0, 0, 0, 0, 0, 0, 0] }
      else none }

/-- The globals and the data of the calling thread after start-up with the
double-byte demo provider. -/
def dbcs_started : Globals × thread_data_t :=
  ((msvcrt_init_locale dbcsProvider globals_initial thread_data_initial).getD
    (false, globals_initial, thread_data_initial)).2

/-- The globals and the data of the calling thread after start-up and
`setlocale (LC_ALL, "French")` with the double-byte demo provider. -/
def dbcs_french : Globals × thread_data_t :=
  ((MSVCRT_setlocale dbcsProvider dbcs_started.1 dbcs_started.2 0 (some (cstr "French"))).getD
    (none, dbcs_started)).2

/-- The registry after start-up by thread 0 and `setlocale (LC_ALL, "French")`
by thread 0, with the double-byte demo provider. -/
def dbcs_french_world : World :=
  ⟨dbcs_french.1,
    Function.update (Function.update (fun _ => thread_data_initial) 0 dbcs_started.2) 0
      dbcs_french.2⟩

/-- The demo provider without codepage fields: it reports neither the
default codepage nor the default ANSI codepage of any locale. -/
def nocpProvider : Provider :=
  { demoProvider with
    GetLocaleInfoA := fun lcid nouser t =>
      match t with
      | .LOCALE_IDEFAULTCODEPAGE => none
      | .LOCALE_IDEFAULTANSICODEPAGE => none
      | _ => demoProvider.GetLocaleInfoA lcid nouser t }

/-- Line 1692 of `MSVCRT_setlocale`, which runs before `_lock_locales`: the
new record is assembled against the record the thread uses, as it is at that
moment. -/
def setlocale_assemble (P : Provider) (g : Globals) (data : thread_data_t) (category : Int)
    (locale : CStr) : Option (Option MSVCRT_threadlocinfo × thread_data_t) :=
  (get_locinfo g data).bind fun locinfo =>
    create_locinfo P g.charmax category (some locale) (some locinfo) data

/-- Lines 1698-1869 of `MSVCRT_setlocale`: between `_lock_locales` and
`_unlock_locales` the categories of the assembled record are installed into
the record the thread uses, as it is at that moment; after the unlock the
mirrors are refreshed and the descriptor is returned. -/
def setlocale_install (P : Provider) (g : Globals) (data : thread_data_t) (category : Int)
    (newlocinfo : MSVCRT_threadlocinfo) : Option (Option CStr × Globals × thread_data_t) :=
  (get_locinfo g data).bind fun locinfo =>
    let locinfo := install_categories P locinfo newlocinfo
    let (g, data) :=
      if !data.have_locale then
        (refresh_mirrors { g with MSVCRT_locale := some locinfo } locinfo, data)
      else (g, { data with locinfo := some locinfo })
    if category = (MSVCRT_LC_ALL : Int) then
      (construct_lc_all locinfo).map fun r => (some r, g, data)
    else some ((locinfo.lc_category category.toNat).locale, g, data)

/-- The locale ids of the five categories of the process-wide record. -/
def process_wide_handles (g : Globals) : Option (List Nat) :=
  g.MSVCRT_locale.map fun l =>
    [MSVCRT_LC_COLLATE, MSVCRT_LC_CTYPE, MSVCRT_LC_MONETARY, MSVCRT_LC_NUMERIC,
      MSVCRT_LC_TIME].map l.lc_handle

/-- Two threads without a private scope call `setlocale (LC_NUMERIC, "French")`
(thread A) and `setlocale (LC_MONETARY, "French")` (thread B) after start-up
with the demo provider, and both run line 1692 before either takes the lock;
then A takes the lock and installs, then B. The result lists the locale ids of
the process-wide record and the mirror `MSVCRT___lc_handle` at the end. -/
def demo_concurrent : Option (List Nat × List Nat) :=
  (setlocale_assemble demoProvider demo_started.1 demo_started.2 (MSVCRT_LC_NUMERIC : Int)
    (cstr "French")).bind fun (newA, dataA) =>
  (setlocale_assemble demoProvider demo_started.1 thread_data_initial (MSVCRT_LC_MONETARY : Int)
    (cstr "French")).bind fun (newB, dataB) =>
  newA.bind fun newA =>
  newB.bind fun newB =>
  (setlocale_install demoProvider demo_started.1 dataA (MSVCRT_LC_NUMERIC : Int) newA).bind
  fun (_, g1, _) =>
  (setlocale_install demoProvider g1 dataB (MSVCRT_LC_MONETARY : Int) newB).bind
  fun (_, g2, _) =>
  (process_wide_handles g2).map fun hs =>
    (hs, [MSVCRT_LC_COLLATE, MSVCRT_LC_CTYPE, MSVCRT_LC_MONETARY, MSVCRT_LC_NUMERIC,
      MSVCRT_LC_TIME].map g2.MSVCRT___lc_handle)

/-- The same two calls, each running to its end before the other starts:
`first` by thread A, then `second` by thread B. -/
def demo_sequential (first second : Int) : Option (List Nat × List Nat) :=
  (MSVCRT_setlocale demoProvider demo_started.1 demo_started.2 first
    (some (cstr "French"))).bind fun (_, g1, _) =>
  (MSVCRT_setlocale demoProvider g1 thread_data_initial second
    (some (cstr "French"))).bind fun (_, g2, _) =>
  (process_wide_handles g2).map fun hs =>
    (hs, [MSVCRT_LC_COLLATE, MSVCRT_LC_CTYPE, MSVCRT_LC_MONETARY, MSVCRT_LC_NUMERIC,
      MSVCRT_LC_TIME].map g2.MSVCRT___lc_handle)

/-- The demo provider with a default ANSI codepage field that does not fit an
`int`: the string "4294967296", which the C `atoi` reads as 0. -/
def overflowProvider : Provider :=
  { demoProvider with
    GetLocaleInfoA := fun lcid nouser t =>
      match t with
      | .LOCALE_IDEFAULTANSICODEPAGE => (demoProvider.GetLocaleInfoA lcid nouser t).map
          fun _ => cstr "4294967296"
      | _ => demoProvider.GetLocaleInfoA lcid nouser t }

/-- The demo provider with an `IsValidCodePage` that also confirms the number
4294967295, the value of `(UINT) -1`. -/
def saturatingProvider : Provider :=
  { demoProvider with
    IsValidCodePage := fun n => decide (n = 437 ∨ n = 850 ∨ n = 1252 ∨ n = 4294967295) }

/-! ## Theorems -/

/-! ### String comparison lemmas -/

theorem char_toNat_inj (a b : Char) (h : a.toNat = b.toNat) : a = b :=
  Char.ext (UInt32.ext h)

theorem lowered_diff_ne_zero (a b : Char) (h : tolower a ≠ tolower b) :
    ((tolower a).toNat : Int) - ((tolower b).toNat : Int) ≠ 0 := by
  intro h0
  apply h
  apply char_toNat_inj
  omega

theorem strcasecmp_eq_zero_iff (a b : CStr) :
    strcasecmp a b = 0 ↔ a.map tolower = b.map tolower := by
  induction a generalizing b with
  | nil =>
    cases b with
    | nil => simp [strcasecmp]
    | cons y ys => simp [strcasecmp]
  | cons x xs ih =>
    cases b with
    | nil => simp [strcasecmp]
    | cons y ys =>
      by_cases hxy : tolower x = tolower y
      · simp [strcasecmp, hxy, ih]
      · simp [strcasecmp, hxy, lowered_diff_ne_zero x y hxy]

theorem strncasecmp_eq_zero_iff (a b : CStr) :
    strncasecmp a b a.length = 0 ↔ a.map tolower <+: b.map tolower := by
  induction a generalizing b with
  | nil => simp [strncasecmp]
  | cons x xs ih =>
    cases b with
    | nil => simp [strncasecmp]
    | cons y ys =>
      by_cases hxy : tolower x = tolower y
      · simp [strncasecmp, hxy, ih, List.cons_prefix_cons]
      · simp [strncasecmp, hxy, lowered_diff_ne_zero x y hxy, List.cons_prefix_cons]

/-! ### C3: the matching rule of compare_info -/

/-- C3: compare_info never matches on an empty token or an empty or absent
field; otherwise a token of length at most 3, or any token under the exact
flag, matches iff token and field are equal ignoring ASCII case, and a longer
token without the exact flag matches iff it is a case-insensitive beginning
of the field. A token of at most 3 characters never matches a longer field. -/
theorem compare_info_spec (P : Provider) (lcid : Nat) (flags : LCTYPE) (cmp : CStr)
    (exact : Bool) :
    ((cmp = [] ∨ (P.GetLocaleInfoA lcid true flags).getD [] = []) →
      compare_info P lcid flags cmp exact = false) ∧
    (cmp ≠ [] → (P.GetLocaleInfoA lcid true flags).getD [] ≠ [] →
      (cmp.length ≤ 3 ∨ exact = true) →
      (compare_info P lcid flags cmp exact = true ↔
        cmp.map tolower = ((P.GetLocaleInfoA lcid true flags).getD []).map tolower)) ∧
    (cmp ≠ [] → (P.GetLocaleInfoA lcid true flags).getD [] ≠ [] →
      3 < cmp.length → exact = false →
      (compare_info P lcid flags cmp exact = true ↔
        cmp.map tolower <+: ((P.GetLocaleInfoA lcid true flags).getD []).map tolower)) ∧
    (cmp.length ≤ 3 → cmp.length < ((P.GetLocaleInfoA lcid true flags).getD []).length →
      compare_info P lcid flags cmp exact = false) := by
  refine ⟨?_, ?_, ?_, ?_⟩
  · rintro (h | h)
    · simp [compare_info, h]
    · simp [compare_info, h]
  · intro h1 h2 h3
    have h4 : (exact || decide (cmp.length ≤ 3)) = true := by
      rcases h3 with h3 | h3
      · simp [h3]
      · simp [h3]
    simp [compare_info, h1, h2, h4, strcasecmp_eq_zero_iff]
  · intro h1 h2 h3 h4
    have h5 : (exact || decide (cmp.length ≤ 3)) = false := by
      simp [h4]; omega
    simp [compare_info, h1, h2, h5, strncasecmp_eq_zero_iff]
  · intro h1 h2
    by_cases hc : cmp = []
    · simp [compare_info, hc]
    · have hb : (P.GetLocaleInfoA lcid true flags).getD [] ≠ [] := by
        intro h0
        rw [h0] at h2
        simp at h2
      have h4 : (exact || decide (cmp.length ≤ 3)) = true := by simp [h1]
      have hne : ¬ (cmp.map tolower = ((P.GetLocaleInfoA lcid true flags).getD []).map tolower) := by
        intro he
        have := congrArg List.length he
        simp at this
        omega
      simp [compare_info, hc, hb, h4, strcasecmp_eq_zero_iff, hne]

/-! ### C1: the scan selects the first candidate of maximal score -/

theorem score_le_seven (P : Provider) (res : locale_search_t) (l : Nat) :
    score P res l ≤ 7 := by
  unfold score
  split_ifs <;> omega

/-- One call of the callback on a language-neutral id changes nothing. -/
theorem find_best_locale_proc_neutral (P : Provider) (l : Nat) (res : locale_search_t)
    (hn : PRIMARYLANGID l = LANG_NEUTRAL) :
    find_best_locale_proc P l res = (true, res) := by
  simp [find_best_locale_proc, hn, CONTINUE_LOOKING]

/-- One call of the callback on a concrete language id: the search tokens are
kept, the best score becomes the maximum of the old one and the candidate's
score, the candidate is recorded exactly when it is strictly better, and the
enumeration is stopped only on a score of 7. -/
theorem find_best_locale_proc_step (P : Provider) (l : Nat) (res : locale_search_t)
    (hn : PRIMARYLANGID l ≠ LANG_NEUTRAL) (hm : res.match_flags ≤ 7) :
    (find_best_locale_proc P l res).2.search_language = res.search_language ∧
    (find_best_locale_proc P l res).2.search_country = res.search_country ∧
    (find_best_locale_proc P l res).2.search_codepage = res.search_codepage ∧
    (find_best_locale_proc P l res).2.match_flags = max res.match_flags (score P res l) ∧
    (find_best_locale_proc P l res).2.found_lang_id =
      (if res.match_flags < score P res l then l else res.found_lang_id) ∧
    ((find_best_locale_proc P l res).1 = false → score P res l = 7) := by
  obtain ⟨sl, sc, sp, fc, m, f⟩ := res
  simp only at hm
  simp only [find_best_locale_proc, score, hn, if_false, CONTINUE_LOOKING, STOP_LOOKING,
    FOUND_LANGUAGE, FOUND_COUNTRY, FOUND_CODEPAGE]
  generalize check_language P (MAKELCID l SORT_DEFAULT) ⟨sl, sc, sp, fc, m, f⟩ = bl
  generalize check_country P (MAKELCID l SORT_DEFAULT) ⟨sl, sc, sp, fc, m, f⟩ = bc
  generalize check_codepage P (MAKELCID l SORT_DEFAULT) ⟨sl, sc, sp, fc, m, f⟩ = bp
  interval_cases m <;> cases bl <;> cases bc <;> cases bp <;> simp +decide

/-- The search tokens are never changed by the enumeration. -/
theorem scan_keeps_tokens (P : Provider) (langs : List Nat) (res : locale_search_t)
    (hm : res.match_flags ≤ 7) :
    (EnumResourceLanguagesA (find_best_locale_proc P) langs res).search_language
        = res.search_language ∧
    (EnumResourceLanguagesA (find_best_locale_proc P) langs res).search_country
        = res.search_country ∧
    (EnumResourceLanguagesA (find_best_locale_proc P) langs res).search_codepage
        = res.search_codepage ∧
    (EnumResourceLanguagesA (find_best_locale_proc P) langs res).match_flags ≤ 7 := by
  induction langs generalizing res with
  | nil => simp [EnumResourceLanguagesA, hm]
  | cons l ls ih =>
    by_cases hn : PRIMARYLANGID l = LANG_NEUTRAL
    · simp only [EnumResourceLanguagesA, find_best_locale_proc_neutral P l res hn]
      exact ih res hm
    · obtain ⟨h1, h2, h3, h4, _, _⟩ := find_best_locale_proc_step P l res hn hm
      have h7 : (find_best_locale_proc P l res).2.match_flags ≤ 7 := by
        rw [h4]; have := score_le_seven P res l; omega
      unfold EnumResourceLanguagesA
      rcases hstep : find_best_locale_proc P l res with ⟨c, r1⟩
      rw [hstep] at h1 h2 h3 h7
      cases c
      · simp only
        exact ⟨h1, h2, h3, h7⟩
      · simp only
        obtain ⟨i1, i2, i3, i4⟩ := ih r1 h7
        exact ⟨i1.trans h1, i2.trans h2, i3.trans h3, i4⟩

/-- The score of a candidate depends on the search record through its three
search tokens only. -/
theorem score_congr (P : Provider) (r1 r2 : locale_search_t) (l : Nat)
    (h1 : r1.search_language = r2.search_language)
    (h2 : r1.search_country = r2.search_country)
    (h3 : r1.search_codepage = r2.search_codepage) :
    score P r1 l = score P r2 l := by
  simp [score, check_language, check_country, check_codepage, h1, h2, h3]

/-- What the enumeration leaves, from any search record whose best score is at
most 7: no concrete candidate scores above the final best score, and either
the best is the one it started with, or it is strictly better and belongs to
the first candidate reaching it. -/
theorem scan_spec (P : Provider) (langs : List Nat) (res : locale_search_t)
    (hm : res.match_flags ≤ 7) :
    (∀ l ∈ langs, PRIMARYLANGID l ≠ LANG_NEUTRAL → score P res l ≤
      (EnumResourceLanguagesA (find_best_locale_proc P) langs res).match_flags) ∧
    res.match_flags ≤ (EnumResourceLanguagesA (find_best_locale_proc P) langs res).match_flags ∧
    (((EnumResourceLanguagesA (find_best_locale_proc P) langs res).match_flags = res.match_flags ∧
      (EnumResourceLanguagesA (find_best_locale_proc P) langs res).found_lang_id
        = res.found_lang_id) ∨
     (res.match_flags < (EnumResourceLanguagesA (find_best_locale_proc P) langs res).match_flags ∧
      ∃ pre post, langs = pre ++
          (EnumResourceLanguagesA (find_best_locale_proc P) langs res).found_lang_id :: post ∧
        PRIMARYLANGID (EnumResourceLanguagesA (find_best_locale_proc P) langs res).found_lang_id
          ≠ LANG_NEUTRAL ∧
        score P res (EnumResourceLanguagesA (find_best_locale_proc P) langs res).found_lang_id
          = (EnumResourceLanguagesA (find_best_locale_proc P) langs res).match_flags ∧
        ∀ l ∈ pre, PRIMARYLANGID l ≠ LANG_NEUTRAL → score P res l <
          (EnumResourceLanguagesA (find_best_locale_proc P) langs res).match_flags)) := by
  induction langs generalizing res with
  | nil => simp [EnumResourceLanguagesA]
  | cons l ls ih =>
    by_cases hn : PRIMARYLANGID l = LANG_NEUTRAL
    · simp only [EnumResourceLanguagesA, find_best_locale_proc_neutral P l res hn]
      obtain ⟨iA, iB, iC⟩ := ih res hm
      refine ⟨?_, iB, ?_⟩
      · intro x hx hxn
        rcases List.mem_cons.mp hx with rfl | hx
        · exact absurd hn hxn
        · exact iA x hx hxn
      · rcases iC with iC | ⟨hlt, pre, post, h1, h2, h3, h4⟩
        · exact Or.inl iC
        · refine Or.inr ⟨hlt, l :: pre, post, ?_, h2, h3, ?_⟩
          · rw [List.cons_append, ← h1]
          · intro x hx hxn
            rcases List.mem_cons.mp hx with rfl | hx
            · exact absurd hn hxn
            · exact h4 x hx hxn
    · obtain ⟨h1, h2, h3, h4, h5, h6⟩ := find_best_locale_proc_step P l res hn hm
      have hs7 := score_le_seven P res l
      unfold EnumResourceLanguagesA
      rcases hstep : find_best_locale_proc P l res with ⟨c, r1⟩
      rw [hstep] at h1 h2 h3 h4 h5 h6
      simp only at h1 h2 h3 h4 h5 h6
      cases c
      · simp only
        have hsc : score P res l = 7 := h6 rfl
        have hr1 : r1.match_flags = 7 := by rw [h4, hsc]; omega
        refine ⟨?_, by omega, ?_⟩
        · intro x _ _
          have := score_le_seven P res x
          omega
        · by_cases hlt : res.match_flags < 7
          · refine Or.inr ⟨by omega, [], ls, ?_, ?_, ?_, ?_⟩
            · rw [h5, hsc, if_pos hlt]; rfl
            · rw [h5, hsc, if_pos hlt]; exact hn
            · rw [h5, hsc, if_pos hlt, hsc, hr1]
            · intro x hx; simp at hx
          · refine Or.inl ⟨by omega, ?_⟩
            rw [h5, hsc, if_neg hlt]
      · simp only
        have h7 : r1.match_flags ≤ 7 := by rw [h4]; omega
        obtain ⟨iA, iB, iC⟩ := ih r1 h7
        have hcongr : ∀ x, score P r1 x = score P res x :=
          fun x => score_congr P r1 res x h1 h2 h3
        simp only [hcongr] at iA iC
        refine ⟨?_, by omega, ?_⟩
        · intro x hx hxn
          rcases List.mem_cons.mp hx with rfl | hx
          · omega
          · exact iA x hx hxn
        · rcases iC with ⟨e1, e2⟩ | ⟨hlt, pre, post, e1, e2, e3, e4⟩
          · by_cases hlt : res.match_flags < score P res l
            · refine Or.inr ⟨by omega, [], ls, ?_, ?_, ?_, ?_⟩
              · rw [e2, h5, if_pos hlt]; rfl
              · rw [e2, h5, if_pos hlt]; exact hn
              · rw [e2, h5, if_pos hlt, e1, h4]; omega
              · intro x hx; simp at hx
            · refine Or.inl ⟨by omega, ?_⟩
              rw [e2, h5, if_neg hlt]
          · refine Or.inr ⟨by omega, l :: pre, post, ?_, e2, e3, ?_⟩
            · rw [List.cons_append, ← e1]
            · intro x hx hxn
              rcases List.mem_cons.mp hx with rfl | hx
              · omega
              · exact e4 x hx hxn

/-- C1: starting from an empty match state, when some concrete (not
language-neutral) candidate scores above 0, the enumeration selects a concrete
candidate whose score is the final best score, no concrete candidate scores
higher, and every concrete candidate enumerated before the selected one scores
strictly lower. Hence of two concrete candidates, one matching language,
country and codepage (score 7) and one matching only language and country
(score 6), the first is selected in either enumeration order. -/
theorem find_best_locale_selects_first_max (P : Provider) (res : locale_search_t)
    (langs : List Nat) (h0 : res.match_flags = 0)
    (hex : ∃ l ∈ langs, PRIMARYLANGID l ≠ LANG_NEUTRAL ∧ 0 < score P res l) :
    (PRIMARYLANGID (EnumResourceLanguagesA (find_best_locale_proc P) langs res).found_lang_id
        ≠ LANG_NEUTRAL ∧
      (EnumResourceLanguagesA (find_best_locale_proc P) langs res).match_flags =
        score P res (EnumResourceLanguagesA (find_best_locale_proc P) langs res).found_lang_id ∧
      (∀ l ∈ langs, PRIMARYLANGID l ≠ LANG_NEUTRAL → score P res l ≤
        score P res (EnumResourceLanguagesA (find_best_locale_proc P) langs res).found_lang_id) ∧
      ∃ pre post, langs = pre ++
          (EnumResourceLanguagesA (find_best_locale_proc P) langs res).found_lang_id :: post ∧
        ∀ l ∈ pre, PRIMARYLANGID l ≠ LANG_NEUTRAL → score P res l <
          score P res (EnumResourceLanguagesA (find_best_locale_proc P) langs res).found_lang_id) ∧
    (∀ a b, langs = [a, b] ∨ langs = [b, a] → PRIMARYLANGID a ≠ LANG_NEUTRAL →
      PRIMARYLANGID b ≠ LANG_NEUTRAL → score P res a = 7 → score P res b = 6 →
      (EnumResourceLanguagesA (find_best_locale_proc P) langs res).found_lang_id = a) := by
  obtain ⟨sA, _, sC⟩ := scan_spec P langs res (by omega)
  obtain ⟨x, hx, hxn, hxs⟩ := hex
  have hpos := sA x hx hxn
  rcases sC with ⟨e1, _⟩ | ⟨_, pre, post, e1, e2, e3, e4⟩
  · omega
  · have main : PRIMARYLANGID (EnumResourceLanguagesA (find_best_locale_proc P) langs res).found_lang_id
          ≠ LANG_NEUTRAL ∧
        (EnumResourceLanguagesA (find_best_locale_proc P) langs res).match_flags =
          score P res (EnumResourceLanguagesA (find_best_locale_proc P) langs res).found_lang_id ∧
        (∀ l ∈ langs, PRIMARYLANGID l ≠ LANG_NEUTRAL → score P res l ≤
          score P res (EnumResourceLanguagesA (find_best_locale_proc P) langs res).found_lang_id) ∧
        ∃ pre post, langs = pre ++
            (EnumResourceLanguagesA (find_best_locale_proc P) langs res).found_lang_id :: post ∧
          ∀ l ∈ pre, PRIMARYLANGID l ≠ LANG_NEUTRAL → score P res l <
            score P res (EnumResourceLanguagesA (find_best_locale_proc P) langs res).found_lang_id := by
      refine ⟨e2, e3.symm, ?_, pre, post, e1, ?_⟩
      · intro l hl hln; rw [e3]; exact sA l hl hln
      · intro l hl hln; rw [e3]; exact e4 l hl hln
    refine ⟨main, ?_⟩
    intro a b hab han hbn hsa hsb
    obtain ⟨_, _, hmax, _⟩ := main
    generalize (EnumResourceLanguagesA (find_best_locale_proc P) langs res).found_lang_id = f
      at e1 hmax ⊢
    have hmem : f ∈ langs := by
      rw [e1]; simp
    have ha : a ∈ langs := by rcases hab with h | h <;> simp [h]
    have hge := hmax a ha han
    rcases hab with h | h
    · rw [h] at hmem
      simp only [List.mem_cons, List.mem_singleton, List.not_mem_nil, or_false] at hmem
      rcases hmem with hm | hm
      · exact hm
      · rw [hm] at hge; omega
    · rw [h] at hmem
      simp only [List.mem_cons, List.mem_singleton, List.not_mem_nil, or_false] at hmem
      rcases hmem with hm | hm
      · rw [hm] at hge; omega
      · exact hm

/-! ### C2 and C10: post-scoring validation and the resolve cache -/

/-- When no concrete candidate scores above 0, the enumeration leaves the
best score at 0. -/
theorem scan_no_match (P : Provider) (langs : List Nat) (res : locale_search_t)
    (h0 : res.match_flags = 0)
    (hall : ∀ l ∈ langs, PRIMARYLANGID l ≠ LANG_NEUTRAL → score P res l = 0) :
    (EnumResourceLanguagesA (find_best_locale_proc P) langs res).match_flags = 0 := by
  obtain ⟨_, _, sC⟩ := scan_spec P langs res (by omega)
  rcases sC with ⟨e1, _⟩ | ⟨hlt, pre, post, e1, e2, e3, _⟩
  · omega
  · have hmem : (EnumResourceLanguagesA (find_best_locale_proc P) langs res).found_lang_id ∈ langs := by
      generalize (EnumResourceLanguagesA (find_best_locale_proc P) langs res).found_lang_id = f at e1
      rw [e1]; simp
    have := hall _ hmem e2
    omega

/-- When no concrete candidate passes the country test, the final best score
has no country bit. -/
theorem scan_no_country (P : Provider) (langs : List Nat) (res : locale_search_t)
    (h0 : res.match_flags = 0)
    (hall : ∀ l ∈ langs, PRIMARYLANGID l ≠ LANG_NEUTRAL →
      check_country P (MAKELCID l SORT_DEFAULT) res = false) :
    (EnumResourceLanguagesA (find_best_locale_proc P) langs res).match_flags &&& FOUND_COUNTRY
      = 0 := by
  obtain ⟨_, _, sC⟩ := scan_spec P langs res (by omega)
  rcases sC with ⟨e1, _⟩ | ⟨hlt, pre, post, e1, e2, e3, _⟩
  · rw [e1, h0]; rfl
  · have hmem : (EnumResourceLanguagesA (find_best_locale_proc P) langs res).found_lang_id ∈ langs := by
      generalize (EnumResourceLanguagesA (find_best_locale_proc P) langs res).found_lang_id = f at e1
      rw [e1]; simp
    have hc := hall _ hmem e2
    rw [← e3]
    unfold score
    rw [hc]
    generalize check_language P _ res = bl
    generalize check_codepage P _ res = bp
    cases bl <;> cases bp <;> decide

/-- With three empty search tokens no candidate scores. -/
theorem score_empty_tokens (P : Provider) (res : locale_search_t) (l : Nat)
    (h1 : res.search_language = []) (h2 : res.search_country = [])
    (h3 : res.search_codepage = []) : score P res l = 0 := by
  simp [score, check_language, check_country, check_codepage, compare_info, h1, h2, h3]

theorem split_locale_nil :
    split_locale [] = some ⟨[], [], [], [], 0, 0⟩ := by
  rfl

theorem normalize_search_nil :
    normalize_search ⟨[], [], [], [], 0, 0⟩ = ⟨[], [], [], [], 0, 0⟩ := by
  decide

/-- The full algorithm fails on the empty descriptor, whatever the provider. -/
theorem locale_to_LCID_search_nil (P : Provider) : locale_to_LCID_search P [] = some none := by
  have h := scan_no_match P P.languages ⟨[], [], [], [], 0, 0⟩ rfl
    (fun l _ _ => score_empty_tokens P _ l rfl rfl rfl)
  simp [locale_to_LCID_search, split_locale_nil, normalize_search_nil, locale_to_LCID_finish, h]

theorem normalize_search_match_flags (search : locale_search_t) :
    (normalize_search search).match_flags = search.match_flags := by
  simp only [normalize_search]
  split_ifs <;> rfl

theorem split_locale_match_flags (locale : CStr) (search : locale_search_t)
    (hsplit : split_locale locale = some search) : search.match_flags = 0 := by
  unfold split_locale at hsplit
  simp only [Option.map_eq_some', Option.bind_eq_some] at hsplit
  obtain ⟨_, _, _, _, rfl⟩ := hsplit
  rfl

/-- On a cache miss the validation after the scan rejects the descriptor when
no concrete candidate matches anything, and when a country token is present
and no concrete candidate passes the country test. -/
theorem locale_to_LCID_rejects_unmatched (P : Provider) (data : thread_data_t) (locale : CStr)
    (codepage : Option Nat) (search : locale_search_t)
    (hmiss : locale ≠ data.cached_locale) (hsplit : split_locale locale = some search)
    (h : (∀ l ∈ P.languages, PRIMARYLANGID l ≠ LANG_NEUTRAL →
            score P (normalize_search search) l = 0) ∨
         ((normalize_search search).search_country ≠ [] ∧
          ∀ l ∈ P.languages, PRIMARYLANGID l ≠ LANG_NEUTRAL →
            check_country P (MAKELCID l SORT_DEFAULT) (normalize_search search) = false)) :
    MSVCRT_locale_to_LCID P data locale codepage = some (LCID_FAIL, codepage, data) := by
  have hm0 : (normalize_search search).match_flags = 0 := by
    have : search.match_flags = 0 := split_locale_match_flags locale search hsplit
    rw [normalize_search_match_flags, this]
  have hfin : locale_to_LCID_finish P (EnumResourceLanguagesA (find_best_locale_proc P)
      P.languages (normalize_search search)) = none := by
    rcases h with h | ⟨hc, h⟩
    · have := scan_no_match P P.languages _ hm0 h
      simp [locale_to_LCID_finish, this]
    · have h2 := scan_no_country P P.languages _ hm0 h
      obtain ⟨_, k2, _, _⟩ := scan_keeps_tokens P P.languages (normalize_search search) (by omega)
      unfold locale_to_LCID_finish
      rw [k2]
      simp [hc, h2]
  simp [MSVCRT_locale_to_LCID, strcmp_eq, hmiss, locale_to_LCID_search, hsplit, hfin]

/-- C2 (evaluation at the failing input): for the empty descriptor no
candidate of any provider matches language, country or codepage, yet on the
initial thread state the call does not return -1: it hits the empty cache
slot and returns locale id 0 with codepage 0. -/
theorem unmatched_empty_descriptor_not_rejected (P : Provider) :
    (∃ search, split_locale [] = some search ∧
      ∀ l ∈ P.languages, score P (normalize_search search) l = 0) ∧
    MSVCRT_locale_to_LCID P thread_data_initial [] (some 0)
      = some (0, some 0, thread_data_initial) ∧
    (0 : Nat) ≠ LCID_FAIL := by
  refine ⟨⟨_, split_locale_nil, ?_⟩, ?_, by decide⟩
  · intro l _
    rw [normalize_search_nil]
    exact score_empty_tokens P _ l rfl rfl rfl
  · simp [MSVCRT_locale_to_LCID, strcmp_eq, thread_data_initial]

/-- C10 (evaluation at the failing input): on the initial thread state the
call with the empty descriptor returns locale id 0 and codepage 0 from the
empty cache slot, while the full matching algorithm with no cache fails on the
empty descriptor, for every provider. -/
theorem cache_changes_result_on_empty_descriptor (P : Provider) :
    resolve_cached P thread_data_initial [] = some (some (0, 0)) ∧
    resolve_nocache P [] = some none := by
  constructor
  · simp [resolve_cached, MSVCRT_locale_to_LCID, strcmp_eq, thread_data_initial, LCID_FAIL]
  · simp [resolve_nocache, locale_to_LCID_search_nil]

/-! ### The thread data outside the cache is never changed -/

theorem locale_to_LCID_data_frame (P : Provider) (data : thread_data_t) (locale : CStr)
    (codepage : Option Nat) (r : Nat × Option Nat × thread_data_t)
    (h : MSVCRT_locale_to_LCID P data locale codepage = some r) :
    r.2.2.have_locale = data.have_locale ∧ r.2.2.locinfo = data.locinfo := by
  unfold MSVCRT_locale_to_LCID at h
  by_cases hc : strcmp_eq locale data.cached_locale = true
  · rw [if_pos hc] at h
    cases h; exact ⟨rfl, rfl⟩
  · rw [if_neg hc] at h
    simp only [Option.map_eq_some'] at h
    obtain ⟨x, _, rfl⟩ := h
    rcases x with _ | ⟨lcid, fc⟩
    · exact ⟨rfl, rfl⟩
    · by_cases hl : locale.length < P.cached_locale_size
      · simp [if_pos hl]
      · simp [if_neg hl]

theorem parse_composite_data_frame (P : Provider) (fuel : Nat) (locale : CStr)
    (lcid cp : Nat → Nat) (data : thread_data_t)
    (r : Option ((Nat → Nat) × (Nat → Nat)) × thread_data_t)
    (h : parse_composite P fuel locale lcid cp data = some r) :
    r.2.have_locale = data.have_locale ∧ r.2.locinfo = data.locinfo := by
  induction fuel generalizing locale lcid cp data with
  | zero => simp [parse_composite] at h
  | succ n ih =>
    unfold parse_composite at h
    split at h
    · cases h; exact ⟨rfl, rfl⟩
    · rename_i i rest _
      simp only [Option.bind_eq_some] at h
      obtain ⟨⟨l, c, d1⟩, h1, h2⟩ := h
      have hd1 : d1.have_locale = data.have_locale ∧ d1.locinfo = data.locinfo := by
        split_ifs at h1
        · cases h1; exact ⟨rfl, rfl⟩
        · split at h1
          · split_ifs at h1
            exact locale_to_LCID_data_frame P _ _ _ _ h1
          · exact locale_to_LCID_data_frame P _ _ _ _ h1
      simp only at h2
      split_ifs at h2
      · cases h2; exact hd1
      · split at h2
        · cases h2; exact hd1
        · split_ifs at h2
          · obtain ⟨k1, k2⟩ := ih _ _ _ _ h2
            exact ⟨k1.trans hd1.1, k2.trans hd1.2⟩
          · cases h2; exact hd1

theorem create_locinfo_lcids_data_frame (P : Provider) (locale : CStr) (data : thread_data_t)
    (r : Option ((Nat → Nat) × (Nat → Nat)) × thread_data_t)
    (h : create_locinfo_lcids P locale data = some r) :
    r.2.have_locale = data.have_locale ∧ r.2.locinfo = data.locinfo := by
  unfold create_locinfo_lcids at h
  split_ifs at h
  · cases h; exact ⟨rfl, rfl⟩
  · split at h
    · cases h
    · cases h; exact ⟨rfl, rfl⟩
  · exact parse_composite_data_frame P _ _ _ _ _ _ h
  · simp only [Option.map_eq_some'] at h
    obtain ⟨⟨l, c, d1⟩, h1, rfl⟩ := h
    have := locale_to_LCID_data_frame P _ _ _ _ h1
    simp only
    split_ifs <;> exact this

theorem create_locinfo_data_frame (P : Provider) (charmax : Nat) (category : Int)
    (locale : Option CStr) (old : Option MSVCRT_threadlocinfo) (data : thread_data_t)
    (r : Option MSVCRT_threadlocinfo × thread_data_t)
    (h : create_locinfo P charmax category locale old data = some r) :
    r.2.have_locale = data.have_locale ∧ r.2.locinfo = data.locinfo := by
  unfold create_locinfo at h
  split at h
  · cases h; exact ⟨rfl, rfl⟩
  · split_ifs at h
    · cases h; exact ⟨rfl, rfl⟩
    · simp only [Option.bind_eq_some] at h
      obtain ⟨⟨arrays, d1⟩, h1, h2⟩ := h
      have := create_locinfo_lcids_data_frame P _ _ _ h1
      rcases arrays with _ | ⟨lcid, cp⟩
      · cases h2; exact this
      · simp only [Option.map_eq_some'] at h2
        obtain ⟨_, _, rfl⟩ := h2
        exact this

/-! ### C5: a failed setlocale leaves the registry as it was -/

/-- C5: when the category selector is invalid, or create_locinfo returns NULL
for the descriptor (it does not resolve, it is a malformed composite, or a
category cannot be built), MSVCRT_setlocale returns NULL, the globals (the
process-wide record and the mirrors) are exactly what they were, and so is the
record the thread uses. -/
theorem setlocale_failure_keeps_state (P : Provider) (g : Globals) (data : thread_data_t)
    (category : Int) (locale : CStr) (locinfo : MSVCRT_threadlocinfo) (data1 : thread_data_t)
    (hloc : get_locinfo g data = some locinfo)
    (hfail : category < (MSVCRT_LC_MIN : Int) ∨ category > (MSVCRT_LC_MAX : Int) ∨
      create_locinfo P g.charmax category (some locale) (some locinfo) data = some (none, data1)) :
    ∃ data2, MSVCRT_setlocale P g data category (some locale) = some (none, g, data2) ∧
      get_locinfo g data2 = get_locinfo g data ∧
      data2.have_locale = data.have_locale ∧ data2.locinfo = data.locinfo := by
  by_cases hcat : category < (MSVCRT_LC_MIN : Int) ∨ category > (MSVCRT_LC_MAX : Int)
  · refine ⟨data, ?_, rfl, rfl, rfl⟩
    simp [MSVCRT_setlocale, hloc, hcat]
  · have hc : create_locinfo P g.charmax category (some locale) (some locinfo) data
        = some (none, data1) := by
      rcases hfail with h | h | h
      · exact absurd (Or.inl h) hcat
      · exact absurd (Or.inr h) hcat
      · exact h
    obtain ⟨k1, k2⟩ := create_locinfo_data_frame P _ _ _ _ _ _ hc
    simp only at k1 k2
    refine ⟨data1, ?_, ?_, k1, k2⟩
    · simp [MSVCRT_setlocale, hloc, hcat, hc]
    · simp only [get_locinfo, k1, k2]

/-! ### The category builders -/

theorem update_threadlocinfo_category_eq (P : Provider) (lcid cp : Nat)
    (l l1 : MSVCRT_threadlocinfo) (cat : Nat) (b : Bool)
    (h : update_threadlocinfo_category P lcid cp l cat = some (b, l1)) :
    b = false ∧ ∃ id buf, id.wCodePage = cp ∧
      l1 = { l with
        lc_id := Function.update l.lc_id cat id
        lc_handle := Function.update l.lc_handle cat lcid
        lc_category := Function.update l.lc_category cat ⟨some buf, some 1⟩ } := by
  unfold update_threadlocinfo_category at h
  cases hlang : P.GetLocaleInfoA lcid true LCTYPE.LOCALE_SENGLANGUAGE with
  | none => rw [hlang] at h; simp at h
  | some language =>
    rw [hlang] at h
    simp only at h
    split_ifs at h
    simp only [Option.some.injEq, Prod.mk.injEq] at h
    obtain ⟨rfl, rfl⟩ := h
    exact ⟨rfl, _, _, rfl, rfl⟩

theorem set_lc_locale_name_eq (P : Provider) (l l1 : MSVCRT_threadlocinfo) (cat : Nat)
    (h : set_lc_locale_name P l cat = (true, l1)) :
    ∃ v, l1 = { l with lc_name := Function.update l.lc_name cat v } := by
  unfold set_lc_locale_name at h
  split_ifs at h
  · simp only at h
    cases h1 : P.GetLocaleInfoW (l.lc_handle cat) true LCTYPE.LOCALE_SISO639LANGNAME with
    | none => rw [h1] at h; simp at h
    | some buf =>
      rw [h1] at h
      simp only at h
      split_ifs at h
      · cases h2 : P.LCIDToLocaleName (l.lc_handle cat) with
        | none => rw [h2] at h; simp at h
        | some name =>
          rw [h2] at h
          simp only [Prod.mk.injEq, true_and] at h
          exact ⟨_, h.symm⟩
      · simp only [Prod.mk.injEq, true_and] at h
        exact ⟨_, h.symm⟩
  · cases h
    refine ⟨l.lc_name cat, ?_⟩
    simp

theorem category_needs_update_none (cat : Nat) (user_cat : Int) (lcid cp : Nat) :
    category_needs_update cat user_cat none lcid cp = true := rfl

theorem build_collate_cases (P : Provider) (category : Int)
    (old : Option MSVCRT_threadlocinfo) (lcid cp : Nat → Nat) (l l' : MSVCRT_threadlocinfo)
    (h : build_collate P category old lcid cp l = some (some l')) :
    (∀ Y, is_category Y → Y ≠ MSVCRT_LC_COLLATE →
      category_block_of l' Y = category_block_of l Y) ∧
    ((∃ o, old = some o ∧
        category_needs_update MSVCRT_LC_COLLATE category old (lcid MSVCRT_LC_COLLATE)
          (cp MSVCRT_LC_COLLATE) = false ∧
        l' = reuse_category l o MSVCRT_LC_COLLATE) ∨
     (category_needs_update MSVCRT_LC_COLLATE category old (lcid MSVCRT_LC_COLLATE)
          (cp MSVCRT_LC_COLLATE) = true ∧
        lcid MSVCRT_LC_COLLATE ≠ 0 ∧ selects category MSVCRT_LC_COLLATE = true ∧
        locale_built MSVCRT_LC_COLLATE lcid cp l') ∨
     (category_needs_update MSVCRT_LC_COLLATE category old (lcid MSVCRT_LC_COLLATE)
          (cp MSVCRT_LC_COLLATE) = true ∧
        ¬ (lcid MSVCRT_LC_COLLATE ≠ 0 ∧ selects category MSVCRT_LC_COLLATE = true) ∧
        l' = set_locale_C l MSVCRT_LC_COLLATE)) := by
  unfold build_collate at h
  have key : ∀ (hnu : (∃ o, old = some o ∧
        category_needs_update MSVCRT_LC_COLLATE category old (lcid MSVCRT_LC_COLLATE)
          (cp MSVCRT_LC_COLLATE) = false) → False),
      category_needs_update MSVCRT_LC_COLLATE category old (lcid MSVCRT_LC_COLLATE)
          (cp MSVCRT_LC_COLLATE) = true := by
    intro hnu
    cases old with
    | none => rfl
    | some o =>
      cases hb : category_needs_update MSVCRT_LC_COLLATE category (some o)
          (lcid MSVCRT_LC_COLLATE) (cp MSVCRT_LC_COLLATE) with
      | true => rfl
      | false => exact absurd ⟨o, rfl, hb⟩ hnu
  split at h
  · rename_i o hb
    simp only [Option.some.injEq] at h
    subst h
    refine ⟨?_, Or.inl ⟨o, rfl, hb, rfl⟩⟩
    intro Y hY hne
    obtain ⟨h1, h2⟩ := hY
    simp only [MSVCRT_LC_COLLATE, MSVCRT_LC_TIME] at h1 h2 hne
    interval_cases Y <;>
      simp_all [category_block_of, category_data_of, reuse_category, MSVCRT_LC_COLLATE,
        MSVCRT_LC_CTYPE, MSVCRT_LC_MONETARY, MSVCRT_LC_NUMERIC, MSVCRT_LC_TIME]
  · rename_i hnot
    have hnu := key (by
      rintro ⟨o, rfl, hb⟩
      exact hnot o rfl hb)
    split_ifs at h with hsel
    · simp only [Option.map_eq_some'] at h
      obtain ⟨⟨failed, l1⟩, hu, h2⟩ := h
      obtain ⟨rfl, id, buf, hid, rfl⟩ := update_threadlocinfo_category_eq P _ _ _ _ _ _ hu
      simp only [Bool.false_eq_true, if_false] at h2
      split at h2
      · cases h2
      · rename_i l2 hs
        simp only [Option.some.injEq] at h2
        subst h2
        obtain ⟨v, rfl⟩ := set_lc_locale_name_eq P _ _ _ hs
        refine ⟨?_, Or.inr (Or.inl ⟨hnu, hsel.1, hsel.2, ?_⟩)⟩
        · intro Y hY hne
          obtain ⟨h1, h2⟩ := hY
          simp only [MSVCRT_LC_COLLATE, MSVCRT_LC_TIME] at h1 h2 hne
          interval_cases Y <;>
            simp_all [category_block_of, category_data_of, MSVCRT_LC_COLLATE,
              MSVCRT_LC_CTYPE, MSVCRT_LC_MONETARY, MSVCRT_LC_NUMERIC, MSVCRT_LC_TIME]
        · simp [locale_built, hid]
    · simp only [Option.some.injEq] at h
      subst h
      refine ⟨?_, Or.inr (Or.inr ⟨hnu, hsel, rfl⟩)⟩
      intro Y hY hne
      obtain ⟨h1, h2⟩ := hY
      simp only [MSVCRT_LC_COLLATE, MSVCRT_LC_TIME] at h1 h2 hne
      interval_cases Y <;>
        simp_all [category_block_of, category_data_of, set_locale_C, MSVCRT_LC_COLLATE,
          MSVCRT_LC_CTYPE, MSVCRT_LC_MONETARY, MSVCRT_LC_NUMERIC, MSVCRT_LC_TIME]

theorem needs_update_of_not_reuse (X : Nat) (category : Int)
    (old : Option MSVCRT_threadlocinfo) (lcid cp : Nat)
    (hnot : ∀ o, old = some o → category_needs_update X category old lcid cp = false → False) :
    category_needs_update X category old lcid cp = true := by
  cases old with
  | none => rfl
  | some o =>
    cases hb : category_needs_update X category (some o) lcid cp with
    | true => rfl
    | false => exact absurd hb (fun hb => hnot o rfl hb)

theorem build_ctype_cases (P : Provider) (category : Int)
    (old : Option MSVCRT_threadlocinfo) (lcid cp : Nat → Nat) (l l' : MSVCRT_threadlocinfo)
    (h : build_ctype P category old lcid cp l = some (some l')) :
    (∀ Y, is_category Y → Y ≠ MSVCRT_LC_CTYPE →
      category_block_of l' Y = category_block_of l Y) ∧
    ((∃ o, old = some o ∧
        category_needs_update MSVCRT_LC_CTYPE category old (lcid MSVCRT_LC_CTYPE)
          (cp MSVCRT_LC_CTYPE) = false ∧
        l' = reuse_category l o MSVCRT_LC_CTYPE) ∨
     (category_needs_update MSVCRT_LC_CTYPE category old (lcid MSVCRT_LC_CTYPE)
          (cp MSVCRT_LC_CTYPE) = true ∧
        lcid MSVCRT_LC_CTYPE ≠ 0 ∧ selects category MSVCRT_LC_CTYPE = true ∧
        locale_built MSVCRT_LC_CTYPE lcid cp l') ∨
     (category_needs_update MSVCRT_LC_CTYPE category old (lcid MSVCRT_LC_CTYPE)
          (cp MSVCRT_LC_CTYPE) = true ∧
        ¬ (lcid MSVCRT_LC_CTYPE ≠ 0 ∧ selects category MSVCRT_LC_CTYPE = true) ∧
        l' = ctype_C P l)) := by
  unfold build_ctype at h
  have key := needs_update_of_not_reuse MSVCRT_LC_CTYPE category old (lcid MSVCRT_LC_CTYPE)
    (cp MSVCRT_LC_CTYPE)
  split at h
  · rename_i o hb
    simp only [Option.some.injEq] at h
    subst h
    refine ⟨?_, Or.inl ⟨o, rfl, hb, rfl⟩⟩
    intro Y hY hne
    obtain ⟨h1, h2⟩ := hY
    simp only [MSVCRT_LC_COLLATE, MSVCRT_LC_TIME, MSVCRT_LC_CTYPE] at h1 h2 hne
    interval_cases Y <;>
      simp_all [category_block_of, category_data_of, reuse_category, MSVCRT_LC_COLLATE,
        MSVCRT_LC_CTYPE, MSVCRT_LC_MONETARY, MSVCRT_LC_NUMERIC, MSVCRT_LC_TIME]
  · rename_i hnot
    have hnu := key (by
      intro o ho hb
      subst ho
      exact hnot o rfl hb)
    split_ifs at h with hsel
    · simp only [Option.bind_eq_some] at h
      obtain ⟨⟨failed, l1⟩, hu, h2⟩ := h
      obtain ⟨rfl, id, buf, hid, rfl⟩ := update_threadlocinfo_category_eq P _ _ _ _ _ _ hu
      simp only [Bool.false_eq_true, if_false] at h2
      split at h2
      · cases h2
      · rename_i cp_info hcp
        simp only [Option.map_eq_some'] at h2
        obtain ⟨ranges, _, h3⟩ := h2
        split at h3
        · cases h3
        · rename_i l2 hs
          simp only [Option.some.injEq] at h3
          subst h3
          obtain ⟨v, rfl⟩ := set_lc_locale_name_eq P _ _ _ hs
          refine ⟨?_, Or.inr (Or.inl ⟨hnu, hsel.1, hsel.2, ?_⟩)⟩
          · intro Y hY hne
            obtain ⟨h1, h2⟩ := hY
            simp only [MSVCRT_LC_COLLATE, MSVCRT_LC_TIME, MSVCRT_LC_CTYPE] at h1 h2 hne
            interval_cases Y <;>
              simp_all [category_block_of, category_data_of, MSVCRT_LC_COLLATE,
                MSVCRT_LC_CTYPE, MSVCRT_LC_MONETARY, MSVCRT_LC_NUMERIC, MSVCRT_LC_TIME]
          · simp [locale_built, hid]
    · simp only [Option.some.injEq] at h
      subst h
      refine ⟨?_, Or.inr (Or.inr ⟨hnu, hsel, rfl⟩)⟩
      intro Y hY hne
      obtain ⟨h1, h2⟩ := hY
      simp only [MSVCRT_LC_COLLATE, MSVCRT_LC_TIME, MSVCRT_LC_CTYPE] at h1 h2 hne
      interval_cases Y <;>
        simp_all [category_block_of, category_data_of, set_locale_C, ctype_C, MSVCRT_LC_COLLATE,
          MSVCRT_LC_CTYPE, MSVCRT_LC_MONETARY, MSVCRT_LC_NUMERIC, MSVCRT_LC_TIME]

theorem build_monetary_cases (P : Provider) (charmax : Nat) (category : Int)
    (old : Option MSVCRT_threadlocinfo) (lcid cp : Nat → Nat) (l l' : MSVCRT_threadlocinfo)
    (h : build_monetary P charmax category old lcid cp l = some (some l')) :
    (∀ Y, is_category Y → Y ≠ MSVCRT_LC_MONETARY →
      category_block_of l' Y = category_block_of l Y) ∧
    ((∃ o, old = some o ∧
        category_needs_update MSVCRT_LC_MONETARY category old (lcid MSVCRT_LC_MONETARY)
          (cp MSVCRT_LC_MONETARY) = false ∧
        l' = reuse_category l o MSVCRT_LC_MONETARY) ∨
     (category_needs_update MSVCRT_LC_MONETARY category old (lcid MSVCRT_LC_MONETARY)
          (cp MSVCRT_LC_MONETARY) = true ∧
        lcid MSVCRT_LC_MONETARY ≠ 0 ∧ selects category MSVCRT_LC_MONETARY = true ∧
        locale_built MSVCRT_LC_MONETARY lcid cp l') ∨
     (category_needs_update MSVCRT_LC_MONETARY category old (lcid MSVCRT_LC_MONETARY)
          (cp MSVCRT_LC_MONETARY) = true ∧
        ¬ (lcid MSVCRT_LC_MONETARY ≠ 0 ∧ selects category MSVCRT_LC_MONETARY = true) ∧
        l' = monetary_C_record P charmax l)) := by
  unfold build_monetary at h
  have key := needs_update_of_not_reuse MSVCRT_LC_MONETARY category old
    (lcid MSVCRT_LC_MONETARY) (cp MSVCRT_LC_MONETARY)
  split at h
  · rename_i o hb
    simp only [Option.some.injEq] at h
    subst h
    refine ⟨?_, Or.inl ⟨o, rfl, hb, rfl⟩⟩
    intro Y hY hne
    obtain ⟨h1, h2⟩ := hY
    simp only [MSVCRT_LC_COLLATE, MSVCRT_LC_TIME, MSVCRT_LC_MONETARY] at h1 h2 hne
    interval_cases Y <;>
      simp_all [category_block_of, category_data_of, reuse_category, MSVCRT_LC_COLLATE,
        MSVCRT_LC_CTYPE, MSVCRT_LC_MONETARY, MSVCRT_LC_NUMERIC, MSVCRT_LC_TIME]
  · rename_i hnot
    have hnu := key (by
      intro o ho hb
      subst ho
      exact hnot o rfl hb)
    by_cases hsel : lcid MSVCRT_LC_MONETARY ≠ 0 ∧ selects category MSVCRT_LC_MONETARY = true
    · rw [if_pos hsel] at h
      simp only [Option.bind_eq_some] at h
      obtain ⟨⟨failed, l1⟩, hu, h2⟩ := h
      obtain ⟨rfl, id, buf, hid, rfl⟩ := update_threadlocinfo_category_eq P _ _ _ _ _ _ hu
      simp only [Bool.false_eq_true, if_false, Option.map_eq_some', Option.bind_eq_some] at h2
      obtain ⟨q, _, m, _, l3, h3, h4⟩ := h2
      have hl3 : ∃ lc, l3 = { ({ l with
            lc_id := Function.update l.lc_id MSVCRT_LC_MONETARY id
            lc_handle := Function.update l.lc_handle MSVCRT_LC_MONETARY
              (lcid MSVCRT_LC_MONETARY)
            lc_category := Function.update l.lc_category MSVCRT_LC_MONETARY ⟨some buf, some 1⟩,
            lconv_intl_refcount := some 1, lconv_mon_refcount := some 1 } :
              MSVCRT_threadlocinfo) with lconv := lc } ∧
          lc.decimal_point = l.lconv.decimal_point ∧ lc.thousands_sep = l.lconv.thousands_sep ∧
          lc.grouping = l.lconv.grouping ∧ lc._W_decimal_point = l.lconv._W_decimal_point ∧
          lc._W_thousands_sep = l.lconv._W_thousands_sep := by
        by_cases hv : 100 ≤ P._MSVCR_VER
        · rw [if_pos hv] at h3
          simp only [Option.map_eq_some'] at h3
          obtain ⟨w, _, rfl⟩ := h3
          exact ⟨_, rfl, rfl, rfl, rfl, rfl, rfl⟩
        · rw [if_neg hv] at h3
          simp only [Option.some.injEq] at h3
          subst h3
          exact ⟨_, rfl, rfl, rfl, rfl, rfl, rfl⟩
      obtain ⟨lc, rfl, e1, e2, e3, e4, e5⟩ := hl3
      split at h4
      · cases h4
      · rename_i l2 hs
        simp only [Option.some.injEq] at h4
        subst h4
        obtain ⟨v, rfl⟩ := set_lc_locale_name_eq P _ _ _ hs
        refine ⟨?_, Or.inr (Or.inl ⟨hnu, hsel.1, hsel.2, ?_⟩)⟩
        · intro Y hY hne
          obtain ⟨h1, h2⟩ := hY
          simp only [MSVCRT_LC_COLLATE, MSVCRT_LC_TIME, MSVCRT_LC_MONETARY] at h1 h2 hne
          interval_cases Y <;>
            simp_all [category_block_of, category_data_of, MSVCRT_LC_COLLATE,
              MSVCRT_LC_CTYPE, MSVCRT_LC_MONETARY, MSVCRT_LC_NUMERIC, MSVCRT_LC_TIME]
        · simp [locale_built, hid]
    · rw [if_neg hsel] at h
      simp only [Option.some.injEq] at h
      subst h
      refine ⟨?_, Or.inr (Or.inr ⟨hnu, hsel, rfl⟩)⟩
      intro Y hY hne
      obtain ⟨h1, h2⟩ := hY
      simp only [MSVCRT_LC_COLLATE, MSVCRT_LC_TIME, MSVCRT_LC_MONETARY] at h1 h2 hne
      by_cases hv : 100 ≤ P._MSVCR_VER
      · simp only [monetary_C_record, if_pos hv]
        interval_cases Y <;>
          simp_all [category_block_of, category_data_of, set_locale_C, set_monetary,
            set_monetary_W, MSVCRT_LC_COLLATE,
            MSVCRT_LC_CTYPE, MSVCRT_LC_MONETARY, MSVCRT_LC_NUMERIC, MSVCRT_LC_TIME]
      · simp only [monetary_C_record, if_neg hv]
        interval_cases Y <;>
          simp_all [category_block_of, category_data_of, set_locale_C, set_monetary,
            set_monetary_W, MSVCRT_LC_COLLATE,
            MSVCRT_LC_CTYPE, MSVCRT_LC_MONETARY, MSVCRT_LC_NUMERIC, MSVCRT_LC_TIME]

theorem or_null_eq_some_some {α β : Type} (x : Option α) (f : α → Option (Option β)) (b : β)
    (h : or_null x f = some (some b)) : ∃ a, x = some a ∧ f a = some (some b) := by
  cases x with
  | none => simp [or_null] at h
  | some a => exact ⟨a, rfl, h⟩

theorem build_numeric_cases (P : Provider) (category : Int)
    (old : Option MSVCRT_threadlocinfo) (lcid cp : Nat → Nat) (l l' : MSVCRT_threadlocinfo)
    (h : build_numeric P category old lcid cp l = some (some l')) :
    (∀ Y, is_category Y → Y ≠ MSVCRT_LC_NUMERIC →
      category_block_of l' Y = category_block_of l Y) ∧
    ((∃ o, old = some o ∧
        category_needs_update MSVCRT_LC_NUMERIC category old (lcid MSVCRT_LC_NUMERIC)
          (cp MSVCRT_LC_NUMERIC) = false ∧
        l' = reuse_category l o MSVCRT_LC_NUMERIC) ∨
     (category_needs_update MSVCRT_LC_NUMERIC category old (lcid MSVCRT_LC_NUMERIC)
          (cp MSVCRT_LC_NUMERIC) = true ∧
        lcid MSVCRT_LC_NUMERIC ≠ 0 ∧ selects category MSVCRT_LC_NUMERIC = true ∧
        locale_built MSVCRT_LC_NUMERIC lcid cp l') ∨
     (category_needs_update MSVCRT_LC_NUMERIC category old (lcid MSVCRT_LC_NUMERIC)
          (cp MSVCRT_LC_NUMERIC) = true ∧
        ¬ (lcid MSVCRT_LC_NUMERIC ≠ 0 ∧ selects category MSVCRT_LC_NUMERIC = true) ∧
        l' = numeric_C P l)) := by
  unfold build_numeric at h
  have key := needs_update_of_not_reuse MSVCRT_LC_NUMERIC category old
    (lcid MSVCRT_LC_NUMERIC) (cp MSVCRT_LC_NUMERIC)
  split at h
  · rename_i o hb
    simp only [Option.some.injEq] at h
    subst h
    refine ⟨?_, Or.inl ⟨o, rfl, hb, rfl⟩⟩
    intro Y hY hne
    obtain ⟨h1, h2⟩ := hY
    simp only [MSVCRT_LC_COLLATE, MSVCRT_LC_TIME, MSVCRT_LC_NUMERIC] at h1 h2 hne
    interval_cases Y <;>
      simp_all [category_block_of, category_data_of, reuse_category, MSVCRT_LC_COLLATE,
        MSVCRT_LC_CTYPE, MSVCRT_LC_MONETARY, MSVCRT_LC_NUMERIC, MSVCRT_LC_TIME]
  · rename_i hnot
    have hnu := key (by
      intro o ho hb
      subst ho
      exact hnot o rfl hb)
    by_cases hsel : lcid MSVCRT_LC_NUMERIC ≠ 0 ∧ selects category MSVCRT_LC_NUMERIC = true
    · rw [if_pos hsel] at h
      simp only [Option.bind_eq_some] at h
      obtain ⟨⟨failed, l1⟩, hu, h2⟩ := h
      obtain ⟨rfl, id, buf, hid, rfl⟩ := update_threadlocinfo_category_eq P _ _ _ _ _ _ hu
      simp only [Bool.false_eq_true, if_false] at h2
      obtain ⟨dp, _, h2⟩ := or_null_eq_some_some _ _ _ h2
      obtain ⟨ts, _, h2⟩ := or_null_eq_some_some _ _ _ h2
      obtain ⟨gb, _, h2⟩ := or_null_eq_some_some _ _ _ h2
      simp only [Option.map_eq_some', Option.bind_eq_some] at h2
      obtain ⟨gr, _, l3, h3, h4⟩ := h2
      have hl3 : ∃ lc, l3 = { ({ l with
            lc_id := Function.update l.lc_id MSVCRT_LC_NUMERIC id
            lc_handle := Function.update l.lc_handle MSVCRT_LC_NUMERIC
              (lcid MSVCRT_LC_NUMERIC)
            lc_category := Function.update l.lc_category MSVCRT_LC_NUMERIC ⟨some buf, some 1⟩,
            lconv_intl_refcount := some 1, lconv_num_refcount := some 1 } :
              MSVCRT_threadlocinfo) with lconv := lc } ∧
          lc.int_curr_symbol = l.lconv.int_curr_symbol ∧
          lc.currency_symbol = l.lconv.currency_symbol ∧
          lc.mon_decimal_point = l.lconv.mon_decimal_point ∧
          lc.mon_thousands_sep = l.lconv.mon_thousands_sep ∧
          lc.mon_grouping = l.lconv.mon_grouping ∧
          lc.positive_sign = l.lconv.positive_sign ∧
          lc.negative_sign = l.lconv.negative_sign ∧
          lc.int_frac_digits = l.lconv.int_frac_digits ∧
          lc.frac_digits = l.lconv.frac_digits ∧
          lc.p_cs_precedes = l.lconv.p_cs_precedes ∧
          lc.p_sep_by_space = l.lconv.p_sep_by_space ∧
          lc.n_cs_precedes = l.lconv.n_cs_precedes ∧
          lc.n_sep_by_space = l.lconv.n_sep_by_space ∧
          lc.p_sign_posn = l.lconv.p_sign_posn ∧
          lc.n_sign_posn = l.lconv.n_sign_posn ∧
          lc._W_int_curr_symbol = l.lconv._W_int_curr_symbol ∧
          lc._W_currency_symbol = l.lconv._W_currency_symbol ∧
          lc._W_mon_decimal_point = l.lconv._W_mon_decimal_point ∧
          lc._W_mon_thousands_sep = l.lconv._W_mon_thousands_sep ∧
          lc._W_positive_sign = l.lconv._W_positive_sign ∧
          lc._W_negative_sign = l.lconv._W_negative_sign := by
        by_cases hv : 100 ≤ P._MSVCR_VER
        · rw [if_pos hv] at h3
          simp only [Option.map_eq_some', Option.bind_eq_some] at h3
          obtain ⟨wd, _, wt, _, rfl⟩ := h3
          exact ⟨_, rfl, rfl, rfl, rfl, rfl, rfl, rfl, rfl, rfl, rfl, rfl, rfl, rfl, rfl, rfl,
            rfl, rfl, rfl, rfl, rfl, rfl, rfl⟩
        · rw [if_neg hv] at h3
          simp only [Option.some.injEq] at h3
          subst h3
          exact ⟨_, rfl, rfl, rfl, rfl, rfl, rfl, rfl, rfl, rfl, rfl, rfl, rfl, rfl, rfl, rfl,
            rfl, rfl, rfl, rfl, rfl, rfl, rfl⟩
      obtain ⟨lc, rfl, e⟩ := hl3
      split at h4
      · cases h4
      · rename_i l2 hs
        simp only [Option.some.injEq] at h4
        subst h4
        obtain ⟨v, rfl⟩ := set_lc_locale_name_eq P _ _ _ hs
        refine ⟨?_, Or.inr (Or.inl ⟨hnu, hsel.1, hsel.2, ?_⟩)⟩
        · intro Y hY hne
          obtain ⟨h1, h2⟩ := hY
          simp only [MSVCRT_LC_COLLATE, MSVCRT_LC_TIME, MSVCRT_LC_NUMERIC] at h1 h2 hne
          interval_cases Y <;>
            simp_all [category_block_of, category_data_of, MSVCRT_LC_COLLATE,
              MSVCRT_LC_CTYPE, MSVCRT_LC_MONETARY, MSVCRT_LC_NUMERIC, MSVCRT_LC_TIME]
        · simp [locale_built, hid]
    · rw [if_neg hsel] at h
      simp only [Option.some.injEq] at h
      subst h
      refine ⟨?_, Or.inr (Or.inr ⟨hnu, hsel, rfl⟩)⟩
      intro Y hY hne
      obtain ⟨h1, h2⟩ := hY
      simp only [MSVCRT_LC_COLLATE, MSVCRT_LC_TIME, MSVCRT_LC_NUMERIC] at h1 h2 hne
      by_cases hv : 100 ≤ P._MSVCR_VER
      · simp only [numeric_C, if_pos hv]
        interval_cases Y <;>
          simp_all [category_block_of, category_data_of, set_locale_C, MSVCRT_LC_COLLATE,
            MSVCRT_LC_CTYPE, MSVCRT_LC_MONETARY, MSVCRT_LC_NUMERIC, MSVCRT_LC_TIME]
      · simp only [numeric_C, if_neg hv]
        interval_cases Y <;>
          simp_all [category_block_of, category_data_of, set_locale_C, MSVCRT_LC_COLLATE,
            MSVCRT_LC_CTYPE, MSVCRT_LC_MONETARY, MSVCRT_LC_NUMERIC, MSVCRT_LC_TIME]

theorem build_time_cases (P : Provider) (category : Int)
    (old : Option MSVCRT_threadlocinfo) (lcid cp : Nat → Nat) (l l' : MSVCRT_threadlocinfo)
    (h : build_time P category old lcid cp l = some (some l')) :
    (∀ Y, is_category Y → Y ≠ MSVCRT_LC_TIME →
      category_block_of l' Y = category_block_of l Y) ∧
    ((∃ o, old = some o ∧
        category_needs_update MSVCRT_LC_TIME category old (lcid MSVCRT_LC_TIME)
          (cp MSVCRT_LC_TIME) = false ∧
        l' = reuse_category l o MSVCRT_LC_TIME) ∨
     (category_needs_update MSVCRT_LC_TIME category old (lcid MSVCRT_LC_TIME)
          (cp MSVCRT_LC_TIME) = true ∧
        lcid MSVCRT_LC_TIME ≠ 0 ∧ selects category MSVCRT_LC_TIME = true ∧
        locale_built MSVCRT_LC_TIME lcid cp l') ∨
     (category_needs_update MSVCRT_LC_TIME category old (lcid MSVCRT_LC_TIME)
          (cp MSVCRT_LC_TIME) = true ∧
        ¬ (lcid MSVCRT_LC_TIME ≠ 0 ∧ selects category MSVCRT_LC_TIME = true) ∧
        ∃ t, build_time_data P (lcid MSVCRT_LC_TIME) = some t ∧
          l' = { set_locale_C l MSVCRT_LC_TIME with lc_time_curr := some t })) := by
  unfold build_time at h
  have key := needs_update_of_not_reuse MSVCRT_LC_TIME category old
    (lcid MSVCRT_LC_TIME) (cp MSVCRT_LC_TIME)
  split at h
  · rename_i o hb
    simp only [Option.some.injEq] at h
    subst h
    refine ⟨?_, Or.inl ⟨o, rfl, hb, rfl⟩⟩
    intro Y hY hne
    obtain ⟨h1, h2⟩ := hY
    simp only [MSVCRT_LC_COLLATE, MSVCRT_LC_TIME] at h1 h2 hne
    interval_cases Y <;>
      simp_all [category_block_of, category_data_of, reuse_category, MSVCRT_LC_COLLATE,
        MSVCRT_LC_CTYPE, MSVCRT_LC_MONETARY, MSVCRT_LC_NUMERIC, MSVCRT_LC_TIME]
  · rename_i hnot
    have hnu := key (by
      intro o ho hb
      subst ho
      exact hnot o rfl hb)
    by_cases hsel : lcid MSVCRT_LC_TIME ≠ 0 ∧ selects category MSVCRT_LC_TIME = true
    · rw [if_pos hsel] at h
      simp only [Option.map_eq_some', Option.bind_eq_some] at h
      obtain ⟨r, ⟨⟨failed, l1⟩, hu, h2⟩, l3, h3, t, ht, rfl⟩ := h
      obtain ⟨rfl, id, buf, hid, rfl⟩ := update_threadlocinfo_category_eq P _ _ _ _ _ _ hu
      simp only [Bool.false_eq_true, if_false] at h2
      subst h2
      split at h3
      · cases h3
      · rename_i l2 hs
        simp only [Option.some.injEq] at h3
        subst h3
        obtain ⟨v, rfl⟩ := set_lc_locale_name_eq P _ _ _ hs
        refine ⟨?_, Or.inr (Or.inl ⟨hnu, hsel.1, hsel.2, ?_⟩)⟩
        · intro Y hY hne
          obtain ⟨h1, h2⟩ := hY
          simp only [MSVCRT_LC_COLLATE, MSVCRT_LC_TIME] at h1 h2 hne
          interval_cases Y <;>
            simp_all [category_block_of, category_data_of, MSVCRT_LC_COLLATE,
              MSVCRT_LC_CTYPE, MSVCRT_LC_MONETARY, MSVCRT_LC_NUMERIC, MSVCRT_LC_TIME]
        · simp [locale_built, hid]
    · rw [if_neg hsel] at h
      simp only [Option.map_eq_some', Option.bind_eq_some, Option.some.injEq] at h
      obtain ⟨r, rfl, l3, h3, t, ht, rfl⟩ := h
      simp only [Option.some.injEq] at h3
      subst h3
      refine ⟨?_, Or.inr (Or.inr ⟨hnu, hsel, t, ht, rfl⟩)⟩
      intro Y hY hne
      obtain ⟨h1, h2⟩ := hY
      simp only [MSVCRT_LC_COLLATE, MSVCRT_LC_TIME] at h1 h2 hne
      interval_cases Y <;>
        simp_all [category_block_of, category_data_of, set_locale_C, MSVCRT_LC_COLLATE,
          MSVCRT_LC_CTYPE, MSVCRT_LC_MONETARY, MSVCRT_LC_NUMERIC, MSVCRT_LC_TIME]

theorem build_categories_chain (P : Provider) (charmax : Nat) (category : Int)
    (old : Option MSVCRT_threadlocinfo) (lcid cp : Nat → Nat) (new : MSVCRT_threadlocinfo)
    (h : build_categories P charmax category old lcid cp = some (some new)) :
    ∃ l1 l2 l3 l4,
      build_collate P category old lcid cp locinfo_fresh = some (some l1) ∧
      build_ctype P category old lcid cp l1 = some (some l2) ∧
      build_monetary P charmax category old lcid cp l2 = some (some l3) ∧
      build_numeric P category old lcid cp l3 = some (some l4) ∧
      build_time P category old lcid cp l4 = some (some new) := by
  unfold build_categories at h
  simp only [Option.bind_eq_some] at h
  obtain ⟨r1, h1, r2, h2, r3, h3, r4, h4, h5⟩ := h
  obtain ⟨l4, rfl, h5⟩ := or_null_eq_some_some _ _ _ h5
  obtain ⟨l3, rfl, h4⟩ := or_null_eq_some_some _ _ _ h4
  obtain ⟨l2, rfl, h3⟩ := or_null_eq_some_some _ _ _ h3
  obtain ⟨l1, rfl, h2⟩ := or_null_eq_some_some _ _ _ h2
  exact ⟨l1, l2, l3, l4, h1, h2, h3, h4, h5⟩

theorem locale_built_congr (X : Nat) (lcid cp : Nat → Nat) (l l' : MSVCRT_threadlocinfo)
    (h : category_block_of l' X = category_block_of l X) (hb : locale_built X lcid cp l) :
    locale_built X lcid cp l' := by
  simp only [category_block_of, category_block.mk.injEq] at h
  obtain ⟨h1, h2, h3, _, _⟩ := h
  unfold locale_built at *
  rw [h1, h2, h3]
  exact hb

theorem reuse_block_congr (X : Nat) (hX : is_category X) (o l l0 : MSVCRT_threadlocinfo)
    (h : category_block_of l X = category_block_of l0 X) :
    category_block_of (reuse_category l o X) X = category_block_of (reuse_category l0 o X) X := by
  obtain ⟨h1, h2⟩ := hX
  simp only [MSVCRT_LC_COLLATE, MSVCRT_LC_TIME] at h1 h2
  interval_cases X <;>
    simp_all [category_block_of, category_data_of, reuse_category, MSVCRT_LC_COLLATE,
      MSVCRT_LC_CTYPE, MSVCRT_LC_MONETARY, MSVCRT_LC_NUMERIC, MSVCRT_LC_TIME]

theorem C_record_block_congr (P : Provider) (charmax : Nat) (X : Nat) (hX : is_category X)
    (t : Option MSVCRT___lc_time_data) (l l0 : MSVCRT_threadlocinfo)
    (h : category_block_of l X = category_block_of l0 X) :
    category_block_of (C_record P charmax X t l) X
      = category_block_of (C_record P charmax X t l0) X := by
  obtain ⟨h1, h2⟩ := hX
  simp only [MSVCRT_LC_COLLATE, MSVCRT_LC_TIME] at h1 h2
  by_cases hv : 100 ≤ P._MSVCR_VER
  · interval_cases X <;> simp only [C_record, monetary_C_record, numeric_C, if_pos hv] <;>
      simp_all [category_block_of, category_data_of, set_locale_C, ctype_C,
        set_monetary, set_monetary_W, MSVCRT_LC_COLLATE,
        MSVCRT_LC_CTYPE, MSVCRT_LC_MONETARY, MSVCRT_LC_NUMERIC, MSVCRT_LC_TIME]
  · interval_cases X <;> simp only [C_record, monetary_C_record, numeric_C, if_neg hv] <;>
      simp_all [category_block_of, category_data_of, set_locale_C, ctype_C,
        set_monetary, set_monetary_W, MSVCRT_LC_COLLATE,
        MSVCRT_LC_CTYPE, MSVCRT_LC_MONETARY, MSVCRT_LC_NUMERIC, MSVCRT_LC_TIME]

theorem outcome_of_cases (P : Provider) (charmax : Nat) (category : Int)
    (old : Option MSVCRT_threadlocinfo) (lcid cp : Nat → Nat) (X : Nat) (hX : is_category X)
    (l l' new : MSVCRT_threadlocinfo)
    (hin : category_block_of l X = category_block_of locinfo_fresh X)
    (hout : category_block_of new X = category_block_of l' X)
    (hc : (∃ o, old = some o ∧ category_needs_update X category old (lcid X) (cp X) = false ∧
              l' = reuse_category l o X) ∨
          (category_needs_update X category old (lcid X) (cp X) = true ∧ lcid X ≠ 0 ∧
              selects category X = true ∧ locale_built X lcid cp l') ∨
          (category_needs_update X category old (lcid X) (cp X) = true ∧
              ¬ (lcid X ≠ 0 ∧ selects category X = true) ∧
              ∃ t, (X = MSVCRT_LC_TIME → build_time_data P (lcid X) = t ∧ t ≠ none) ∧
                l' = C_record P charmax X t l)) :
    built_outcome P charmax category old lcid cp X new := by
  rcases hc with ⟨o, ho, hnu, rfl⟩ | ⟨hnu, h1, h2, h3⟩ | ⟨hnu, h1, t, ht, rfl⟩
  · exact Or.inl ⟨o, ho, hnu, hout.trans (reuse_block_congr X hX o l locinfo_fresh hin)⟩
  · exact Or.inr (Or.inl ⟨hnu, h1, h2, locale_built_congr X lcid cp l' new hout h3⟩)
  · exact Or.inr (Or.inr ⟨hnu, h1, t, ht,
      hout.trans (C_record_block_congr P charmax X hX t l locinfo_fresh hin)⟩)

/-- Every category of the record that create_locinfo assembles from the
arrays `lcid` and `cp` is reused, built from the locale, or the "C" block. -/
theorem build_categories_outcome (P : Provider) (charmax : Nat) (category : Int)
    (old : Option MSVCRT_threadlocinfo) (lcid cp : Nat → Nat) (new : MSVCRT_threadlocinfo)
    (h : build_categories P charmax category old lcid cp = some (some new))
    (X : Nat) (hX : is_category X) :
    built_outcome P charmax category old lcid cp X new := by
  obtain ⟨l1, l2, l3, l4, h1, h2, h3, h4, h5⟩ := build_categories_chain P charmax category old
    lcid cp new h
  obtain ⟨f1, c1⟩ := build_collate_cases P category old lcid cp _ _ h1
  obtain ⟨f2, c2⟩ := build_ctype_cases P category old lcid cp _ _ h2
  obtain ⟨f3, c3⟩ := build_monetary_cases P charmax category old lcid cp _ _ h3
  obtain ⟨f4, c4⟩ := build_numeric_cases P category old lcid cp _ _ h4
  obtain ⟨f5, c5⟩ := build_time_cases P category old lcid cp _ _ h5
  have hX' := hX
  obtain ⟨hlo, hhi⟩ := hX
  simp only [MSVCRT_LC_COLLATE, MSVCRT_LC_TIME] at hlo hhi
  interval_cases X
  · -- Collate
    have hout : category_block_of new 1 = category_block_of l1 1 := by
      rw [f5 1 hX' (by decide), f4 1 hX' (by decide), f3 1 hX' (by decide), f2 1 hX' (by decide)]
    refine outcome_of_cases P charmax category old lcid cp 1 hX' locinfo_fresh l1 new rfl hout ?_
    rcases c1 with c | c | ⟨a, b, c⟩
    · exact Or.inl c
    · exact Or.inr (Or.inl c)
    · exact Or.inr (Or.inr ⟨a, b, none, fun hh => absurd hh (by decide), c⟩)
  · -- Ctype
    have hout : category_block_of new 2 = category_block_of l2 2 := by
      rw [f5 2 hX' (by decide), f4 2 hX' (by decide), f3 2 hX' (by decide)]
    refine outcome_of_cases P charmax category old lcid cp 2 hX' l1 l2 new
      (f1 2 hX' (by decide)) hout ?_
    rcases c2 with c | c | ⟨a, b, c⟩
    · exact Or.inl c
    · exact Or.inr (Or.inl c)
    · exact Or.inr (Or.inr ⟨a, b, none, fun hh => absurd hh (by decide), c⟩)
  · -- Monetary
    have hout : category_block_of new 3 = category_block_of l3 3 := by
      rw [f5 3 hX' (by decide), f4 3 hX' (by decide)]
    refine outcome_of_cases P charmax category old lcid cp 3 hX' l2 l3 new
      ((f2 3 hX' (by decide)).trans (f1 3 hX' (by decide))) hout ?_
    rcases c3 with c | c | ⟨a, b, c⟩
    · exact Or.inl c
    · exact Or.inr (Or.inl c)
    · exact Or.inr (Or.inr ⟨a, b, none, fun hh => absurd hh (by decide), c⟩)
  · -- Numeric
    have hout : category_block_of new 4 = category_block_of l4 4 := by
      rw [f5 4 hX' (by decide)]
    refine outcome_of_cases P charmax category old lcid cp 4 hX' l3 l4 new
      (((f3 4 hX' (by decide)).trans (f2 4 hX' (by decide))).trans (f1 4 hX' (by decide))) hout ?_
    rcases c4 with c | c | ⟨a, b, c⟩
    · exact Or.inl c
    · exact Or.inr (Or.inl c)
    · exact Or.inr (Or.inr ⟨a, b, none, fun hh => absurd hh (by decide), c⟩)
  · -- Time
    refine outcome_of_cases P charmax category old lcid cp 5 hX' l4 new new
      ((((f4 5 hX' (by decide)).trans (f3 5 hX' (by decide))).trans
        (f2 5 hX' (by decide))).trans (f1 5 hX' (by decide))) rfl ?_
    rcases c5 with c | c | ⟨a, b, t, ht, c⟩
    · exact Or.inl c
    · exact Or.inr (Or.inl c)
    · exact Or.inr (Or.inr ⟨a, b, some t, fun _ => ⟨ht, by simp⟩, c⟩)

/-! ### What MSVCRT_setlocale installs -/

theorem install_collate_frame (P : Provider) (l n : MSVCRT_threadlocinfo) (Y : Nat)
    (hY : is_category Y) (hne : Y ≠ MSVCRT_LC_COLLATE) :
    category_block_of (install_collate P l n) Y = category_block_of l Y := by
  obtain ⟨h1, h2⟩ := hY
  simp only [MSVCRT_LC_COLLATE, MSVCRT_LC_TIME] at h1 h2 hne
  unfold install_collate
  split_ifs
  · unfold install_common
    split_ifs <;> interval_cases Y <;>
      simp_all [category_block_of, category_data_of, MSVCRT_LC_COLLATE,
        MSVCRT_LC_CTYPE, MSVCRT_LC_MONETARY, MSVCRT_LC_NUMERIC, MSVCRT_LC_TIME]
  · rfl

theorem install_ctype_frame (P : Provider) (l n : MSVCRT_threadlocinfo) (Y : Nat)
    (hY : is_category Y) (hne : Y ≠ MSVCRT_LC_CTYPE) :
    category_block_of (install_ctype P l n) Y = category_block_of l Y := by
  obtain ⟨h1, h2⟩ := hY
  simp only [MSVCRT_LC_COLLATE, MSVCRT_LC_TIME, MSVCRT_LC_CTYPE] at h1 h2 hne
  unfold install_ctype
  split_ifs
  · unfold install_common
    split_ifs <;> interval_cases Y <;>
      simp_all [category_block_of, category_data_of, MSVCRT_LC_COLLATE,
        MSVCRT_LC_CTYPE, MSVCRT_LC_MONETARY, MSVCRT_LC_NUMERIC, MSVCRT_LC_TIME]
  · rfl

theorem install_monetary_frame (P : Provider) (l n : MSVCRT_threadlocinfo) (Y : Nat)
    (hY : is_category Y) (hne : Y ≠ MSVCRT_LC_MONETARY) :
    category_block_of (install_monetary P l n) Y = category_block_of l Y := by
  obtain ⟨h1, h2⟩ := hY
  simp only [MSVCRT_LC_COLLATE, MSVCRT_LC_TIME, MSVCRT_LC_MONETARY] at h1 h2 hne
  unfold install_monetary
  split_ifs
  · unfold install_common
    split_ifs <;> interval_cases Y <;>
      simp_all [category_block_of, category_data_of, MSVCRT_LC_COLLATE,
        MSVCRT_LC_CTYPE, MSVCRT_LC_MONETARY, MSVCRT_LC_NUMERIC, MSVCRT_LC_TIME]
  · unfold install_common
    split_ifs <;> interval_cases Y <;>
      simp_all [category_block_of, category_data_of, MSVCRT_LC_COLLATE,
        MSVCRT_LC_CTYPE, MSVCRT_LC_MONETARY, MSVCRT_LC_NUMERIC, MSVCRT_LC_TIME]
  · rfl

theorem install_numeric_frame (P : Provider) (l n : MSVCRT_threadlocinfo) (Y : Nat)
    (hY : is_category Y) (hne : Y ≠ MSVCRT_LC_NUMERIC) :
    category_block_of (install_numeric P l n) Y = category_block_of l Y := by
  obtain ⟨h1, h2⟩ := hY
  simp only [MSVCRT_LC_COLLATE, MSVCRT_LC_TIME, MSVCRT_LC_NUMERIC] at h1 h2 hne
  unfold install_numeric
  split_ifs
  · unfold install_common
    split_ifs <;> interval_cases Y <;>
      simp_all [category_block_of, category_data_of, MSVCRT_LC_COLLATE,
        MSVCRT_LC_CTYPE, MSVCRT_LC_MONETARY, MSVCRT_LC_NUMERIC, MSVCRT_LC_TIME]
  · unfold install_common
    split_ifs <;> interval_cases Y <;>
      simp_all [category_block_of, category_data_of, MSVCRT_LC_COLLATE,
        MSVCRT_LC_CTYPE, MSVCRT_LC_MONETARY, MSVCRT_LC_NUMERIC, MSVCRT_LC_TIME]
  · rfl

theorem install_time_frame (P : Provider) (l n : MSVCRT_threadlocinfo) (Y : Nat)
    (hY : is_category Y) (hne : Y ≠ MSVCRT_LC_TIME) :
    category_block_of (install_time P l n) Y = category_block_of l Y := by
  obtain ⟨h1, h2⟩ := hY
  simp only [MSVCRT_LC_COLLATE, MSVCRT_LC_TIME] at h1 h2 hne
  unfold install_time
  split_ifs
  · unfold install_common
    split_ifs <;> interval_cases Y <;>
      simp_all [category_block_of, category_data_of, MSVCRT_LC_COLLATE,
        MSVCRT_LC_CTYPE, MSVCRT_LC_MONETARY, MSVCRT_LC_NUMERIC, MSVCRT_LC_TIME]
  · rfl

theorem category_differs_congr (l l0 n : MSVCRT_threadlocinfo) (X : Nat)
    (h : category_block_of l X = category_block_of l0 X) :
    category_differs l n X = category_differs l0 n X := by
  simp only [category_block_of, category_block.mk.injEq] at h
  obtain ⟨h1, h2, _, _, _⟩ := h
  simp only [category_differs, h1, h2]

theorem install_one_congr (P : Provider) (X : Nat) (hX : is_category X)
    (l l0 n : MSVCRT_threadlocinfo)
    (h : category_block_of l X = category_block_of l0 X) :
    category_block_of (install_one P X l n) X = category_block_of (install_one P X l0 n) X := by
  have hd := category_differs_congr l l0 n X h
  obtain ⟨h1, h2⟩ := hX
  simp only [MSVCRT_LC_COLLATE, MSVCRT_LC_TIME] at h1 h2
  cases hb : category_differs l0 n X with
  | false =>
    rw [hb] at hd
    interval_cases X <;>
      simp only [install_one, install_collate, install_ctype, install_monetary, install_numeric,
        install_time, MSVCRT_LC_COLLATE, MSVCRT_LC_CTYPE, MSVCRT_LC_MONETARY,
        MSVCRT_LC_NUMERIC, MSVCRT_LC_TIME] at * <;>
      simp [hb, hd, h]
  | true =>
    rw [hb] at hd
    by_cases hv : 100 ≤ P._MSVCR_VER <;> by_cases hw : 110 ≤ P._MSVCR_VER <;>
    interval_cases X <;>
      simp only [install_one, install_collate, install_ctype, install_monetary, install_numeric,
        install_time, install_common, MSVCRT_LC_COLLATE, MSVCRT_LC_CTYPE, MSVCRT_LC_MONETARY,
        MSVCRT_LC_NUMERIC, MSVCRT_LC_TIME] at * <;>
      simp only [hb, hd, hv, hw, if_true, if_false] <;>
      simp_all [category_block_of, category_data_of, MSVCRT_LC_COLLATE,
        MSVCRT_LC_CTYPE, MSVCRT_LC_MONETARY, MSVCRT_LC_NUMERIC, MSVCRT_LC_TIME]

/-- The block of a category after the five installs is the block its own
install step produces from the current record. -/
theorem install_categories_block (P : Provider) (l n : MSVCRT_threadlocinfo) (X : Nat)
    (hX : is_category X) :
    category_block_of (install_categories P l n) X = category_block_of (install_one P X l n) X := by
  have hX' := hX
  obtain ⟨h1, h2⟩ := hX
  simp only [MSVCRT_LC_COLLATE, MSVCRT_LC_TIME] at h1 h2
  unfold install_categories
  interval_cases X
  · rw [install_time_frame P _ n 1 hX' (by decide), install_numeric_frame P _ n 1 hX' (by decide),
      install_monetary_frame P _ n 1 hX' (by decide), install_ctype_frame P _ n 1 hX' (by decide)]
    rfl
  · rw [install_time_frame P _ n 2 hX' (by decide), install_numeric_frame P _ n 2 hX' (by decide),
      install_monetary_frame P _ n 2 hX' (by decide)]
    exact install_one_congr P 2 hX' _ l n (install_collate_frame P l n 2 hX' (by decide))
  · rw [install_time_frame P _ n 3 hX' (by decide), install_numeric_frame P _ n 3 hX' (by decide)]
    exact install_one_congr P 3 hX' _ l n
      ((install_ctype_frame P _ n 3 hX' (by decide)).trans
        (install_collate_frame P l n 3 hX' (by decide)))
  · rw [install_time_frame P _ n 4 hX' (by decide)]
    exact install_one_congr P 4 hX' _ l n
      (((install_monetary_frame P _ n 4 hX' (by decide)).trans
        (install_ctype_frame P _ n 4 hX' (by decide))).trans
        (install_collate_frame P l n 4 hX' (by decide)))
  · exact install_one_congr P 5 hX' _ l n
      ((((install_numeric_frame P _ n 5 hX' (by decide)).trans
        (install_monetary_frame P _ n 5 hX' (by decide))).trans
        (install_ctype_frame P _ n 5 hX' (by decide))).trans
        (install_collate_frame P l n 5 hX' (by decide)))

/-- A category whose locale id and codepage are the same in the current and
in the new record is left exactly as it was. -/
theorem install_categories_same (P : Provider) (l n : MSVCRT_threadlocinfo) (X : Nat)
    (hX : is_category X) (hd : category_differs l n X = false) :
    category_block_of (install_categories P l n) X = category_block_of l X := by
  rw [install_categories_block P l n X hX]
  obtain ⟨h1, h2⟩ := hX
  simp only [MSVCRT_LC_COLLATE, MSVCRT_LC_TIME] at h1 h2
  interval_cases X <;>
    simp [install_one, install_collate, install_ctype, install_monetary, install_numeric,
      install_time, hd, MSVCRT_LC_COLLATE,
      MSVCRT_LC_CTYPE, MSVCRT_LC_MONETARY, MSVCRT_LC_NUMERIC, MSVCRT_LC_TIME]

/-- After the installs every category holds the locale id and the codepage of
the new record. -/
theorem install_categories_handle (P : Provider) (l n : MSVCRT_threadlocinfo) (X : Nat)
    (hX : is_category X) :
    (install_categories P l n).lc_handle X = n.lc_handle X ∧
    ((install_categories P l n).lc_id X).wCodePage = (n.lc_id X).wCodePage := by
  have hb := install_categories_block P l n X hX
  simp only [category_block_of, category_block.mk.injEq] at hb
  obtain ⟨e1, e2, _, _, _⟩ := hb
  rw [e1, e2]
  obtain ⟨h1, h2⟩ := hX
  simp only [MSVCRT_LC_COLLATE, MSVCRT_LC_TIME] at h1 h2
  interval_cases X <;>
    simp only [install_one, install_collate, install_ctype, install_monetary, install_numeric,
      install_time, install_common, category_differs, MSVCRT_LC_COLLATE,
      MSVCRT_LC_CTYPE, MSVCRT_LC_MONETARY, MSVCRT_LC_NUMERIC, MSVCRT_LC_TIME] <;>
    split_ifs <;> simp_all

/-! ### Unfolding create_locinfo and MSVCRT_setlocale -/

theorem create_locinfo_success (P : Provider) (charmax : Nat) (category : Int) (locale : CStr)
    (old : Option MSVCRT_threadlocinfo) (data data' : thread_data_t)
    (new : MSVCRT_threadlocinfo)
    (h : create_locinfo P charmax category (some locale) old data = some (some new, data')) :
    ¬ (category < (MSVCRT_LC_MIN : Int) ∨ category > (MSVCRT_LC_MAX : Int)) ∧
    ∃ lcid cp, create_locinfo_lcids P locale data = some (some (lcid, cp), data') ∧
      build_categories P charmax category old lcid cp = some (some new) := by
  unfold create_locinfo at h
  simp only at h
  by_cases hcat : category < (MSVCRT_LC_MIN : Int) ∨ category > (MSVCRT_LC_MAX : Int)
  · rw [if_pos hcat] at h
    simp at h
  · rw [if_neg hcat] at h
    refine ⟨hcat, ?_⟩
    simp only [Option.bind_eq_some] at h
    obtain ⟨⟨arrays, d1⟩, h1, h2⟩ := h
    rcases arrays with _ | ⟨lcid, cp⟩
    · simp at h2
    · simp only [Option.map_eq_some', Prod.mk.injEq] at h2
      obtain ⟨r, hr, rfl, rfl⟩ := h2
      exact ⟨lcid, cp, h1, hr⟩

/-- A call of MSVCRT_setlocale with a descriptor either returns NULL with the
globals untouched, or installs the record create_locinfo returned. -/
theorem setlocale_cases (P : Provider) (g g' : Globals) (data data' : thread_data_t)
    (category : Int) (locale : CStr) (locinfo : MSVCRT_threadlocinfo) (ret : Option CStr)
    (hloc : get_locinfo g data = some locinfo)
    (h : MSVCRT_setlocale P g data category (some locale) = some (ret, g', data')) :
    (ret = none ∧ g' = g ∧ get_locinfo g' data' = some locinfo) ∨
    (∃ new data1,
      create_locinfo P g.charmax category (some locale) (some locinfo) data
        = some (some new, data1) ∧
      get_locinfo g' data' = some (install_categories P locinfo new) ∧
      (data.have_locale = false → g' = refresh_mirrors
        { g with MSVCRT_locale := some (install_categories P locinfo new) }
        (install_categories P locinfo new)) ∧
      (data.have_locale = true → g' = g) ∧
      data'.have_locale = data.have_locale ∧
      data'.cached_locale = data1.cached_locale ∧ data'.cached_lcid = data1.cached_lcid ∧
      data'.cached_cp = data1.cached_cp ∧
      ((category = (MSVCRT_LC_ALL : Int) ∧
          construct_lc_all (install_categories P locinfo new) = ret.map id ∧ ret ≠ none) ∨
       (category ≠ (MSVCRT_LC_ALL : Int) ∧
          ret = ((install_categories P locinfo new).lc_category category.toNat).locale))) := by
  unfold MSVCRT_setlocale at h
  rw [hloc] at h
  simp only [Option.some_bind] at h
  by_cases hcat : category < (MSVCRT_LC_MIN : Int) ∨ category > (MSVCRT_LC_MAX : Int)
  · rw [if_pos hcat] at h
    simp only [Option.some.injEq, Prod.mk.injEq] at h
    obtain ⟨rfl, rfl, rfl⟩ := h
    exact Or.inl ⟨rfl, rfl, hloc⟩
  · rw [if_neg hcat] at h
    simp only [Option.bind_eq_some] at h
    obtain ⟨⟨newl, data1⟩, hc, h2⟩ := h
    obtain ⟨k1, k2⟩ := create_locinfo_data_frame P _ _ _ _ _ _ hc
    simp only at k1 k2
    rcases newl with _ | new
    · simp only [Option.some.injEq, Prod.mk.injEq] at h2
      obtain ⟨rfl, rfl, rfl⟩ := h2
      refine Or.inl ⟨rfl, rfl, ?_⟩
      rw [← hloc]
      simp only [get_locinfo, k1, k2]
    · refine Or.inr ⟨new, data1, hc, ?_⟩
      simp only at h2
      cases hl : data.have_locale with
      | false =>
        rw [hl] at k1
        simp only [k1, Bool.not_false, if_true] at h2
        by_cases hall : category = (MSVCRT_LC_ALL : Int)
        · rw [if_pos hall] at h2
          simp only [Option.map_eq_some', Prod.mk.injEq] at h2
          obtain ⟨s, hs, rfl, rfl, rfl⟩ := h2
          refine ⟨?_, fun _ => rfl, fun hh => by simp at hh, k1, rfl, rfl, rfl,
            Or.inl ⟨hall, by simp [hs], by simp⟩⟩
          simp [get_locinfo, k1, refresh_mirrors]
        · rw [if_neg hall] at h2
          simp only [Option.some.injEq, Prod.mk.injEq] at h2
          obtain ⟨rfl, rfl, rfl⟩ := h2
          refine ⟨?_, fun _ => rfl, fun hh => by simp at hh, k1, rfl, rfl, rfl,
            Or.inr ⟨hall, rfl⟩⟩
          simp [get_locinfo, k1, refresh_mirrors]
      | true =>
        rw [hl] at k1
        simp only [k1, Bool.not_true, Bool.false_eq_true, if_false] at h2
        by_cases hall : category = (MSVCRT_LC_ALL : Int)
        · rw [if_pos hall] at h2
          simp only [Option.map_eq_some', Prod.mk.injEq] at h2
          obtain ⟨s, hs, rfl, rfl, rfl⟩ := h2
          refine ⟨?_, fun hh => by simp at hh, fun _ => rfl, rfl, rfl, rfl, rfl,
            Or.inl ⟨hall, by simp [hs], by simp⟩⟩
          simp [get_locinfo, k1]
        · rw [if_neg hall] at h2
          simp only [Option.some.injEq, Prod.mk.injEq] at h2
          obtain ⟨rfl, rfl, rfl⟩ := h2
          refine ⟨?_, fun hh => by simp at hh, fun _ => rfl, rfl, rfl, rfl, rfl,
            Or.inr ⟨hall, rfl⟩⟩
          simp [get_locinfo, k1]

/-! ### Facts about the assembled record -/

theorem C_record_fresh_block (P : Provider) (charmax : Nat) (X : Nat) (hX : is_category X)
    (t : Option MSVCRT___lc_time_data) :
    (C_record P charmax X t locinfo_fresh).lc_handle X = 0 ∧
    (C_record P charmax X t locinfo_fresh).lc_id X = ⟨0, 0, 0⟩ ∧
    ((C_record P charmax X t locinfo_fresh).lc_category X).locale = some (cstr "C") := by
  obtain ⟨h1, h2⟩ := hX
  simp only [MSVCRT_LC_COLLATE, MSVCRT_LC_TIME] at h1 h2
  by_cases hv : 100 ≤ P._MSVCR_VER
  · interval_cases X <;> simp only [C_record, monetary_C_record, numeric_C, if_pos hv] <;>
      simp [locinfo_fresh, set_locale_C, ctype_C, MSVCRT_LC_COLLATE,
        MSVCRT_LC_CTYPE, MSVCRT_LC_MONETARY, MSVCRT_LC_NUMERIC, MSVCRT_LC_TIME]
  · interval_cases X <;> simp only [C_record, monetary_C_record, numeric_C, if_neg hv] <;>
      simp [locinfo_fresh, set_locale_C, ctype_C, MSVCRT_LC_COLLATE,
        MSVCRT_LC_CTYPE, MSVCRT_LC_MONETARY, MSVCRT_LC_NUMERIC, MSVCRT_LC_TIME]

theorem reuse_fresh_block (o : MSVCRT_threadlocinfo) (X : Nat) :
    (reuse_category locinfo_fresh o X).lc_handle X = o.lc_handle X ∧
    ((reuse_category locinfo_fresh o X).lc_id X).wCodePage = (o.lc_id X).wCodePage ∧
    ((reuse_category locinfo_fresh o X).lc_category X).locale = none := by
  simp [reuse_category, locinfo_fresh]

/-- The locale id and codepage of each category of the assembled record, in
the three outcomes. -/
theorem built_outcome_handle (P : Provider) (charmax : Nat) (category : Int)
    (old : Option MSVCRT_threadlocinfo) (lcid cp : Nat → Nat) (X : Nat) (hX : is_category X)
    (new : MSVCRT_threadlocinfo) (h : built_outcome P charmax category old lcid cp X new) :
    (∃ o, old = some o ∧ category_needs_update X category old (lcid X) (cp X) = false ∧
      new.lc_handle X = o.lc_handle X ∧ (new.lc_id X).wCodePage = (o.lc_id X).wCodePage) ∨
    (category_needs_update X category old (lcid X) (cp X) = true ∧ lcid X ≠ 0 ∧
      selects category X = true ∧ new.lc_handle X = lcid X ∧
      (new.lc_id X).wCodePage = cp X ∧ ∃ buf, (new.lc_category X).locale = some buf) ∨
    (category_needs_update X category old (lcid X) (cp X) = true ∧
      ¬ (lcid X ≠ 0 ∧ selects category X = true) ∧ new.lc_handle X = 0 ∧
      new.lc_id X = ⟨0, 0, 0⟩ ∧ (new.lc_category X).locale = some (cstr "C")) := by
  rcases h with ⟨o, ho, hnu, hb⟩ | ⟨hnu, h1, h2, h3⟩ | ⟨hnu, h1, t, _, hb⟩
  · left
    simp only [category_block_of, category_block.mk.injEq] at hb
    obtain ⟨e1, e2, _, _, _⟩ := hb
    obtain ⟨r1, r2, _⟩ := reuse_fresh_block o X
    exact ⟨o, ho, hnu, e1.trans r1, by rw [e2]; exact r2⟩
  · right; left
    exact ⟨hnu, h1, h2, h3⟩
  · right; right
    simp only [category_block_of, category_block.mk.injEq] at hb
    obtain ⟨e1, e2, e3, _, _⟩ := hb
    obtain ⟨r1, r2, r3⟩ := C_record_fresh_block P charmax X hX t
    exact ⟨hnu, h1, e1.trans r1, e2.trans r2, by rw [e3]; exact r3⟩

theorem needs_update_other_category (Y c : Nat) (o : MSVCRT_threadlocinfo) (lcid cp : Nat)
    (hc : is_category c) (hne : Y ≠ c) :
    category_needs_update Y (c : Int) (some o) lcid cp = false := by
  obtain ⟨h1, _⟩ := hc
  simp only [MSVCRT_LC_COLLATE] at h1
  have e1 : (c : Int) ≠ (Y : Int) := by
    intro h
    exact hne (Int.ofNat_inj.mp h).symm
  have e2 : (c : Int) ≠ (MSVCRT_LC_ALL : Int) := by
    simp only [MSVCRT_LC_ALL]
    omega
  simp [category_needs_update, e1, e2]

theorem needs_update_all (X : Nat) (o : MSVCRT_threadlocinfo) (lcid cp : Nat) :
    category_needs_update X (MSVCRT_LC_ALL : Int) (some o) lcid cp
      = (decide (lcid ≠ o.lc_handle X) || decide (cp ≠ (o.lc_id X).wCodePage)) := by
  simp [category_needs_update]

/-- With the selector LC_ALL every category of the assembled record holds the
locale id of the array `lcid`, and the codepage of the array `cp` unless the
locale id is 0 and the codepage is not. -/
theorem build_all_handle (P : Provider) (charmax : Nat)
    (old : Option MSVCRT_threadlocinfo) (lcid cp : Nat → Nat) (new : MSVCRT_threadlocinfo)
    (h : build_categories P charmax (MSVCRT_LC_ALL : Int) old lcid cp = some (some new))
    (X : Nat) (hX : is_category X) :
    new.lc_handle X = lcid X ∧
    ((lcid X ≠ 0 ∨ cp X = 0) → (new.lc_id X).wCodePage = cp X) := by
  have ho := built_outcome_handle P charmax _ old lcid cp X hX new
    (build_categories_outcome P charmax _ old lcid cp new h X hX)
  rcases ho with ⟨o, rfl, hnu, e1, e2⟩ | ⟨_, _, _, e1, e2, _⟩ | ⟨_, hn, e1, e2, _⟩
  · rw [needs_update_all] at hnu
    simp only [ne_eq, Bool.or_eq_false_iff, decide_eq_false_iff_not, not_not] at hnu
    exact ⟨e1.trans hnu.1.symm, fun _ => e2.trans hnu.2.symm⟩
  · exact ⟨e1, fun _ => e2⟩
  · have hz : lcid X = 0 := by
      by_contra hne
      exact hn ⟨hne, by simp [selects]⟩
    refine ⟨e1.trans hz.symm, ?_⟩
    rintro (h1 | h1)
    · exact absurd hz h1
    · rw [e2, h1]

/-! ### C6: a single-category setlocale leaves the other categories alone -/

/-- C6: when MSVCRT_setlocale succeeds for a single category `c`, each of the
other four categories has the same locale id, lc_id (codepage included),
descriptor string, locale name and data in the record the thread uses after
the call as before it. -/
theorem setlocale_single_category_keeps_others (P : Provider) (g g' : Globals)
    (data data' : thread_data_t) (c : Nat) (locale : CStr) (locinfo : MSVCRT_threadlocinfo)
    (r : CStr) (hc : is_category c) (hloc : get_locinfo g data = some locinfo)
    (h : MSVCRT_setlocale P g data (c : Int) (some locale) = some (some r, g', data')) :
    ∃ locinfo', get_locinfo g' data' = some locinfo' ∧
      ∀ Y, is_category Y → Y ≠ c →
        category_block_of locinfo' Y = category_block_of locinfo Y := by
  rcases setlocale_cases P g g' data data' _ locale locinfo _ hloc h with
    ⟨h0, _, _⟩ | ⟨new, data1, hnew, hget, _⟩
  · cases h0
  · refine ⟨_, hget, ?_⟩
    intro Y hY hne
    obtain ⟨_, lcid, cp, _, hb⟩ := create_locinfo_success P _ _ _ _ _ _ _ hnew
    have ho := built_outcome_handle P _ _ _ lcid cp Y hY new
      (build_categories_outcome P _ _ _ lcid cp new hb Y hY)
    have hnu := needs_update_other_category Y c locinfo (lcid Y) (cp Y) hc hne
    rcases ho with ⟨o, ho, _, e1, e2⟩ | ⟨hnu', _⟩ | ⟨hnu', _⟩
    · cases ho
      apply install_categories_same P locinfo new Y hY
      simp [category_differs, e1, e2]
    · rw [hnu] at hnu'; cases hnu'
    · rw [hnu] at hnu'; cases hnu'

/-! ### The locale id of a successful resolution -/

theorem finish_some (P : Provider) (s : locale_search_t) (L : Nat) (fc : CStr)
    (h : locale_to_LCID_finish P s = some (L, fc)) :
    s.match_flags ≠ 0 ∧ L = MAKELCID s.found_lang_id SORT_DEFAULT := by
  unfold locale_to_LCID_finish at h
  by_cases h0 : s.match_flags = 0
  · rw [if_pos h0] at h; cases h
  · refine ⟨h0, ?_⟩
    rw [if_neg h0] at h
    dsimp only at h
    split_ifs at h <;> simp only [Option.some.injEq, Prod.mk.injEq] at h <;> exact h.1.symm

theorem search_lcid_ne_zero (P : Provider) (d : CStr) (L : Nat) (fc : CStr)
    (h : locale_to_LCID_search P d = some (some (L, fc))) : L ≠ 0 ∧ L ≠ LCID_FAIL := by
  unfold locale_to_LCID_search at h
  simp only [Option.map_eq_some'] at h
  obtain ⟨search, hs, hf⟩ := h
  obtain ⟨hm, rfl⟩ := finish_some P _ L fc hf
  have hm0 : (normalize_search search).match_flags = 0 := by
    rw [normalize_search_match_flags, split_locale_match_flags d search hs]
  obtain ⟨_, _, sC⟩ := scan_spec P P.languages (normalize_search search) (by omega)
  rcases sC with ⟨e1, _⟩ | ⟨_, _, _, _, e2, _, _⟩
  · rw [e1, hm0] at hm; exact absurd rfl hm
  · simp only [PRIMARYLANGID, LANG_NEUTRAL] at e2
    simp only [MAKELCID, SORT_DEFAULT, LCID_FAIL]
    constructor <;> omega

theorem resolve_lcid_ne_zero (P : Provider) (data data1 : thread_data_t) (d : CStr)
    (codepage c : Option Nat) (L : Nat) (hcache : cache_ok P data) (hd : d ≠ [])
    (h : MSVCRT_locale_to_LCID P data d codepage = some (L, c, data1)) (hL : L ≠ LCID_FAIL) :
    L ≠ 0 := by
  unfold MSVCRT_locale_to_LCID at h
  by_cases hc : strcmp_eq d data.cached_locale = true
  · rw [if_pos hc] at h
    simp only [Option.some.injEq, Prod.mk.injEq] at h
    obtain ⟨rfl, _, _⟩ := h
    simp only [strcmp_eq, decide_eq_true_eq] at hc
    rcases hcache with ⟨h1, _⟩ | ⟨fc, h1, _⟩
    · rw [h1] at hc; exact absurd hc hd
    · exact (search_lcid_ne_zero P _ _ fc h1).1
  · rw [if_neg hc] at h
    simp only [Option.map_eq_some'] at h
    obtain ⟨r, hr, h2⟩ := h
    rcases r with _ | ⟨l, fc⟩
    · simp only [Prod.mk.injEq] at h2
      exact absurd h2.1.symm hL
    · simp only [Prod.mk.injEq] at h2
      obtain ⟨rfl, _, _⟩ := h2
      exact (search_lcid_ne_zero P _ _ fc hr).1

/-! ### C7: a plain descriptor is applied to all five categories -/

/-- C7: for a plain descriptor `d` (not empty, not "C", not beginning with
"LC_") that resolves to (L, cp) on a thread whose cache is sound, the record
create_locinfo assembles with the selector LC_ALL holds locale id L and
codepage cp in all five categories, and so does the record the thread uses
after a successful MSVCRT_setlocale (LC_ALL, d). -/
theorem plain_descriptor_all_categories (P : Provider) (data data1 : thread_data_t)
    (d : CStr) (L cp : Nat) (hcache : cache_ok P data)
    (hne : d ≠ []) (hC : d ≠ ['C']) (hLC : (cstr "LC_").isPrefixOf d = false)
    (hres : MSVCRT_locale_to_LCID P data d (some 0) = some (L, some cp, data1))
    (hL : L ≠ LCID_FAIL) :
    (∀ charmax old new data2,
      create_locinfo P charmax (MSVCRT_LC_ALL : Int) (some d) old data = some (some new, data2) →
      ∀ X, is_category X → new.lc_handle X = L ∧ (new.lc_id X).wCodePage = cp) ∧
    (∀ g g' data' locinfo r, get_locinfo g data = some locinfo →
      MSVCRT_setlocale P g data (MSVCRT_LC_ALL : Int) (some d) = some (some r, g', data') →
      ∃ cur, get_locinfo g' data' = some cur ∧
        ∀ X, is_category X → cur.lc_handle X = L ∧ (cur.lc_id X).wCodePage = cp) := by
  have hL0 := resolve_lcid_ne_zero P data data1 d _ _ L hcache hne hres hL
  have key : ∀ charmax old new data2,
      create_locinfo P charmax (MSVCRT_LC_ALL : Int) (some d) old data = some (some new, data2) →
      ∀ X, is_category X → new.lc_handle X = L ∧ (new.lc_id X).wCodePage = cp := by
    intro charmax old new data2 hnew X hX
    obtain ⟨_, lcid, cpa, hl, hb⟩ := create_locinfo_success P _ _ _ _ _ _ _ hnew
    unfold create_locinfo_lcids at hl
    rw [if_neg hC, if_neg hne] at hl
    simp only [hLC, Bool.false_eq_true, if_false, hres, Option.map_some', if_neg hL,
      Option.some.injEq, Prod.mk.injEq, Option.getD_some] at hl
    obtain ⟨⟨rfl, rfl⟩, _⟩ := hl
    obtain ⟨e1, e2⟩ := build_all_handle P charmax old _ _ new hb X hX
    exact ⟨e1, e2 (Or.inl hL0)⟩
  refine ⟨key, ?_⟩
  intro g g' data' locinfo r hloc hset
  rcases setlocale_cases P g g' data data' _ d locinfo _ hloc hset with
    ⟨h0, _, _⟩ | ⟨new, data2, hnew, hget, _⟩
  · cases h0
  · refine ⟨_, hget, ?_⟩
    intro X hX
    obtain ⟨e1, e2⟩ := install_categories_handle P locinfo new X hX
    obtain ⟨k1, k2⟩ := key _ _ _ _ hnew X hX
    exact ⟨e1.trans k1, e2.trans k2⟩

/-! ### The cache slot stays sound -/

theorem cache_ok_initial (P : Provider) : cache_ok P thread_data_initial :=
  Or.inl ⟨rfl, rfl, rfl⟩

theorem locale_to_LCID_cache_ok (P : Provider) (data : thread_data_t) (locale : CStr)
    (codepage : Option Nat) (r : Nat × Option Nat × thread_data_t)
    (hok : cache_ok P data)
    (h : MSVCRT_locale_to_LCID P data locale codepage = some r) : cache_ok P r.2.2 := by
  unfold MSVCRT_locale_to_LCID at h
  by_cases hc : strcmp_eq locale data.cached_locale = true
  · rw [if_pos hc] at h
    cases h; exact hok
  · rw [if_neg hc] at h
    simp only [Option.map_eq_some'] at h
    obtain ⟨x, hx, rfl⟩ := h
    rcases x with _ | ⟨lcid, fc⟩
    · exact hok
    · by_cases hl : locale.length < P.cached_locale_size
      · simp only [if_pos hl]
        refine Or.inr ⟨fc, hx, ?_⟩
        cases codepage with
        | none =>
          simp only [Option.map_none']
          omega
        | some v =>
          simp only [Option.map_some']
          omega
      · simp only [if_neg hl]
        exact hok

theorem parse_composite_cache_ok (P : Provider) (fuel : Nat) (locale : CStr)
    (lcid cp : Nat → Nat) (data : thread_data_t)
    (r : Option ((Nat → Nat) × (Nat → Nat)) × thread_data_t)
    (hok : cache_ok P data)
    (h : parse_composite P fuel locale lcid cp data = some r) : cache_ok P r.2 := by
  induction fuel generalizing locale lcid cp data with
  | zero => simp [parse_composite] at h
  | succ n ih =>
    unfold parse_composite at h
    split at h
    · cases h; exact hok
    · rename_i i rest _
      simp only [Option.bind_eq_some] at h
      obtain ⟨⟨l, c, d1⟩, h1, h2⟩ := h
      have hd1 : cache_ok P d1 := by
        split_ifs at h1
        · cases h1; exact hok
        · split at h1
          · split_ifs at h1
            exact locale_to_LCID_cache_ok P _ _ _ _ hok h1
          · exact locale_to_LCID_cache_ok P _ _ _ _ hok h1
      simp only at h2
      split_ifs at h2
      · cases h2; exact hd1
      · split at h2
        · cases h2; exact hd1
        · split_ifs at h2
          · exact ih _ _ _ _ hd1 h2
          · cases h2; exact hd1

theorem create_locinfo_cache_ok (P : Provider) (charmax : Nat) (category : Int)
    (locale : Option CStr) (old : Option MSVCRT_threadlocinfo) (data : thread_data_t)
    (r : Option MSVCRT_threadlocinfo × thread_data_t) (hok : cache_ok P data)
    (h : create_locinfo P charmax category locale old data = some r) : cache_ok P r.2 := by
  unfold create_locinfo at h
  split at h
  · cases h; exact hok
  · split_ifs at h
    · cases h; exact hok
    · simp only [Option.bind_eq_some] at h
      obtain ⟨⟨arrays, d1⟩, h1, h2⟩ := h
      have hd1 : cache_ok P d1 := by
        unfold create_locinfo_lcids at h1
        split_ifs at h1
        · cases h1; exact hok
        · split at h1
          · cases h1
          · cases h1; exact hok
        · exact parse_composite_cache_ok P _ _ _ _ _ _ hok h1
        · simp only [Option.map_eq_some'] at h1
          obtain ⟨⟨l, c, d2⟩, h3, h4⟩ := h1
          have := locale_to_LCID_cache_ok P _ _ _ _ hok h3
          split_ifs at h4 <;> cases h4 <;> exact this
      rcases arrays with _ | ⟨lcid, cp⟩
      · cases h2; exact hd1
      · simp only [Option.map_eq_some'] at h2
        obtain ⟨_, _, rfl⟩ := h2
        exact hd1

theorem cache_ok_congr (P : Provider) (d1 d2 : thread_data_t) (hok : cache_ok P d1)
    (h1 : d2.cached_locale = d1.cached_locale) (h2 : d2.cached_lcid = d1.cached_lcid)
    (h3 : d2.cached_cp = d1.cached_cp) : cache_ok P d2 := by
  unfold cache_ok at *
  rw [h1, h2, h3]
  exact hok

/-- Outside the empty slot the cache never changes a result: on a sound
cache, for a descriptor that is not empty (or a slot that is not empty), the
call with the cache gives what the full algorithm gives. -/
theorem cache_transparent (P : Provider) (data : thread_data_t) (d : CStr)
    (hok : cache_ok P data) (hne : d ≠ [] ∨ data.cached_locale ≠ []) :
    resolve_cached P data d = resolve_nocache P d := by
  unfold resolve_cached resolve_nocache MSVCRT_locale_to_LCID
  by_cases hc : strcmp_eq d data.cached_locale = true
  · rw [if_pos hc]
    simp only [strcmp_eq, decide_eq_true_eq] at hc
    rcases hok with ⟨h1, _⟩ | ⟨fc, h1, h2⟩
    · rcases hne with hne | hne
      · rw [h1] at hc; exact absurd hc hne
      · exact absurd h1 hne
    · rw [hc, h1]
      have := (search_lcid_ne_zero P _ _ fc h1).2
      simp [this, h2]
  · rw [if_neg hc]
    rcases hs : locale_to_LCID_search P d with _ | r
    · simp
    · rcases r with _ | ⟨l, fc⟩
      · simp
      · have := (search_lcid_ne_zero P _ _ fc hs).2
        simp [this]

/-! ### The record invariant -/

theorem install_one_differs (P : Provider) (X : Nat) (hX : is_category X)
    (l n : MSVCRT_threadlocinfo) (hd : category_differs l n X = true) :
    (install_one P X l n).lc_handle X = n.lc_handle X ∧
    (install_one P X l n).lc_id X = n.lc_id X ∧
    (install_one P X l n).lc_category X = n.lc_category X ∧
    (category_data_of (install_one P X l n) X).narrow = (category_data_of n X).narrow := by
  obtain ⟨h1, h2⟩ := hX
  simp only [MSVCRT_LC_COLLATE, MSVCRT_LC_TIME] at h1 h2
  by_cases hv : 100 ≤ P._MSVCR_VER <;>
  interval_cases X <;>
    simp only [install_one, install_collate, install_ctype, install_monetary, install_numeric,
      install_time, install_common, MSVCRT_LC_COLLATE, MSVCRT_LC_CTYPE, MSVCRT_LC_MONETARY,
      MSVCRT_LC_NUMERIC, MSVCRT_LC_TIME] at * <;>
    simp only [hd, hv, if_true, if_false] <;>
    simp [category_data_of, category_data.narrow, MSVCRT_LC_COLLATE,
      MSVCRT_LC_CTYPE, MSVCRT_LC_MONETARY, MSVCRT_LC_NUMERIC, MSVCRT_LC_TIME]

theorem narrow_ctype (x : category_data) (a b c : Nat) (d : Option Nat)
    (e f g h : Option (List Nat)) (hx : x.narrow = .ctype a b c d e f g h) :
    x = .ctype a b c d e f g h := by
  cases x <;> simp_all [category_data.narrow]

theorem block_is_C_congr (b b' : category_block) (X : Nat)
    (h1 : b.lc_id = b'.lc_id) (h2 : b.lc_category = b'.lc_category)
    (h3 : b.data.narrow = b'.data.narrow) (h : block_is_C b' X) : block_is_C b X := by
  obtain ⟨c1, c2, c3, c4⟩ := h
  refine ⟨by rw [h1]; exact c1, by rw [h2]; exact c2, fun hx => by rw [h3]; exact c3 hx, ?_⟩
  intro hx
  obtain ⟨a, b1, c, d, e, f, g, hc⟩ := c4 hx
  refine ⟨a, b1, c, d, e, f, g, narrow_ctype _ _ _ _ _ _ _ _ _ ?_⟩
  rw [h3, hc]
  rfl

theorem C_record_is_C (P : Provider) (charmax : Nat) (X : Nat) (hX : is_category X)
    (t : Option MSVCRT___lc_time_data) :
    block_is_C (category_block_of (C_record P charmax X t locinfo_fresh) X) X := by
  obtain ⟨h1, h2⟩ := hX
  simp only [MSVCRT_LC_COLLATE, MSVCRT_LC_TIME] at h1 h2
  by_cases hv : 100 ≤ P._MSVCR_VER
  · interval_cases X <;> simp only [C_record, monetary_C_record, numeric_C, if_pos hv] <;>
      simp [block_is_C, category_block_of, category_data_of, category_data.narrow,
        locinfo_fresh, set_locale_C, ctype_C, MSVCRT_LC_COLLATE,
        MSVCRT_LC_CTYPE, MSVCRT_LC_MONETARY, MSVCRT_LC_NUMERIC, MSVCRT_LC_TIME]
  · interval_cases X <;> simp only [C_record, monetary_C_record, numeric_C, if_neg hv] <;>
      simp [block_is_C, category_block_of, category_data_of, category_data.narrow,
        locinfo_fresh, set_locale_C, ctype_C, MSVCRT_LC_COLLATE,
        MSVCRT_LC_CTYPE, MSVCRT_LC_MONETARY, MSVCRT_LC_NUMERIC, MSVCRT_LC_TIME]

/-- In a record create_locinfo assembled, a category is reused from the old
record, has a locale id other than 0, or holds the "C" block. -/
theorem built_outcome_ok (P : Provider) (charmax : Nat) (category : Int)
    (old : Option MSVCRT_threadlocinfo) (lcid cp : Nat → Nat) (X : Nat) (hX : is_category X)
    (new : MSVCRT_threadlocinfo) (h : built_outcome P charmax category old lcid cp X new) :
    (∃ o, old = some o ∧ new.lc_handle X = o.lc_handle X ∧
      (new.lc_id X).wCodePage = (o.lc_id X).wCodePage) ∨
    new.lc_handle X ≠ 0 ∨
    (new.lc_handle X = 0 ∧ block_is_C (category_block_of new X) X) := by
  rcases h with ⟨o, ho, _, hb⟩ | ⟨_, h1, _, h3⟩ | ⟨_, _, t, _, hb⟩
  · left
    simp only [category_block_of, category_block.mk.injEq] at hb
    obtain ⟨e1, e2, _, _, _⟩ := hb
    obtain ⟨r1, r2, _⟩ := reuse_fresh_block o X
    exact ⟨o, ho, e1.trans r1, by rw [e2]; exact r2⟩
  · right; left
    rw [h3.1]; exact h1
  · right; right
    constructor
    · have := congrArg category_block.lc_handle hb
      simp only [category_block_of] at this
      rw [this]
      exact (C_record_fresh_block P charmax X hX t).1
    · rw [hb]
      exact C_record_is_C P charmax X hX t

theorem record_ok_install (P : Provider) (charmax : Nat) (category : Int)
    (l new : MSVCRT_threadlocinfo) (lcid cp : Nat → Nat) (hok : record_ok l)
    (h : build_categories P charmax category (some l) lcid cp = some (some new)) :
    record_ok (install_categories P l new) := by
  intro X hX hz
  have hh := (install_categories_handle P l new X hX).1
  rw [hz] at hh
  cases hd : category_differs l new X with
  | false =>
    rw [install_categories_same P l new X hX hd]
    apply hok X hX
    simp only [category_differs, Bool.or_eq_false_iff, decide_eq_false_iff_not, ne_eq,
      not_not] at hd
    rw [hd.1]; exact hh.symm
  | true =>
    have hb := install_categories_block P l new X hX
    obtain ⟨_, e2, e3, e4⟩ := install_one_differs P X hX l new hd
    have ho := built_outcome_ok P charmax category (some l) lcid cp X hX new
      (build_categories_outcome P charmax category (some l) lcid cp new h X hX)
    rcases ho with ⟨o, ho, k1, k2⟩ | hne | ⟨_, hC⟩
    · cases ho
      simp [category_differs, k1, k2] at hd
    · exact absurd hh.symm hne
    · rw [hb]
      exact block_is_C_congr (category_block_of (install_one P X l new) X)
        (category_block_of new X) X e2 e3 e4 hC

theorem record_ok_built_none (P : Provider) (charmax : Nat) (category : Int)
    (new : MSVCRT_threadlocinfo) (lcid cp : Nat → Nat)
    (h : build_categories P charmax category none lcid cp = some (some new)) :
    record_ok new := by
  intro X hX hz
  have ho := built_outcome_ok P charmax category none lcid cp X hX new
    (build_categories_outcome P charmax category none lcid cp new h X hX)
  rcases ho with ⟨o, ho, _⟩ | hne | ⟨_, hC⟩
  · cases ho
  · exact absurd hz hne
  · exact hC

/-! ### Assembling the "C" record always succeeds once the time block can be built -/

theorem build_collate_zero (P : Provider) (category : Int)
    (old : Option MSVCRT_threadlocinfo) (lcid cp : Nat → Nat) (l : MSVCRT_threadlocinfo)
    (hz : lcid MSVCRT_LC_COLLATE = 0) :
    ∃ l', build_collate P category old lcid cp l = some (some l') := by
  unfold build_collate
  split
  · exact ⟨_, rfl⟩
  · simp [hz]

theorem build_ctype_zero (P : Provider) (category : Int)
    (old : Option MSVCRT_threadlocinfo) (lcid cp : Nat → Nat) (l : MSVCRT_threadlocinfo)
    (hz : lcid MSVCRT_LC_CTYPE = 0) :
    ∃ l', build_ctype P category old lcid cp l = some (some l') := by
  unfold build_ctype
  split
  · exact ⟨_, rfl⟩
  · simp [hz]

theorem build_monetary_zero (P : Provider) (charmax : Nat) (category : Int)
    (old : Option MSVCRT_threadlocinfo) (lcid cp : Nat → Nat) (l : MSVCRT_threadlocinfo)
    (hz : lcid MSVCRT_LC_MONETARY = 0) :
    ∃ l', build_monetary P charmax category old lcid cp l = some (some l') := by
  unfold build_monetary
  split
  · exact ⟨_, rfl⟩
  · simp [hz]

theorem build_numeric_zero (P : Provider) (category : Int)
    (old : Option MSVCRT_threadlocinfo) (lcid cp : Nat → Nat) (l : MSVCRT_threadlocinfo)
    (hz : lcid MSVCRT_LC_NUMERIC = 0) :
    ∃ l', build_numeric P category old lcid cp l = some (some l') := by
  unfold build_numeric
  split
  · exact ⟨_, rfl⟩
  · simp [hz]

theorem build_time_zero (P : Provider) (category : Int)
    (old : Option MSVCRT_threadlocinfo) (lcid cp : Nat → Nat) (l : MSVCRT_threadlocinfo)
    (hz : lcid MSVCRT_LC_TIME = 0) (ht : build_time_data P 0 ≠ none) :
    ∃ l', build_time P category old lcid cp l = some (some l') := by
  unfold build_time
  split
  · exact ⟨_, rfl⟩
  · obtain ⟨t, ht⟩ := Option.ne_none_iff_exists'.mp ht
    simp [hz, ht]

theorem build_categories_zero (P : Provider) (charmax : Nat) (category : Int)
    (old : Option MSVCRT_threadlocinfo) (lcid cp : Nat → Nat)
    (hz : ∀ X, lcid X = 0) (ht : build_time_data P 0 ≠ none) :
    ∃ new, build_categories P charmax category old lcid cp = some (some new) := by
  unfold build_categories
  obtain ⟨l1, h1⟩ := build_collate_zero P category old lcid cp locinfo_fresh (hz _)
  obtain ⟨l2, h2⟩ := build_ctype_zero P category old lcid cp l1 (hz _)
  obtain ⟨l3, h3⟩ := build_monetary_zero P charmax category old lcid cp l2 (hz _)
  obtain ⟨l4, h4⟩ := build_numeric_zero P category old lcid cp l3 (hz _)
  obtain ⟨l5, h5⟩ := build_time_zero P category old lcid cp l4 (hz _) ht
  exact ⟨l5, by simp [h1, h2, h3, h4, h5, or_null]⟩

theorem create_locinfo_lcids_C (P : Provider) (data : thread_data_t) :
    create_locinfo_lcids P (cstr "C") data
      = some (some (fun _ => 0, Function.update (fun _ => 0) 0 CP_ACP), data) := by
  have : cstr "C" = ['C'] := rfl
  simp [create_locinfo_lcids, this]

/-- Assembling the descriptor "C" with the selector LC_ALL: the result is a
record, obtained from the all-zero arrays, and the thread data is untouched. -/
theorem create_locinfo_C (P : Provider) (charmax : Nat) (old : Option MSVCRT_threadlocinfo)
    (data : thread_data_t) (ht : build_time_data P 0 ≠ none) :
    ∃ new, create_locinfo P charmax (MSVCRT_LC_ALL : Int) (some (cstr "C")) old data
        = some (some new, data) ∧
      build_categories P charmax (MSVCRT_LC_ALL : Int) old (fun _ => 0)
        (Function.update (fun _ => 0) 0 CP_ACP) = some (some new) := by
  obtain ⟨new, hnew⟩ := build_categories_zero P charmax (MSVCRT_LC_ALL : Int) old (fun _ => 0)
    (Function.update (fun _ => 0) 0 CP_ACP) (fun _ => rfl) ht
  refine ⟨new, ?_, hnew⟩
  simp only [MSVCRT_LC_ALL, Nat.cast_zero] at hnew
  simp [create_locinfo, create_locinfo_lcids_C, hnew, MSVCRT_LC_ALL, MSVCRT_LC_MIN, MSVCRT_LC_MAX]

/-! ### The registry invariant holds in every reachable state -/

/-- The part of the registry invariant that concerns one thread. -/
theorem setlocale_preserves (P : Provider) (g g' : Globals) (data data' : thread_data_t)
    (category : Int) (locale : Option CStr) (r : Option CStr)
    (hg : ∃ l, g.MSVCRT_locale = some l ∧ record_ok l)
    (hd : data.have_locale = true → ∃ l, data.locinfo = some l ∧ record_ok l)
    (hc : cache_ok P data)
    (h : MSVCRT_setlocale P g data category locale = some (r, g', data')) :
    (∃ l, g'.MSVCRT_locale = some l ∧ record_ok l) ∧
    (data'.have_locale = true → ∃ l, data'.locinfo = some l ∧ record_ok l) ∧
    cache_ok P data' := by
  have hloc : ∃ locinfo, get_locinfo g data = some locinfo ∧ record_ok locinfo := by
    unfold get_locinfo
    cases hl : data.have_locale with
    | false => simpa using hg
    | true => simpa using hd hl
  obtain ⟨locinfo, hloc, hrec⟩ := hloc
  cases locale with
  | none =>
    unfold MSVCRT_setlocale at h
    rw [hloc] at h
    simp only [Option.some_bind] at h
    split_ifs at h
    · cases h; exact ⟨hg, hd, hc⟩
    · simp only [Option.map_eq_some'] at h
      obtain ⟨_, _, h⟩ := h
      cases h; exact ⟨hg, hd, hc⟩
    · cases h; exact ⟨hg, hd, hc⟩
  | some locale =>
    unfold MSVCRT_setlocale at h
    rw [hloc] at h
    simp only [Option.some_bind] at h
    by_cases hcat : category < (MSVCRT_LC_MIN : Int) ∨ category > (MSVCRT_LC_MAX : Int)
    · rw [if_pos hcat] at h
      cases h; exact ⟨hg, hd, hc⟩
    · rw [if_neg hcat] at h
      simp only [Option.bind_eq_some] at h
      obtain ⟨⟨newl, data1⟩, hcl, h2⟩ := h
      obtain ⟨k1, k2⟩ := create_locinfo_data_frame P _ _ _ _ _ _ hcl
      have k3 := create_locinfo_cache_ok P _ _ _ _ _ _ hc hcl
      simp only at k1 k2 k3
      rcases newl with _ | new
      · simp only [Option.some.injEq, Prod.mk.injEq] at h2
        obtain ⟨_, rfl, rfl⟩ := h2
        refine ⟨hg, ?_, k3⟩
        rw [k1, k2]; exact hd
      · obtain ⟨_, lcid, cp, _, hb⟩ := create_locinfo_success P _ _ _ _ _ _ _ hcl
        have hnewok := record_ok_install P _ _ locinfo new lcid cp hrec hb
        simp only at h2
        cases hl : data.have_locale with
        | false =>
          rw [hl] at k1
          simp only [k1, Bool.not_false, if_true] at h2
          have hgd : g' = refresh_mirrors
              { g with MSVCRT_locale := some (install_categories P locinfo new) }
              (install_categories P locinfo new) ∧ data' = data1 := by
            split_ifs at h2
            · simp only [Option.map_eq_some', Prod.mk.injEq] at h2
              obtain ⟨_, _, _, h3, h4⟩ := h2
              exact ⟨h3.symm, h4.symm⟩
            · simp only [Option.some.injEq, Prod.mk.injEq] at h2
              exact ⟨h2.2.1.symm, h2.2.2.symm⟩
          obtain ⟨rfl, rfl⟩ := hgd
          refine ⟨⟨_, rfl, hnewok⟩, ?_, k3⟩
          intro hh
          rw [k1] at hh; cases hh
        | true =>
          rw [hl] at k1
          simp only [k1, Bool.not_true, Bool.false_eq_true, if_false] at h2
          have hgd : g' = g ∧ data'.locinfo = some (install_categories P locinfo new) ∧
              data'.cached_locale = data1.cached_locale ∧
              data'.cached_lcid = data1.cached_lcid ∧ data'.cached_cp = data1.cached_cp := by
            split_ifs at h2
            · simp only [Option.map_eq_some', Prod.mk.injEq] at h2
              obtain ⟨_, _, _, h3, h4⟩ := h2
              rw [← h4]
              exact ⟨h3.symm, rfl, rfl, rfl, rfl⟩
            · simp only [Option.some.injEq, Prod.mk.injEq] at h2
              rw [← h2.2.2]
              exact ⟨h2.2.1.symm, rfl, rfl, rfl, rfl⟩
          obtain ⟨rfl, e1, e2, e3, e4⟩ := hgd
          exact ⟨hg, fun _ => ⟨_, e1, hnewok⟩, cache_ok_congr P data1 _ k3 e2 e3 e4⟩

theorem init_establishes (P : Provider) (g0 g : Globals) (data0 data : thread_data_t)
    (hc : cache_ok P data0)
    (h : msvcrt_init_locale P g0 data0 = some (true, g, data)) :
    build_time_data P 0 ≠ none ∧ (∃ l, g.MSVCRT_locale = some l ∧ record_ok l) ∧
    data.have_locale = data0.have_locale ∧ data.locinfo = data0.locinfo ∧ cache_ok P data := by
  unfold msvcrt_init_locale MSVCRT__create_locale at h
  simp only [Option.map_eq_some'] at h
  obtain ⟨⟨loc, d1⟩, hcl, h2⟩ := h
  obtain ⟨k1, k2⟩ := create_locinfo_data_frame P _ _ _ _ _ _ hcl
  have k3 := create_locinfo_cache_ok P _ _ _ _ _ _ hc hcl
  simp only at k1 k2 k3
  rcases loc with _ | locinfo
  · simp at h2
  · simp only [Prod.mk.injEq, true_and] at h2
    obtain ⟨rfl, rfl⟩ := h2
    obtain ⟨_, lcid, cp, hl, hb⟩ := create_locinfo_success P _ _ _ _ _ _ _ hcl
    rw [create_locinfo_lcids_C] at hl
    simp only [Option.some.injEq, Prod.mk.injEq] at hl
    obtain ⟨⟨rfl, rfl⟩, _⟩ := hl
    refine ⟨?_, ⟨locinfo, rfl, record_ok_built_none P _ _ locinfo _ _ hb⟩, k1, k2, k3⟩
    have ho := build_categories_outcome P _ _ none _ _ locinfo hb MSVCRT_LC_TIME
      ⟨by decide, by decide⟩
    rcases ho with ⟨o, ho, _⟩ | ⟨_, hne, _⟩ | ⟨_, _, t, ht, _⟩
    · cases ho
    · exact absurd rfl hne
    · obtain ⟨e1, e2⟩ := ht rfl
      rw [e1]; exact e2

theorem setlocale_query_state (P : Provider) (g g' : Globals) (data data' : thread_data_t)
    (category : Int) (r : Option CStr)
    (h : MSVCRT_setlocale P g data category none = some (r, g', data')) :
    g' = g ∧ data' = data := by
  unfold MSVCRT_setlocale at h
  simp only [Option.bind_eq_some] at h
  obtain ⟨locinfo, _, h⟩ := h
  by_cases hcat : category < (MSVCRT_LC_MIN : Int) ∨ category > (MSVCRT_LC_MAX : Int)
  · rw [if_pos hcat] at h
    cases h; exact ⟨rfl, rfl⟩
  · rw [if_neg hcat] at h
    by_cases hall : category = (MSVCRT_LC_ALL : Int)
    · rw [if_pos hall] at h
      simp only [Option.map_eq_some'] at h
      obtain ⟨_, _, h⟩ := h
      cases h; exact ⟨rfl, rfl⟩
    · rw [if_neg hall] at h
      cases h; exact ⟨rfl, rfl⟩

theorem configthreadlocale_preserves (P : Provider) (g g' : Globals)
    (data data' : thread_data_t) (type r : Int)
    (hd : data.have_locale = true → ∃ l, data.locinfo = some l ∧ record_ok l)
    (hc : cache_ok P data)
    (h : _configthreadlocale P g data type = some (r, g', data')) :
    g' = g ∧ (data'.have_locale = true → ∃ l, data'.locinfo = some l ∧ record_ok l) ∧
    cache_ok P data' := by
  unfold _configthreadlocale at h
  simp only at h
  by_cases h1 : type = MSVCRT__ENABLE_PER_THREAD_LOCALE
  · rw [if_pos h1] at h
    cases hl : data.have_locale with
    | true =>
      simp only [hl, Bool.not_true, Bool.false_eq_true, if_false, if_true] at h
      cases h; exact ⟨rfl, hd, hc⟩
    | false =>
      simp only [hl, Bool.not_false, if_true, Option.bind_eq_some, Option.map_eq_some'] at h
      obtain ⟨⟨s, g1, d1⟩, hs, ⟨loc, d2⟩, hcl, h3⟩ := h
      obtain ⟨rfl, rfl⟩ := setlocale_query_state P g g1 data d1 _ _ hs
      unfold MSVCRT__create_locale at hcl
      obtain ⟨k1, k2⟩ := create_locinfo_data_frame P _ _ _ _ _ _ hcl
      have k3 := create_locinfo_cache_ok P _ _ _ _ _ _ hc hcl
      simp only at k1 k2 k3 hcl
      rcases loc with _ | locinfo
      · simp only [Prod.mk.injEq] at h3
        obtain ⟨_, rfl, rfl⟩ := h3
        refine ⟨rfl, ?_, k3⟩
        rw [k1, k2]; exact hd
      · simp only [Prod.mk.injEq] at h3
        obtain ⟨_, rfl, rfl⟩ := h3
        refine ⟨rfl, fun _ => ⟨locinfo, rfl, ?_⟩, cache_ok_congr P d2 _ k3 rfl rfl rfl⟩
        cases s with
        | none => simp [create_locinfo] at hcl
        | some s =>
          obtain ⟨_, lcid, cp, _, hb⟩ := create_locinfo_success P _ _ _ _ _ _ _ hcl
          exact record_ok_built_none P _ _ locinfo _ _ hb
  · rw [if_neg h1] at h
    by_cases h2 : type = MSVCRT__DISABLE_PER_THREAD_LOCALE
    · rw [if_pos h2] at h
      cases hl : data.have_locale with
      | true =>
        simp only [hl, if_true, Option.some.injEq, Prod.mk.injEq] at h
        obtain ⟨_, rfl, rfl⟩ := h
        exact ⟨rfl, fun hh => by simp at hh, cache_ok_congr P data _ hc rfl rfl rfl⟩
      | false =>
        simp only [hl, Bool.false_eq_true, if_false, Option.some.injEq, Prod.mk.injEq] at h
        obtain ⟨_, rfl, rfl⟩ := h
        exact ⟨rfl, hd, hc⟩
    · rw [if_neg h2] at h
      by_cases h3 : type = 0
      · rw [if_pos h3] at h
        simp only [Option.some.injEq, Prod.mk.injEq] at h
        obtain ⟨_, rfl, rfl⟩ := h
        exact ⟨rfl, hd, hc⟩
      · rw [if_neg h3] at h
        simp only [Option.some.injEq, Prod.mk.injEq] at h
        obtain ⟨_, rfl, rfl⟩ := h
        exact ⟨rfl, hd, hc⟩

/-- Every reachable state of the registry satisfies the invariant. -/
theorem reachable_ok (P : Provider) (w : World) (h : Reachable P w) : world_ok P w := by
  induction h with
  | init t g data hinit =>
    obtain ⟨e1, e2, e3, e4, e5⟩ := init_establishes P _ _ _ _ (cache_ok_initial P) hinit
    refine ⟨e1, e2, ?_, ?_⟩
    · intro t' ht'
      by_cases htt : t' = t
      · subst htt
        simp only [Function.update_same] at ht'
        rw [e3] at ht'
        cases ht'
      · simp only [Function.update_noteq htt] at ht'
        cases ht'
    · intro t'
      by_cases htt : t' = t
      · subst htt
        simp only [Function.update_same]
        exact e5
      · simp only [Function.update_noteq htt]
        exact cache_ok_initial P
  | setlocale w t category locale r g data _ hstep ih =>
    obtain ⟨i1, i2, i3, i4⟩ := ih
    obtain ⟨e1, e2, e3⟩ := setlocale_preserves P _ _ _ _ _ _ _ i2 (i3 t) (i4 t) hstep
    refine ⟨i1, e1, ?_, ?_⟩
    · intro t' ht'
      by_cases htt : t' = t
      · subst htt
        simp only [Function.update_same] at ht' ⊢
        exact e2 ht'
      · simp only [Function.update_noteq htt] at ht' ⊢
        exact i3 t' ht'
    · intro t'
      by_cases htt : t' = t
      · subst htt
        simp only [Function.update_same]
        exact e3
      · simp only [Function.update_noteq htt]
        exact i4 t'
  | configthreadlocale w t type r g data _ hstep ih =>
    obtain ⟨i1, i2, i3, i4⟩ := ih
    obtain ⟨e1, e2, e3⟩ := configthreadlocale_preserves P _ _ _ _ _ _ (i3 t) (i4 t) hstep
    subst e1
    refine ⟨i1, i2, ?_, ?_⟩
    · intro t' ht'
      by_cases htt : t' = t
      · subst htt
        simp only [Function.update_same] at ht' ⊢
        exact e2 ht'
      · simp only [Function.update_noteq htt] at ht' ⊢
        exact i3 t' ht'
    · intro t'
      by_cases htt : t' = t
      · subst htt
        simp only [Function.update_same]
        exact e3
      · simp only [Function.update_noteq htt]
        exact i4 t'
  | create_locale w t category locale r data _ hstep ih =>
    obtain ⟨i1, i2, i3, i4⟩ := ih
    unfold MSVCRT__create_locale at hstep
    obtain ⟨k1, k2⟩ := create_locinfo_data_frame P _ _ _ _ _ _ hstep
    have k3 := create_locinfo_cache_ok P _ _ _ _ _ _ (i4 t) hstep
    simp only at k1 k2 k3
    refine ⟨i1, i2, ?_, ?_⟩
    · intro t' ht'
      by_cases htt : t' = t
      · subst htt
        simp only [Function.update_same] at ht' ⊢
        rw [k1] at ht'
        rw [k2]
        exact i3 t' ht'
      · simp only [Function.update_noteq htt] at ht' ⊢
        exact i3 t' ht'
    · intro t'
      by_cases htt : t' = t
      · subst htt
        simp only [Function.update_same]
        exact k3
      · simp only [Function.update_noteq htt]
        exact i4 t'
  | lconv_init w _ ih =>
    obtain ⟨i1, i2, i3, i4⟩ := ih
    exact ⟨i1, i2, i3, i4⟩

/-! ### C9: setlocale (LC_ALL, "C") -/

theorem construct_lc_all_C (l : MSVCRT_threadlocinfo)
    (h : ∀ X, is_category X → (l.lc_category X).locale = some (cstr "C")) :
    construct_lc_all l = some (cstr "C") := by
  unfold construct_lc_all
  rw [h MSVCRT_LC_COLLATE ⟨by decide, by decide⟩, h MSVCRT_LC_CTYPE ⟨by decide, by decide⟩,
    h MSVCRT_LC_MONETARY ⟨by decide, by decide⟩, h MSVCRT_LC_NUMERIC ⟨by decide, by decide⟩,
    h MSVCRT_LC_TIME ⟨by decide, by decide⟩]
  simp

/-- C9: in every state the registry can reach, for every thread,
MSVCRT_setlocale (LC_ALL, "C") succeeds and returns "C"; afterwards each of
the five categories of the record the thread uses has descriptor "C" and
locale id 0, the decimal point is ".", the thousands separator is empty, the
grouping array is empty (its only byte is the terminator 0) and the maximum
multibyte width is 1. -/
theorem setlocale_C_always_succeeds (P : Provider) (w : World) (t : Nat)
    (h : Reachable P w) :
    ∃ g' data' cur,
      MSVCRT_setlocale P w.g (w.threads t) (MSVCRT_LC_ALL : Int) (some (cstr "C"))
        = some (some (cstr "C"), g', data') ∧
      get_locinfo g' data' = some cur ∧
      (∀ X, is_category X →
        (cur.lc_category X).locale = some (cstr "C") ∧ cur.lc_handle X = 0) ∧
      cur.lconv.decimal_point = some (cstr ".") ∧ cur.lconv.thousands_sep = some [] ∧
      cur.lconv.grouping = some [0] ∧ cur.mb_cur_max = 1 := by
  obtain ⟨ht, hg, hd, _⟩ := reachable_ok P w h
  have hloc : ∃ locinfo, get_locinfo w.g (w.threads t) = some locinfo ∧ record_ok locinfo := by
    unfold get_locinfo
    cases hl : (w.threads t).have_locale with
    | false => simpa using hg
    | true => simpa using hd t hl
  obtain ⟨l, hloc, hrec⟩ := hloc
  obtain ⟨new, hnew, hb⟩ := create_locinfo_C P w.g.charmax (some l) (w.threads t) ht
  have hcur := record_ok_install P _ _ l new _ _ hrec hb
  have hz : ∀ X, is_category X → (install_categories P l new).lc_handle X = 0 := by
    intro X hX
    rw [(install_categories_handle P l new X hX).1]
    exact (build_all_handle P _ _ _ _ new hb X hX).1
  have hC : ∀ X, is_category X →
      block_is_C (category_block_of (install_categories P l new) X) X :=
    fun X hX => hcur X hX (hz X hX)
  have hdesc : ∀ X, is_category X →
      ((install_categories P l new).lc_category X).locale = some (cstr "C") :=
    fun X hX => (hC X hX).2.1
  have hall := construct_lc_all_C _ hdesc
  have hnum := (hC MSVCRT_LC_NUMERIC ⟨by decide, by decide⟩).2.2.1 rfl
  obtain ⟨a, b1, c, d, e, f, g1, hct⟩ := (hC MSVCRT_LC_CTYPE ⟨by decide, by decide⟩).2.2.2 rfl
  simp only [category_block_of, category_data_of, MSVCRT_LC_COLLATE, MSVCRT_LC_CTYPE,
    MSVCRT_LC_MONETARY, MSVCRT_LC_NUMERIC, category_data.narrow,
    show (4 : Nat) ≠ 1 from by decide, show (4 : Nat) ≠ 2 from by decide,
    show (4 : Nat) ≠ 3 from by decide, show (2 : Nat) ≠ 1 from by decide,
    if_true, if_false, category_data.numeric.injEq, category_data.ctype.injEq] at hnum hct
  have hfacts : (∀ X, is_category X →
        ((install_categories P l new).lc_category X).locale = some (cstr "C") ∧
        (install_categories P l new).lc_handle X = 0) ∧
      (install_categories P l new).lconv.decimal_point = some (cstr ".") ∧
      (install_categories P l new).lconv.thousands_sep = some [] ∧
      (install_categories P l new).lconv.grouping = some [0] ∧
      (install_categories P l new).mb_cur_max = 1 :=
    ⟨fun X hX => ⟨hdesc X hX, hz X hX⟩, hnum.1, hnum.2.1, hnum.2.2.1, hct.2.2.1⟩
  have hcat : ¬ ((MSVCRT_LC_ALL : Int) < (MSVCRT_LC_MIN : Int) ∨
      (MSVCRT_LC_ALL : Int) > (MSVCRT_LC_MAX : Int)) := by
    simp [MSVCRT_LC_ALL, MSVCRT_LC_MIN, MSVCRT_LC_MAX]
  cases hl : (w.threads t).have_locale with
  | false =>
    refine ⟨refresh_mirrors { w.g with MSVCRT_locale := some (install_categories P l new) }
      (install_categories P l new), w.threads t, install_categories P l new, ?_, ?_, hfacts⟩
    · unfold MSVCRT_setlocale
      rw [hloc]
      simp only [Option.some_bind, if_neg hcat, hnew, hl, Bool.not_false, if_true, hall,
        Option.map_some']
    · simp [get_locinfo, hl, refresh_mirrors]
  | true =>
    refine ⟨w.g, { w.threads t with locinfo := some (install_categories P l new) },
      install_categories P l new, ?_, ?_, hfacts⟩
    · unfold MSVCRT_setlocale
      rw [hloc]
      simp only [Option.some_bind, if_neg hcat, hnew, hl, Bool.not_true, Bool.false_eq_true,
        if_false, if_true, hall, Option.map_some']
    · simp [get_locinfo, hl]

/-! ### C8: a composite descriptor assigns each clause to its category -/

theorem cstr_LC : cstr "LC_" = ['L', 'C', '_'] := rfl

theorem category_token_render (c : Nat × CStr) (rest : CStr) (hc : is_category c.1) :
    category_token ((render_clause c ++ rest).drop 3) = some (c.1, c.2 ++ rest) := by
  obtain ⟨X, v⟩ := c
  obtain ⟨h1, h2⟩ := hc
  simp only [MSVCRT_LC_COLLATE, MSVCRT_LC_TIME] at h1 h2
  simp only at h1 h2 ⊢
  interval_cases X <;>
    simp [render_clause, category_name, category_token, cstr, MSVCRT_LC_COLLATE, MSVCRT_LC_CTYPE,
      MSVCRT_LC_MONETARY, MSVCRT_LC_NUMERIC, MSVCRT_LC_TIME]

theorem strchr_value_end (v : CStr) (hv : ';' ∉ v) : strchr v ';' = none := by
  induction v with
  | nil => rfl
  | cons a as ih =>
    simp only [List.mem_cons, not_or] at hv
    simp [strchr, Ne.symm hv.1, ih hv.2]

theorem strchr_value_sep (v r : CStr) (hv : ';' ∉ v) :
    strchr (v ++ ';' :: r) ';' = some v.length := by
  induction v with
  | nil => simp [strchr]
  | cons a as ih =>
    simp only [List.mem_cons, not_or] at hv
    simp [strchr, Ne.symm hv.1, ih hv.2]

theorem clause_is_C_end (v : CStr) (hv : ';' ∉ v) : clause_is_C v = decide (v = ['C']) := by
  match v with
  | [] => simp [clause_is_C]
  | [a] =>
    by_cases ha : a = 'C'
    · subst ha; simp [clause_is_C]
    · simp [clause_is_C, ha]
  | a :: b :: vs =>
    simp only [List.mem_cons, not_or] at hv
    have hb : ¬ b = ';' := fun e => hv.2.1 e.symm
    unfold clause_is_C
    split <;> simp_all

theorem clause_is_C_sep (v r : CStr) (hv : ';' ∉ v) :
    clause_is_C (v ++ ';' :: r) = decide (v = ['C']) := by
  match v with
  | [] => simp [clause_is_C]
  | [a] =>
    by_cases ha : a = 'C'
    · subst ha; simp [clause_is_C]
    · simp [clause_is_C, ha]
  | a :: b :: vs =>
    simp only [List.mem_cons, not_or] at hv
    have hb : ¬ b = ';' := fun e => hv.2.1 e.symm
    simp only [List.cons_append]
    unfold clause_is_C
    split <;> simp_all

theorem render_clauses_starts_LC (d : Nat × CStr) (cs : List (Nat × CStr)) :
    (cstr "LC_").isPrefixOf (render_clauses (d :: cs)) = true := by
  cases cs <;> simp [render_clauses, render_clause, cstr]

theorem render_clauses_length (cs : List (Nat × CStr)) :
    cs.length ≤ (render_clauses cs).length := by
  match cs with
  | [] => simp
  | [c] => simp [render_clauses, render_clause, cstr]
  | c :: d :: cs =>
    have := render_clauses_length (d :: cs)
    simp only [render_clauses, List.length_append, List.length_cons] at this ⊢
    omega

theorem assign_clauses_cons (P : Provider) (c : Nat × CStr) (cs : List (Nat × CStr))
    (lcid cp : Nat → Nat) (data : thread_data_t) :
    assign_clauses P (c :: cs) lcid cp data
      = (resolve_clause P data c.2 (cp c.1)).bind fun (l, k, data) =>
          if l = LCID_FAIL then some (none, data)
          else assign_clauses P cs (Function.update lcid c.1 l) (Function.update cp c.1 k) data :=
  rfl

theorem assign_clauses_nil (P : Provider) (lcid cp : Nat → Nat) (data : thread_data_t) :
    assign_clauses P [] lcid cp data = some (some (lcid, cp), data) := rfl

/-- The loop of the composite branch, run on the rendering of well-formed
clauses with enough fuel, does what the assignment of the clauses says. -/
theorem parse_composite_render (P : Provider) (cs : List (Nat × CStr)) (hfit : clauses_fit cs)
    (fuel : Nat) (hfuel : cs.length ≤ fuel) (lcid cp : Nat → Nat) (data : thread_data_t) :
    parse_composite P fuel (render_clauses cs) lcid cp data = assign_clauses P cs lcid cp data := by
  induction cs generalizing fuel lcid cp data with
  | nil => exact absurd hfit (by simp [clauses_fit])
  | cons c cs ih =>
    obtain ⟨fuel, rfl⟩ : ∃ f, fuel = f + 1 := ⟨fuel - 1, by simp at hfuel; omega⟩
    cases cs with
    | nil =>
      obtain ⟨hc, hv⟩ := hfit
      have ht := category_token_render c [] hc
      simp only [List.append_nil] at ht
      rw [assign_clauses_cons]
      simp only [render_clauses, parse_composite, ht, strchr_value_end _ hv,
        clause_is_C_end _ hv, assign_clauses_nil, resolve_clause, CP_ACP]
      by_cases hC : c.2 = ['C']
      · simp [hC, LCID_FAIL]
      · simp only [hC, decide_False, Bool.false_eq_true, if_false]
        rcases MSVCRT_locale_to_LCID P data c.2 (some (cp c.1)) with _ | ⟨l, k, d1⟩
        · rfl
        · simp only [Option.some_bind, Option.map_some', Option.bind_some]
    | cons d cs =>
      obtain ⟨⟨hc, hv, hlen⟩, hrest⟩ := hfit
      have ht := category_token_render c (';' :: render_clauses (d :: cs)) hc
      have hdrop : (c.2 ++ ';' :: render_clauses (d :: cs)).drop (c.2.length + 1)
          = render_clauses (d :: cs) := by
        rw [List.drop_append_eq_append_drop]
        simp
      have htake : (c.2 ++ ';' :: render_clauses (d :: cs)).take c.2.length = c.2 := by
        simp
      have hih := fun lcid cp data =>
        ih hrest fuel (by simpa using hfuel) lcid cp data
      rw [assign_clauses_cons]
      simp only [render_clauses, parse_composite, ht, strchr_value_sep _ _ hv,
        clause_is_C_sep _ _ hv, resolve_clause, CP_ACP, hdrop, htake,
        render_clauses_starts_LC, if_true, hlen]
      by_cases hC : c.2 = ['C']
      · simp [hC, LCID_FAIL, hih]
      · simp only [hC, decide_False, Bool.false_eq_true, if_false]
        rcases MSVCRT_locale_to_LCID P data c.2 (some (cp c.1)) with _ | ⟨l, k, d1⟩
        · rfl
        · simp only [Option.some_bind, Option.map_some', Option.bind_some]
          split_ifs
          · rfl
          · exact hih _ _ _

theorem render_clauses_ne (d : Nat × CStr) (cs : List (Nat × CStr)) :
    render_clauses (d :: cs) ≠ ['C'] ∧ render_clauses (d :: cs) ≠ [] := by
  cases cs <;> simp [render_clauses, render_clause, cstr]

/-- The arrays `lcid` and `cp` of a composite descriptor made of well-formed
clauses are those of the assignment of the clauses. -/
theorem create_locinfo_lcids_render (P : Provider) (cs : List (Nat × CStr))
    (hfit : clauses_fit cs) (data : thread_data_t) :
    create_locinfo_lcids P (render_clauses cs) data
      = assign_clauses P cs (fun _ => 0) (fun _ => 0) data := by
  cases cs with
  | nil => exact absurd hfit (by simp [clauses_fit])
  | cons d cs =>
    unfold create_locinfo_lcids
    rw [if_neg (render_clauses_ne d cs).1, if_neg (render_clauses_ne d cs).2,
      if_pos (render_clauses_starts_LC d cs)]
    exact parse_composite_render P _ hfit _
      (Nat.le_succ_of_le (render_clauses_length _)) _ _ _

theorem assign_clauses_frame (P : Provider) (cs : List (Nat × CStr)) (lcid cp : Nat → Nat)
    (data data' : thread_data_t) (lcid' cp' : Nat → Nat)
    (h : assign_clauses P cs lcid cp data = some (some (lcid', cp'), data'))
    (X : Nat) (hun : ∀ c ∈ cs, c.1 ≠ X) : lcid' X = lcid X ∧ cp' X = cp X := by
  induction cs generalizing lcid cp data with
  | nil =>
    rw [assign_clauses_nil] at h
    cases h
    exact ⟨rfl, rfl⟩
  | cons c cs ih =>
    rw [assign_clauses_cons] at h
    rcases hr : resolve_clause P data c.2 (cp c.1) with _ | ⟨l, k, d1⟩
    · rw [hr] at h; cases h
    · rw [hr] at h
      simp only [Option.some_bind] at h
      by_cases hl : l = LCID_FAIL
      · rw [if_pos hl] at h; cases h
      · rw [if_neg hl] at h
        have hne : X ≠ c.1 := fun e => hun c (List.mem_cons_self _ _) e.symm
        obtain ⟨e1, e2⟩ := ih _ _ _ h (fun c' hc' => hun c' (List.mem_cons_of_mem _ hc'))
        rw [e1, e2, Function.update_noteq hne, Function.update_noteq hne]
        exact ⟨rfl, rfl⟩

/-- C8: for a composite descriptor made of well-formed clauses
LC_<CATEGORY>=<value> separated by ';', the arrays of locale ids and
codepages that create_locinfo computes are those of the assignment of the
clauses: each clause, in order, gives its own category the resolution of its
own value alone, a value of exactly "C" giving locale id 0 and codepage 0
with no call of MSVCRT_locale_to_LCID. When a clause value does not resolve,
create_locinfo returns NULL. When create_locinfo with the selector LC_ALL
returns a record, every category of it holds the locale id assigned to it
(and the codepage assigned, unless the locale id assigned is 0 and the
codepage is not). -/
theorem composite_clauses_assigned_each_to_its_category (P : Provider) (charmax : Nat)
    (old : Option MSVCRT_threadlocinfo) (cs : List (Nat × CStr)) (data : thread_data_t)
    (hfit : clauses_fit cs) :
    create_locinfo_lcids P (render_clauses cs) data
      = assign_clauses P cs (fun _ => 0) (fun _ => 0) data ∧
    (∀ data', assign_clauses P cs (fun _ => 0) (fun _ => 0) data = some (none, data') →
      create_locinfo P charmax (MSVCRT_LC_ALL : Int) (some (render_clauses cs)) old data
        = some (none, data')) ∧
    (∀ new data',
      create_locinfo P charmax (MSVCRT_LC_ALL : Int) (some (render_clauses cs)) old data
        = some (some new, data') →
      ∃ lcid cp, assign_clauses P cs (fun _ => 0) (fun _ => 0) data
          = some (some (lcid, cp), data') ∧
        ∀ X, is_category X → new.lc_handle X = lcid X ∧
          ((lcid X ≠ 0 ∨ cp X = 0) → (new.lc_id X).wCodePage = cp X)) := by
  have key := create_locinfo_lcids_render P cs hfit data
  refine ⟨key, ?_, ?_⟩
  · intro data' hfail
    rw [← key] at hfail
    simp [create_locinfo, hfail, MSVCRT_LC_ALL, MSVCRT_LC_MIN, MSVCRT_LC_MAX]
  · intro new data' hnew
    obtain ⟨_, lcid, cp, hl, hb⟩ := create_locinfo_success P _ _ _ _ _ _ _ hnew
    rw [key] at hl
    exact ⟨lcid, cp, hl, fun X hX => build_all_handle P _ _ _ _ new hb X hX⟩

theorem install_one_differs_data (P : Provider) (X : Nat) (hX : is_category X)
    (l n : MSVCRT_threadlocinfo) (hd : category_differs l n X = true)
    (hv : 100 ≤ P._MSVCR_VER) :
    category_data_of (install_one P X l n) X = category_data_of n X := by
  obtain ⟨h1, h2⟩ := hX
  simp only [MSVCRT_LC_COLLATE, MSVCRT_LC_TIME] at h1 h2
  interval_cases X <;>
    simp only [install_one, install_collate, install_ctype, install_monetary, install_numeric,
      install_time, install_common, MSVCRT_LC_COLLATE, MSVCRT_LC_CTYPE, MSVCRT_LC_MONETARY,
      MSVCRT_LC_NUMERIC, MSVCRT_LC_TIME] at * <;>
    simp only [hd, hv, if_true, if_false] <;>
    simp [category_data_of, MSVCRT_LC_COLLATE,
      MSVCRT_LC_CTYPE, MSVCRT_LC_MONETARY, MSVCRT_LC_NUMERIC, MSVCRT_LC_TIME]

/-- C4 (amended): after a successful MSVCRT_setlocale (LC_ALL, d) with a
composite descriptor d of well-formed clauses, against the record R, every
category X that no clause names has locale id 0 and codepage 0. When R held
locale id 0 and codepage 0 for X, the block of X is R's block, unchanged.
Otherwise the block of X is the block create_locinfo builds for the "C"
locale (`C_record` on the fresh record, with the time data built for locale
id 0): the same `lc_id`, the same descriptor "C" and the same data, the
members that exist from `_MSVCR_VER` 100 on included when the runtime has
them. -/
theorem composite_unnamed_category_is_default (P : Provider) (g g' : Globals)
    (data data' : thread_data_t) (cs : List (Nat × CStr)) (R : MSVCRT_threadlocinfo) (r : CStr)
    (hfit : clauses_fit cs) (hloc : get_locinfo g data = some R)
    (h : MSVCRT_setlocale P g data (MSVCRT_LC_ALL : Int) (some (render_clauses cs))
      = some (some r, g', data'))
    (X : Nat) (hX : is_category X) (hun : ∀ c ∈ cs, c.1 ≠ X) :
    ∃ cur, get_locinfo g' data' = some cur ∧
      cur.lc_handle X = 0 ∧ (cur.lc_id X).wCodePage = 0 ∧
      ((R.lc_handle X = 0 ∧ (R.lc_id X).wCodePage = 0) →
        category_block_of cur X = category_block_of R X) ∧
      (¬ (R.lc_handle X = 0 ∧ (R.lc_id X).wCodePage = 0) →
        ∃ t, (X = MSVCRT_LC_TIME → build_time_data P 0 = t ∧ t ≠ none) ∧
          cur.lc_id X = (C_record P g.charmax X t locinfo_fresh).lc_id X ∧
          cur.lc_category X = (C_record P g.charmax X t locinfo_fresh).lc_category X ∧
          (cur.lc_category X).locale = some (cstr "C") ∧
          (category_data_of cur X).narrow
            = (category_data_of (C_record P g.charmax X t locinfo_fresh) X).narrow ∧
          (100 ≤ P._MSVCR_VER → category_data_of cur X
            = category_data_of (C_record P g.charmax X t locinfo_fresh) X)) := by
  rcases setlocale_cases P g g' data data' _ _ R _ hloc h with
    ⟨h0, _, _⟩ | ⟨new, data1, hnew, hget, _⟩
  · cases h0
  · obtain ⟨_, lcid, cp, hl, hb⟩ := create_locinfo_success P _ _ _ _ _ _ _ hnew
    rw [create_locinfo_lcids_render P cs hfit data] at hl
    obtain ⟨z1, z2⟩ := assign_clauses_frame P cs _ _ _ _ _ _ hl X hun
    obtain ⟨n1, n2⟩ := build_all_handle P _ _ _ _ new hb X hX
    rw [z1] at n1
    have n2 := n2 (Or.inr z2)
    rw [z2] at n2
    obtain ⟨i1, i2⟩ := install_categories_handle P R new X hX
    refine ⟨_, hget, i1.trans n1, i2.trans n2, ?_, ?_⟩
    · rintro ⟨r1, r2⟩
      apply install_categories_same P R new X hX
      simp [category_differs, r1, r2, n1, n2]
    · intro hR
      have hd : category_differs R new X = true := by
        simp only [category_differs, n1, n2, Bool.or_eq_true, decide_eq_true_eq]
        by_cases r1 : R.lc_handle X = 0
        · exact Or.inr (fun r2 => hR ⟨r1, r2⟩)
        · exact Or.inl r1
      obtain ⟨_, e2, e3, e4⟩ := install_one_differs P X hX R new hd
      have hblock := install_categories_block P R new X hX
      simp only [category_block_of, category_block.mk.injEq] at hblock
      obtain ⟨_, b2, b3, _, b5⟩ := hblock
      rcases build_categories_outcome P _ _ (some R) lcid cp new hb X hX with
        ⟨o, ho, k1, _⟩ | ⟨_, hne, _⟩ | ⟨_, _, t, ht, hC⟩
      · cases ho
        simp only [category_needs_update] at k1
        split_ifs at k1 with hcat
        · simp [MSVCRT_LC_ALL] at hcat
        · simp only [z1, z2, Bool.or_eq_false_iff, decide_eq_false_iff_not, not_not] at k1
          exact absurd ⟨k1.1.symm, k1.2.symm⟩ hR
      · exact absurd z1 hne
      · rw [z1] at ht
        simp only [category_block_of, category_block.mk.injEq] at hC
        obtain ⟨_, c2, c3, _, c5⟩ := hC
        refine ⟨t, ht, (b2.trans e2).trans c2, (b3.trans e3).trans c3, ?_, ?_, ?_⟩
        · rw [(b3.trans e3).trans c3]
          obtain ⟨h1, h2⟩ := hX
          simp only [MSVCRT_LC_COLLATE, MSVCRT_LC_TIME] at h1 h2
          by_cases hv : 100 ≤ P._MSVCR_VER <;>
          interval_cases X <;>
            simp [C_record, set_locale_C, ctype_C, monetary_C_record, numeric_C, hv,
              MSVCRT_LC_COLLATE, MSVCRT_LC_CTYPE, MSVCRT_LC_MONETARY, MSVCRT_LC_NUMERIC,
              MSVCRT_LC_TIME]
        · rw [b5, e4, c5]
        · intro hv
          rw [b5, install_one_differs_data P X hX R new hd hv, c5]

/-! ### The statements at concrete inputs -/

theorem eq_some_of_map_fst {α β : Type} (x : Option (α × β)) (a : α) (d : α × β)
    (h : x.map Prod.fst = some a) : x = some (a, (x.getD d).2) := by
  cases x with
  | none => cases h
  | some v =>
    simp only [Option.map_some', Option.some.injEq] at h
    subst h
    rfl

theorem eq_some_of_map_fst_snd {α β γ : Type} (x : Option (α × β × γ)) (a : α) (b : β)
    (d : α × β × γ) (h : x.map (fun r => (r.1, r.2.1)) = some (a, b)) :
    x = some (a, b, (x.getD d).2.2) := by
  cases x with
  | none => cases h
  | some v =>
    simp only [Option.map_some', Option.some.injEq, Prod.mk.injEq] at h
    obtain ⟨rfl, rfl⟩ := h
    rfl

theorem eq_some_none_of_map {α β : Type} (x : Option (Option α × β)) (d : Option α × β)
    (h : x.map (fun r => r.1.isSome) = some false) : x = some (none, (x.getD d).2) := by
  cases x with
  | none => cases h
  | some v =>
    obtain ⟨a, b⟩ := v
    cases a with
    | none => rfl
    | some a => simp at h

theorem eq_some_getD {α : Type} (x : Option α) (d : α) (h : x.isSome = true) :
    x = some (x.getD d) := by
  cases x with
  | none => cases h
  | some v => rfl

theorem demo_started_locinfo :
    get_locinfo demo_started.1 demo_started.2
      = some ((get_locinfo demo_started.1 demo_started.2).getD locinfo_fresh) :=
  eq_some_getD _ _ (by decide)

theorem demo_french_locinfo :
    get_locinfo demo_french.1 demo_french.2
      = some ((get_locinfo demo_french.1 demo_french.2).getD locinfo_fresh) :=
  eq_some_getD _ _ (by decide)

/-- C1 at the demo provider: the search for "French" selects the French
candidate 1036, the last one enumerated. -/
theorem find_best_locale_selects_first_max_witness :
    (EnumResourceLanguagesA (find_best_locale_proc demoProvider) demoProvider.languages
      demo_search).match_flags
      = score demoProvider demo_search (EnumResourceLanguagesA
          (find_best_locale_proc demoProvider) demoProvider.languages demo_search).found_lang_id :=
  (find_best_locale_selects_first_max demoProvider demo_search demoProvider.languages rfl
    ⟨1036, by decide, by decide, by decide⟩).1.2.1

/-- C3 at the demo provider: "fr" matches the ISO language name of 1036 by
equality, "Fren" matches its English name "French" as a beginning, and
"Fre" matches neither. -/
theorem compare_info_spec_witness :
    compare_info demoProvider 1036 .LOCALE_SISO639LANGNAME (cstr "FR") false = true ∧
    compare_info demoProvider 1036 .LOCALE_SENGLANGUAGE (cstr "Fren") false = true ∧
    compare_info demoProvider 1036 .LOCALE_SENGLANGUAGE (cstr "Fre") false = false :=
  ⟨((compare_info_spec demoProvider 1036 .LOCALE_SISO639LANGNAME (cstr "FR") false).2.1
      (by decide) (by decide) (Or.inl (by decide))).mpr (by decide),
   ((compare_info_spec demoProvider 1036 .LOCALE_SENGLANGUAGE (cstr "Fren") false).2.2.1
      (by decide) (by decide) (by decide) rfl).mpr (by decide),
   (compare_info_spec demoProvider 1036 .LOCALE_SENGLANGUAGE (cstr "Fre") false).2.2.2
      (by decide) (by decide)⟩

/-- C4 (counterexample): after start-up and setlocale (LC_ALL, "French")
every category has locale id 1036; the composite descriptor
"LC_COLLATE=French;LC_CTYPE=C" with the selector LC_ALL then leaves Collate
at 1036 and sets Ctype and also Monetary, Numeric and Time, which no clause
names, to locale id 0. -/
theorem composite_resets_unnamed_categories :
    demo_composite_update = some ([1036, 1036, 1036, 1036, 1036], [1036, 0, 0, 0, 0]) := by
  decide

/-- C4 (amended) at the demo provider: after "LC_COLLATE=French;LC_CTYPE=C"
on the all-French record, Monetary and Time, which no clause names and which
were French, hold locale id 0, the descriptor "C" and the data of the "C"
locale: empty monetary strings, the grouping [0] and `charmax` in every digit
member, and the time data built for locale id 0. -/
theorem composite_unnamed_category_is_default_witness :
    clauses_fit [(MSVCRT_LC_COLLATE, cstr "French"), (MSVCRT_LC_CTYPE, cstr "C")] ∧
    (get_locinfo demo_french.1 demo_french.2).map
        (fun l => (l.lc_handle MSVCRT_LC_MONETARY, l.lc_handle MSVCRT_LC_TIME))
      = some (1036, 1036) ∧
    (∃ cur, get_locinfo demo_composite.1 demo_composite.2 = some cur ∧
      cur.lc_handle MSVCRT_LC_MONETARY = 0 ∧
      (cur.lc_category MSVCRT_LC_MONETARY).locale = some (cstr "C") ∧
      (category_data_of cur MSVCRT_LC_MONETARY).narrow
        = (category_data_of (monetary_C_record demoProvider 127 locinfo_fresh)
            MSVCRT_LC_MONETARY).narrow ∧
      cur.lc_handle MSVCRT_LC_TIME = 0 ∧
      (cur.lc_category MSVCRT_LC_TIME).locale = some (cstr "C") ∧
      cur.lc_time_curr = build_time_data demoProvider 0) ∧
    (category_data_of (monetary_C_record demoProvider 127 locinfo_fresh)
        MSVCRT_LC_MONETARY).narrow
      = .monetary [some [], some [], some [], some [], some [], some []] (some [0])
          [127, 127, 127, 127, 127, 127, 127, 127] [] := by
  have hfit : clauses_fit [(MSVCRT_LC_COLLATE, cstr "French"), (MSVCRT_LC_CTYPE, cstr "C")] :=
    ⟨⟨⟨by decide, by decide⟩, by decide, by decide⟩, ⟨by decide, by decide⟩, by decide⟩
  have hret := eq_some_of_map_fst
    (MSVCRT_setlocale demoProvider demo_french.1 demo_french.2 (MSVCRT_LC_ALL : Int)
      (some (render_clauses [(MSVCRT_LC_COLLATE, cstr "French"), (MSVCRT_LC_CTYPE, cstr "C")])))
    (some (cstr
      "LC_COLLATE=French_France.1252;LC_CTYPE=C;LC_MONETARY=C;LC_NUMERIC=C;LC_TIME=C"))
    (none, demo_french) (by decide)
  obtain ⟨cur, h1, h2, _, _, h5⟩ := composite_unnamed_category_is_default demoProvider
    demo_french.1 demo_composite.1 demo_french.2 demo_composite.2
    [(MSVCRT_LC_COLLATE, cstr "French"), (MSVCRT_LC_CTYPE, cstr "C")] _ _
    hfit demo_french_locinfo hret MSVCRT_LC_MONETARY ⟨by decide, by decide⟩ (by decide)
  obtain ⟨cur', k1, k2, _, _, k5⟩ := composite_unnamed_category_is_default demoProvider
    demo_french.1 demo_composite.1 demo_french.2 demo_composite.2
    [(MSVCRT_LC_COLLATE, cstr "French"), (MSVCRT_LC_CTYPE, cstr "C")] _ _
    hfit demo_french_locinfo hret MSVCRT_LC_TIME ⟨by decide, by decide⟩ (by decide)
  have hc : cur' = cur := Option.some.inj (k1.symm.trans h1)
  subst hc
  obtain ⟨t, _, _, _, m3, m4, _⟩ := h5 (by decide)
  obtain ⟨t', ht', _, _, t3, t4, _⟩ := k5 (by decide)
  obtain ⟨ht1, _⟩ := ht' rfl
  refine ⟨hfit, by decide, ⟨cur', h1, h2, m3, m4, k2, t3, ?_⟩, by decide⟩
  have e : (category_data_of cur' MSVCRT_LC_TIME).narrow = category_data.time cur'.lc_time_curr :=
    rfl
  rw [e] at t4
  have e2 : (category_data_of (C_record demoProvider demo_french.1.charmax MSVCRT_LC_TIME t'
      locinfo_fresh) MSVCRT_LC_TIME).narrow = category_data.time t' := rfl
  rw [e2] at t4
  rw [ht1]
  exact category_data.time.inj t4

/-- C5 at the demo provider: after start-up, setlocale (LC_ALL, "Klingon")
returns NULL and leaves the globals and the record in use as they were. -/
theorem setlocale_failure_keeps_state_witness :
    ∃ data2, MSVCRT_setlocale demoProvider demo_started.1 demo_started.2 0
        (some (cstr "Klingon")) = some (none, demo_started.1, data2) ∧
      get_locinfo demo_started.1 data2 = get_locinfo demo_started.1 demo_started.2 ∧
      data2.have_locale = demo_started.2.have_locale ∧
      data2.locinfo = demo_started.2.locinfo :=
  setlocale_failure_keeps_state demoProvider demo_started.1 demo_started.2 0 (cstr "Klingon")
    _ ((create_locinfo demoProvider demo_started.1.charmax 0 (some (cstr "Klingon"))
      (get_locinfo demo_started.1 demo_started.2) demo_started.2).getD
        (none, thread_data_initial)).2
    demo_started_locinfo
    (Or.inr (Or.inr (by
      rw [← demo_started_locinfo]
      exact eq_some_none_of_map _ _ (by decide))))

/-- C6 at the demo provider: after start-up, setlocale (LC_NUMERIC, "French")
succeeds and leaves Collate, Ctype, Monetary and Time as they were. -/
theorem setlocale_single_category_keeps_others_witness :
    ∃ cur, get_locinfo demo_numeric.1 demo_numeric.2 = some cur ∧
      ∀ Y, is_category Y → Y ≠ MSVCRT_LC_NUMERIC →
        category_block_of cur Y
          = category_block_of ((get_locinfo demo_started.1 demo_started.2).getD locinfo_fresh) Y :=
  setlocale_single_category_keeps_others demoProvider demo_started.1 demo_numeric.1
    demo_started.2 demo_numeric.2 MSVCRT_LC_NUMERIC (cstr "French") _
    (cstr "French_France.1252") ⟨by decide, by decide⟩ demo_started_locinfo
    (eq_some_of_map_fst _ _ (none, demo_started) (by decide))

/-- C7 at the demo provider: after start-up "French" resolves to locale id
1036 and codepage 1252, and after setlocale (LC_ALL, "French") the record in
use holds 1036 and 1252 in all five categories. -/
theorem plain_descriptor_all_categories_witness :
    (MSVCRT_locale_to_LCID demoProvider demo_started.2 (cstr "French") (some 0)).map
        (fun r => (r.1, r.2.1)) = some (1036, some 1252) ∧
    ∃ cur, get_locinfo demo_french.1 demo_french.2 = some cur ∧
      ∀ X, is_category X → cur.lc_handle X = 1036 ∧ (cur.lc_id X).wCodePage = 1252 :=
  ⟨by decide,
   (plain_descriptor_all_categories demoProvider demo_started.2
      ((MSVCRT_locale_to_LCID demoProvider demo_started.2 (cstr "French") (some 0)).getD
        (0, none, thread_data_initial)).2.2
      (cstr "French") 1036 1252 (Or.inl ⟨by decide, by decide, by decide⟩)
      (by decide) (by decide) (by decide)
      (eq_some_of_map_fst_snd _ _ _ (0, none, thread_data_initial) (by decide))
      (by decide)).2 demo_started.1 demo_french.1 demo_french.2 _ (cstr "French_France.1252")
      demo_started_locinfo (eq_some_of_map_fst _ _ (none, demo_started) (by decide))⟩

/-- C8 at the demo provider: for "LC_COLLATE=French;LC_CTYPE=C" on the
initial thread state the arrays are those of the assignment of the two
clauses: Collate gets locale id 1036 and codepage 1252, every other category
locale id 0 and codepage 0. -/
theorem composite_clauses_assigned_each_to_its_category_witness :
    clauses_fit [(MSVCRT_LC_COLLATE, cstr "French"), (MSVCRT_LC_CTYPE, cstr "C")] ∧
    create_locinfo_lcids demoProvider
        (render_clauses [(MSVCRT_LC_COLLATE, cstr "French"), (MSVCRT_LC_CTYPE, cstr "C")])
        thread_data_initial
      = assign_clauses demoProvider
          [(MSVCRT_LC_COLLATE, cstr "French"), (MSVCRT_LC_CTYPE, cstr "C")]
          (fun _ => 0) (fun _ => 0) thread_data_initial ∧
    (assign_clauses demoProvider
        [(MSVCRT_LC_COLLATE, cstr "French"), (MSVCRT_LC_CTYPE, cstr "C")]
        (fun _ => 0) (fun _ => 0) thread_data_initial).map
      (fun r => r.1.map fun a => ([1, 2, 3, 4, 5].map a.1, [1, 2, 3, 4, 5].map a.2))
      = some (some ([1036, 0, 0, 0, 0], [1252, 0, 0, 0, 0])) :=
  ⟨⟨⟨⟨by decide, by decide⟩, by decide, by decide⟩, ⟨by decide, by decide⟩, by decide⟩,
   (composite_clauses_assigned_each_to_its_category demoProvider 127 none
      [(MSVCRT_LC_COLLATE, cstr "French"), (MSVCRT_LC_CTYPE, cstr "C")] thread_data_initial
      ⟨⟨⟨by decide, by decide⟩, by decide, by decide⟩, ⟨by decide, by decide⟩, by decide⟩).1,
   by decide⟩

/-- C9 at the double-byte demo provider: the registry after start-up and
setlocale (LC_ALL, "French") is a reachable state in which every category of
the record in use has locale id 1036, the decimal point is ",", the
thousands separator is " ", the grouping array is [3, 0] and the maximum
multibyte width is 2; there setlocale (LC_ALL, "C") by thread 0 succeeds and
gives the "C" record. -/
theorem setlocale_C_always_succeeds_witness :
    Reachable dbcsProvider dbcs_french_world ∧
    (get_locinfo dbcs_french_world.g (dbcs_french_world.threads 0)).map
        (fun l => [1, 2, 3, 4, 5].map l.lc_handle) = some [1036, 1036, 1036, 1036, 1036] ∧
    (get_locinfo dbcs_french_world.g (dbcs_french_world.threads 0)).map
        (fun l => [1, 2, 3, 4, 5].map (fun X => (l.lc_category X).locale))
      = some [some (cstr "French_France.1252"), some (cstr "French_France.1252"),
          some (cstr "French_France.1252"), some (cstr "French_France.1252"),
          some (cstr "French_France.1252")] ∧
    (get_locinfo dbcs_french_world.g (dbcs_french_world.threads 0)).map
        (fun l => (l.lconv.decimal_point, l.lconv.thousands_sep))
      = some (some (cstr ","), some (cstr " ")) ∧
    (get_locinfo dbcs_french_world.g (dbcs_french_world.threads 0)).map
        (fun l => (l.lconv.grouping, l.mb_cur_max)) = some (some [3, 0], 2) ∧
    ∃ g' data' cur,
      MSVCRT_setlocale dbcsProvider dbcs_french_world.g (dbcs_french_world.threads 0)
        (MSVCRT_LC_ALL : Int) (some (cstr "C")) = some (some (cstr "C"), g', data') ∧
      get_locinfo g' data' = some cur ∧
      (∀ X, is_category X →
        (cur.lc_category X).locale = some (cstr "C") ∧ cur.lc_handle X = 0) ∧
      cur.lconv.decimal_point = some (cstr ".") ∧ cur.lconv.thousands_sep = some [] ∧
      cur.lconv.grouping = some [0] ∧ cur.mb_cur_max = 1 :=
  have hr : Reachable dbcsProvider dbcs_french_world :=
    Reachable.setlocale
      ⟨dbcs_started.1, Function.update (fun _ => thread_data_initial) 0 dbcs_started.2⟩ 0 0
      (some (cstr "French")) (some (cstr "French_France.1252")) dbcs_french.1 dbcs_french.2
      (Reachable.init 0 dbcs_started.1 dbcs_started.2
        (eq_some_of_map_fst _ _ (false, globals_initial, thread_data_initial) (by decide)))
      (eq_some_of_map_fst _ _ (none, dbcs_started) (by decide))
  ⟨hr, by decide, by decide, by decide, by decide,
    setlocale_C_always_succeeds dbcsProvider dbcs_french_world 0 hr⟩

/-! ### C14: the synonym table -/

theorem remap_synonym_from_hit (table : List (String × String)) (name : CStr)
    (hnd : (table.map fun p => (cstr p.1).map tolower).Nodup)
    (p : String × String) (hp : p ∈ table)
    (h : name.map tolower = (cstr p.1).map tolower) :
    remap_synonym_from table name = cstr p.2 := by
  induction table with
  | nil => cases hp
  | cons q rest ih =>
    obtain ⟨syn, code⟩ := q
    simp only [List.map_cons, List.nodup_cons] at hnd
    unfold remap_synonym_from
    by_cases hq : strcasecmp (cstr syn) name = 0
    · rw [if_pos hq]
      rcases List.mem_cons.mp hp with rfl | hp'
      · rfl
      · exfalso
        apply hnd.1
        rw [strcasecmp_eq_zero_iff] at hq
        rw [hq, h]
        exact List.mem_map_of_mem (fun p => (cstr p.1).map tolower) hp'
    · rw [if_neg hq]
      rcases List.mem_cons.mp hp with rfl | hp'
      · exact absurd ((strcasecmp_eq_zero_iff _ _).mpr h.symm) hq
      · exact ih hnd.2 hp'

theorem remap_synonym_from_miss (table : List (String × String)) (name : CStr)
    (h : ∀ p ∈ table, name.map tolower ≠ (cstr p.1).map tolower) :
    remap_synonym_from table name = name := by
  induction table with
  | nil => rfl
  | cons q rest ih =>
    obtain ⟨syn, code⟩ := q
    unfold remap_synonym_from
    have hq : ¬ strcasecmp (cstr syn) name = 0 := by
      rw [strcasecmp_eq_zero_iff]
      exact fun e => h (syn, code) (List.mem_cons_self _ _) e.symm
    rw [if_neg hq]
    exact ih fun p hp => h p (List.mem_cons_of_mem _ hp)

theorem country_synonyms_nodup :
    (_country_synonyms.map fun p => (cstr p.1).map tolower).Nodup := by
  decide

/-- C14: when the token equals, ignoring ASCII case, an alias of the table
`_country_synonyms`, remap_synonym replaces it by the code paired with that
alias; when it equals no alias, the token is left as it is. So "usa" and
"american" become "enu", "english-uk" becomes "eng" and "swiss" becomes
"des", in any letter case. -/
theorem remap_synonym_spec (name : CStr) :
    (∀ p ∈ _country_synonyms, name.map tolower = (cstr p.1).map tolower →
      remap_synonym name = cstr p.2) ∧
    ((∀ p ∈ _country_synonyms, name.map tolower ≠ (cstr p.1).map tolower) →
      remap_synonym name = name) ∧
    (name.map tolower = cstr "usa" → remap_synonym name = cstr "enu") ∧
    (name.map tolower = cstr "american" → remap_synonym name = cstr "enu") ∧
    (name.map tolower = cstr "english-uk" → remap_synonym name = cstr "eng") ∧
    (name.map tolower = cstr "swiss" → remap_synonym name = cstr "des") := by
  have hit := fun p hp h =>
    remap_synonym_from_hit _country_synonyms name country_synonyms_nodup p hp h
  exact ⟨hit, remap_synonym_from_miss _country_synonyms name,
    fun h => hit ("usa", "enu") (by decide) (by rw [h]; decide),
    fun h => hit ("american", "enu") (by decide) (by rw [h]; decide),
    fun h => hit ("english-uk", "eng") (by decide) (by rw [h]; decide),
    fun h => hit ("swiss", "des") (by decide) (by rw [h]; decide)⟩

/-- C14 at concrete tokens: "USA" is an alias in another letter case and
becomes "enu"; "French" is no alias and stays. -/
theorem remap_synonym_spec_witness :
    remap_synonym (cstr "USA") = cstr "enu" ∧ remap_synonym (cstr "French") = cstr "French" :=
  ⟨(remap_synonym_spec (cstr "USA")).2.2.1 (by decide),
   (remap_synonym_spec (cstr "French")).2.1 (by decide)⟩

/-! ### The contents of `found_codepage` after the enumeration -/

theorem find_best_locale_proc_found_codepage (P : Provider) (l : Nat) (res : locale_search_t) :
    (find_best_locale_proc P l res).2.found_codepage = res.found_codepage ∨
    (find_best_locale_proc P l res).2.found_codepage = res.search_codepage := by
  by_cases hn : PRIMARYLANGID l = LANG_NEUTRAL
  · rw [find_best_locale_proc_neutral P l res hn]
    left; rfl
  · simp only [find_best_locale_proc, hn, if_false]
    generalize check_language P (MAKELCID l SORT_DEFAULT) res = bl
    generalize check_country P (MAKELCID l SORT_DEFAULT) res = bc
    generalize check_codepage P (MAKELCID l SORT_DEFAULT) res = bp
    cases bl <;> cases bc <;> cases bp <;>
      simp only [Bool.not_true, Bool.not_false, Bool.false_and, Bool.true_and, if_true,
        if_false, Bool.false_eq_true] <;>
      split_ifs <;> simp

theorem scan_found_codepage (P : Provider) (langs : List Nat) (res : locale_search_t)
    (hm : res.match_flags ≤ 7) :
    (EnumResourceLanguagesA (find_best_locale_proc P) langs res).found_codepage
        = res.found_codepage ∨
    (EnumResourceLanguagesA (find_best_locale_proc P) langs res).found_codepage
        = res.search_codepage := by
  induction langs generalizing res with
  | nil => left; rfl
  | cons l ls ih =>
    by_cases hn : PRIMARYLANGID l = LANG_NEUTRAL
    · simp only [EnumResourceLanguagesA, find_best_locale_proc_neutral P l res hn]
      exact ih res hm
    · obtain ⟨_, _, h3, h4, _, _⟩ := find_best_locale_proc_step P l res hn hm
      have h7 : (find_best_locale_proc P l res).2.match_flags ≤ 7 := by
        rw [h4]; have := score_le_seven P res l; omega
      have hf := find_best_locale_proc_found_codepage P l res
      unfold EnumResourceLanguagesA
      rcases hstep : find_best_locale_proc P l res with ⟨c, r1⟩
      rw [hstep] at h3 h7 hf
      cases c
      · simp only
        exact hf
      · simp only at h3 h7 hf ⊢
        rcases ih r1 h7 with i | i
        · rw [i]; exact hf
        · rw [i, h3]; right; rfl

theorem score_codepage_bit (P : Provider) (res : locale_search_t) (l : Nat) :
    score P res l &&& FOUND_CODEPAGE
      = if check_codepage P (MAKELCID l SORT_DEFAULT) res then 1 else 0 := by
  unfold score FOUND_CODEPAGE
  cases check_language P (MAKELCID l SORT_DEFAULT) res <;>
  cases check_country P (MAKELCID l SORT_DEFAULT) res <;>
  cases check_codepage P (MAKELCID l SORT_DEFAULT) res <;> decide

theorem score_country_bit (P : Provider) (res : locale_search_t) (l : Nat) :
    score P res l &&& FOUND_COUNTRY
      = if check_country P (MAKELCID l SORT_DEFAULT) res then 2 else 0 := by
  unfold score FOUND_COUNTRY
  cases check_language P (MAKELCID l SORT_DEFAULT) res <;>
  cases check_country P (MAKELCID l SORT_DEFAULT) res <;>
  cases check_codepage P (MAKELCID l SORT_DEFAULT) res <;> decide

/-- The facts about the record after the enumeration that the validation
uses: the tokens are the normalised ones, `found_codepage` is empty or the
codepage token, and the flags recorded are 0 or the score of the candidate
recorded. -/
theorem final_search_facts (P : Provider) (locale : CStr) (search : locale_search_t)
    (hs : split_locale locale = some search) :
    (final_search P search).search_language = (normalize_search search).search_language ∧
    (final_search P search).search_country = (normalize_search search).search_country ∧
    (final_search P search).search_codepage = search.search_codepage ∧
    ((final_search P search).found_codepage = [] ∨
      (final_search P search).found_codepage = search.search_codepage) ∧
    ((final_search P search).match_flags = 0 ∨
      (final_search P search).match_flags
        = score P (normalize_search search) (final_search P search).found_lang_id) := by
  have hm0 : (normalize_search search).match_flags = 0 := by
    rw [normalize_search_match_flags, split_locale_match_flags locale search hs]
  have hcp : (normalize_search search).search_codepage = search.search_codepage := by
    simp only [normalize_search]
    split_ifs <;> rfl
  have hfc : (normalize_search search).found_codepage = [] := by
    have : search.found_codepage = [] := by
      unfold split_locale at hs
      simp only [Option.map_eq_some', Option.bind_eq_some] at hs
      obtain ⟨_, _, _, _, rfl⟩ := hs
      rfl
    simp only [normalize_search]
    split_ifs <;> exact this
  obtain ⟨k1, k2, k3, _⟩ := scan_keeps_tokens P P.languages (normalize_search search) (by omega)
  have k4 := scan_found_codepage P P.languages (normalize_search search) (by omega)
  obtain ⟨_, _, sC⟩ := scan_spec P P.languages (normalize_search search) (by omega)
  refine ⟨k1, k2, k3.trans hcp, ?_, ?_⟩
  · rw [hfc, hcp] at k4
    exact k4
  · rcases sC with ⟨e1, _⟩ | ⟨_, _, _, _, _, e3, _⟩
    · left; exact e1.trans hm0
    · right; exact e3.symm

/-- The call of `MSVCRT_locale_to_LCID` on a sound cache, for any descriptor
but the empty one on the empty slot, returns what the validation computes from
the record after the enumeration. -/
theorem locale_to_LCID_by_search (P : Provider) (data : thread_data_t) (d : CStr)
    (codepage : Option Nat) (search : locale_search_t)
    (hok : cache_ok P data) (hne : d ≠ [] ∨ data.cached_locale ≠ [])
    (hs : split_locale d = some search) :
    (locale_to_LCID_finish P (final_search P search) = none →
      MSVCRT_locale_to_LCID P data d codepage = some (LCID_FAIL, codepage, data)) ∧
    (∀ lcid fc, locale_to_LCID_finish P (final_search P search) = some (lcid, fc) →
      ∃ data1, MSVCRT_locale_to_LCID P data d codepage
        = some (lcid, codepage.map (fun _ => ((atoi fc) % 65536).toNat), data1)) := by
  have hsearch : locale_to_LCID_search P d
      = some (locale_to_LCID_finish P (final_search P search)) := by
    simp [locale_to_LCID_search, hs, final_search]
  unfold MSVCRT_locale_to_LCID
  by_cases hc : strcmp_eq d data.cached_locale = true
  · rw [if_pos hc]
    simp only [strcmp_eq, decide_eq_true_eq] at hc
    rcases hok with ⟨h1, _⟩ | ⟨fc, h1, h2⟩
    · rcases hne with hne | hne
      · rw [h1] at hc; exact absurd hc hne
      · exact absurd h1 hne
    · rw [← hc, hsearch] at h1
      simp only [Option.some.injEq] at h1
      constructor
      · intro hf; rw [hf] at h1; cases h1
      · intro lcid fc' hf
        rw [hf] at h1
        simp only [Option.some.injEq, Prod.mk.injEq] at h1
        obtain ⟨rfl, rfl⟩ := h1
        exact ⟨data, by rw [h2]⟩
  · rw [if_neg hc, hsearch]
    constructor
    · intro hf; rw [hf]; rfl
    · intro lcid fc hf
      rw [hf]
      exact ⟨_, rfl⟩

/-! ### C11 to C13: the codepage of a resolution -/

theorem split_locale_codepage_ne_nil (d : CStr) (search : locale_search_t)
    (hs : split_locale d = some search) (htok : search.search_codepage ≠ []) : d ≠ [] := by
  rintro rfl
  rw [split_locale_nil] at hs
  cases hs
  exact htok rfl

theorem strtol_subject_of_letter (a : Char) (rest : CStr) (h : 65 ≤ a.toNat) :
    strtol_subject (a :: rest) = 0 := by
  have h1 : a ≠ '-' := by rintro rfl; revert h; decide
  have h2 : a ≠ '+' := by rintro rfl; revert h; decide
  have h3 : isspace a = false := by
    simp only [isspace, Bool.or_eq_false_iff, decide_eq_false_iff_not]
    constructor <;> omega
  have h4 : ¬ (48 ≤ a.toNat ∧ a.toNat ≤ 57) := by omega
  simp [strtol_subject, h3, atoi_signed, h1, h2, atoi_digits, h4]

/-- The value of `atoi` on strings that overflow: "4294967296" gives 0 (the
low 32 bits of 2^32), and a number beyond `LONG_MAX` gives -1 (the low 32
bits of `LONG_MAX`). -/
theorem atoi_overflow_values :
    atoi (cstr "1252") = 1252 ∧ atoi (cstr " -12x") = -12 ∧ atoi (cstr "4294967296") = 0 ∧
    atoi (cstr "4294968548") = 1252 ∧ atoi (cstr "18446744073709552868") = -1 ∧
    atoi (cstr "-18446744073709552868") = 0 := by
  decide

theorem tolower_letter (a c : Char) (h : tolower a = c) (hc : 97 ≤ c.toNat) : 65 ≤ a.toNat := by
  by_contra hlt
  have : tolower a = a := by
    unfold tolower
    rw [if_neg (by omega)]
  rw [this] at h
  rw [h] at hlt
  omega

theorem atoi_nil : atoi [] = 0 := by decide

/-- C11: on a sound cache, when the descriptor carries a non-empty codepage
token, the candidate recorded by the enumeration does not match the codepage,
the provider does not confirm the number of the token as a valid codepage and
the token is neither "OCP" nor "ACP" in any letter case,
MSVCRT_locale_to_LCID returns -1 and leaves the codepage and the thread data
as they were. -/
theorem unconfirmed_codepage_token_rejected (P : Provider) (data : thread_data_t) (d : CStr)
    (codepage : Option Nat) (search : locale_search_t)
    (hok : cache_ok P data) (hs : split_locale d = some search)
    (htok : search.search_codepage ≠ [])
    (hwin : check_codepage P (MAKELCID (final_search P search).found_lang_id SORT_DEFAULT)
      (normalize_search search) = false)
    (hinv : P.IsValidCodePage ((atoi search.search_codepage) % 4294967296).toNat = false)
    (hocp : search.search_codepage.map tolower ≠ cstr "ocp")
    (hacp : search.search_codepage.map tolower ≠ cstr "acp") :
    MSVCRT_locale_to_LCID P data d codepage = some (LCID_FAIL, codepage, data) := by
  obtain ⟨_, _, f3, _, f5⟩ := final_search_facts P d search hs
  apply (locale_to_LCID_by_search P data d codepage search hok
    (Or.inl (split_locale_codepage_ne_nil d search hs htok)) hs).1
  unfold locale_to_LCID_finish
  by_cases h0 : (final_search P search).match_flags = 0
  · rw [if_pos h0]
  · rw [if_neg h0]
    have hbit : (final_search P search).match_flags &&& FOUND_CODEPAGE = 0 := by
      rcases f5 with f5 | f5
      · exact absurd f5 h0
      · rw [f5, score_codepage_bit, hwin]; rfl
    have h1 : ¬ strcasecmp search.search_codepage (cstr "OCP") = 0 := by
      rw [strcasecmp_eq_zero_iff]; exact hocp
    have h2 : ¬ strcasecmp search.search_codepage (cstr "ACP") = 0 := by
      rw [strcasecmp_eq_zero_iff]; exact hacp
    simp only [hbit, f3, htok, hinv, h1, h2, if_true, if_false, ne_eq, not_false_eq_true,
      Bool.false_eq_true, ite_self]

theorem finish_rejects (P : Provider) (s : locale_search_t)
    (h : s.match_flags = 0 ∨ (s.search_country ≠ [] ∧ s.match_flags &&& FOUND_COUNTRY = 0)) :
    locale_to_LCID_finish P s = none := by
  unfold locale_to_LCID_finish
  by_cases h0 : s.match_flags = 0
  · rw [if_pos h0]
  · rw [if_neg h0, if_pos (h.resolve_left h0)]

/-- The validation when the descriptor carries no codepage token: the
default ANSI codepage is preferred. -/
theorem finish_no_token (P : Provider) (s : locale_search_t)
    (hm : s.match_flags ≠ 0)
    (hc : ¬ (s.search_country ≠ [] ∧ s.match_flags &&& FOUND_COUNTRY = 0))
    (hbit : s.match_flags &&& FOUND_CODEPAGE = 0) (htok : s.search_codepage = [])
    (hfc : s.found_codepage = []) :
    locale_to_LCID_finish P s = some (MAKELCID s.found_lang_id SORT_DEFAULT,
      if (P.GetLocaleInfoA (MAKELCID s.found_lang_id SORT_DEFAULT) false
            .LOCALE_IDEFAULTANSICODEPAGE).getD [] = [] ∨
          atoi ((P.GetLocaleInfoA (MAKELCID s.found_lang_id SORT_DEFAULT) false
            .LOCALE_IDEFAULTANSICODEPAGE).getD []) = 0 then
        (P.GetLocaleInfoA (MAKELCID s.found_lang_id SORT_DEFAULT) false
          .LOCALE_IDEFAULTCODEPAGE).getD
          ((P.GetLocaleInfoA (MAKELCID s.found_lang_id SORT_DEFAULT) false
            .LOCALE_IDEFAULTANSICODEPAGE).getD [])
      else (P.GetLocaleInfoA (MAKELCID s.found_lang_id SORT_DEFAULT) false
        .LOCALE_IDEFAULTANSICODEPAGE).getD []) := by
  unfold locale_to_LCID_finish
  rw [if_neg hm, if_neg hc]
  simp only [hbit, htok, hfc, ne_eq, not_true_eq_false, if_true, if_false, GetLocaleInfoA_into]
  split_ifs <;> rfl

theorem atoi_fallback (ansi : CStr) (gen : Option CStr) :
    atoi (if ansi = [] ∨ atoi ansi = 0 then gen.getD ansi else ansi)
      = if atoi ansi ≠ 0 then atoi ansi else atoi (gen.getD []) := by
  by_cases hz : atoi ansi = 0
  · rw [if_pos (Or.inr hz), if_neg (not_not.mpr hz)]
    cases gen with
    | none => simp [hz, atoi_nil]
    | some v => rfl
  · have hnn : ansi ≠ [] := by
      intro e; rw [e] at hz; exact hz rfl
    rw [if_neg (by simp [hnn, hz]), if_pos hz]

theorem no_token_no_codepage_bit (P : Provider) (d : CStr) (search : locale_search_t)
    (hs : split_locale d = some search) (htok : search.search_codepage = []) :
    (final_search P search).match_flags &&& FOUND_CODEPAGE = 0 ∧
    (final_search P search).found_codepage = [] := by
  obtain ⟨_, _, _, f4, f5⟩ := final_search_facts P d search hs
  constructor
  · rcases f5 with f5 | f5
    · rw [f5]; rfl
    · rw [f5, score_codepage_bit]
      have hcp : (normalize_search search).search_codepage = [] := by
        rw [← htok]
        simp only [normalize_search]
        split_ifs <;> rfl
      have : check_codepage P (MAKELCID (final_search P search).found_lang_id SORT_DEFAULT)
          (normalize_search search) = false := by
        simp [check_codepage, compare_info, hcp]
      rw [this]; rfl
  · rcases f4 with f4 | f4
    · exact f4
    · rw [f4, htok]

/-- C12: on a sound cache, for any descriptor but the empty one on the empty
cache slot, when the descriptor carries no codepage token and
MSVCRT_locale_to_LCID returns a locale id `L` (not -1), `L` is the candidate
recorded by the enumeration, and the codepage stored is the number (as the
16-bit value stored through the pointer) of the default ANSI codepage that the
provider reports for `L` when that string is present and parses to a non-zero
number, and otherwise the number of the general default codepage reported for
`L` (0 when that is absent too). -/
theorem default_codepage_prefers_ansi (P : Provider) (data data1 : thread_data_t) (d : CStr)
    (c0 cp L : Nat) (search : locale_search_t)
    (hok : cache_ok P data) (hne : d ≠ [] ∨ data.cached_locale ≠ [])
    (hs : split_locale d = some search) (htok : search.search_codepage = [])
    (h : MSVCRT_locale_to_LCID P data d (some c0) = some (L, some cp, data1))
    (hL : L ≠ LCID_FAIL) :
    L = MAKELCID (final_search P search).found_lang_id SORT_DEFAULT ∧
    (atoi ((P.GetLocaleInfoA L false .LOCALE_IDEFAULTANSICODEPAGE).getD []) ≠ 0 →
      cp = ((atoi ((P.GetLocaleInfoA L false .LOCALE_IDEFAULTANSICODEPAGE).getD []))
        % 65536).toNat) ∧
    (atoi ((P.GetLocaleInfoA L false .LOCALE_IDEFAULTANSICODEPAGE).getD []) = 0 →
      cp = ((atoi ((P.GetLocaleInfoA L false .LOCALE_IDEFAULTCODEPAGE).getD []))
        % 65536).toNat) := by
  obtain ⟨_, _, f3, _, _⟩ := final_search_facts P d search hs
  obtain ⟨hbit, hfc⟩ := no_token_no_codepage_bit P d search hs htok
  obtain ⟨k1, k2⟩ := locale_to_LCID_by_search P data d (some c0) search hok hne hs
  rcases hf : locale_to_LCID_finish P (final_search P search) with _ | ⟨lcid, fc⟩
  · rw [k1 hf] at h
    simp only [Option.some.injEq, Prod.mk.injEq] at h
    exact absurd h.1.symm hL
  · obtain ⟨d1, k⟩ := k2 lcid fc hf
    rw [k] at h
    simp only [Option.map_some', Option.some.injEq, Prod.mk.injEq] at h
    obtain ⟨rfl, rfl, _⟩ := h
    obtain ⟨hm, hlcid⟩ := finish_some P _ _ _ hf
    have hc : ¬ ((final_search P search).search_country ≠ [] ∧
        (final_search P search).match_flags &&& FOUND_COUNTRY = 0) := by
      intro hc
      rw [finish_rejects P _ (Or.inr hc)] at hf
      cases hf
    rw [finish_no_token P _ hm hc hbit (f3.trans htok) hfc] at hf
    simp only [Option.some.injEq, Prod.mk.injEq] at hf
    obtain ⟨_, rfl⟩ := hf
    refine ⟨hlcid, ?_⟩
    rw [← hlcid, atoi_fallback]
    exact ⟨fun hnz => by rw [if_pos hnz], fun hz => by rw [if_neg (not_not.mpr hz)]⟩

theorem locale_to_LCID_search_eq (P : Provider) (d : CStr) (search : locale_search_t)
    (hs : split_locale d = some search) :
    locale_to_LCID_search P d = some (locale_to_LCID_finish P (final_search P search)) := by
  simp [locale_to_LCID_search, hs, final_search]

/-- C15: the language token that MSVCRT_locale_to_LCID compares against the
candidates is the synonym of the raw token when the country token and the
codepage token are both empty, and the raw token itself when one of them is
not empty; the enumeration never changes it. So "usa.1252" searches for the
language "usa" while "usa" searches for "enu". -/
theorem synonyms_only_without_country_and_codepage (P : Provider) (d : CStr)
    (search : locale_search_t) (hs : split_locale d = some search) :
    locale_to_LCID_search P d = some (locale_to_LCID_finish P (final_search P search)) ∧
    (search.search_country = [] ∧ search.search_codepage = [] →
      (normalize_search search).search_language = remap_synonym search.search_language) ∧
    (¬ (search.search_country = [] ∧ search.search_codepage = []) →
      (normalize_search search).search_language = search.search_language) ∧
    (∀ langs, (EnumResourceLanguagesA (find_best_locale_proc P) langs
      (normalize_search search)).search_language = (normalize_search search).search_language) ∧
    (split_locale (cstr "usa.1252")).map (fun s => (normalize_search s).search_language)
      = some (cstr "usa") ∧
    (split_locale (cstr "usa")).map (fun s => (normalize_search s).search_language)
      = some (cstr "enu") := by
  have hm0 : (normalize_search search).match_flags = 0 := by
    rw [normalize_search_match_flags, split_locale_match_flags d search hs]
  refine ⟨locale_to_LCID_search_eq P d search hs, ?_, ?_, ?_, by decide, by decide⟩
  · intro h
    simp only [normalize_search, h, and_self, if_true]
    split_ifs <;> rfl
  · intro h
    simp only [normalize_search, h, if_false]
    split_ifs <;> rfl
  · intro langs
    exact (scan_keeps_tokens P langs (normalize_search search) (by omega)).1

/-- C15 at the descriptor "usa_US": the country token is not empty, so the
language compared is the raw "usa". -/
theorem synonyms_only_without_country_and_codepage_witness :
    split_locale (cstr "usa_US") = some ⟨cstr "usa", cstr "US", [], [], 0, 0⟩ ∧
    (normalize_search ⟨cstr "usa", cstr "US", [], [], 0, 0⟩).search_language = cstr "usa" :=
  ⟨by decide,
   (synonyms_only_without_country_and_codepage demoProvider (cstr "usa_US")
    ⟨cstr "usa", cstr "US", [], [], 0, 0⟩ (by decide)).2.2.1 (by decide)⟩

/-- C16: when the country token equals "china" ignoring letter case, the
country token that MSVCRT_locale_to_LCID compares against the candidates is
"People's Republic of China"; any other country token is compared as it is;
the enumeration never changes it. -/
theorem china_country_token_replaced (P : Provider) (d : CStr)
    (search : locale_search_t) (hs : split_locale d = some search) :
    locale_to_LCID_search P d = some (locale_to_LCID_finish P (final_search P search)) ∧
    (search.search_country.map tolower = cstr "china" →
      (normalize_search search).search_country = cstr "People's Republic of China") ∧
    (search.search_country.map tolower ≠ cstr "china" →
      (normalize_search search).search_country = search.search_country) ∧
    (∀ langs, (EnumResourceLanguagesA (find_best_locale_proc P) langs
      (normalize_search search)).search_country = (normalize_search search).search_country) := by
  have hm0 : (normalize_search search).match_flags = 0 := by
    rw [normalize_search_match_flags, split_locale_match_flags d search hs]
  have hlow : (cstr "China").map tolower = cstr "china" := by decide
  refine ⟨locale_to_LCID_search_eq P d search hs, ?_, ?_, ?_⟩
  · intro h
    have hz : strcasecmp search.search_country (cstr "China") = 0 := by
      rw [strcasecmp_eq_zero_iff, hlow]; exact h
    simp only [normalize_search]
    split_ifs <;> simp_all
  · intro h
    have hz : ¬ strcasecmp search.search_country (cstr "China") = 0 := by
      rw [strcasecmp_eq_zero_iff, hlow]; exact h
    simp only [normalize_search]
    split_ifs <;> simp_all
  · intro langs
    exact (scan_keeps_tokens P langs (normalize_search search) (by omega)).2.1

/-- C16 at the descriptors "Chinese_CHINA" and "Chinese_Taiwan". -/
theorem china_country_token_replaced_witness :
    split_locale (cstr "Chinese_CHINA") = some ⟨cstr "Chinese", cstr "CHINA", [], [], 0, 0⟩ ∧
    (normalize_search ⟨cstr "Chinese", cstr "CHINA", [], [], 0, 0⟩).search_country
      = cstr "People's Republic of China" ∧
    (normalize_search ⟨cstr "Chinese", cstr "Taiwan", [], [], 0, 0⟩).search_country
      = cstr "Taiwan" :=
  ⟨by decide,
   (china_country_token_replaced demoProvider (cstr "Chinese_CHINA")
    ⟨cstr "Chinese", cstr "CHINA", [], [], 0, 0⟩ (by decide)).2.1 (by decide),
   (china_country_token_replaced demoProvider (cstr "Chinese_Taiwan")
    ⟨cstr "Chinese", cstr "Taiwan", [], [], 0, 0⟩ (by decide)).2.2.1 (by decide)⟩

/-! ### C17: the descriptor "english-uk" -/

theorem score_language_only (P : Provider) (res : locale_search_t) (l : Nat)
    (h2 : res.search_country = []) (h3 : res.search_codepage = []) :
    score P res l = if check_language P (MAKELCID l SORT_DEFAULT) res then 4 else 0 := by
  have hc : check_country P (MAKELCID l SORT_DEFAULT) res = false := by
    simp [check_country, compare_info, h2]
  have hp : check_codepage P (MAKELCID l SORT_DEFAULT) res = false := by
    simp [check_codepage, compare_info, h3]
  simp [score, hc, hp]

/-- The first concrete candidate that matches the language is the one the
enumeration records, when country and codepage tokens are empty. -/
theorem scan_language_only (P : Provider) (res : locale_search_t) (pre post : List Nat)
    (l : Nat) (h0 : res.match_flags = 0) (h2 : res.search_country = [])
    (h3 : res.search_codepage = [])
    (hn : PRIMARYLANGID l ≠ LANG_NEUTRAL)
    (hmatch : check_language P (MAKELCID l SORT_DEFAULT) res = true)
    (hfirst : ∀ x ∈ pre, PRIMARYLANGID x ≠ LANG_NEUTRAL →
      check_language P (MAKELCID x SORT_DEFAULT) res = false) :
    (EnumResourceLanguagesA (find_best_locale_proc P) (pre ++ l :: post) res).match_flags
      = FOUND_LANGUAGE ∧
    (EnumResourceLanguagesA (find_best_locale_proc P) (pre ++ l :: post) res).found_lang_id
      = l := by
  obtain ⟨sA, _, sC⟩ := scan_spec P (pre ++ l :: post) res (by omega)
  have hl4 : score P res l = 4 := by rw [score_language_only P res l h2 h3, hmatch]; rfl
  have hge := sA l (by simp) hn
  rw [hl4] at hge
  rcases sC with ⟨e1, _⟩ | ⟨_, pre', post', e1, e2, e3, e4⟩
  · omega
  · generalize (EnumResourceLanguagesA (find_best_locale_proc P) (pre ++ l :: post)
      res).found_lang_id = found at e1 e2 e3 e4 ⊢
    generalize (EnumResourceLanguagesA (find_best_locale_proc P) (pre ++ l :: post)
      res).match_flags = mf at e3 e4 hge ⊢
    rw [score_language_only P res found h2 h3] at e3
    have hf : check_language P (MAKELCID found SORT_DEFAULT) res = true := by
      by_contra hf
      rw [if_neg hf] at e3
      omega
    rw [if_pos hf] at e3
    refine ⟨e3.symm, ?_⟩
    rcases List.append_eq_append_iff.mp e1 with ⟨a', ha, hb⟩ | ⟨c', hc, hd⟩
    · cases a' with
      | nil =>
        simp only [List.nil_append, List.cons.injEq] at hb
        exact hb.1.symm
      | cons y ys =>
        simp only [List.cons_append, List.cons.injEq] at hb
        have hmem : l ∈ pre' := by rw [ha, hb.1]; simp
        have := e4 l hmem hn
        omega
    · cases c' with
      | nil =>
        simp only [List.nil_append, List.cons.injEq] at hd
        exact hd.1
      | cons y ys =>
        simp only [List.cons_append, List.cons.injEq] at hd
        have hmem : found ∈ pre := by rw [hc, hd.1]; simp
        have := hfirst found hmem e2
        rw [this] at hf
        cases hf

/-- C17 (counterexample): with the demo provider "english-uk" resolves to the
candidate 2057, whose abbreviated language name is "ENG" and whose
abbreviated country code is "GBR"; the country token of the search is empty
and the flags recorded hold the language bit alone, so no country is matched,
by prefix or otherwise. -/
theorem english_uk_matches_no_country :
    (MSVCRT_locale_to_LCID demoProvider thread_data_initial (cstr "english-uk") (some 0)).map
      (fun r => (r.1, r.2.1)) = some (2057, some 1252) ∧
    split_locale (cstr "english-uk") = some ⟨cstr "english-uk", [], [], [], 0, 0⟩ ∧
    (final_search demoProvider ⟨cstr "english-uk", [], [], [], 0, 0⟩).search_country = [] ∧
    (final_search demoProvider ⟨cstr "english-uk", [], [], [], 0, 0⟩).match_flags
      = FOUND_LANGUAGE ∧
    check_country demoProvider 2057
      (final_search demoProvider ⟨cstr "english-uk", [], [], [], 0, 0⟩) = false ∧
    demoProvider.GetLocaleInfoA 2057 true .LOCALE_SABBREVCTRYNAME = some (cstr "GBR") ∧
    demoProvider.GetLocaleInfoA 2057 true .LOCALE_SABBREVLANGNAME = some (cstr "ENG") := by
  decide

/-- C17 (amended): the descriptor "english-uk" has no country and no
codepage component, so its language token is replaced by the synonym "eng",
and on a sound cache MSVCRT_locale_to_LCID returns the first concrete
candidate of the enumeration that passes the language test for "eng" (its ISO
639 language name, abbreviated language name or English language name equals
"eng" ignoring case); the flags recorded hold the language bit alone: no
country is matched. -/
theorem english_uk_selects_by_language_synonym (P : Provider) (data : thread_data_t) (c0 : Nat)
    (pre post : List Nat) (l : Nat) (hok : cache_ok P data)
    (hl : P.languages = pre ++ l :: post) (hn : PRIMARYLANGID l ≠ LANG_NEUTRAL)
    (hmatch : check_language P (MAKELCID l SORT_DEFAULT) ⟨cstr "eng", [], [], [], 0, 0⟩ = true)
    (hfirst : ∀ x ∈ pre, PRIMARYLANGID x ≠ LANG_NEUTRAL →
      check_language P (MAKELCID x SORT_DEFAULT) ⟨cstr "eng", [], [], [], 0, 0⟩ = false) :
    (split_locale (cstr "english-uk")).map normalize_search
      = some ⟨cstr "eng", [], [], [], 0, 0⟩ ∧
    (final_search P ⟨cstr "english-uk", [], [], [], 0, 0⟩).match_flags = FOUND_LANGUAGE ∧
    (final_search P ⟨cstr "english-uk", [], [], [], 0, 0⟩).found_lang_id = l ∧
    ∃ cp data1, MSVCRT_locale_to_LCID P data (cstr "english-uk") (some c0)
      = some (MAKELCID l SORT_DEFAULT, some cp, data1) := by
  have hs : split_locale (cstr "english-uk") = some ⟨cstr "english-uk", [], [], [], 0, 0⟩ := by
    decide
  have hnorm : normalize_search ⟨cstr "english-uk", [], [], [], 0, 0⟩
      = ⟨cstr "eng", [], [], [], 0, 0⟩ := by decide
  obtain ⟨m1, m2⟩ := scan_language_only P ⟨cstr "eng", [], [], [], 0, 0⟩ pre post l rfl rfl rfl
    hn hmatch hfirst
  have hfin : final_search P ⟨cstr "english-uk", [], [], [], 0, 0⟩
      = EnumResourceLanguagesA (find_best_locale_proc P) (pre ++ l :: post)
          ⟨cstr "eng", [], [], [], 0, 0⟩ := by
    rw [final_search, hnorm, hl]
  rw [← hfin] at m1 m2
  obtain ⟨_, f2, f3, _, _⟩ := final_search_facts P _ _ hs
  obtain ⟨hbit, hfc⟩ := no_token_no_codepage_bit P _ _ hs rfl
  have hcn : (final_search P ⟨cstr "english-uk", [], [], [], 0, 0⟩).search_country = [] := by
    rw [f2, hnorm]
  have hf := finish_no_token P (final_search P ⟨cstr "english-uk", [], [], [], 0, 0⟩)
    (by rw [m1]; decide) (fun h => h.1 hcn) hbit f3 hfc
  rw [m2] at hf
  obtain ⟨data1, k⟩ := (locale_to_LCID_by_search P data (cstr "english-uk") (some c0) _ hok
    (Or.inl (by decide)) hs).2 _ _ hf
  exact ⟨by rw [hs]; simp [hnorm], m1, m2, _, data1, k⟩

/-- C17 (amended) at the demo provider: 2057 is the first concrete candidate
whose abbreviated language name is "ENG", after the neutral 1024 and after
1033 ("ENU"), and "english-uk" resolves to it. -/
theorem english_uk_selects_by_language_synonym_witness :
    demoProvider.languages = [1024, 1033] ++ 2057 :: [1036] ∧
    ∃ cp data1, MSVCRT_locale_to_LCID demoProvider thread_data_initial (cstr "english-uk")
      (some 0) = some (MAKELCID 2057 SORT_DEFAULT, some cp, data1) :=
  ⟨rfl, (english_uk_selects_by_language_synonym demoProvider thread_data_initial 0
    [1024, 1033] [1036] 2057 (Or.inl ⟨rfl, rfl, rfl⟩) rfl (by decide) (by decide)
    (by decide)).2.2.2⟩

/-! ### C11 to C13 at the demo provider -/

/-- C11 at the demo provider: "French.999" carries the codepage token "999",
which no candidate matches, the provider does not confirm and is no sentinel:
the call returns -1. So does "French.18446744073709552868": the C `atoi`
reads the token as -1, the provider is asked about the number 4294967295 and
does not confirm it. -/
theorem unconfirmed_codepage_token_rejected_witness :
    (split_locale (cstr "French.999") = some ⟨cstr "French", [], cstr "999", [], 0, 0⟩ ∧
      MSVCRT_locale_to_LCID demoProvider thread_data_initial (cstr "French.999") (some 0)
        = some (LCID_FAIL, some 0, thread_data_initial)) ∧
    (((atoi (cstr "18446744073709552868")) % 4294967296).toNat = 4294967295 ∧
      MSVCRT_locale_to_LCID demoProvider thread_data_initial
        (cstr "French.18446744073709552868") (some 0)
        = some (LCID_FAIL, some 0, thread_data_initial)) :=
  ⟨⟨by decide,
    unconfirmed_codepage_token_rejected demoProvider thread_data_initial (cstr "French.999")
      (some 0) ⟨cstr "French", [], cstr "999", [], 0, 0⟩ (Or.inl ⟨rfl, rfl, rfl⟩) (by decide)
      (by decide) (by decide) (by decide) (by decide) (by decide)⟩,
   ⟨by decide,
    unconfirmed_codepage_token_rejected demoProvider thread_data_initial
      (cstr "French.18446744073709552868") (some 0)
      ⟨cstr "French", [], cstr "18446744073709552868", [], 0, 0⟩ (Or.inl ⟨rfl, rfl, rfl⟩)
      (by decide) (by decide) (by decide) (by decide) (by decide) (by decide)⟩⟩

/-- C12 at the demo providers: "French" carries no codepage token and resolves
to 1036 with the codepage 1252, the default ANSI codepage of 1036. With the
provider whose default ANSI codepage field is "4294967296", which the C
`atoi` reads as 0, "French" resolves to 1036 with the codepage 850, the
general default codepage of 1036. -/
theorem default_codepage_prefers_ansi_witness :
    (demoProvider.GetLocaleInfoA 1036 false .LOCALE_IDEFAULTANSICODEPAGE
        = some (cstr "1252") ∧
      (1036 = MAKELCID (final_search demoProvider
          ⟨cstr "French", [], [], [], 0, 0⟩).found_lang_id SORT_DEFAULT ∧
      (atoi ((demoProvider.GetLocaleInfoA 1036 false .LOCALE_IDEFAULTANSICODEPAGE).getD [])
          ≠ 0 →
        1252 = ((atoi ((demoProvider.GetLocaleInfoA 1036 false
          .LOCALE_IDEFAULTANSICODEPAGE).getD [])) % 65536).toNat) ∧
      (atoi ((demoProvider.GetLocaleInfoA 1036 false .LOCALE_IDEFAULTANSICODEPAGE).getD [])
          = 0 →
        1252 = ((atoi ((demoProvider.GetLocaleInfoA 1036 false
          .LOCALE_IDEFAULTCODEPAGE).getD [])) % 65536).toNat))) ∧
    (overflowProvider.GetLocaleInfoA 1036 false .LOCALE_IDEFAULTANSICODEPAGE
        = some (cstr "4294967296") ∧
      atoi (cstr "4294967296") = 0 ∧
      (MSVCRT_locale_to_LCID overflowProvider thread_data_initial (cstr "French")
        (some 0)).map (fun r => (r.1, r.2.1)) = some (1036, some 850) ∧
      (1036 = MAKELCID (final_search overflowProvider
          ⟨cstr "French", [], [], [], 0, 0⟩).found_lang_id SORT_DEFAULT ∧
      (atoi ((overflowProvider.GetLocaleInfoA 1036 false
          .LOCALE_IDEFAULTANSICODEPAGE).getD []) ≠ 0 →
        850 = ((atoi ((overflowProvider.GetLocaleInfoA 1036 false
          .LOCALE_IDEFAULTANSICODEPAGE).getD [])) % 65536).toNat) ∧
      (atoi ((overflowProvider.GetLocaleInfoA 1036 false
          .LOCALE_IDEFAULTANSICODEPAGE).getD []) = 0 →
        850 = ((atoi ((overflowProvider.GetLocaleInfoA 1036 false
          .LOCALE_IDEFAULTCODEPAGE).getD [])) % 65536).toNat))) :=
  ⟨⟨by decide,
    default_codepage_prefers_ansi demoProvider thread_data_initial
      ((MSVCRT_locale_to_LCID demoProvider thread_data_initial (cstr "French") (some 0)).getD
        (0, none, thread_data_initial)).2.2
      (cstr "French") 0 1252 1036 ⟨cstr "French", [], [], [], 0, 0⟩ (Or.inl ⟨rfl, rfl, rfl⟩)
      (Or.inl (by decide)) (by decide) rfl
      (eq_some_of_map_fst_snd _ _ _ (0, none, thread_data_initial) (by decide)) (by decide)⟩,
   ⟨by decide, by decide, by decide,
    default_codepage_prefers_ansi overflowProvider thread_data_initial
      ((MSVCRT_locale_to_LCID overflowProvider thread_data_initial (cstr "French")
        (some 0)).getD (0, none, thread_data_initial)).2.2
      (cstr "French") 0 850 1036 ⟨cstr "French", [], [], [], 0, 0⟩ (Or.inl ⟨rfl, rfl, rfl⟩)
      (Or.inl (by decide)) (by decide) rfl
      (eq_some_of_map_fst_snd _ _ _ (0, none, thread_data_initial) (by decide)) (by decide)⟩⟩

theorem needs_update_same (X : Nat) (category : Int) (R : MSVCRT_threadlocinfo) (lcid cp : Nat)
    (h1 : lcid = R.lc_handle X) (h2 : cp = (R.lc_id X).wCodePage) :
    category_needs_update X category (some R) lcid cp = false := by
  simp only [category_needs_update, h1, h2]
  split_ifs <;> simp

/-- C18: when MSVCRT_setlocale succeeds and the descriptor gives a category
the locale id and the codepage that the current record already holds for it,
the block of that category is reused: its locale id, lc_id, descriptor string,
locale name and data after the call are those before the call, for every
provider. -/
theorem setlocale_reuses_unchanged_category (P : Provider) (g g' : Globals)
    (data data' data1 : thread_data_t) (category : Int) (locale : CStr)
    (R : MSVCRT_threadlocinfo) (r : CStr) (lcid cp : Nat → Nat)
    (hloc : get_locinfo g data = some R)
    (h : MSVCRT_setlocale P g data category (some locale) = some (some r, g', data'))
    (hl : create_locinfo_lcids P locale data = some (some (lcid, cp), data1))
    (X : Nat) (hX : is_category X)
    (hsame : lcid X = R.lc_handle X ∧ cp X = (R.lc_id X).wCodePage) :
    ∃ cur, get_locinfo g' data' = some cur ∧
      category_block_of cur X = category_block_of R X := by
  rcases setlocale_cases P g g' data data' _ locale R _ hloc h with
    ⟨h0, _, _⟩ | ⟨new, data2, hnew, hget, _⟩
  · cases h0
  · refine ⟨_, hget, ?_⟩
    obtain ⟨_, lcid', cp', hl', hb⟩ := create_locinfo_success P _ _ _ _ _ _ _ hnew
    rw [hl] at hl'
    simp only [Option.some.injEq, Prod.mk.injEq] at hl'
    obtain ⟨⟨rfl, rfl⟩, _⟩ := hl'
    have hnu := needs_update_same X category R _ _ hsame.1 hsame.2
    have ho := built_outcome_handle P _ _ _ lcid cp X hX new
      (build_categories_outcome P _ _ _ lcid cp new hb X hX)
    rcases ho with ⟨o, ho, _, e1, e2⟩ | ⟨hn, _⟩ | ⟨hn, _⟩
    · cases ho
      apply install_categories_same P R new X hX
      simp [category_differs, e1, e2]
    · rw [hnu] at hn; cases hn
    · rw [hnu] at hn; cases hn

/-! ### C19: the query setlocale (LC_ALL, NULL) -/

/-- C19: MSVCRT_setlocale (LC_ALL, NULL) leaves the globals and the thread
data as they are. When the descriptor strings of the five categories are
identical it returns that string; otherwise it returns
"LC_COLLATE=a;LC_CTYPE=b;LC_MONETARY=c;LC_NUMERIC=d;LC_TIME=e" for the five
descriptor strings in that order (a string that fits the static buffer of 256
bytes), which is longer than each of the five. -/
theorem setlocale_query_all_categories (P : Provider) (g : Globals) (data : thread_data_t)
    (R : MSVCRT_threadlocinfo) (a b c d e : CStr)
    (hloc : get_locinfo g data = some R)
    (ha : (R.lc_category MSVCRT_LC_COLLATE).locale = some a)
    (hb : (R.lc_category MSVCRT_LC_CTYPE).locale = some b)
    (hc : (R.lc_category MSVCRT_LC_MONETARY).locale = some c)
    (hd : (R.lc_category MSVCRT_LC_NUMERIC).locale = some d)
    (he : (R.lc_category MSVCRT_LC_TIME).locale = some e) :
    ((a = b ∧ b = c ∧ c = d ∧ d = e) →
      MSVCRT_setlocale P g data (MSVCRT_LC_ALL : Int) none = some (some a, g, data)) ∧
    (¬ (a = b ∧ b = c ∧ c = d ∧ d = e) →
      (cstr "LC_COLLATE=" ++ a ++ cstr ";LC_CTYPE=" ++ b ++ cstr ";LC_MONETARY=" ++ c ++
        cstr ";LC_NUMERIC=" ++ d ++ cstr ";LC_TIME=" ++ e).length < MAX_LOCALE_LENGTH →
      MSVCRT_setlocale P g data (MSVCRT_LC_ALL : Int) none
        = some (some (cstr "LC_COLLATE=" ++ a ++ cstr ";LC_CTYPE=" ++ b ++
            cstr ";LC_MONETARY=" ++ c ++ cstr ";LC_NUMERIC=" ++ d ++ cstr ";LC_TIME=" ++ e),
          g, data)) ∧
    (∀ x ∈ [a, b, c, d, e], x.length <
      (cstr "LC_COLLATE=" ++ a ++ cstr ";LC_CTYPE=" ++ b ++ cstr ";LC_MONETARY=" ++ c ++
        cstr ";LC_NUMERIC=" ++ d ++ cstr ";LC_TIME=" ++ e).length) := by
  have hcat : ¬ ((MSVCRT_LC_ALL : Int) < (MSVCRT_LC_MIN : Int) ∨
      (MSVCRT_LC_ALL : Int) > (MSVCRT_LC_MAX : Int)) := by
    simp [MSVCRT_LC_ALL, MSVCRT_LC_MIN, MSVCRT_LC_MAX]
  refine ⟨fun hall => ?_, fun hno hfit => ?_, ?_⟩
  · simp only [MSVCRT_setlocale, hloc, Option.some_bind, if_neg hcat, if_true,
      construct_lc_all, ha, hb, hc, hd, he, if_pos hall, Option.map_some']
  · simp only [MSVCRT_setlocale, hloc, Option.some_bind, if_neg hcat, if_true,
      construct_lc_all, ha, hb, hc, hd, he, if_neg hno, if_pos hfit, Option.map_some']
  · intro x hx
    simp only [List.mem_cons, List.mem_singleton, List.not_mem_nil, or_false] at hx
    have l1 : (cstr "LC_COLLATE=").length = 11 := rfl
    have l2 : (cstr ";LC_CTYPE=").length = 10 := rfl
    have l3 : (cstr ";LC_MONETARY=").length = 13 := rfl
    have l4 : (cstr ";LC_NUMERIC=").length = 12 := rfl
    have l5 : (cstr ";LC_TIME=").length = 9 := rfl
    simp only [List.length_append, l1, l2, l3, l4, l5]
    rcases hx with rfl | rfl | rfl | rfl | rfl <;> omega

/-! ### C20: a thread with a private scope does not see the calls of other threads -/

theorem setlocale_shared_thread_frame (P : Provider) (g g' : Globals)
    (data data' : thread_data_t) (category : Int) (locale : Option CStr) (r : Option CStr)
    (hl : data.have_locale = false)
    (h : MSVCRT_setlocale P g data category locale = some (r, g', data')) :
    data'.have_locale = false ∧ data'.locinfo = data.locinfo := by
  cases locale with
  | none =>
    obtain ⟨_, rfl⟩ := setlocale_query_state P g g' data data' category r h
    exact ⟨hl, rfl⟩
  | some locale =>
    unfold MSVCRT_setlocale at h
    rcases hloc : get_locinfo g data with _ | locinfo
    · rw [hloc] at h; cases h
    · rw [hloc] at h
      simp only [Option.some_bind] at h
      by_cases hcat : category < (MSVCRT_LC_MIN : Int) ∨ category > (MSVCRT_LC_MAX : Int)
      · rw [if_pos hcat] at h
        simp only [Option.some.injEq, Prod.mk.injEq] at h
        obtain ⟨_, _, rfl⟩ := h
        exact ⟨hl, rfl⟩
      · rw [if_neg hcat] at h
        simp only [Option.bind_eq_some] at h
        obtain ⟨⟨newl, data1⟩, hc, h2⟩ := h
        obtain ⟨k1, k2⟩ := create_locinfo_data_frame P _ _ _ _ _ _ hc
        simp only at k1 k2
        rw [hl] at k1
        rcases newl with _ | new
        · simp only [Option.some.injEq, Prod.mk.injEq] at h2
          obtain ⟨_, _, rfl⟩ := h2
          exact ⟨k1, k2⟩
        · simp only [k1, Bool.not_false, if_true] at h2
          by_cases hall : category = (MSVCRT_LC_ALL : Int)
          · rw [if_pos hall] at h2
            simp only [Option.map_eq_some', Prod.mk.injEq] at h2
            obtain ⟨s, _, _, _, rfl⟩ := h2
            exact ⟨k1, k2⟩
          · rw [if_neg hall] at h2
            simp only [Option.some.injEq, Prod.mk.injEq] at h2
            obtain ⟨_, _, rfl⟩ := h2
            exact ⟨k1, k2⟩

/-- C20: a successful `_configthreadlocale (_ENABLE_PER_THREAD_LOCALE)` gives
the calling thread a private scope. While thread A has one, a call of
MSVCRT_setlocale by another thread B that has none leaves the data of A and
of every thread but B as they were, keeps B without a private record, and so
the record A reads through get_locinfo is the same before and after the call;
B itself then reads the process-wide record the call left. When A afterwards
disables its private scope, the call returns that the scope was enabled and
A reads the process-wide record again. -/
theorem private_scope_is_isolated (P : Provider) (w : World) (A B : Nat) (hAB : A ≠ B)
    (hA : (w.threads A).have_locale = true) (hB : (w.threads B).have_locale = false)
    (category : Int) (locale : Option CStr) (r : Option CStr) (g' : Globals)
    (dB' : thread_data_t)
    (hset : MSVCRT_setlocale P w.g (w.threads B) category locale = some (r, g', dB')) :
    (∀ g0 d0 r0 g1 d1,
      _configthreadlocale P g0 d0 MSVCRT__ENABLE_PER_THREAD_LOCALE = some (r0, g1, d1) →
      r0 ≠ -1 → d1.have_locale = true) ∧
    (∀ C, C ≠ B → Function.update w.threads B dB' C = w.threads C) ∧
    get_locinfo g' (Function.update w.threads B dB' A) = get_locinfo w.g (w.threads A) ∧
    dB'.have_locale = false ∧ dB'.locinfo = (w.threads B).locinfo ∧
    get_locinfo g' dB' = g'.MSVCRT_locale ∧
    ∃ dA', _configthreadlocale P g' (Function.update w.threads B dB' A)
        MSVCRT__DISABLE_PER_THREAD_LOCALE
        = some (MSVCRT__ENABLE_PER_THREAD_LOCALE, g', dA') ∧
      dA'.have_locale = false ∧ get_locinfo g' dA' = g'.MSVCRT_locale := by
  obtain ⟨b1, b2⟩ := setlocale_shared_thread_frame P _ _ _ _ _ _ _ hB hset
  have hAt : Function.update w.threads B dB' A = w.threads A := Function.update_noteq hAB _ _
  refine ⟨?_, fun C hC => Function.update_noteq hC _ _, ?_, b1, b2, ?_, ?_⟩
  · intro g0 d0 r0 g1 d1 hen hr0
    unfold _configthreadlocale at hen
    simp only [if_true] at hen
    cases hl : d0.have_locale with
    | true =>
      rw [hl] at hen
      simp only [Bool.not_true, Bool.false_eq_true, if_false, Option.some.injEq,
        Prod.mk.injEq] at hen
      obtain ⟨_, _, rfl⟩ := hen
      exact hl
    | false =>
      rw [hl] at hen
      simp only [Bool.not_false, if_true, Option.bind_eq_some, Option.map_eq_some'] at hen
      obtain ⟨⟨s, g2, d2⟩, _, ⟨loc, d3⟩, _, h3⟩ := hen
      cases loc with
      | none =>
        simp only [Prod.mk.injEq] at h3
        exact absurd h3.1.symm hr0
      | some locinfo =>
        simp only [Prod.mk.injEq] at h3
        obtain ⟨_, _, rfl⟩ := h3
        rfl
  · rw [hAt]
    simp [get_locinfo, hA]
  · simp [get_locinfo, b1]
  · rw [hAt]
    refine ⟨{ w.threads A with locinfo := g'.MSVCRT_locale, have_locale := false }, ?_, rfl, ?_⟩
    · simp [_configthreadlocale, hA, MSVCRT__ENABLE_PER_THREAD_LOCALE,
        MSVCRT__DISABLE_PER_THREAD_LOCALE]
    · simp [get_locinfo]

/-! ### C18 to C20 at the demo provider -/

theorem eq_some_some_getD {α β : Type} (x : Option (Option α × β)) (da : α) (db : β)
    (h : x.map (fun r => r.1.isSome) = some true) :
    x = some (some ((x.getD (none, db)).1.getD da), (x.getD (none, db)).2) := by
  cases x with
  | none => cases h
  | some v =>
    obtain ⟨a, b⟩ := v
    cases a with
    | none => simp at h
    | some a => rfl

/-- C18 at the demo provider: a second setlocale (LC_ALL, "French") resolves
Monetary to 1036 and 1252 again, and the Monetary block is the one before the
call. -/
theorem setlocale_reuses_unchanged_category_witness :
    ∃ cur, get_locinfo demo_french_again.1 demo_french_again.2 = some cur ∧
      category_block_of cur MSVCRT_LC_MONETARY
        = category_block_of ((get_locinfo demo_french.1 demo_french.2).getD locinfo_fresh)
            MSVCRT_LC_MONETARY :=
  setlocale_reuses_unchanged_category demoProvider demo_french.1 demo_french_again.1
    demo_french.2 demo_french_again.2
    ((create_locinfo_lcids demoProvider (cstr "French") demo_french.2).getD
      (none, thread_data_initial)).2
    0 (cstr "French") _ (cstr "French_France.1252")
    (((create_locinfo_lcids demoProvider (cstr "French") demo_french.2).getD
      (none, thread_data_initial)).1.getD (fun _ => 0, fun _ => 0)).1
    (((create_locinfo_lcids demoProvider (cstr "French") demo_french.2).getD
      (none, thread_data_initial)).1.getD (fun _ => 0, fun _ => 0)).2
    demo_french_locinfo (eq_some_of_map_fst _ _ (none, demo_french) (by decide))
    (eq_some_some_getD _ (fun _ => 0, fun _ => 0) thread_data_initial (by decide))
    MSVCRT_LC_MONETARY ⟨by decide, by decide⟩ ⟨by decide, by decide⟩

/-- C19 at the demo provider: after start-up the five descriptors are "C" and
the query returns "C"; after "LC_COLLATE=French;LC_CTYPE=C" on the French
record they differ and the query returns the composite string. -/
theorem setlocale_query_all_categories_witness :
    MSVCRT_setlocale demoProvider demo_started.1 demo_started.2 (MSVCRT_LC_ALL : Int) none
      = some (some (cstr "C"), demo_started.1, demo_started.2) ∧
    MSVCRT_setlocale demoProvider demo_composite.1 demo_composite.2 (MSVCRT_LC_ALL : Int) none
      = some (some (cstr "LC_COLLATE=" ++ cstr "French_France.1252" ++ cstr ";LC_CTYPE=" ++
          cstr "C" ++ cstr ";LC_MONETARY=" ++ cstr "C" ++ cstr ";LC_NUMERIC=" ++ cstr "C" ++
          cstr ";LC_TIME=" ++ cstr "C"), demo_composite.1, demo_composite.2) :=
  ⟨(setlocale_query_all_categories demoProvider demo_started.1 demo_started.2 _
      (cstr "C") (cstr "C") (cstr "C") (cstr "C") (cstr "C") demo_started_locinfo
      (by decide) (by decide) (by decide) (by decide) (by decide)).1 ⟨rfl, rfl, rfl, rfl⟩,
   (setlocale_query_all_categories demoProvider demo_composite.1 demo_composite.2
      ((get_locinfo demo_composite.1 demo_composite.2).getD locinfo_fresh)
      (cstr "French_France.1252") (cstr "C") (cstr "C") (cstr "C") (cstr "C")
      (eq_some_getD _ _ (by decide))
      (by decide) (by decide) (by decide) (by decide) (by decide)).2.1 (by decide) (by decide)⟩

/-- C20 at the demo provider: thread 1 has a private scope, thread 0 calls
setlocale (LC_ALL, "French"), and thread 1 reads the same record as before,
whose categories are the "C" ones of the start-up, while thread 0 reads the
French record. -/
theorem private_scope_is_isolated_witness :
    (demo_two_threads.threads 1).have_locale = true ∧
    (demo_two_threads.threads 0).have_locale = false ∧
    get_locinfo demo_french.1 (Function.update demo_two_threads.threads 0 demo_french.2 1)
      = get_locinfo demo_two_threads.g (demo_two_threads.threads 1) ∧
    (get_locinfo demo_two_threads.g (demo_two_threads.threads 1)).map
      (fun l => l.lc_handle MSVCRT_LC_NUMERIC) = some 0 ∧
    (get_locinfo demo_french.1 demo_french.2).map
      (fun l => l.lc_handle MSVCRT_LC_NUMERIC) = some 1036 :=
  ⟨by decide, by decide,
   (private_scope_is_isolated demoProvider demo_two_threads 1 0 (by decide) (by decide)
      (by decide) 0 (some (cstr "French")) (some (cstr "French_France.1252")) demo_french.1
      demo_french.2 (eq_some_of_map_fst _ _ (none, demo_started) (by decide))).2.2.1,
   by decide, by decide⟩

/-! ### C22: the value returned by _configthreadlocale -/

/-- C22: a call of _configthreadlocale with the request enable, disable or
query (0) that does not return -1 returns the mode in effect before the call
(enabled exactly when the thread had a private record); the query changes no
state; an enable by a thread that has a private record, and a disable by a
thread that has none, change no state; any other request returns -1 and
changes no state. -/
theorem configthreadlocale_returns_previous_mode (P : Provider) (g : Globals)
    (data : thread_data_t) :
    (∀ type r g' data', (type = MSVCRT__ENABLE_PER_THREAD_LOCALE ∨
        type = MSVCRT__DISABLE_PER_THREAD_LOCALE ∨ type = 0) →
      _configthreadlocale P g data type = some (r, g', data') → r ≠ -1 →
      r = (if data.have_locale then MSVCRT__ENABLE_PER_THREAD_LOCALE
        else MSVCRT__DISABLE_PER_THREAD_LOCALE)) ∧
    _configthreadlocale P g data 0
      = some ((if data.have_locale then MSVCRT__ENABLE_PER_THREAD_LOCALE
          else MSVCRT__DISABLE_PER_THREAD_LOCALE), g, data) ∧
    (data.have_locale = true →
      _configthreadlocale P g data MSVCRT__ENABLE_PER_THREAD_LOCALE
        = some (MSVCRT__ENABLE_PER_THREAD_LOCALE, g, data)) ∧
    (data.have_locale = false →
      _configthreadlocale P g data MSVCRT__DISABLE_PER_THREAD_LOCALE
        = some (MSVCRT__DISABLE_PER_THREAD_LOCALE, g, data)) ∧
    (∀ type, type ≠ MSVCRT__ENABLE_PER_THREAD_LOCALE →
      type ≠ MSVCRT__DISABLE_PER_THREAD_LOCALE → type ≠ 0 →
      _configthreadlocale P g data type = some (-1, g, data)) := by
  refine ⟨?_, ?_, ?_, ?_, ?_⟩
  · intro type r g' data' htype h hr
    unfold _configthreadlocale at h
    by_cases h1 : type = MSVCRT__ENABLE_PER_THREAD_LOCALE
    · rw [if_pos h1] at h
      cases hl : data.have_locale with
      | true =>
        rw [hl] at h
        simp only [Bool.not_true, Bool.false_eq_true, if_false, if_true, Option.some.injEq,
          Prod.mk.injEq] at h
        simp [h.1.symm]
      | false =>
        rw [hl] at h
        simp only [Bool.not_false, if_true, Option.bind_eq_some, Option.map_eq_some'] at h
        obtain ⟨⟨s, g2, d2⟩, _, ⟨loc, d3⟩, _, h3⟩ := h
        cases loc with
        | none =>
          simp only [Prod.mk.injEq] at h3
          exact absurd h3.1.symm hr
        | some locinfo =>
          simp only [Prod.mk.injEq] at h3
          simp [h3.1.symm]
    · rw [if_neg h1] at h
      by_cases h2 : type = MSVCRT__DISABLE_PER_THREAD_LOCALE
      · rw [if_pos h2] at h
        cases hl : data.have_locale <;> rw [hl] at h <;>
          simp only [Bool.false_eq_true, if_false, if_true, Option.some.injEq,
            Prod.mk.injEq] at h <;> simp [h.1.symm]
      · rw [if_neg h2] at h
        have h0 : type = 0 := by
          rcases htype with e | e | e
          · exact absurd e h1
          · exact absurd e h2
          · exact e
        rw [if_pos h0] at h
        simp only [Option.some.injEq, Prod.mk.injEq] at h
        exact h.1.symm
  · simp [_configthreadlocale, MSVCRT__ENABLE_PER_THREAD_LOCALE,
      MSVCRT__DISABLE_PER_THREAD_LOCALE]
  · intro hl
    simp [_configthreadlocale, hl]
  · intro hl
    simp [_configthreadlocale, hl, MSVCRT__ENABLE_PER_THREAD_LOCALE,
      MSVCRT__DISABLE_PER_THREAD_LOCALE]
  · intro type h1 h2 h0
    simp [_configthreadlocale, h1, h2, h0]

/-- C22 at the demo provider: thread 1 has a private record, so the query
returns "enabled" and a request 7 returns -1, both without a change. -/
theorem configthreadlocale_returns_previous_mode_witness :
    _configthreadlocale demoProvider demo_started.1 demo_private 0
      = some (MSVCRT__ENABLE_PER_THREAD_LOCALE, demo_started.1, demo_private) ∧
    _configthreadlocale demoProvider demo_started.1 demo_private 7
      = some (-1, demo_started.1, demo_private) :=
  ⟨by
    have h := (configthreadlocale_returns_previous_mode demoProvider demo_started.1
      demo_private).2.1
    have hl : demo_private.have_locale = true := by decide
    rw [hl] at h
    exact h,
   (configthreadlocale_returns_previous_mode demoProvider demo_started.1 demo_private).2.2.2.2
    7 (by decide) (by decide) (by decide)⟩

/-! ### C23: the mirrors follow the process-wide record -/

theorem refresh_mirrors_ok (g : Globals) (l : MSVCRT_threadlocinfo) :
    mirrors_ok (refresh_mirrors { g with MSVCRT_locale := some l } l) := by
  refine ⟨l, rfl, rfl, rfl, rfl, rfl, ?_⟩
  intro i h1 h2
  simp [refresh_mirrors, h1, h2]

/-- C23: in every state the registry reaches (after msvcrt_init_locale and
any calls of MSVCRT_setlocale, successful or failed, of _configthreadlocale,
of MSVCRT__create_locale and of __lconv_init by any threads) the mirrors
MSVCRT___lc_codepage, MSVCRT___lc_collate_cp, MSVCRT___mb_cur_max,
MSVCRT__pctype and MSVCRT___lc_handle[] hold the fields of the process-wide
record; and a MSVCRT_setlocale by a thread that has a private record leaves
the globals, the mirrors among them, as they were. -/
theorem mirrors_follow_process_wide_record (P : Provider) (w : World) (h : Reachable P w) :
    mirrors_ok w.g ∧
    ∀ t category locale r g' data', (w.threads t).have_locale = true →
      MSVCRT_setlocale P w.g (w.threads t) category locale = some (r, g', data') →
      g' = w.g := by
  have priv : ∀ (g : Globals) (data : thread_data_t) category locale r g' data',
      data.have_locale = true →
      MSVCRT_setlocale P g data category locale = some (r, g', data') → g' = g := by
    intro g data category locale r g' data' hl hs
    cases locale with
    | none => exact (setlocale_query_state P g g' data data' category r hs).1
    | some locale =>
      rcases hloc : get_locinfo g data with _ | locinfo
      · simp [MSVCRT_setlocale, hloc] at hs
      · rcases setlocale_cases P g g' data data' _ locale locinfo _ hloc hs with
          ⟨_, e, _⟩ | ⟨_, _, _, _, _, e, _⟩
        · exact e
        · exact e hl
  refine ⟨?_, fun t category locale r g' data' hl hs => priv _ _ _ _ _ _ _ hl hs⟩
  induction h with
  | init t g data hinit =>
    unfold msvcrt_init_locale at hinit
    simp only [Option.map_eq_some'] at hinit
    obtain ⟨⟨loc, d1⟩, _, h2⟩ := hinit
    cases loc with
    | none => simp at h2
    | some locinfo =>
      simp only [Prod.mk.injEq, true_and] at h2
      rw [← h2.1]
      exact refresh_mirrors_ok _ _
  | setlocale w t category locale r g data hprev hs ih =>
    show mirrors_ok g
    cases hl : (w.threads t).have_locale with
    | true => rw [priv _ _ _ _ _ _ _ hl hs]; exact ih
    | false =>
      cases locale with
      | none => rw [(setlocale_query_state P _ _ _ _ category r hs).1]; exact ih
      | some locale =>
        rcases hloc : get_locinfo w.g (w.threads t) with _ | locinfo
        · simp [MSVCRT_setlocale, hloc] at hs
        · rcases setlocale_cases P _ _ _ _ _ locale locinfo _ hloc hs with
            ⟨_, e, _⟩ | ⟨_, _, _, _, e, _⟩
          · rw [e]; exact ih
          · rw [e hl]; exact refresh_mirrors_ok _ _
  | configthreadlocale w t type r g data hprev hc ih =>
    show mirrors_ok g
    obtain ⟨_, _, hd, hcache⟩ := reachable_ok P w hprev
    rw [(configthreadlocale_preserves P _ _ _ _ _ _ (hd t) (hcache t) hc).1]
    exact ih
  | create_locale w t category locale r data hprev hc ih => exact ih
  | lconv_init w hprev ih =>
    obtain ⟨l, h1, h2, h3, h4, h5, h6⟩ := ih
    exact ⟨l, h1, h2, h3, h4, h5, h6⟩

/-- C23 at the demo provider: after start-up the mirrors hold the fields of
the "C" record. -/
theorem mirrors_follow_process_wide_record_witness :
    Reachable demoProvider demo_world ∧ mirrors_ok demo_world.g :=
  ⟨Reachable.init 0 demo_started.1 demo_started.2
      (eq_some_of_map_fst _ _ (false, globals_initial, thread_data_initial) (by decide)),
   (mirrors_follow_process_wide_record demoProvider demo_world
    (Reachable.init 0 demo_started.1 demo_started.2
      (eq_some_of_map_fst _ _ (false, globals_initial, thread_data_initial) (by decide)))).1⟩

/-! ### C24: resolving twice gives the same outcome -/

/-- C24: for every thread data (any cache slot) and every descriptor, when a
call of MSVCRT_locale_to_LCID returns a locale id (or -1) and leaves a value
in the codepage variable, the same call made again right after returns the
same locale id (or -1) and leaves the same codepage, and it changes the
thread data no more. -/
theorem locale_to_LCID_twice_same (P : Provider) (data data1 : thread_data_t) (d : CStr)
    (codepage c : Option Nat) (L : Nat)
    (h : MSVCRT_locale_to_LCID P data d codepage = some (L, c, data1)) :
    MSVCRT_locale_to_LCID P data1 d c = some (L, c, data1) := by
  unfold MSVCRT_locale_to_LCID at h
  by_cases hc : strcmp_eq d data.cached_locale = true
  · rw [if_pos hc] at h
    simp only [Option.some.injEq, Prod.mk.injEq] at h
    obtain ⟨rfl, rfl, rfl⟩ := h
    unfold MSVCRT_locale_to_LCID
    rw [if_pos hc]
    cases codepage <;> rfl
  · rw [if_neg hc] at h
    rcases hs : locale_to_LCID_search P d with _ | r
    · rw [hs] at h; cases h
    · rw [hs] at h
      rcases r with _ | ⟨lcid, fc⟩
      · simp only [Option.map_some', Option.some.injEq, Prod.mk.injEq] at h
        obtain ⟨rfl, rfl, rfl⟩ := h
        unfold MSVCRT_locale_to_LCID
        rw [if_neg hc, hs]
        rfl
      · simp only [Option.map_some', Option.some.injEq, Prod.mk.injEq] at h
        obtain ⟨rfl, rfl, rfl⟩ := h
        by_cases hfit : d.length < P.cached_locale_size
        · simp only [if_pos hfit]
          unfold MSVCRT_locale_to_LCID
          have hhit : strcmp_eq d d = true := by simp [strcmp_eq]
          simp only [hhit, if_true]
          cases codepage with
          | none => rfl
          | some v =>
            have : ((atoi fc % 65536).toNat) % 65536 = (atoi fc % 65536).toNat := by
              apply Nat.mod_eq_of_lt
              have h1 : 0 ≤ atoi fc % 65536 := Int.emod_nonneg _ (by decide)
              have h2 : atoi fc % 65536 < 65536 := Int.emod_lt_of_pos _ (by decide)
              omega
            simp [this]
        · simp only [if_neg hfit]
          unfold MSVCRT_locale_to_LCID
          rw [if_neg hc, hs]
          simp only [Option.map_some', if_neg hfit]
          cases codepage <;> rfl

/-- C24 at the demo provider: "French" resolved a second time gives 1036 and
1252 again. -/
theorem locale_to_LCID_twice_same_witness :
    MSVCRT_locale_to_LCID demoProvider
        ((MSVCRT_locale_to_LCID demoProvider thread_data_initial (cstr "French") (some 0)).getD
          (0, none, thread_data_initial)).2.2 (cstr "French") (some 1252)
      = some (1036, some 1252,
        ((MSVCRT_locale_to_LCID demoProvider thread_data_initial (cstr "French") (some 0)).getD
          (0, none, thread_data_initial)).2.2) :=
  locale_to_LCID_twice_same demoProvider thread_data_initial _ (cstr "French") (some 0)
    (some 1252) 1036 (eq_some_of_map_fst_snd _ _ _ (0, none, thread_data_initial) (by decide))

/-! ### C25: where the codepage of a resolution comes from -/

theorem tolower_eq_cases (a b : Char) (h : tolower a = tolower b) :
    a = b ∨ (65 ≤ a.toNat ∧ 65 ≤ b.toNat) := by
  by_cases ha : 65 ≤ a.toNat
  · by_cases hb : 65 ≤ b.toNat
    · exact Or.inr ⟨ha, hb⟩
    · have : tolower b = b := by unfold tolower; rw [if_neg (by omega)]
      rw [this] at h
      have := tolower_letter a b h
      by_cases hu : 65 ≤ a.toNat ∧ a.toNat ≤ 90
      · exfalso
        have e : tolower a = Char.ofNat (a.toNat + 32) := by unfold tolower; rw [if_pos hu]
        rw [e] at h
        have hv : (Char.ofNat (a.toNat + 32)).toNat = a.toNat + 32 := by
          obtain ⟨h1, h2⟩ := hu
          generalize a.toNat = n at h1 h2
          interval_cases n <;> rfl
        rw [h] at hv
        omega
      · have e : tolower a = a := by unfold tolower; rw [if_neg hu]
        rw [e] at h
        exact Or.inl h
  · have e : tolower a = a := by unfold tolower; rw [if_neg (by omega)]
    rw [e] at h
    by_cases hu : 65 ≤ b.toNat ∧ b.toNat ≤ 90
    · exfalso
      have e2 : tolower b = Char.ofNat (b.toNat + 32) := by unfold tolower; rw [if_pos hu]
      rw [e2] at h
      have hv : (Char.ofNat (b.toNat + 32)).toNat = b.toNat + 32 := by
        obtain ⟨h1, h2⟩ := hu
        generalize b.toNat = n at h1 h2
        interval_cases n <;> rfl
      rw [← h] at hv
      omega
    · have e2 : tolower b = b := by unfold tolower; rw [if_neg hu]
      rw [e2] at h
      exact Or.inl h

theorem atoi_digits_lower (s t : CStr) (acc : Int) (h : s.map tolower = t.map tolower) :
    atoi_digits s acc = atoi_digits t acc := by
  induction s generalizing t acc with
  | nil =>
    cases t with
    | nil => rfl
    | cons b bs => cases h
  | cons a as ih =>
    cases t with
    | nil => cases h
    | cons b bs =>
      simp only [List.map_cons, List.cons.injEq] at h
      rcases tolower_eq_cases a b h.1 with rfl | ⟨ha, hb⟩
      · unfold atoi_digits
        split_ifs
        · exact ih _ _ h.2
        · rfl
      · unfold atoi_digits
        rw [if_neg (by omega), if_neg (by omega)]

theorem strtol_subject_lower (s t : CStr) (h : s.map tolower = t.map tolower) :
    strtol_subject s = strtol_subject t := by
  induction s generalizing t with
  | nil =>
    cases t with
    | nil => rfl
    | cons b bs => cases h
  | cons a as ih =>
    cases t with
    | nil => cases h
    | cons b bs =>
      simp only [List.map_cons, List.cons.injEq] at h
      rcases tolower_eq_cases a b h.1 with rfl | ⟨ha, hb⟩
      · unfold strtol_subject
        split_ifs
        · exact ih _ h.2
        · simp only [atoi_signed]
          split_ifs
          · rw [atoi_digits_lower as bs 0 h.2]
          · exact atoi_digits_lower as bs 0 h.2
          · exact atoi_digits_lower (a :: as) (a :: bs) 0 (by simp [h.2])
      · rw [strtol_subject_of_letter a as ha, strtol_subject_of_letter b bs hb]

theorem atoi_lower (s t : CStr) (h : s.map tolower = t.map tolower) : atoi s = atoi t := by
  unfold atoi strtol
  rw [strtol_subject_lower s t h]

theorem compare_info_exact (P : Provider) (lcid : Nat) (t : LCTYPE) (cmp : CStr)
    (h : compare_info P lcid t cmp true = true) :
    cmp.map tolower = ((P.GetLocaleInfoA lcid true t).getD []).map tolower := by
  unfold compare_info at h
  by_cases h1 : cmp = []
  · rw [if_pos h1] at h; cases h
  · rw [if_neg h1] at h
    dsimp only at h
    by_cases h2 : (P.GetLocaleInfoA lcid true t).getD [] = []
    · rw [if_pos h2] at h; cases h
    · rw [if_neg h2] at h
      simp only [Bool.true_or, if_true, decide_eq_true_eq] at h
      exact (strcasecmp_eq_zero_iff _ _).mp h

theorem find_best_locale_proc_codepage_inv (P : Provider) (l : Nat) (res : locale_search_t)
    (hm : res.match_flags ≤ 7)
    (hinv : res.match_flags &&& FOUND_CODEPAGE ≠ 0 → res.found_codepage = res.search_codepage) :
    (find_best_locale_proc P l res).2.match_flags &&& FOUND_CODEPAGE ≠ 0 →
      (find_best_locale_proc P l res).2.found_codepage
        = (find_best_locale_proc P l res).2.search_codepage := by
  by_cases hn : PRIMARYLANGID l = LANG_NEUTRAL
  · rw [find_best_locale_proc_neutral P l res hn]
    exact hinv
  · obtain ⟨sl, sc, sp, fc, m, f⟩ := res
    simp only at hm hinv
    simp only [find_best_locale_proc, hn, if_false, CONTINUE_LOOKING, STOP_LOOKING,
      FOUND_LANGUAGE, FOUND_COUNTRY, FOUND_CODEPAGE] at hinv ⊢
    generalize check_language P (MAKELCID l SORT_DEFAULT) ⟨sl, sc, sp, fc, m, f⟩ = bl
    generalize check_country P (MAKELCID l SORT_DEFAULT) ⟨sl, sc, sp, fc, m, f⟩ = bc
    generalize check_codepage P (MAKELCID l SORT_DEFAULT) ⟨sl, sc, sp, fc, m, f⟩ = bp
    interval_cases m <;> cases bl <;> cases bc <;> cases bp <;> simp_all +decide

theorem scan_codepage_inv (P : Provider) (langs : List Nat) (res : locale_search_t)
    (hm : res.match_flags ≤ 7)
    (hinv : res.match_flags &&& FOUND_CODEPAGE ≠ 0 → res.found_codepage = res.search_codepage) :
    (EnumResourceLanguagesA (find_best_locale_proc P) langs res).match_flags
        &&& FOUND_CODEPAGE ≠ 0 →
      (EnumResourceLanguagesA (find_best_locale_proc P) langs res).found_codepage
        = (EnumResourceLanguagesA (find_best_locale_proc P) langs res).search_codepage := by
  induction langs generalizing res with
  | nil => exact hinv
  | cons l ls ih =>
    by_cases hn : PRIMARYLANGID l = LANG_NEUTRAL
    · simp only [EnumResourceLanguagesA, find_best_locale_proc_neutral P l res hn]
      exact ih res hm hinv
    · obtain ⟨_, _, _, h4, _, _⟩ := find_best_locale_proc_step P l res hn hm
      have h7 : (find_best_locale_proc P l res).2.match_flags ≤ 7 := by
        rw [h4]; have := score_le_seven P res l; omega
      have hi := find_best_locale_proc_codepage_inv P l res hm hinv
      unfold EnumResourceLanguagesA
      rcases hstep : find_best_locale_proc P l res with ⟨c, r1⟩
      rw [hstep] at h7 hi
      cases c
      · exact hi
      · exact ih r1 h7 hi

theorem compare_info_present (P : Provider) (lcid : Nat) (t : LCTYPE) (cmp : CStr)
    (h : compare_info P lcid t cmp true = true) :
    ∃ v, P.GetLocaleInfoA lcid true t = some v ∧ cmp.map tolower = v.map tolower := by
  have he := compare_info_exact P lcid t cmp h
  unfold compare_info at h
  cases hg : P.GetLocaleInfoA lcid true t with
  | none =>
    rw [hg] at h
    by_cases h1 : cmp = []
    · rw [if_pos h1] at h; cases h
    · rw [if_neg h1] at h
      simp at h
  | some v =>
    rw [hg] at he
    exact ⟨v, rfl, he⟩

theorem finish_sentinel_present (P : Provider) (s : locale_search_t) (lct : LCTYPE) (w : CStr)
    (lcid : Nat) (fc : CStr)
    (hfc : s.found_codepage = [] ∨ s.found_codepage = s.search_codepage)
    (hw : strcasecmp s.search_codepage w = 0) (hw0 : atoi w = 0)
    (h : (if atoi (GetLocaleInfoA_into P lcid false lct s.found_codepage) = 0 then none
      else some (lcid, GetLocaleInfoA_into P lcid false lct s.found_codepage))
        = some (lcid, fc)) :
    P.GetLocaleInfoA lcid false lct = some fc ∧ atoi fc ≠ 0 := by
  have hz : atoi s.found_codepage = 0 := by
    rcases hfc with e | e
    · rw [e]; rfl
    · rw [e, atoi_lower _ _ ((strcasecmp_eq_zero_iff _ _).mp hw)]; exact hw0
  unfold GetLocaleInfoA_into at h
  cases hg : P.GetLocaleInfoA lcid false lct with
  | none =>
    rw [hg] at h
    simp only [Option.getD_none, hz, if_true] at h
    cases h
  | some v =>
    rw [hg] at h
    simp only [Option.getD_some] at h
    by_cases hv : atoi v = 0
    · rw [if_pos hv] at h; cases h
    · rw [if_neg hv] at h
      simp only [Option.some.injEq, Prod.mk.injEq, true_and] at h
      subst h
      exact ⟨rfl, hv⟩

/-- C25 (counterexample): with a provider that reports neither the default
codepage nor the default ANSI codepage of the locale 1036, the descriptor
"French" resolves to 1036 with the codepage 0, which the provider does not
confirm as a valid codepage and does not report in any field. -/
theorem absent_default_codepage_gives_zero :
    resolve_nocache nocpProvider (cstr "French") = some (some (1036, 0)) ∧
    nocpProvider.IsValidCodePage 0 = false ∧
    (∀ nouser, nocpProvider.GetLocaleInfoA 1036 nouser .LOCALE_IDEFAULTCODEPAGE = none ∧
      nocpProvider.GetLocaleInfoA 1036 nouser .LOCALE_IDEFAULTANSICODEPAGE = none) :=
  ⟨by decide, by decide, fun _ => ⟨rfl, rfl⟩⟩

/-- C25 (amended): with a provider whose valid codepage numbers are positive
16-bit numbers (as the codepage identifiers of kernel32), whenever the
matching algorithm without the cache succeeds with the locale id `L`, the
codepage returned is a positive number that the provider confirms as a valid
codepage, or the number (C `atoi`, as the 16-bit value handed to the caller)
of a default codepage string that the provider does report for `L`, or of a
default ANSI codepage string that it does report for `L`, or it is 0 in the
one remaining case: the descriptor carries no codepage token and the provider
reports neither of the two fields for `L`. -/
theorem resolved_codepage_is_confirmed_or_default (P : Provider) (d : CStr) (L cp : Nat)
    (hvalid : ∀ n, P.IsValidCodePage n = true → 0 < n ∧ n < 65536)
    (h : resolve_nocache P d = some (some (L, cp))) :
    (0 < cp ∧ P.IsValidCodePage cp = true) ∨
    (∃ nouser buf, P.GetLocaleInfoA L nouser .LOCALE_IDEFAULTCODEPAGE = some buf ∧
      cp = ((atoi buf) % 65536).toNat) ∨
    (∃ nouser buf, P.GetLocaleInfoA L nouser .LOCALE_IDEFAULTANSICODEPAGE = some buf ∧
      cp = ((atoi buf) % 65536).toNat) ∨
    ((∃ search, split_locale d = some search ∧ search.search_codepage = []) ∧
      P.GetLocaleInfoA L false .LOCALE_IDEFAULTCODEPAGE = none ∧
      P.GetLocaleInfoA L false .LOCALE_IDEFAULTANSICODEPAGE = none ∧ cp = 0) := by
  unfold resolve_nocache at h
  simp only [Option.map_eq_some'] at h
  obtain ⟨r, hr, h2⟩ := h
  obtain ⟨⟨L', fc⟩, rfl, h3⟩ := h2
  simp only [Prod.mk.injEq] at h3
  obtain ⟨rfl, rfl⟩ := h3
  unfold locale_to_LCID_search at hr
  simp only [Option.map_eq_some'] at hr
  obtain ⟨search, hs, hf⟩ := hr
  change locale_to_LCID_finish P (final_search P search) = some (L', fc) at hf
  obtain ⟨_, _, f3, f4, f5⟩ := final_search_facts P d search hs
  obtain ⟨hm, hL⟩ := finish_some P _ _ _ hf
  have hcp : (normalize_search search).search_codepage = search.search_codepage := by
    simp only [normalize_search]
    split_ifs <;> rfl
  have hc : ¬ ((final_search P search).search_country ≠ [] ∧
      (final_search P search).match_flags &&& FOUND_COUNTRY = 0) := by
    intro hc
    rw [finish_rejects P _ (Or.inr hc)] at hf
    cases hf
  by_cases hbit : (final_search P search).match_flags &&& FOUND_CODEPAGE = 0
  · by_cases htok : search.search_codepage = []
    · have hfc : (final_search P search).found_codepage = [] := by
        rcases f4 with e | e
        · exact e
        · rw [e, htok]
      rw [finish_no_token P _ hm hc hbit (f3.trans htok) hfc] at hf
      simp only [Option.some.injEq, Prod.mk.injEq] at hf
      obtain ⟨_, rfl⟩ := hf
      rw [← hL]
      cases hA : P.GetLocaleInfoA L' false .LOCALE_IDEFAULTANSICODEPAGE with
      | none =>
        cases hG : P.GetLocaleInfoA L' false .LOCALE_IDEFAULTCODEPAGE with
        | none =>
          right; right; right
          refine ⟨⟨search, hs, htok⟩, rfl, rfl, ?_⟩
          simp [atoi_nil]
        | some g =>
          right; left
          refine ⟨false, g, hG, ?_⟩
          simp
      | some a =>
        simp only [Option.getD_some]
        by_cases hz : a = [] ∨ atoi a = 0
        · rw [if_pos hz]
          cases hG : P.GetLocaleInfoA L' false .LOCALE_IDEFAULTCODEPAGE with
          | none =>
            right; right; left
            exact ⟨false, a, hA, rfl⟩
          | some g =>
            right; left
            exact ⟨false, g, hG, rfl⟩
        · rw [if_neg hz]
          right; right; left
          exact ⟨false, a, hA, rfl⟩
    · unfold locale_to_LCID_finish at hf
      rw [if_neg hm, if_neg hc] at hf
      simp only [hbit, f3, htok, if_true, ne_eq, not_false_eq_true, ← hL] at hf
      by_cases hv : P.IsValidCodePage ((atoi search.search_codepage) % 4294967296).toNat = true
      · rw [if_pos hv] at hf
        simp only [Option.some.injEq, Prod.mk.injEq, true_and] at hf
        subst hf
        left
        obtain ⟨v1, v2⟩ := hvalid _ hv
        have e : (atoi search.search_codepage % 65536).toNat
            = (atoi search.search_codepage % 4294967296).toNat := by omega
        rw [e]
        exact ⟨v1, hv⟩
      · rw [if_neg hv] at hf
        have f4' : (final_search P search).found_codepage = [] ∨
            (final_search P search).found_codepage
              = (final_search P search).search_codepage := by
          rw [f3]; exact f4
        by_cases ho : strcasecmp search.search_codepage (cstr "OCP") = 0
        · rw [if_pos ho] at hf
          have := finish_sentinel_present P (final_search P search) .LOCALE_IDEFAULTCODEPAGE
            (cstr "OCP") L' fc f4' (by rw [f3]; exact ho) (by decide) hf
          exact Or.inr (Or.inl ⟨false, fc, this.1, rfl⟩)
        · rw [if_neg ho] at hf
          by_cases ha : strcasecmp search.search_codepage (cstr "ACP") = 0
          · rw [if_pos ha] at hf
            have := finish_sentinel_present P (final_search P search)
              .LOCALE_IDEFAULTANSICODEPAGE (cstr "ACP") L' fc f4' (by rw [f3]; exact ha)
              (by decide) hf
            exact Or.inr (Or.inr (Or.inl ⟨false, fc, this.1, rfl⟩))
          · rw [if_neg ha] at hf
            cases hf
  · have hinv := scan_codepage_inv P P.languages (normalize_search search)
      (by rw [normalize_search_match_flags, split_locale_match_flags d search hs]; omega)
      (by
        intro hh
        rw [normalize_search_match_flags, split_locale_match_flags d search hs] at hh
        exact absurd rfl hh) hbit
    change (final_search P search).found_codepage = (final_search P search).search_codepage
      at hinv
    unfold locale_to_LCID_finish at hf
    rw [if_neg hm, if_neg hc] at hf
    simp only [hbit, if_false, Option.some.injEq, Prod.mk.injEq] at hf
    obtain ⟨_, rfl⟩ := hf
    rw [hinv, f3]
    have hwin : check_codepage P L' (normalize_search search) = true := by
      rcases f5 with e | e
      · exact absurd e hm
      · rw [e, score_codepage_bit, ← hL] at hbit
        by_contra hne
        rw [if_neg hne] at hbit
        exact hbit rfl
    simp only [check_codepage, Bool.or_eq_true, hcp] at hwin
    rcases hwin with hw | hw
    · obtain ⟨v, hv, e⟩ := compare_info_present P _ _ _ hw
      rw [atoi_lower _ _ e]
      exact Or.inr (Or.inl ⟨true, v, hv, rfl⟩)
    · obtain ⟨v, hv, e⟩ := compare_info_present P _ _ _ hw
      rw [atoi_lower _ _ e]
      exact Or.inr (Or.inr (Or.inl ⟨true, v, hv, rfl⟩))

/-- C25 (amended) at the demo providers: "French.437" resolves to 1036 with
the codepage 437, which the provider confirms as valid; with the provider
that reports no codepage field, "French" resolves to 1036 with the codepage
0, and of the four cases only the last one holds there. -/
theorem resolved_codepage_is_confirmed_or_default_witness :
    (resolve_nocache demoProvider (cstr "French.437") = some (some (1036, 437)) ∧
      ((0 < 437 ∧ demoProvider.IsValidCodePage 437 = true) ∨
      (∃ nouser buf, demoProvider.GetLocaleInfoA 1036 nouser .LOCALE_IDEFAULTCODEPAGE
          = some buf ∧ 437 = ((atoi buf) % 65536).toNat) ∨
      (∃ nouser buf, demoProvider.GetLocaleInfoA 1036 nouser .LOCALE_IDEFAULTANSICODEPAGE
          = some buf ∧ 437 = ((atoi buf) % 65536).toNat) ∨
      ((∃ search, split_locale (cstr "French.437") = some search ∧
          search.search_codepage = []) ∧
        demoProvider.GetLocaleInfoA 1036 false .LOCALE_IDEFAULTCODEPAGE = none ∧
        demoProvider.GetLocaleInfoA 1036 false .LOCALE_IDEFAULTANSICODEPAGE = none ∧
        437 = 0))) ∧
    (resolve_nocache nocpProvider (cstr "French") = some (some (1036, 0)) ∧
      ((0 < 0 ∧ nocpProvider.IsValidCodePage 0 = true) ∨
      (∃ nouser buf, nocpProvider.GetLocaleInfoA 1036 nouser .LOCALE_IDEFAULTCODEPAGE
          = some buf ∧ 0 = ((atoi buf) % 65536).toNat) ∨
      (∃ nouser buf, nocpProvider.GetLocaleInfoA 1036 nouser .LOCALE_IDEFAULTANSICODEPAGE
          = some buf ∧ 0 = ((atoi buf) % 65536).toNat) ∨
      ((∃ search, split_locale (cstr "French") = some search ∧
          search.search_codepage = []) ∧
        nocpProvider.GetLocaleInfoA 1036 false .LOCALE_IDEFAULTCODEPAGE = none ∧
        nocpProvider.GetLocaleInfoA 1036 false .LOCALE_IDEFAULTANSICODEPAGE = none ∧
        0 = 0))) :=
  ⟨⟨by decide,
    resolved_codepage_is_confirmed_or_default demoProvider (cstr "French.437") 1036 437
      (fun n hn => by
        simp only [demoProvider, decide_eq_true_eq] at hn
        omega)
      (by decide)⟩,
   ⟨by decide,
    resolved_codepage_is_confirmed_or_default nocpProvider (cstr "French") 1036 0
      (fun n hn => by
        simp only [nocpProvider, demoProvider, decide_eq_true_eq] at hn
        omega)
      (by decide)⟩⟩

/-! ### C26: the record of the "C" locale -/

/-- C26 (counterexample): in the record assembled for "C" with no previous
record the lower-case map sends byte 65 ('A') to 97, not to itself, and the
name of Monday in the Time block is the one the provider reports for English:
two providers that differ in that name give two different records. -/
theorem C_record_uses_provider_and_case_maps :
    (create_locinfo demoProvider 127 0 (some (cstr "C")) none thread_data_initial).map
      (fun r => r.1.map fun l =>
        (l.pclmap.map (fun m => m.getD 65 0), l.lc_time_curr.map (fun t => t.str.getD 8 [])))
      = some (some (some 97, some (cstr "day1"))) ∧
    (create_locinfo demoProvider2 127 0 (some (cstr "C")) none thread_data_initial).map
      (fun r => r.1.map fun l =>
        (l.pclmap.map (fun m => m.getD 65 0), l.lc_time_curr.map (fun t => t.str.getD 8 [])))
      = some (some (some 97, some (cstr "Monday"))) := by
  decide

theorem C_record_block_providers (P1 P2 : Provider) (charmax : Nat) (X : Nat)
    (hX : is_category X) (hne : X ≠ MSVCRT_LC_TIME)
    (t1 t2 : Option MSVCRT___lc_time_data)
    (hver : P1._MSVCR_VER = P2._MSVCR_VER) (hct : P1.MSVCRT__ctype = P2.MSVCRT__ctype) :
    category_block_of (C_record P1 charmax X t1 locinfo_fresh) X
      = category_block_of (C_record P2 charmax X t2 locinfo_fresh) X := by
  obtain ⟨h1, h2⟩ := hX
  simp only [MSVCRT_LC_COLLATE, MSVCRT_LC_TIME] at h1 h2 hne
  interval_cases X <;> first
    | exact absurd rfl hne
    | simp [C_record, monetary_C_record, numeric_C, ctype_C, hver, hct, category_block_of,
        category_data_of, set_locale_C, MSVCRT_LC_COLLATE, MSVCRT_LC_CTYPE, MSVCRT_LC_MONETARY,
        MSVCRT_LC_NUMERIC, MSVCRT_LC_TIME]

theorem create_locinfo_C_blocks (P : Provider) (charmax : Nat) (data data' : thread_data_t)
    (new : MSVCRT_threadlocinfo)
    (h : create_locinfo P charmax (MSVCRT_LC_ALL : Int) (some (cstr "C")) none data
      = some (some new, data')) (X : Nat) (hX : is_category X) :
    ∃ t, (X = MSVCRT_LC_TIME → build_time_data P 0 = t) ∧
      category_block_of new X = category_block_of (C_record P charmax X t locinfo_fresh) X := by
  obtain ⟨_, lcid, cp, hl, hb⟩ := create_locinfo_success P _ _ _ _ _ _ _ h
  rw [create_locinfo_lcids_C] at hl
  simp only [Option.some.injEq, Prod.mk.injEq] at hl
  obtain ⟨⟨rfl, rfl⟩, _⟩ := hl
  rcases build_categories_outcome P _ _ _ _ _ new hb X hX with
    ⟨o, ho, _⟩ | ⟨_, hn, _⟩ | ⟨_, _, t, ht, hblock⟩
  · cases ho
  · exact absurd rfl hn
  · exact ⟨t, fun hx => (ht hx).1, hblock⟩

/-- C26 (amended): for two providers compiled for the same runtime version
and with the same static classification table, the records assembled for "C"
with no previous record have the same Collate, Ctype, Monetary and Numeric
blocks; the Time block has locale id 0 and descriptor "C" and holds the time
data built from what the provider reports for English; the lower-case map
sends 'A'..'Z' to 'a'..'z' and the upper-case map 'a'..'z' to 'A'..'Z', and
both send every other byte to itself. -/
theorem C_record_same_apart_from_time (P1 P2 : Provider) (charmax : Nat)
    (data1 data1' data2 data2' : thread_data_t) (new1 new2 : MSVCRT_threadlocinfo)
    (hver : P1._MSVCR_VER = P2._MSVCR_VER) (hct : P1.MSVCRT__ctype = P2.MSVCRT__ctype)
    (h1 : create_locinfo P1 charmax (MSVCRT_LC_ALL : Int) (some (cstr "C")) none data1
      = some (some new1, data1'))
    (h2 : create_locinfo P2 charmax (MSVCRT_LC_ALL : Int) (some (cstr "C")) none data2
      = some (some new2, data2')) :
    (∀ X, is_category X → X ≠ MSVCRT_LC_TIME →
      category_block_of new1 X = category_block_of new2 X) ∧
    (new1.lc_handle MSVCRT_LC_TIME = 0 ∧
      (new1.lc_category MSVCRT_LC_TIME).locale = some (cstr "C") ∧
      new1.lc_time_curr = build_time_data P1 0) ∧
    (new1.pclmap = some pclmap_C ∧ new1.pcumap = some pcumap_C) ∧
    (∀ i, i < 256 → pclmap_C.getD i 0 = (if 65 ≤ i ∧ i ≤ 90 then i + 32 else i) ∧
      pcumap_C.getD i 0 = (if 97 ≤ i ∧ i ≤ 122 then i - 32 else i)) := by
  refine ⟨?_, ?_, ?_, ?_⟩
  · intro X hX hne
    obtain ⟨t1, _, b1⟩ := create_locinfo_C_blocks P1 charmax _ _ new1 h1 X hX
    obtain ⟨t2, _, b2⟩ := create_locinfo_C_blocks P2 charmax _ _ new2 h2 X hX
    rw [b1, b2]
    exact C_record_block_providers P1 P2 charmax X hX hne t1 t2 hver hct
  · obtain ⟨t, ht, b⟩ := create_locinfo_C_blocks P1 charmax _ _ new1 h1 MSVCRT_LC_TIME
      ⟨by decide, by decide⟩
    have ht := ht rfl
    simp only [category_block_of, category_block.mk.injEq] at b
    obtain ⟨e1, _, e3, _, e5⟩ := b
    rw [e1, e3]
    simp only [category_data_of, MSVCRT_LC_TIME, MSVCRT_LC_COLLATE, MSVCRT_LC_CTYPE,
      MSVCRT_LC_MONETARY, MSVCRT_LC_NUMERIC, show (5 : Nat) ≠ 1 from by decide,
      show (5 : Nat) ≠ 2 from by decide, show (5 : Nat) ≠ 3 from by decide,
      show (5 : Nat) ≠ 4 from by decide, if_true, if_false, category_data.time.injEq] at e5
    rw [e5, ht]
    simp [C_record, set_locale_C, locinfo_fresh, MSVCRT_LC_TIME, MSVCRT_LC_COLLATE,
      MSVCRT_LC_CTYPE, MSVCRT_LC_MONETARY, MSVCRT_LC_NUMERIC]
  · obtain ⟨t, _, b⟩ := create_locinfo_C_blocks P1 charmax _ _ new1 h1 MSVCRT_LC_CTYPE
      ⟨by decide, by decide⟩
    simp only [category_block_of, category_block.mk.injEq] at b
    obtain ⟨_, _, _, _, e5⟩ := b
    simp only [category_data_of, MSVCRT_LC_COLLATE, MSVCRT_LC_CTYPE,
      show (2 : Nat) ≠ 1 from by decide, if_true, if_false, category_data.ctype.injEq] at e5
    obtain ⟨_, _, _, _, _, _, e7, e8⟩ := e5
    rw [e7, e8]
    simp [C_record, ctype_C, set_locale_C, MSVCRT_LC_COLLATE, MSVCRT_LC_CTYPE]
  · intro i hi
    simp only [pclmap_C, pcumap_C, List.getD_eq_getElem?_getD, List.getElem?_map,
      List.getElem?_range hi, Option.map_some', Option.getD_some]
    constructor <;> split_ifs <;> omega

/-- C26 (amended) at the two demo providers, which differ in the name of
Monday only: both assemble a record for "C", and the Monetary blocks of the
two records are the same. -/
theorem C_record_same_apart_from_time_witness :
    (create_locinfo demoProvider 127 0 (some (cstr "C")) none thread_data_initial).map
        (fun r => r.1.isSome) = some true ∧
    (create_locinfo demoProvider2 127 0 (some (cstr "C")) none thread_data_initial).map
        (fun r => r.1.isSome) = some true ∧
    category_block_of (((create_locinfo demoProvider 127 0 (some (cstr "C")) none
        thread_data_initial).getD (none, thread_data_initial)).1.getD locinfo_fresh)
        MSVCRT_LC_MONETARY
      = category_block_of (((create_locinfo demoProvider2 127 0 (some (cstr "C")) none
        thread_data_initial).getD (none, thread_data_initial)).1.getD locinfo_fresh)
        MSVCRT_LC_MONETARY :=
  ⟨by decide, by decide,
    (C_record_same_apart_from_time demoProvider demoProvider2 127 thread_data_initial _
      thread_data_initial _ _ _ rfl rfl
      (eq_some_some_getD _ locinfo_fresh thread_data_initial (by decide))
      (eq_some_some_getD _ locinfo_fresh thread_data_initial (by decide))).1
      MSVCRT_LC_MONETARY ⟨by decide, by decide⟩ (by decide)⟩

/-! ### C27: a field that the provider does not report -/

/-- C27 (counterexample): the demo provider reports an empty positive sign
for 1036, and the record for "French" is assembled all the same, with an
empty positive sign and the five categories at 1036. -/
theorem empty_field_does_not_fail_assembly :
    demoProvider.GetLocaleInfoA 1036 true .LOCALE_SPOSITIVESIGN = some [] ∧
    (create_locinfo demoProvider 127 0 (some (cstr "French")) none thread_data_initial).map
      (fun r => r.1.map fun l => (l.lconv.positive_sign, [1, 2, 3, 4, 5].map l.lc_handle))
      = some (some (some [], [1036, 1036, 1036, 1036, 1036])) := by
  decide

theorem query_monetary_some (P : Provider) (lcid : Nat) (m : monetary_fields)
    (h : query_monetary P lcid = some (some m)) :
    ∀ t ∈ monetary_queries, P.GetLocaleInfoA lcid true t ≠ none := by
  unfold query_monetary at h
  obtain ⟨a1, e1, h⟩ := or_null_eq_some_some _ _ _ h
  obtain ⟨a2, e2, h⟩ := or_null_eq_some_some _ _ _ h
  obtain ⟨a3, e3, h⟩ := or_null_eq_some_some _ _ _ h
  obtain ⟨a4, e4, h⟩ := or_null_eq_some_some _ _ _ h
  obtain ⟨a5, e5, h⟩ := or_null_eq_some_some _ _ _ h
  simp only [Option.bind_eq_some] at h
  obtain ⟨gr, _, h⟩ := h
  obtain ⟨a6, e6, h⟩ := or_null_eq_some_some _ _ _ h
  obtain ⟨a7, e7, h⟩ := or_null_eq_some_some _ _ _ h
  obtain ⟨a8, e8, h⟩ := or_null_eq_some_some _ _ _ h
  obtain ⟨a9, e9, h⟩ := or_null_eq_some_some _ _ _ h
  obtain ⟨a10, e10, h⟩ := or_null_eq_some_some _ _ _ h
  obtain ⟨a11, e11, h⟩ := or_null_eq_some_some _ _ _ h
  obtain ⟨a12, e12, h⟩ := or_null_eq_some_some _ _ _ h
  obtain ⟨a13, e13, h⟩ := or_null_eq_some_some _ _ _ h
  obtain ⟨a14, e14, h⟩ := or_null_eq_some_some _ _ _ h
  obtain ⟨a15, e15, h⟩ := or_null_eq_some_some _ _ _ h
  intro t ht
  simp only [monetary_queries, List.mem_cons, List.mem_singleton, List.not_mem_nil,
    or_false] at ht
  rcases ht with rfl | rfl | rfl | rfl | rfl | rfl | rfl | rfl | rfl | rfl | rfl | rfl | rfl |
    rfl | rfl <;> simp [*]

theorem build_monetary_queries (P : Provider) (charmax : Nat) (category : Int)
    (old : Option MSVCRT_threadlocinfo) (lcid cp : Nat → Nat) (l l' : MSVCRT_threadlocinfo)
    (h : build_monetary P charmax category old lcid cp l = some (some l'))
    (hnu : category_needs_update MSVCRT_LC_MONETARY category old (lcid MSVCRT_LC_MONETARY)
      (cp MSVCRT_LC_MONETARY) = true)
    (hsel : lcid MSVCRT_LC_MONETARY ≠ 0 ∧ selects category MSVCRT_LC_MONETARY = true) :
    ∀ t ∈ monetary_queries, P.GetLocaleInfoA (lcid MSVCRT_LC_MONETARY) true t ≠ none := by
  unfold build_monetary at h
  split at h
  · rename_i o hb
    rw [hb] at hnu; cases hnu
  · rw [if_pos hsel] at h
    simp only [Option.bind_eq_some] at h
    obtain ⟨⟨failed, l1⟩, hu, h2⟩ := h
    obtain ⟨rfl, _⟩ := update_threadlocinfo_category_eq P _ _ _ _ _ _ hu
    simp only [Bool.false_eq_true, if_false, Option.map_eq_some', Option.bind_eq_some] at h2
    obtain ⟨q, hq, m, rfl, _⟩ := h2
    exact query_monetary_some P _ m hq

theorem build_numeric_queries (P : Provider) (category : Int)
    (old : Option MSVCRT_threadlocinfo) (lcid cp : Nat → Nat) (l l' : MSVCRT_threadlocinfo)
    (h : build_numeric P category old lcid cp l = some (some l'))
    (hnu : category_needs_update MSVCRT_LC_NUMERIC category old (lcid MSVCRT_LC_NUMERIC)
      (cp MSVCRT_LC_NUMERIC) = true)
    (hsel : lcid MSVCRT_LC_NUMERIC ≠ 0 ∧ selects category MSVCRT_LC_NUMERIC = true) :
    ∀ t ∈ numeric_queries, P.GetLocaleInfoA (lcid MSVCRT_LC_NUMERIC) true t ≠ none := by
  unfold build_numeric at h
  split at h
  · rename_i o hb
    rw [hb] at hnu; cases hnu
  · rw [if_pos hsel] at h
    simp only [Option.bind_eq_some] at h
    obtain ⟨⟨failed, l1⟩, hu, h2⟩ := h
    obtain ⟨rfl, _⟩ := update_threadlocinfo_category_eq P _ _ _ _ _ _ hu
    simp only [Bool.false_eq_true, if_false] at h2
    obtain ⟨a1, e1, h2⟩ := or_null_eq_some_some _ _ _ h2
    obtain ⟨a2, e2, h2⟩ := or_null_eq_some_some _ _ _ h2
    obtain ⟨a3, e3, h2⟩ := or_null_eq_some_some _ _ _ h2
    intro t ht
    simp only [numeric_queries, List.mem_cons, List.mem_singleton, List.not_mem_nil,
      or_false] at ht
    rcases ht with rfl | rfl | rfl <;> simp [*]

theorem build_time_queries (P : Provider) (category : Int)
    (old : Option MSVCRT_threadlocinfo) (lcid cp : Nat → Nat) (l l' : MSVCRT_threadlocinfo)
    (h : build_time P category old lcid cp l = some (some l'))
    (hnu : category_needs_update MSVCRT_LC_TIME category old (lcid MSVCRT_LC_TIME)
      (cp MSVCRT_LC_TIME) = true)
    (hl : lcid MSVCRT_LC_TIME ≠ 0) :
    ∀ t ∈ time_data, P.GetLocaleInfoA (lcid MSVCRT_LC_TIME) false t ≠ none ∧
      P.GetLocaleInfoW (lcid MSVCRT_LC_TIME) false t ≠ none := by
  have ht : ∃ t, build_time_data P (lcid MSVCRT_LC_TIME) = some t := by
    unfold build_time at h
    split at h
    · rename_i o hb
      rw [hb] at hnu; cases hnu
    · simp only [Option.map_eq_some', Option.bind_eq_some] at h
      obtain ⟨r, _, l3, _, t, ht, _⟩ := h
      exact ⟨t, ht⟩
  obtain ⟨t, ht⟩ := ht
  unfold build_time_data at ht
  simp only [hl, ne_eq, not_false_eq_true, if_true, decide_False] at ht
  have hok : time_sizes_ok P (lcid MSVCRT_LC_TIME) false false = true := by
    by_contra hc
    rw [if_neg hc] at ht
    cases ht
  unfold time_sizes_ok at hok
  rw [List.all_eq_true] at hok
  intro t' ht'
  have := hok t' ht'
  simp only [Bool.false_eq_true, and_false, if_false, Bool.and_eq_true,
    Option.isSome_iff_exists] at this
  obtain ⟨⟨a, ha⟩, ⟨b, hb⟩⟩ := this
  simp [ha, hb]

/-- C27 (amended): when create_locinfo returns a record, then for each of the
categories Monetary and Numeric that it built from a locale (the category is
selected, its locale id is not 0 and it is not reused from the old record)
the provider reported every field the builder queries for it, and for the
Time category built from a locale id that is not 0 the provider reported
every field of `time_data`, in the narrow and in the wide form. So a field
that the provider does not report makes create_locinfo return no record; an
empty string is a reported field. -/
theorem absent_field_fails_assembly (P : Provider) (charmax : Nat) (category : Int)
    (locale : CStr) (old : Option MSVCRT_threadlocinfo) (data data' : thread_data_t)
    (new : MSVCRT_threadlocinfo)
    (h : create_locinfo P charmax category (some locale) old data = some (some new, data')) :
    ∃ lcid cp, create_locinfo_lcids P locale data = some (some (lcid, cp), data') ∧
      (category_needs_update MSVCRT_LC_MONETARY category old (lcid MSVCRT_LC_MONETARY)
          (cp MSVCRT_LC_MONETARY) = true →
        lcid MSVCRT_LC_MONETARY ≠ 0 → selects category MSVCRT_LC_MONETARY = true →
        ∀ t ∈ monetary_queries,
          P.GetLocaleInfoA (lcid MSVCRT_LC_MONETARY) true t ≠ none) ∧
      (category_needs_update MSVCRT_LC_NUMERIC category old (lcid MSVCRT_LC_NUMERIC)
          (cp MSVCRT_LC_NUMERIC) = true →
        lcid MSVCRT_LC_NUMERIC ≠ 0 → selects category MSVCRT_LC_NUMERIC = true →
        ∀ t ∈ numeric_queries,
          P.GetLocaleInfoA (lcid MSVCRT_LC_NUMERIC) true t ≠ none) ∧
      (category_needs_update MSVCRT_LC_TIME category old (lcid MSVCRT_LC_TIME)
          (cp MSVCRT_LC_TIME) = true →
        lcid MSVCRT_LC_TIME ≠ 0 →
        ∀ t ∈ time_data, P.GetLocaleInfoA (lcid MSVCRT_LC_TIME) false t ≠ none ∧
          P.GetLocaleInfoW (lcid MSVCRT_LC_TIME) false t ≠ none) := by
  obtain ⟨_, lcid, cp, hl, hb⟩ := create_locinfo_success P _ _ _ _ _ _ _ h
  obtain ⟨l1, l2, l3, l4, _, _, h3, h4, h5⟩ := build_categories_chain P _ _ _ _ _ _ hb
  exact ⟨lcid, cp, hl,
    fun hnu h0 hs => build_monetary_queries P _ _ _ _ _ _ _ h3 hnu ⟨h0, hs⟩,
    fun hnu h0 hs => build_numeric_queries P _ _ _ _ _ _ h4 hnu ⟨h0, hs⟩,
    fun hnu h0 => build_time_queries P _ _ _ _ _ _ h5 hnu h0⟩

/-- C27 (amended) at the demo provider: the record for "French" is assembled,
so the provider reports each of the fifteen monetary fields of 1036. -/
theorem absent_field_fails_assembly_witness :
    (create_locinfo demoProvider 127 0 (some (cstr "French")) none thread_data_initial).map
        (fun r => r.1.isSome) = some true ∧
    ∀ t ∈ monetary_queries, demoProvider.GetLocaleInfoA 1036 true t ≠ none := by
  refine ⟨by decide, ?_⟩
  obtain ⟨lcid, cp, hl, hm, -, -⟩ :=
    absent_field_fails_assembly demoProvider 127 0 (cstr "French") none thread_data_initial _ _
      (eq_some_some_getD _ locinfo_fresh thread_data_initial (by decide))
  have e : (create_locinfo_lcids demoProvider (cstr "French") thread_data_initial).map
      (fun r => r.1.map fun p => p.1 MSVCRT_LC_MONETARY) = some (some 1036) := by decide
  rw [hl] at e
  simp only [Option.map_some', Option.some.injEq] at e
  rw [e] at hm
  exact hm rfl (by decide) (by decide)

/-! ### C28: a clause that names no category -/

/-- C28 (counterexample): in "LC_COLLATE=French;garbage" the second clause
begins with none of the five category tokens, and create_locinfo assembles a
record all the same: Collation at 1036, the four other categories at 0. -/
theorem composite_tail_without_LC_is_ignored :
    (∀ tok ∈ [cstr "LC_COLLATE=", cstr "LC_CTYPE=", cstr "LC_MONETARY=", cstr "LC_NUMERIC=",
        cstr "LC_TIME="], tok.isPrefixOf (cstr "garbage") = false) ∧
    (create_locinfo demoProvider 127 0 (some (cstr "LC_COLLATE=French;garbage")) none
        thread_data_initial).map
      (fun r => r.1.map fun l => [1, 2, 3, 4, 5].map l.lc_handle)
      = some (some [1036, 0, 0, 0, 0]) := by
  decide

theorem render_clauses_then_cons (c : Nat × CStr) (cs : List (Nat × CStr)) (rest : CStr) :
    render_clauses_then (c :: cs) rest = render_clause c ++ ';' :: render_clauses_then cs rest :=
  rfl

theorem render_clauses_then_starts_LC (d : Nat × CStr) (cs : List (Nat × CStr)) (rest : CStr) :
    (cstr "LC_").isPrefixOf (render_clauses_then (d :: cs) rest) = true := by
  simp [render_clauses_then, render_clause, cstr]

theorem render_clauses_then_length (cs : List (Nat × CStr)) (rest : CStr) :
    cs.length ≤ (render_clauses_then cs rest).length := by
  induction cs with
  | nil => simp
  | cons c cs ih =>
    simp only [render_clauses_then, List.length_append, List.length_cons]
    omega

/-- The loop of the composite branch on clauses that are each followed by
';': the clauses are assigned in order, and the loop then goes on with what
follows the last ';' when that begins with "LC_", and stops with success
otherwise. -/
theorem parse_composite_then (P : Provider) (rest : CStr) (f : Nat) (cs : List (Nat × CStr))
    (c : Nat × CStr)
    (hcs : ∀ x ∈ c :: cs, is_category x.1 ∧ ';' ∉ x.2 ∧ x.2.length < 256)
    (lcid cp : Nat → Nat) (data : thread_data_t) :
    parse_composite P (cs.length + 1 + f) (render_clauses_then (c :: cs) rest) lcid cp data
      = (assign_clauses P (c :: cs) lcid cp data).bind fun r =>
          match r.1 with
          | none => some (none, r.2)
          | some a =>
            if (cstr "LC_").isPrefixOf rest then parse_composite P f rest a.1 a.2 r.2
            else some (some a, r.2) := by
  induction cs generalizing c lcid cp data with
  | nil =>
    obtain ⟨hc, hv, hlen⟩ := hcs c (by simp)
    have ht := category_token_render c (';' :: rest) hc
    have hdrop : (c.2 ++ ';' :: rest).drop (c.2.length + 1) = rest := by
      rw [List.drop_append_eq_append_drop]
      simp
    have htake : (c.2 ++ ';' :: rest).take c.2.length = c.2 := by
      simp
    have hf : ([] : List (Nat × CStr)).length + 1 + f = f + 1 := by
      simp only [List.length_nil]
      omega
    rw [assign_clauses_cons, hf, render_clauses_then_cons]
    simp only [render_clauses_then, parse_composite, ht, strchr_value_sep _ _ hv,
      clause_is_C_sep _ _ hv, resolve_clause, CP_ACP, hdrop, htake, hlen, if_true,
      assign_clauses_nil]
    by_cases hC : c.2 = ['C']
    · simp [hC, LCID_FAIL]
    · simp only [hC, decide_False, Bool.false_eq_true, if_false]
      rcases MSVCRT_locale_to_LCID P data c.2 (some (cp c.1)) with _ | ⟨l, k, d1⟩
      · rfl
      · simp only [Option.some_bind, Option.map_some', Option.bind_some]
        by_cases hl : l = LCID_FAIL
        · rw [if_pos hl, if_pos hl]
          rfl
        · rw [if_neg hl, if_neg hl]
          rfl
  | cons d cs ih =>
    obtain ⟨hc, hv, hlen⟩ := hcs c (by simp)
    have ht := category_token_render c (';' :: render_clauses_then (d :: cs) rest) hc
    have hdrop : (c.2 ++ ';' :: render_clauses_then (d :: cs) rest).drop (c.2.length + 1)
        = render_clauses_then (d :: cs) rest := by
      rw [List.drop_append_eq_append_drop]
      simp
    have htake : (c.2 ++ ';' :: render_clauses_then (d :: cs) rest).take c.2.length = c.2 := by
      simp
    have hf : (d :: cs).length + 1 + f = (cs.length + 1 + f) + 1 := by
      simp only [List.length_cons]
      omega
    have hih := fun lcid cp data =>
      ih d (fun x hx => hcs x (List.mem_cons_of_mem _ hx)) lcid cp data
    rw [assign_clauses_cons, hf, render_clauses_then_cons]
    simp only [parse_composite, ht, strchr_value_sep _ _ hv,
      clause_is_C_sep _ _ hv, resolve_clause, CP_ACP, hdrop, htake, hlen, if_true,
      render_clauses_then_starts_LC]
    by_cases hC : c.2 = ['C']
    · simp [hC, LCID_FAIL, hih]
    · simp only [hC, decide_False, Bool.false_eq_true, if_false]
      rcases MSVCRT_locale_to_LCID P data c.2 (some (cp c.1)) with _ | ⟨l, k, d1⟩
      · rfl
      · simp only [Option.some_bind, Option.map_some', Option.bind_some]
        by_cases hl : l = LCID_FAIL
        · rw [if_pos hl, if_pos hl]
          rfl
        · rw [if_neg hl, if_neg hl]
          exact hih _ _ _

theorem parse_composite_unknown (P : Provider) (f : Nat) (rest : CStr)
    (htok : category_token (rest.drop 3) = none) (lcid cp : Nat → Nat) (data : thread_data_t) :
    parse_composite P (f + 1) rest lcid cp data = some (none, data) := by
  simp only [parse_composite, htok]

theorem create_locinfo_lcids_then (P : Provider) (cs : List (Nat × CStr)) (c : Nat × CStr)
    (rest : CStr) (hcs : ∀ x ∈ c :: cs, is_category x.1 ∧ ';' ∉ x.2 ∧ x.2.length < 256)
    (data : thread_data_t) :
    ∃ f, create_locinfo_lcids P (render_clauses_then (c :: cs) rest) data
      = (assign_clauses P (c :: cs) (fun _ => 0) (fun _ => 0) data).bind fun r =>
          match r.1 with
          | none => some (none, r.2)
          | some a =>
            if (cstr "LC_").isPrefixOf rest then parse_composite P (f + 1) rest a.1 a.2 r.2
            else some (some a, r.2) := by
  have hne : render_clauses_then (c :: cs) rest ≠ ['C'] ∧ render_clauses_then (c :: cs) rest ≠ [] := by
    simp [render_clauses_then, render_clause, cstr]
  have hlen := render_clauses_then_length (c :: cs) rest
  simp only [List.length_cons] at hlen
  refine ⟨(render_clauses_then (c :: cs) rest).length - (cs.length + 1), ?_⟩
  unfold create_locinfo_lcids
  rw [if_neg hne.1, if_neg hne.2, if_pos (render_clauses_then_starts_LC c cs rest)]
  rw [← parse_composite_then P rest _ cs c hcs]
  congr 1
  omega

theorem clauses_fit_of_all (c : Nat × CStr) (cs : List (Nat × CStr))
    (hcs : ∀ x ∈ c :: cs, is_category x.1 ∧ ';' ∉ x.2 ∧ x.2.length < 256) :
    clauses_fit (c :: cs) := by
  induction cs generalizing c with
  | nil => exact ⟨(hcs c (by simp)).1, (hcs c (by simp)).2.1⟩
  | cons d cs ih =>
    exact ⟨hcs c (by simp), ih d fun x hx => hcs x (List.mem_cons_of_mem _ hx)⟩

/-- C28 (amended): take a composite descriptor whose first clauses `cs` name
one of the five categories each, hold no ';' in their values, are shorter
than the 256-byte buffer and are followed by ';' each, and then the text
`rest`. If `rest` begins with "LC_" and what follows "LC_" is none of the
five tokens COLLATE=, CTYPE=, MONETARY=, NUMERIC=, TIME=, create_locinfo
returns no record, wherever `rest` stands (after the clauses have been
resolved, or at once when there is no clause before). If there is a clause
before and `rest` does not begin with "LC_", `rest` is ignored: create_locinfo
returns what it returns for the clauses alone. -/
theorem composite_offending_clause (P : Provider) (charmax : Nat) (category : Int)
    (cs : List (Nat × CStr)) (rest : CStr) (old : Option MSVCRT_threadlocinfo)
    (data : thread_data_t)
    (hcs : ∀ x ∈ cs, is_category x.1 ∧ ';' ∉ x.2 ∧ x.2.length < 256) :
    ((cstr "LC_").isPrefixOf rest = true → category_token (rest.drop 3) = none →
      create_locinfo P charmax category (some (render_clauses_then cs rest)) old data
        = if category < (MSVCRT_LC_MIN : Int) ∨ category > (MSVCRT_LC_MAX : Int) then
            some (none, data)
          else (assign_clauses P cs (fun _ => 0) (fun _ => 0) data).map fun r => (none, r.2)) ∧
    (cs ≠ [] → (cstr "LC_").isPrefixOf rest = false →
      create_locinfo P charmax category (some (render_clauses_then cs rest)) old data
        = create_locinfo P charmax category (some (render_clauses cs)) old data) := by
  constructor
  · intro hLC htok
    have key : create_locinfo_lcids P (render_clauses_then cs rest) data
        = (assign_clauses P cs (fun _ => 0) (fun _ => 0) data).map fun r => (none, r.2) := by
      cases cs with
      | nil =>
        have h1 : rest ≠ ['C'] ∧ rest ≠ [] := by
          constructor <;> rintro rfl <;> simp [cstr] at hLC
        simp only [render_clauses_then, assign_clauses_nil, Option.map_some']
        unfold create_locinfo_lcids
        rw [if_neg h1.1, if_neg h1.2, if_pos hLC]
        exact parse_composite_unknown P _ rest htok _ _ _
      | cons c cs =>
        obtain ⟨f, hf⟩ := create_locinfo_lcids_then P cs c rest hcs data
        rw [hf]
        rcases assign_clauses P (c :: cs) (fun _ => 0) (fun _ => 0) data with _ | ⟨r, d1⟩
        · rfl
        · rcases r with _ | a
          · rfl
          · simp only [Option.some_bind, Option.map_some', hLC, if_true]
            exact parse_composite_unknown P _ rest htok _ _ _
    unfold create_locinfo
    simp only [key]
    split_ifs
    · rfl
    · rcases assign_clauses P cs (fun _ => 0) (fun _ => 0) data with _ | ⟨r, d1⟩ <;> rfl
  · intro hne hLC
    have key : create_locinfo_lcids P (render_clauses_then cs rest) data
        = create_locinfo_lcids P (render_clauses cs) data := by
      cases cs with
      | nil => exact absurd rfl hne
      | cons c cs =>
        obtain ⟨f, hf⟩ := create_locinfo_lcids_then P cs c rest hcs data
        rw [hf, create_locinfo_lcids_render P _ (clauses_fit_of_all c cs hcs)]
        rcases assign_clauses P (c :: cs) (fun _ => 0) (fun _ => 0) data with _ | ⟨r, d1⟩
        · rfl
        · rcases r with _ | a
          · rfl
          · simp [hLC]
    unfold create_locinfo
    simp only [key]

/-- C28 (amended) at the demo provider: "LC_COLLATE=French;LC_FOO=x" gives
no record, and "LC_COLLATE=French;garbage" gives what "LC_COLLATE=French"
gives. -/
theorem composite_offending_clause_witness :
    (create_locinfo demoProvider 127 0
        (some (render_clauses_then [(MSVCRT_LC_COLLATE, cstr "French")] (cstr "LC_FOO=x"))) none
        thread_data_initial
      = if (0 : Int) < (MSVCRT_LC_MIN : Int) ∨ (0 : Int) > (MSVCRT_LC_MAX : Int) then
          some (none, thread_data_initial)
        else (assign_clauses demoProvider [(MSVCRT_LC_COLLATE, cstr "French")] (fun _ => 0)
          (fun _ => 0) thread_data_initial).map fun r => (none, r.2)) ∧
    create_locinfo demoProvider 127 0
        (some (render_clauses_then [(MSVCRT_LC_COLLATE, cstr "French")] (cstr "garbage"))) none
        thread_data_initial
      = create_locinfo demoProvider 127 0
        (some (render_clauses [(MSVCRT_LC_COLLATE, cstr "French")])) none thread_data_initial :=
  have hcs : ∀ x ∈ [(MSVCRT_LC_COLLATE, cstr "French")],
      is_category x.1 ∧ ';' ∉ x.2 ∧ x.2.length < 256 := by
    intro x hx
    rw [List.mem_singleton] at hx
    subst hx
    exact ⟨⟨by decide, by decide⟩, by decide, by decide⟩
  ⟨(composite_offending_clause demoProvider 127 0 _ (cstr "LC_FOO=x") none thread_data_initial
      hcs).1 (by decide) (by decide),
    (composite_offending_clause demoProvider 127 0 _ (cstr "garbage") none thread_data_initial
      hcs).2 (by simp) (by decide)⟩

/-! ### C29: components longer than the element limit -/

set_option maxRecDepth 100000 in
/-- C29 (counterexample): the codepage component of "French.0…01252999"
(59 zeros, 66 characters in all) exceeds the element limit; the component is
cut to its first 63 characters, which read 1252, and the descriptor resolves
to French with codepage 1252, in the matching algorithm and in a call of
MSVCRT_locale_to_LCID. -/
theorem long_codepage_component_resolves :
    (List.replicate 59 '0' ++ cstr "1252999").length = 66 ∧
    resolve_nocache demoProvider (cstr "French." ++ (List.replicate 59 '0' ++ cstr "1252999"))
      = some (some (1036, 1252)) ∧
    (MSVCRT_locale_to_LCID demoProvider thread_data_initial
        (cstr "French." ++ (List.replicate 59 '0' ++ cstr "1252999")) (some 0)).map
      (fun r => (r.1, r.2.1)) = some (1036, some 1252) := by
  decide

theorem strchr_not_mem (v : CStr) (c : Char) (hv : c ∉ v) : strchr v c = none := by
  induction v with
  | nil => rfl
  | cons a as ih =>
    simp only [List.mem_cons, not_or] at hv
    simp [strchr, Ne.symm hv.1, ih hv.2]

theorem strchr_append_sep (v r : CStr) (c : Char) (hv : c ∉ v) :
    strchr (v ++ c :: r) c = some v.length := by
  induction v with
  | nil => simp [strchr]
  | cons a as ih =>
    simp only [List.mem_cons, not_or] at hv
    simp [strchr, Ne.symm hv.1, ih hv.2]

theorem strchr_append_not_mem (v w : CStr) (c : Char) (hv : c ∉ v) :
    strchr (v ++ w) c = (strchr w c).map (· + v.length) := by
  induction v with
  | nil => simp
  | cons a as ih =>
    simp only [List.mem_cons, not_or] at hv
    simp only [List.cons_append, strchr, Ne.symm hv.1, if_false, List.length_cons]
    show Option.map (fun x => x + 1) (strchr (as ++ w) c) = _
    rw [ih hv.2]
    cases strchr w c with
    | none => rfl
    | some k => rfl

/-- The terminator stored at the end of a component that is followed by `w`:
the buffer holds the first 63 characters of the component. -/
theorem trunc_component (v w : CStr) :
    (if v.length < MAX_ELEM_LEN then
        store_nul (lstrcpynA (v ++ w) MAX_ELEM_LEN) (v.length : Int)
      else some (lstrcpynA (v ++ w) MAX_ELEM_LEN)) = some (v.take 63) := by
  simp only [MAX_ELEM_LEN, lstrcpynA, store_nul]
  by_cases h : v.length < 64
  · have h2 : (0 : Int) ≤ (v.length : Int) ∧ (v.length : Int) < ((64 : Nat) : Int) := by
      constructor <;> omega
    rw [if_pos h, if_pos h2]
    simp only [Int.toNat_ofNat, List.take_take]
    rw [Nat.min_eq_left (by omega), List.take_left, List.take_of_length_le (by omega)]
  · rw [if_neg h, List.take_append_of_le_length (by omega)]

/-- A terminator stored at or behind the end of the string in the buffer
leaves the string as it is. -/
theorem store_behind (v : CStr) (c : Nat) (h : v.length ≤ c) :
    (if c < MAX_ELEM_LEN then store_nul (v.take 63) (c : Int) else some (v.take 63))
      = some (v.take 63) := by
  simp only [MAX_ELEM_LEN, store_nul]
  by_cases hc : c < 64
  · have h2 : (0 : Int) ≤ (c : Int) ∧ (c : Int) < ((64 : Nat) : Int) := by
      constructor <;> omega
    rw [if_pos hc, if_pos h2]
    simp only [Int.toNat_ofNat]
    rw [List.take_of_length_le]
    rw [List.length_take]
    omega
  · rw [if_neg hc]

theorem split_locale_render (language : CStr) (country codepage : Option CStr)
    (h1 : '_' ∉ language) (h2 : '.' ∉ language)
    (h3 : ∀ c, country = some c → '.' ∉ c)
    (h4 : country = none → ∀ p, codepage = some p → '_' ∉ p) :
    split_locale (render_descriptor language country codepage)
      = some { search_language := language.take 63,
               search_country := (country.getD []).take 63,
               search_codepage := (codepage.getD []).take 63,
               found_codepage := [], match_flags := 0, found_lang_id := 0 } := by
  rcases country with _ | c <;> rcases codepage with _ | p
  · have e1 : strchr language '.' = none := strchr_not_mem _ _ h2
    have e2 : strchr language '_' = none := strchr_not_mem _ _ h1
    simp [render_descriptor, split_locale, e1, e2, lstrcpynA, MAX_ELEM_LEN]
  · have hp := h4 rfl p rfl
    have e1 : strchr (language ++ '.' :: p) '.' = some language.length :=
      strchr_append_sep _ _ _ h2
    have e2 : strchr (language ++ '.' :: p) '_' = none := by
      apply strchr_not_mem
      simp only [List.mem_append, List.mem_cons, not_or]
      exact ⟨h1, by decide, hp⟩
    have hdrop : (language ++ '.' :: p).drop (language.length + 1) = p := by
      rw [List.drop_append_eq_append_drop]
      simp
    have ht := trunc_component language ('.' :: p)
    simp only [render_descriptor, List.append_nil, split_locale, e1, e2, Option.some_bind,
      Option.bind_some, ht, Option.map_some', hdrop, Option.getD_none, Option.getD_some,
      List.take_nil]
    simp [lstrcpynA, MAX_ELEM_LEN]
  · have hc := h3 c rfl
    have e1 : strchr (language ++ '_' :: c) '.' = none := by
      apply strchr_not_mem
      simp only [List.mem_append, List.mem_cons, not_or]
      exact ⟨h2, by decide, hc⟩
    have e2 : strchr (language ++ '_' :: c) '_' = some language.length :=
      strchr_append_sep _ _ _ h1
    have hdrop : (language ++ '_' :: c).drop (language.length + 1) = c := by
      rw [List.drop_append_eq_append_drop]
      simp
    have ht := trunc_component language ('_' :: c)
    simp only [render_descriptor, List.append_nil, split_locale, e1, e2, Option.some_bind,
      Option.bind_some, ht, Option.map_some', hdrop, Option.getD_none, Option.getD_some,
      List.take_nil]
    simp [lstrcpynA, MAX_ELEM_LEN]
  · have hc := h3 c rfl
    have e1 : strchr (language ++ '_' :: (c ++ '.' :: p)) '.'
        = some (c.length + 1 + language.length) := by
      rw [strchr_append_not_mem _ _ _ h2]
      simp [strchr, strchr_append_sep _ _ _ hc]
    have e2 : strchr (language ++ '_' :: (c ++ '.' :: p)) '_' = some language.length :=
      strchr_append_sep _ _ _ h1
    have hdrop : (language ++ '_' :: (c ++ '.' :: p)).drop (language.length + 1)
        = c ++ '.' :: p := by
      rw [List.drop_append_eq_append_drop]
      simp
    have hdrop2 : (language ++ '_' :: (c ++ '.' :: p)).drop (c.length + 1 + language.length + 1)
        = p := by
      rw [List.drop_append_eq_append_drop]
      have : c.length + 1 + language.length + 1 - language.length = c.length + 1 + 1 := by
        omega
      rw [List.drop_of_length_le (by omega), this]
      simp
    have ht := trunc_component language ('_' :: (c ++ '.' :: p))
    have hc2 := trunc_component c ('.' :: p)
    have hi : ((c.length + 1 + language.length : Nat) : Int) - (language.length : Int) - 1
        = (c.length : Int) := by
      push_cast
      ring
    have hcond : ((c.length : Int) < ((MAX_ELEM_LEN : Nat) : Int)) ↔ c.length < MAX_ELEM_LEN := by
      omega
    have hb := store_behind language (c.length + 1 + language.length) (by omega)
    simp only [render_descriptor, List.append_assoc, List.cons_append, split_locale, e1, e2,
      Option.some_bind, Option.bind_some, ht, Option.map_some', hdrop, hdrop2, hi, hcond, hc2,
      hb, Option.getD_some]
    simp [lstrcpynA, MAX_ELEM_LEN]

/-- C29 (amended): for a descriptor Language[_Country][.Codepage] (the language
holds no '_' and no '.', the country no '.', and the codepage no '_' when
there is no country), each component is cut to its first 63 characters,
whatever its length, and the matching algorithm gives for the descriptor what
it gives for the descriptor made of the cut components: a component longer
than the element limit does not make the resolution fail. -/
theorem long_component_is_truncated (P : Provider) (language : CStr)
    (country codepage : Option CStr)
    (h1 : '_' ∉ language) (h2 : '.' ∉ language)
    (h3 : ∀ c, country = some c → '.' ∉ c)
    (h4 : country = none → ∀ p, codepage = some p → '_' ∉ p) :
    split_locale (render_descriptor language country codepage)
      = some { search_language := language.take 63,
               search_country := (country.getD []).take 63,
               search_codepage := (codepage.getD []).take 63,
               found_codepage := [], match_flags := 0, found_lang_id := 0 } ∧
    resolve_nocache P (render_descriptor language country codepage)
      = resolve_nocache P (render_descriptor (language.take 63) (country.map (List.take 63))
          (codepage.map (List.take 63))) := by
  have hs := split_locale_render language country codepage h1 h2 h3 h4
  have hs2 := split_locale_render (language.take 63) (country.map (List.take 63))
    (codepage.map (List.take 63))
    (fun h => h1 (List.mem_of_mem_take h)) (fun h => h2 (List.mem_of_mem_take h))
    (by
      intro c hc
      rcases country with _ | c0
      · cases hc
      · simp only [Option.map_some', Option.some.injEq] at hc
        subst hc
        exact fun h => h3 c0 rfl (List.mem_of_mem_take h))
    (by
      intro hn p hp
      rcases country with _ | c0
      · rcases codepage with _ | p0
        · cases hp
        · simp only [Option.map_some', Option.some.injEq] at hp
          subst hp
          exact fun h => h4 rfl p0 rfl (List.mem_of_mem_take h)
      · cases hn)
  have e : ∀ o : Option CStr, ((o.map (List.take 63)).getD []).take 63 = (o.getD []).take 63 := by
    intro o
    cases o <;> simp [List.take_take]
  rw [List.take_take, e, e, Nat.min_self] at hs2
  refine ⟨hs, ?_⟩
  simp only [resolve_nocache, locale_to_LCID_search, hs, hs2]

/-- C29 (amended) at the demo provider: "French." followed by a codepage
component of 66 characters resolves as "French." followed by the first 63 of
them does. -/
theorem long_component_is_truncated_witness :
    split_locale (render_descriptor (cstr "French") none
        (some (List.replicate 59 '0' ++ cstr "1252999")))
      = some { search_language := (cstr "French").take 63,
               search_country := ((none : Option CStr).getD []).take 63,
               search_codepage :=
                 ((some (List.replicate 59 '0' ++ cstr "1252999")).getD []).take 63,
               found_codepage := [], match_flags := 0, found_lang_id := 0 } ∧
    resolve_nocache demoProvider (render_descriptor (cstr "French") none
        (some (List.replicate 59 '0' ++ cstr "1252999")))
      = resolve_nocache demoProvider (render_descriptor ((cstr "French").take 63)
          ((none : Option CStr).map (List.take 63))
          ((some (List.replicate 59 '0' ++ cstr "1252999")).map (List.take 63))) :=
  long_component_is_truncated demoProvider (cstr "French") none
    (some (List.replicate 59 '0' ++ cstr "1252999")) (by decide) (by decide)
    (fun c hc => by cases hc) (fun _ p hp => by
      simp only [Option.some.injEq] at hp
      subst hp
      decide)

/-! ### C21: the private record made by `_configthreadlocale` -/

/-- C21 (evaluation): with the Spanish provider, after start-up and
`setlocale (LC_ALL, "spanish-modern")` the process-wide record holds the
locale id 3082 and the descriptor "Spanish_Spain.1252" in its five
categories; a second thread that enables its private scope gets a private
record whose five categories hold the locale id 1034, because the record is
built from the descriptor string and 1034 is the first candidate that bears
these names. -/
theorem configthreadlocale_private_record_differs :
    (spanish_modern.1.MSVCRT_locale.map fun l =>
        ([1, 2, 3, 4, 5].map l.lc_handle, [1, 2, 3, 4, 5].map fun i => (l.lc_category i).locale))
      = some ([3082, 3082, 3082, 3082, 3082],
          List.replicate 5 (some (cstr "Spanish_Spain.1252"))) ∧
    (MSVCRT_setlocale spanishProvider spanish_modern.1 thread_data_initial 0 none).map
        (fun r => r.1) = some (some (cstr "Spanish_Spain.1252")) ∧
    (_configthreadlocale spanishProvider spanish_modern.1 thread_data_initial
        MSVCRT__ENABLE_PER_THREAD_LOCALE).map (fun r => (r.1, r.2.2.have_locale))
      = some (2, true) ∧
    (_configthreadlocale spanishProvider spanish_modern.1 thread_data_initial
        MSVCRT__ENABLE_PER_THREAD_LOCALE).bind
      (fun r => r.2.2.locinfo.map fun l =>
        ([1, 2, 3, 4, 5].map l.lc_handle,
          [1, 2, 3, 4, 5].map fun i => (l.lc_category i).locale))
      = some ([1034, 1034, 1034, 1034, 1034],
          List.replicate 5 (some (cstr "Spanish_Spain.1252"))) := by
  refine ⟨by decide, by decide, by decide, by decide⟩

/-! ### C31: the shortcuts of the matcher are optimisations -/

theorem plain_scan_full (P : Provider) (res : locale_search_t) (langs : List Nat)
    (best : Nat × Nat) (h7 : 7 ≤ best.1) : plain_scan P res langs best = best := by
  induction langs with
  | nil => rfl
  | cons l ls ih =>
    have := score_le_seven P res l
    unfold plain_scan
    split_ifs
    · exact ih
    · omega
    · exact ih

theorem plain_scan_congr (P : Provider) (r1 r2 : locale_search_t) (langs : List Nat)
    (best : Nat × Nat) (h1 : r1.search_language = r2.search_language)
    (h2 : r1.search_country = r2.search_country)
    (h3 : r1.search_codepage = r2.search_codepage) :
    plain_scan P r1 langs best = plain_scan P r2 langs best := by
  induction langs generalizing best with
  | nil => rfl
  | cons l ls ih =>
    unfold plain_scan
    rw [score_congr P r1 r2 l h1 h2 h3, ih, ih]

/-- C31: from any search record whose best score is at most 7 (the scan starts
at 0), and for every finite enumeration of candidates, the enumeration with
the callback find_best_locale_proc, with its three shortcuts, ends with the
same best score and the same selected candidate as the plain scan that scores
every candidate that is not language-neutral on all three fields and replaces
the best only on a strictly greater score. -/
theorem matcher_shortcuts_are_optimisations (P : Provider) (langs : List Nat)
    (res : locale_search_t) (hm : res.match_flags ≤ 7) :
    ((EnumResourceLanguagesA (find_best_locale_proc P) langs res).match_flags,
      (EnumResourceLanguagesA (find_best_locale_proc P) langs res).found_lang_id)
      = plain_scan P res langs (res.match_flags, res.found_lang_id) := by
  induction langs generalizing res with
  | nil => rfl
  | cons l ls ih =>
    by_cases hn : PRIMARYLANGID l = LANG_NEUTRAL
    · simp only [EnumResourceLanguagesA, find_best_locale_proc_neutral P l res hn, plain_scan,
        hn, if_true]
      exact ih res hm
    · obtain ⟨h1, h2, h3, h4, h5, h6⟩ := find_best_locale_proc_step P l res hn hm
      have hs7 := score_le_seven P res l
      unfold EnumResourceLanguagesA
      rcases hstep : find_best_locale_proc P l res with ⟨c, r1⟩
      rw [hstep] at h1 h2 h3 h4 h5 h6
      simp only at h1 h2 h3 h4 h5 h6
      have hplain : plain_scan P res (l :: ls) (res.match_flags, res.found_lang_id)
          = plain_scan P res ls (r1.match_flags, r1.found_lang_id) := by
        rw [plain_scan, if_neg hn, h4, h5]
        by_cases hlt : res.match_flags < score P res l
        · simp only [hlt, if_true]
          rw [Nat.max_eq_right (by omega)]
        · simp only [hlt, if_false]
          rw [Nat.max_eq_left (by omega)]
      rw [hplain]
      cases c
      · simp only
        have hsc : score P res l = 7 := h6 rfl
        rw [plain_scan_full]
        simp only
        rw [h4, hsc]
        omega
      · simp only
        have h7 : r1.match_flags ≤ 7 := by rw [h4]; omega
        rw [ih r1 h7]
        exact plain_scan_congr P r1 res ls _ h1 h2 h3

/-- C31 at the demo provider: the search for "French" from the empty match
state ends as the plain scan does, on the candidate 1036 with score 4. -/
theorem matcher_shortcuts_are_optimisations_witness :
    ((EnumResourceLanguagesA (find_best_locale_proc demoProvider) demoProvider.languages
        ⟨cstr "French", [], [], [], 0, 0⟩).match_flags,
      (EnumResourceLanguagesA (find_best_locale_proc demoProvider) demoProvider.languages
        ⟨cstr "French", [], [], [], 0, 0⟩).found_lang_id)
      = plain_scan demoProvider ⟨cstr "French", [], [], [], 0, 0⟩ demoProvider.languages (0, 0) ∧
    plain_scan demoProvider ⟨cstr "French", [], [], [], 0, 0⟩ demoProvider.languages (0, 0)
      = (4, 1036) :=
  ⟨matcher_shortcuts_are_optimisations demoProvider demoProvider.languages
    ⟨cstr "French", [], [], [], 0, 0⟩ (by decide), by decide⟩

/-! ### C32: the locale returned satisfies the country test -/

theorem normalize_search_country_ne_nil (search : locale_search_t)
    (hc : search.search_country ≠ []) : (normalize_search search).search_country ≠ [] := by
  simp only [normalize_search]
  split_ifs <;> simp_all [cstr]

/-- What the enumeration of the provider's candidates leaves for a split
descriptor: the best score is 0, or it is the score of the selected candidate,
which is a candidate of the provider, not language-neutral, the first to
reach that score, and no candidate scores higher. -/
theorem final_search_best (P : Provider) (d : CStr) (search : locale_search_t)
    (hs : split_locale d = some search) :
    (∀ l ∈ P.languages, PRIMARYLANGID l ≠ LANG_NEUTRAL →
      score P (normalize_search search) l ≤ (final_search P search).match_flags) ∧
    ((final_search P search).match_flags = 0 ∨
      (PRIMARYLANGID (final_search P search).found_lang_id ≠ LANG_NEUTRAL ∧
        score P (normalize_search search) (final_search P search).found_lang_id
          = (final_search P search).match_flags ∧
        ∃ pre post, P.languages = pre ++ (final_search P search).found_lang_id :: post ∧
          ∀ l ∈ pre, PRIMARYLANGID l ≠ LANG_NEUTRAL →
            score P (normalize_search search) l < (final_search P search).match_flags)) := by
  have hm0 : (normalize_search search).match_flags = 0 := by
    rw [normalize_search_match_flags, split_locale_match_flags d search hs]
  obtain ⟨sA, _, sC⟩ := scan_spec P P.languages (normalize_search search) (by omega)
  refine ⟨sA, ?_⟩
  rcases sC with ⟨e1, _⟩ | ⟨_, pre, post, e1, e2, e3, e4⟩
  · exact Or.inl (e1.trans hm0)
  · exact Or.inr ⟨e2, e3, pre, post, e1, e4⟩

/-- C32: for a descriptor whose country token is not empty, whenever the
matching algorithm succeeds, the locale id returned is that of the selected
candidate and this candidate passes the country test for the (normalised)
country token; and when the best score among the candidates is 4 (some
candidate matches the language only and none scores higher), the matching
algorithm fails, whatever lower scoring candidate matches the country. -/
theorem returned_locale_satisfies_country (P : Provider) (d : CStr) (search : locale_search_t)
    (hs : split_locale d = some search) (hc : search.search_country ≠ []) :
    (∀ L fc, locale_to_LCID_search P d = some (some (L, fc)) →
      L = MAKELCID (final_search P search).found_lang_id SORT_DEFAULT ∧
      check_country P L (normalize_search search) = true) ∧
    ((∀ l ∈ P.languages, PRIMARYLANGID l ≠ LANG_NEUTRAL →
        score P (normalize_search search) l ≤ 4) →
      (∃ l ∈ P.languages, PRIMARYLANGID l ≠ LANG_NEUTRAL ∧
        score P (normalize_search search) l = 4) →
      locale_to_LCID_search P d = some none) := by
  have hsearch := locale_to_LCID_search_eq P d search hs
  have hcn := normalize_search_country_ne_nil search hc
  obtain ⟨f1, f2, _, _, _⟩ := final_search_facts P d search hs
  obtain ⟨bA, bB⟩ := final_search_best P d search hs
  constructor
  · intro L fc h
    rw [hsearch] at h
    simp only [Option.some.injEq] at h
    obtain ⟨hm, hL⟩ := finish_some P _ L fc h
    refine ⟨hL, ?_⟩
    rcases bB with h0 | ⟨_, hsc, _⟩
    · exact absurd h0 hm
    · by_contra hcc
      have hbit := score_country_bit P (normalize_search search)
        (final_search P search).found_lang_id
      rw [← hL] at hbit
      simp only [hcc, Bool.false_eq_true, if_false] at hbit
      rw [hsc] at hbit
      have hrej := finish_rejects P (final_search P search)
        (Or.inr ⟨by rw [f2]; exact hcn, hbit⟩)
      rw [hrej] at h
      cases h
  · intro hall hex
    obtain ⟨x, hx, hxn, hx4⟩ := hex
    have hge := bA x hx hxn
    rw [hx4] at hge
    rw [hsearch]
    congr 1
    apply finish_rejects
    rcases bB with h0 | ⟨hn, hsc, pre, post, hl, _⟩
    · exact Or.inl h0
    · right
      refine ⟨by rw [f2]; exact hcn, ?_⟩
      have hmem : (final_search P search).found_lang_id ∈ P.languages := by
        rw [hl]; simp
      have hle := hall _ hmem hn
      rw [hsc] at hle
      have hm4 : (final_search P search).match_flags = 4 := by omega
      rw [hm4]
      rfl

/-- C32 at the demo provider: "French_France" resolves to 1036, which passes
the country test for "France", and "English_France" does not resolve: the
English candidates score 4 and the French one, which matches the country,
scores 2. -/
theorem returned_locale_satisfies_country_witness :
    locale_to_LCID_search demoProvider (cstr "French_France")
      = some (some (1036, cstr "1252")) ∧
    (1036 = MAKELCID (final_search demoProvider
        ⟨cstr "French", cstr "France", [], [], 0, 0⟩).found_lang_id SORT_DEFAULT ∧
      check_country demoProvider 1036
        (normalize_search ⟨cstr "French", cstr "France", [], [], 0, 0⟩) = true) ∧
    score demoProvider (normalize_search ⟨cstr "English", cstr "France", [], [], 0, 0⟩) 1036
      = 2 ∧
    locale_to_LCID_search demoProvider (cstr "English_France") = some none :=
  ⟨by decide,
    (returned_locale_satisfies_country demoProvider (cstr "French_France")
      ⟨cstr "French", cstr "France", [], [], 0, 0⟩ (by decide) (by decide)).1 1036
      (cstr "1252") (by decide),
    by decide,
    (returned_locale_satisfies_country demoProvider (cstr "English_France")
      ⟨cstr "English", cstr "France", [], [], 0, 0⟩ (by decide) (by decide)).2 (by decide)
      ⟨1033, by decide, by decide, by decide⟩⟩

/-! ### C39: a requested language need not match -/

theorem score_language_bit (P : Provider) (res : locale_search_t) (l : Nat) :
    score P res l &&& FOUND_LANGUAGE
      = if check_language P (MAKELCID l SORT_DEFAULT) res then 4 else 0 := by
  unfold score
  simp only [FOUND_LANGUAGE]
  split_ifs <;> rfl

/-- C39: take a descriptor whose (normalised) language token no candidate of
the provider matches, while some candidate that is not language-neutral
matches the country token. Then the validation after the enumeration does not
reject: the best score is 2 or 3, and the selected candidate is a candidate of
the provider that matches the country and not the language, is the first to
reach the best score, and no candidate scores higher. Every success of the
matching algorithm returns this candidate, and the algorithm does succeed
when the codepage token is empty, or the selected candidate matches it, or
the provider confirms it as a valid codepage. -/
theorem language_need_not_match (P : Provider) (d : CStr) (search : locale_search_t)
    (hs : split_locale d = some search)
    (hlang : ∀ l ∈ P.languages, PRIMARYLANGID l ≠ LANG_NEUTRAL →
      check_language P (MAKELCID l SORT_DEFAULT) (normalize_search search) = false)
    (hctry : ∃ l ∈ P.languages, PRIMARYLANGID l ≠ LANG_NEUTRAL ∧
      check_country P (MAKELCID l SORT_DEFAULT) (normalize_search search) = true) :
    ((final_search P search).match_flags = 2 ∨ (final_search P search).match_flags = 3) ∧
    (∃ pre post, P.languages = pre ++ (final_search P search).found_lang_id :: post ∧
      ∀ l ∈ pre, PRIMARYLANGID l ≠ LANG_NEUTRAL → score P (normalize_search search) l <
        score P (normalize_search search) (final_search P search).found_lang_id) ∧
    (∀ l ∈ P.languages, PRIMARYLANGID l ≠ LANG_NEUTRAL → score P (normalize_search search) l ≤
      score P (normalize_search search) (final_search P search).found_lang_id) ∧
    check_country P (MAKELCID (final_search P search).found_lang_id SORT_DEFAULT)
      (normalize_search search) = true ∧
    check_language P (MAKELCID (final_search P search).found_lang_id SORT_DEFAULT)
      (normalize_search search) = false ∧
    (∀ L fc, locale_to_LCID_search P d = some (some (L, fc)) →
      L = MAKELCID (final_search P search).found_lang_id SORT_DEFAULT) ∧
    ((search.search_codepage = [] ∨
        check_codepage P (MAKELCID (final_search P search).found_lang_id SORT_DEFAULT)
          (normalize_search search) = true ∨
        P.IsValidCodePage ((atoi search.search_codepage) % 4294967296).toNat = true) →
      ∃ fc, locale_to_LCID_search P d
        = some (some (MAKELCID (final_search P search).found_lang_id SORT_DEFAULT, fc))) := by
  have hsearch := locale_to_LCID_search_eq P d search hs
  obtain ⟨_, f2, f3, _, _⟩ := final_search_facts P d search hs
  obtain ⟨bA, bB⟩ := final_search_best P d search hs
  obtain ⟨x, hx, hxn, hxc⟩ := hctry
  have hxs : 2 ≤ score P (normalize_search search) x := by
    unfold score
    rw [hxc]
    simp only [if_true]
    omega
  have hge := bA x hx hxn
  rcases bB with h0 | ⟨hn, hsc, pre, post, hl, hpre⟩
  · omega
  · have hmem : (final_search P search).found_lang_id ∈ P.languages := by
      rw [hl]; simp
    have hfl := hlang _ hmem hn
    have hle3 : score P (normalize_search search) (final_search P search).found_lang_id ≤ 3 := by
      unfold score
      rw [hfl]
      simp only [Bool.false_eq_true, if_false]
      split_ifs <;> omega
    have hm : (final_search P search).match_flags = 2 ∨
        (final_search P search).match_flags = 3 := by omega
    have hcbit := score_country_bit P (normalize_search search)
      (final_search P search).found_lang_id
    have hpbit := score_codepage_bit P (normalize_search search)
      (final_search P search).found_lang_id
    rw [hsc] at hcbit hpbit
    have hfc : check_country P (MAKELCID (final_search P search).found_lang_id SORT_DEFAULT)
        (normalize_search search) = true := by
      by_contra hcc
      rw [if_neg hcc] at hcbit
      rcases hm with e | e <;> rw [e] at hcbit <;> simp [FOUND_COUNTRY] at hcbit
    have hcb2 : (final_search P search).match_flags &&& FOUND_COUNTRY ≠ 0 := by
      rw [hcbit, if_pos hfc]
      decide
    have hm0 : (final_search P search).match_flags ≠ 0 := by omega
    refine ⟨hm, ⟨pre, post, hl, ?_⟩, ?_, hfc, hfl, ?_, ?_⟩
    · intro l hlm hln
      rw [hsc]
      exact hpre l hlm hln
    · intro l hlm hln
      rw [hsc]
      exact bA l hlm hln
    · intro L fc h
      rw [hsearch] at h
      simp only [Option.some.injEq] at h
      exact (finish_some P _ L fc h).2
    · intro hcp
      rw [hsearch]
      unfold locale_to_LCID_finish
      rw [if_neg hm0, if_neg (fun h => hcb2 h.2)]
      simp only [f3]
      by_cases hbit : (final_search P search).match_flags &&& FOUND_CODEPAGE = 0
      · rw [if_pos hbit]
        by_cases htok : search.search_codepage = []
        · rw [if_neg (not_not.mpr htok)]
          split_ifs <;> exact ⟨_, rfl⟩
        · rw [if_pos htok]
          rcases hcp with h1 | h1 | h1
          · exact absurd h1 htok
          · rw [hpbit, if_pos h1] at hbit
            cases hbit
          · rw [if_pos h1]
            exact ⟨_, rfl⟩
      · rw [if_neg hbit]
        exact ⟨_, rfl⟩

/-- C39 at the demo providers: no candidate bears the language "Klingon", the
candidate 1036 bears the country "France", and "Klingon_France" resolves to
1036. With the codepage token "18446744073709552868", which the C `atoi`
reads as -1, the demo provider is asked about the number 4294967295, does
not confirm it, and the resolution fails; the provider that confirms
4294967295 resolves the same descriptor to 1036. -/
theorem language_need_not_match_witness :
    (split_locale (cstr "Klingon_France")
        = some ⟨cstr "Klingon", cstr "France", [], [], 0, 0⟩ ∧
      (final_search demoProvider ⟨cstr "Klingon", cstr "France", [], [], 0, 0⟩).found_lang_id
        = 1036 ∧
      ∃ fc, locale_to_LCID_search demoProvider (cstr "Klingon_France")
        = some (some (MAKELCID (final_search demoProvider
            ⟨cstr "Klingon", cstr "France", [], [], 0, 0⟩).found_lang_id SORT_DEFAULT, fc))) ∧
    (((atoi (cstr "18446744073709552868")) % 4294967296).toNat = 4294967295 ∧
      locale_to_LCID_search demoProvider (cstr "Klingon_France.18446744073709552868")
        = some none ∧
      (final_search saturatingProvider
        ⟨cstr "Klingon", cstr "France", cstr "18446744073709552868", [], 0, 0⟩).found_lang_id
        = 1036 ∧
      ∃ fc, locale_to_LCID_search saturatingProvider
          (cstr "Klingon_France.18446744073709552868")
        = some (some (MAKELCID (final_search saturatingProvider
            ⟨cstr "Klingon", cstr "France", cstr "18446744073709552868", [], 0, 0⟩).found_lang_id
              SORT_DEFAULT, fc))) :=
  ⟨⟨by decide, by decide,
    (language_need_not_match demoProvider (cstr "Klingon_France")
      ⟨cstr "Klingon", cstr "France", [], [], 0, 0⟩ (by decide) (by decide)
      ⟨1036, by decide, by decide, by decide⟩).2.2.2.2.2.2 (Or.inl rfl)⟩,
   ⟨by decide, by decide, by decide,
    (language_need_not_match saturatingProvider (cstr "Klingon_France.18446744073709552868")
      ⟨cstr "Klingon", cstr "France", cstr "18446744073709552868", [], 0, 0⟩ (by decide)
      (by decide) ⟨1036, by decide, by decide, by decide⟩).2.2.2.2.2.2
      (Or.inr (Or.inr (by decide)))⟩⟩

/-! ### C33: the terminator stores of the splitter -/

/-- C33 (evaluation): in "a.b_c" the first '.' (index 1) precedes the first
'_' (index 3): the guard `cp-region-1 < MAX_ELEM_LEN` holds for the index
1 - 3 - 1 = -3, so the terminator of the country token is stored at
`search_country[-3]`, outside the buffer; the split is undefined. -/
theorem country_terminator_out_of_bounds :
    strchr (cstr "a.b_c") '.' = some 1 ∧ strchr (cstr "a.b_c") '_' = some 3 ∧
    ((1 : Int) - (3 : Int) - 1 < (MAX_ELEM_LEN : Int)) ∧
    store_nul (lstrcpynA ((cstr "a.b_c").drop (3 + 1)) MAX_ELEM_LEN) ((1 : Int) - (3 : Int) - 1)
      = none ∧
    split_locale (cstr "a.b_c") = none := by
  decide

theorem guarded_store_some (buf : CStr) (k : Nat) :
    ∃ l, (if k < MAX_ELEM_LEN then store_nul buf (k : Int) else some buf) = some l := by
  by_cases h : k < MAX_ELEM_LEN
  · rw [if_pos h]
    have hi : (0 : Int) ≤ (k : Int) ∧ (k : Int) < (MAX_ELEM_LEN : Int) := by
      constructor <;> omega
    exact ⟨_, by rw [store_nul, if_pos hi]⟩
  · rw [if_neg h]
    exact ⟨_, rfl⟩

theorem country_store_some (buf : CStr) (c r : Nat) :
    (if (c : Int) - (r : Int) - 1 < (MAX_ELEM_LEN : Int) then
        store_nul buf ((c : Int) - (r : Int) - 1)
      else some buf).isSome = true ↔ r < c := by
  by_cases h : (c : Int) - (r : Int) - 1 < (MAX_ELEM_LEN : Int)
  · rw [if_pos h]
    unfold store_nul
    by_cases hrc : r < c
    · rw [if_pos ⟨by omega, h⟩]
      simp [hrc]
    · rw [if_neg (fun hh => hrc (by omega))]
      simp [hrc]
  · rw [if_neg h]
    simp only [MAX_ELEM_LEN] at h
    simp only [Option.isSome_some, true_iff]
    omega

/-- The stores of the splitter stay inside their buffers exactly when the
descriptor has no '.' before its first '_'. -/
theorem split_locale_defined_iff (d : CStr) :
    (split_locale d).isSome = true ↔
      ∀ c r, strchr d '.' = some c → strchr d '_' = some r → r < c := by
  unfold split_locale
  rcases hr : strchr d '_' with _ | r <;> rcases hc : strchr d '.' with _ | c
  · simp
  · obtain ⟨l, hl⟩ := guarded_store_some (lstrcpynA d MAX_ELEM_LEN) c
    simp [hl]
  · obtain ⟨l, hl⟩ := guarded_store_some (lstrcpynA d MAX_ELEM_LEN) r
    simp [hl]
  · obtain ⟨l, hl⟩ := guarded_store_some (lstrcpynA d MAX_ELEM_LEN) r
    simp only [hl, Option.map_some', Option.some_bind, Option.bind_some, Option.some.injEq,
      forall_eq']
    obtain ⟨l2, hl2⟩ := guarded_store_some l c
    have hcs := country_store_some (lstrcpynA (d.drop (r + 1)) MAX_ELEM_LEN) c r
    rcases hA : (if (c : Int) - (r : Int) - 1 < (MAX_ELEM_LEN : Int) then
        store_nul (lstrcpynA (d.drop (r + 1)) MAX_ELEM_LEN) ((c : Int) - (r : Int) - 1)
      else some (lstrcpynA (d.drop (r + 1)) MAX_ELEM_LEN)) with _ | sc
    · rw [hA] at hcs
      simp only [Option.isSome_none, Bool.false_eq_true, false_iff] at hcs
      simp [hcs]
    · rw [hA] at hcs
      simp only [Option.isSome_some, true_iff] at hcs
      simp [hl2, hcs]

/-! ### C34: the search record derived from a descriptor -/

/-- C34 (evaluation): "a.b_c" is of the form L.P with L = "a" and
P = "b_c", each shorter than 64 characters, L without '_' and '.'. The
splitter copies the country token from behind the first '_' of the whole
descriptor (index 3), so the country buffer holds "c" and not the empty
string; the first '.' (index 1) precedes that '_', so the terminator of the
country token is then stored at index 1 - 3 - 1 = -3, outside the buffer.
The split has no defined value there: it is not the record with language
"a", an empty country and codepage "b_c". -/
theorem codepage_with_underscore_gives_country :
    render_descriptor (cstr "a") none (some (cstr "b_c")) = cstr "a.b_c" ∧
    (cstr "a").length < 64 ∧ (cstr "b_c").length < 64 ∧
    '_' ∉ cstr "a" ∧ '.' ∉ cstr "a" ∧
    strchr (cstr "a.b_c") '.' = some 1 ∧
    strchr (cstr "a.b_c") '_' = some 3 ∧
    lstrcpynA ((cstr "a.b_c").drop (3 + 1)) MAX_ELEM_LEN = cstr "c" ∧
    store_nul (cstr "c") ((1 : Int) - (3 : Int) - 1) = none ∧
    split_locale (cstr "a.b_c") = none := by
  decide

/-- The splitter where every store stays inside its buffer: for a descriptor
of the form L, L_C, L.P or L_C.P in which L holds neither '_' nor '.', C holds
no '.', P holds no '_' when there is no country, and L, C and P are each
shorter than 64 characters, the search record derived by the splitter (before
the synonym and "China" normalisation) has language L, country C (empty when
absent), codepage P (empty when absent), an empty found codepage and no
match. -/
theorem split_locale_components (language : CStr) (country codepage : Option CStr)
    (h1 : '_' ∉ language) (h2 : '.' ∉ language)
    (h3 : ∀ c, country = some c → '.' ∉ c)
    (h4 : country = none → ∀ p, codepage = some p → '_' ∉ p)
    (hl : language.length < 64) (hc : ∀ c, country = some c → c.length < 64)
    (hp : ∀ p, codepage = some p → p.length < 64) :
    split_locale (render_descriptor language country codepage)
      = some { search_language := language, search_country := country.getD [],
               search_codepage := codepage.getD [], found_codepage := [], match_flags := 0,
               found_lang_id := 0 } := by
  rw [split_locale_render language country codepage h1 h2 h3 h4]
  have e1 : language.take 63 = language := List.take_of_length_le (by omega)
  have e2 : (country.getD []).take 63 = country.getD [] := by
    cases country with
    | none => rfl
    | some c =>
      have := hc c rfl
      exact List.take_of_length_le (by simp only [Option.getD_some]; omega)
  have e3 : (codepage.getD []).take 63 = codepage.getD [] := by
    cases codepage with
    | none => rfl
    | some p =>
      have := hp p rfl
      exact List.take_of_length_le (by simp only [Option.getD_some]; omega)
  rw [e1, e2, e3]

/-- The splitter at "French_France.1252". -/
theorem split_locale_components_witness :
    render_descriptor (cstr "French") (some (cstr "France")) (some (cstr "1252"))
      = cstr "French_France.1252" ∧
    split_locale (render_descriptor (cstr "French") (some (cstr "France")) (some (cstr "1252")))
      = some { search_language := cstr "French",
               search_country := (some (cstr "France")).getD [],
               search_codepage := (some (cstr "1252")).getD [], found_codepage := [],
               match_flags := 0, found_lang_id := 0 } :=
  ⟨by decide,
    split_locale_components (cstr "French") (some (cstr "France")) (some (cstr "1252"))
      (by decide) (by decide)
      (fun c hc => by
        simp only [Option.some.injEq] at hc
        subst hc
        decide)
      (fun h => by cases h) (by decide)
      (fun c hc => by
        simp only [Option.some.injEq] at hc
        subst hc
        decide)
      (fun p hp => by
        simp only [Option.some.injEq] at hp
        subst hp
        decide)⟩

/-! ### C35: a repeated call of MSVCRT_setlocale -/

/-- C35 (evaluation): after start-up with the demo provider the cache slot of
the thread is empty. The call
`setlocale (LC_ALL, "LC_COLLATE=;LC_CTYPE=French")` succeeds: the empty value
of the first clause is taken from the empty cache slot as locale id 0, and the
second clause leaves "French" in the slot. The same call made again right
after returns NULL: the empty value is now resolved by the matching
algorithm, which rejects it. -/
theorem setlocale_repeated_call_fails :
    demo_started.2.cached_locale = [] ∧
    (MSVCRT_setlocale demoProvider demo_started.1 demo_started.2 0
        (some (cstr "LC_COLLATE=;LC_CTYPE=French"))).map (fun r => r.1)
      = some (some (cstr
          "LC_COLLATE=C;LC_CTYPE=French_France.1252;LC_MONETARY=C;LC_NUMERIC=C;LC_TIME=C")) ∧
    demo_empty_clause.2.cached_locale = cstr "French" ∧
    (MSVCRT_setlocale demoProvider demo_empty_clause.1 demo_empty_clause.2 0
        (some (cstr "LC_COLLATE=;LC_CTYPE=French"))).map (fun r => r.1) = some none := by
  refine ⟨by decide, by decide, by decide, by decide⟩

/-! ### C36: construct_lc_all and the composite parser -/

/-- C36: for a record whose five descriptor strings a, b, c, d, e are not all
identical, hold no ';' and give a composite string that fits the static
buffer of 256 bytes, construct_lc_all returns the five clauses
LC_COLLATE=a;LC_CTYPE=b;LC_MONETARY=c;LC_NUMERIC=d;LC_TIME=e, and the
composite branch of create_locinfo on this string assigns exactly these five
clauses, in this order, each to its own category with its own descriptor
string (`assign_clauses`): a descriptor equal to "C" gives locale id 0 and
codepage 0 without the matcher, any other descriptor is handed unchanged to
MSVCRT_locale_to_LCID. -/
theorem construct_lc_all_round_trip (P : Provider) (R : MSVCRT_threadlocinfo)
    (a b c d e : CStr) (data : thread_data_t)
    (ha : (R.lc_category MSVCRT_LC_COLLATE).locale = some a)
    (hb : (R.lc_category MSVCRT_LC_CTYPE).locale = some b)
    (hc : (R.lc_category MSVCRT_LC_MONETARY).locale = some c)
    (hd : (R.lc_category MSVCRT_LC_NUMERIC).locale = some d)
    (he : (R.lc_category MSVCRT_LC_TIME).locale = some e)
    (hne : ¬ (a = b ∧ b = c ∧ c = d ∧ d = e))
    (hsemi : ∀ x ∈ [a, b, c, d, e], ';' ∉ x)
    (hfit : (cstr "LC_COLLATE=" ++ a ++ cstr ";LC_CTYPE=" ++ b ++ cstr ";LC_MONETARY=" ++ c ++
        cstr ";LC_NUMERIC=" ++ d ++ cstr ";LC_TIME=" ++ e).length < MAX_LOCALE_LENGTH) :
    construct_lc_all R = some (render_clauses [(MSVCRT_LC_COLLATE, a), (MSVCRT_LC_CTYPE, b),
      (MSVCRT_LC_MONETARY, c), (MSVCRT_LC_NUMERIC, d), (MSVCRT_LC_TIME, e)]) ∧
    create_locinfo_lcids P (render_clauses [(MSVCRT_LC_COLLATE, a), (MSVCRT_LC_CTYPE, b),
        (MSVCRT_LC_MONETARY, c), (MSVCRT_LC_NUMERIC, d), (MSVCRT_LC_TIME, e)]) data
      = assign_clauses P [(MSVCRT_LC_COLLATE, a), (MSVCRT_LC_CTYPE, b),
          (MSVCRT_LC_MONETARY, c), (MSVCRT_LC_NUMERIC, d), (MSVCRT_LC_TIME, e)]
          (fun _ => 0) (fun _ => 0) data := by
  have hrender : render_clauses [(MSVCRT_LC_COLLATE, a), (MSVCRT_LC_CTYPE, b),
      (MSVCRT_LC_MONETARY, c), (MSVCRT_LC_NUMERIC, d), (MSVCRT_LC_TIME, e)]
      = cstr "LC_COLLATE=" ++ a ++ cstr ";LC_CTYPE=" ++ b ++ cstr ";LC_MONETARY=" ++ c ++
        cstr ";LC_NUMERIC=" ++ d ++ cstr ";LC_TIME=" ++ e := by
    simp [render_clauses, render_clause, category_name, cstr, MSVCRT_LC_COLLATE, MSVCRT_LC_CTYPE,
      MSVCRT_LC_MONETARY, MSVCRT_LC_NUMERIC, MSVCRT_LC_TIME]
  have hlen : a.length < 256 ∧ b.length < 256 ∧ c.length < 256 ∧ d.length < 256 := by
    simp only [List.length_append, MAX_LOCALE_LENGTH] at hfit
    refine ⟨?_, ?_, ?_, ?_⟩ <;> omega
  have hfitc : clauses_fit [(MSVCRT_LC_COLLATE, a), (MSVCRT_LC_CTYPE, b),
      (MSVCRT_LC_MONETARY, c), (MSVCRT_LC_NUMERIC, d), (MSVCRT_LC_TIME, e)] := by
    have k1 : is_category MSVCRT_LC_COLLATE := ⟨by decide, by decide⟩
    have k2 : is_category MSVCRT_LC_CTYPE := ⟨by decide, by decide⟩
    have k3 : is_category MSVCRT_LC_MONETARY := ⟨by decide, by decide⟩
    have k4 : is_category MSVCRT_LC_NUMERIC := ⟨by decide, by decide⟩
    have k5 : is_category MSVCRT_LC_TIME := ⟨by decide, by decide⟩
    exact ⟨⟨k1, hsemi a (by simp), hlen.1⟩, ⟨k2, hsemi b (by simp), hlen.2.1⟩,
      ⟨k3, hsemi c (by simp), hlen.2.2.1⟩, ⟨k4, hsemi d (by simp), hlen.2.2.2⟩,
      k5, hsemi e (by simp)⟩
  refine ⟨?_, create_locinfo_lcids_render P _ hfitc data⟩
  rw [hrender]
  simp only [construct_lc_all, ha, hb, hc, hd, he, if_neg hne, if_pos hfit]

/-- C36 at the demo provider: the record left by
"LC_COLLATE=French;LC_CTYPE=C" on the French record has the descriptors
"French_France.1252", "C", "C", "C", "C"; its composite string is parsed back
into these five clauses. -/
theorem construct_lc_all_round_trip_witness :
    construct_lc_all ((get_locinfo demo_composite.1 demo_composite.2).getD locinfo_fresh)
      = some (render_clauses [(MSVCRT_LC_COLLATE, cstr "French_France.1252"),
          (MSVCRT_LC_CTYPE, cstr "C"), (MSVCRT_LC_MONETARY, cstr "C"),
          (MSVCRT_LC_NUMERIC, cstr "C"), (MSVCRT_LC_TIME, cstr "C")]) ∧
    create_locinfo_lcids demoProvider
        (render_clauses [(MSVCRT_LC_COLLATE, cstr "French_France.1252"),
          (MSVCRT_LC_CTYPE, cstr "C"), (MSVCRT_LC_MONETARY, cstr "C"),
          (MSVCRT_LC_NUMERIC, cstr "C"), (MSVCRT_LC_TIME, cstr "C")]) thread_data_initial
      = assign_clauses demoProvider [(MSVCRT_LC_COLLATE, cstr "French_France.1252"),
          (MSVCRT_LC_CTYPE, cstr "C"), (MSVCRT_LC_MONETARY, cstr "C"),
          (MSVCRT_LC_NUMERIC, cstr "C"), (MSVCRT_LC_TIME, cstr "C")]
          (fun _ => 0) (fun _ => 0) thread_data_initial :=
  construct_lc_all_round_trip demoProvider
    ((get_locinfo demo_composite.1 demo_composite.2).getD locinfo_fresh)
    (cstr "French_France.1252") (cstr "C") (cstr "C") (cstr "C") (cstr "C") thread_data_initial
    (by decide) (by decide) (by decide) (by decide) (by decide) (by decide) (by decide)
    (by decide)

/-! ### C37: the conversion of a grouping string -/

theorem digit_char_facts (d : Nat) (hd : d ≤ 9) :
    ((digit_char d).toNat : Int) - 48 = (d : Int) ∧ digit_char d ≠ ';' ∧
    (digit_char d = '0' ↔ d = 0) := by
  interval_cases d <;> decide

theorem grouping_string_length (d : Nat) (ds : List Nat) :
    (grouping_string (d :: ds)).length + 1 = 2 * (d :: ds).length := by
  induction ds generalizing d with
  | nil => rfl
  | cons e es ih =>
    have := ih e
    simp only [grouping_string, List.length_cons] at this ⊢
    omega

theorem grouping_string_getLast (d : Nat) (ds : List Nat) :
    (grouping_string (d :: ds)).getLast? = ((d :: ds).getLast?).map digit_char := by
  induction ds generalizing d with
  | nil => rfl
  | cons e es ih =>
    have h := ih e
    cases es with
    | nil => rfl
    | cons f fs =>
      simp only [grouping_string, List.getLast?_cons_cons] at h ⊢
      exact h

theorem grouping_bytes_string (d : Nat) (ds : List Nat) (hd : ∀ x ∈ d :: ds, x ≤ 9) :
    grouping_bytes (grouping_string (d :: ds)) = some (grouping_array (d :: ds)) := by
  induction ds generalizing d with
  | nil =>
    obtain ⟨h1, _, h3⟩ := digit_char_facts d (hd d (by simp))
    simp only [grouping_string, grouping_bytes, h1, grouping_array, List.map_cons, List.map_nil,
      List.getLast?_singleton, Option.some.injEq, List.singleton_append, ne_eq, h3]
    by_cases h0 : d = 0 <;> simp [h0]
  | cons e es ih =>
    obtain ⟨h1, _, _⟩ := digit_char_facts d (hd d (by simp))
    have h := ih e (fun x hx => hd x (List.mem_cons_of_mem _ hx))
    simp only [grouping_string, grouping_bytes, if_true, h, Option.map_some', h1]
    simp [grouping_array, List.getLast?_cons_cons]

theorem query_monetary_grouping (P : Provider) (lcid : Nat) (m : monetary_fields)
    (h : query_monetary P lcid = some (some m)) :
    ∃ buf, P.GetLocaleInfoA lcid true .LOCALE_SMONGROUPING = some buf ∧
      convert_grouping buf = some m.mon_grouping := by
  unfold query_monetary at h
  obtain ⟨a1, e1, h⟩ := or_null_eq_some_some _ _ _ h
  obtain ⟨a2, e2, h⟩ := or_null_eq_some_some _ _ _ h
  obtain ⟨a3, e3, h⟩ := or_null_eq_some_some _ _ _ h
  obtain ⟨a4, e4, h⟩ := or_null_eq_some_some _ _ _ h
  obtain ⟨a5, e5, h⟩ := or_null_eq_some_some _ _ _ h
  simp only [Option.bind_eq_some] at h
  obtain ⟨gr, hgr, h⟩ := h
  obtain ⟨a6, e6, h⟩ := or_null_eq_some_some _ _ _ h
  obtain ⟨a7, e7, h⟩ := or_null_eq_some_some _ _ _ h
  obtain ⟨a8, e8, h⟩ := or_null_eq_some_some _ _ _ h
  obtain ⟨a9, e9, h⟩ := or_null_eq_some_some _ _ _ h
  obtain ⟨a10, e10, h⟩ := or_null_eq_some_some _ _ _ h
  obtain ⟨a11, e11, h⟩ := or_null_eq_some_some _ _ _ h
  obtain ⟨a12, e12, h⟩ := or_null_eq_some_some _ _ _ h
  obtain ⟨a13, e13, h⟩ := or_null_eq_some_some _ _ _ h
  obtain ⟨a14, e14, h⟩ := or_null_eq_some_some _ _ _ h
  obtain ⟨a15, e15, h⟩ := or_null_eq_some_some _ _ _ h
  simp only [Option.some.injEq] at h
  subst h
  exact ⟨a5, e5, hgr⟩

/-- The Monetary grouping array of a record built from a locale is the
conversion of the provider's LOCALE_SMONGROUPING string. -/
theorem build_monetary_grouping (P : Provider) (charmax : Nat) (category : Int)
    (old : Option MSVCRT_threadlocinfo) (lcid cp : Nat → Nat) (l l' : MSVCRT_threadlocinfo)
    (h : build_monetary P charmax category old lcid cp l = some (some l'))
    (hnu : category_needs_update MSVCRT_LC_MONETARY category old (lcid MSVCRT_LC_MONETARY)
      (cp MSVCRT_LC_MONETARY) = true)
    (hsel : lcid MSVCRT_LC_MONETARY ≠ 0 ∧ selects category MSVCRT_LC_MONETARY = true) :
    ∃ buf gr, P.GetLocaleInfoA (lcid MSVCRT_LC_MONETARY) true .LOCALE_SMONGROUPING = some buf ∧
      convert_grouping buf = some gr ∧ l'.lconv.mon_grouping = some gr := by
  unfold build_monetary at h
  split at h
  · rename_i o hb
    rw [hb] at hnu; cases hnu
  · rw [if_pos hsel] at h
    simp only [Option.bind_eq_some] at h
    obtain ⟨⟨failed, l1⟩, hu, h2⟩ := h
    obtain ⟨rfl, id, buf, hid, rfl⟩ := update_threadlocinfo_category_eq P _ _ _ _ _ _ hu
    simp only [Bool.false_eq_true, if_false, Option.map_eq_some', Option.bind_eq_some] at h2
    obtain ⟨q, hq, m, rfl, l3, h3, h4⟩ := h2
    obtain ⟨gb, hgb, hgr⟩ := query_monetary_grouping P _ m hq
    refine ⟨gb, m.mon_grouping, hgb, hgr, ?_⟩
    have hl3 : l3.lconv.mon_grouping = some m.mon_grouping := by
      by_cases hv : 100 ≤ P._MSVCR_VER
      · rw [if_pos hv] at h3
        simp only [Option.map_eq_some'] at h3
        obtain ⟨w, _, rfl⟩ := h3
        rfl
      · rw [if_neg hv] at h3
        simp only [Option.some.injEq] at h3
        subst h3
        rfl
    split at h4
    · cases h4
    · rename_i l2 hs
      simp only [Option.some.injEq] at h4
      subst h4
      obtain ⟨v, rfl⟩ := set_lc_locale_name_eq P _ _ _ hs
      exact hl3

/-- The Numeric grouping array of a record built from a locale is the
conversion of the provider's LOCALE_SGROUPING string. -/
theorem build_numeric_grouping (P : Provider) (category : Int)
    (old : Option MSVCRT_threadlocinfo) (lcid cp : Nat → Nat) (l l' : MSVCRT_threadlocinfo)
    (h : build_numeric P category old lcid cp l = some (some l'))
    (hnu : category_needs_update MSVCRT_LC_NUMERIC category old (lcid MSVCRT_LC_NUMERIC)
      (cp MSVCRT_LC_NUMERIC) = true)
    (hsel : lcid MSVCRT_LC_NUMERIC ≠ 0 ∧ selects category MSVCRT_LC_NUMERIC = true) :
    ∃ buf gr, P.GetLocaleInfoA (lcid MSVCRT_LC_NUMERIC) true .LOCALE_SGROUPING = some buf ∧
      convert_grouping buf = some gr ∧ l'.lconv.grouping = some gr := by
  unfold build_numeric at h
  split at h
  · rename_i o hb
    rw [hb] at hnu; cases hnu
  · rw [if_pos hsel] at h
    simp only [Option.bind_eq_some] at h
    obtain ⟨⟨failed, l1⟩, hu, h2⟩ := h
    obtain ⟨rfl, id, buf, hid, rfl⟩ := update_threadlocinfo_category_eq P _ _ _ _ _ _ hu
    simp only [Bool.false_eq_true, if_false] at h2
    obtain ⟨dp, _, h2⟩ := or_null_eq_some_some _ _ _ h2
    obtain ⟨ts, _, h2⟩ := or_null_eq_some_some _ _ _ h2
    obtain ⟨gb, hgb, h2⟩ := or_null_eq_some_some _ _ _ h2
    simp only [Option.map_eq_some', Option.bind_eq_some] at h2
    obtain ⟨gr, hgr, l3, h3, h4⟩ := h2
    refine ⟨gb, gr, hgb, hgr, ?_⟩
    have hl3 : l3.lconv.grouping = some gr := by
      by_cases hv : 100 ≤ P._MSVCR_VER
      · rw [if_pos hv] at h3
        simp only [Option.map_eq_some', Option.bind_eq_some] at h3
        obtain ⟨wd, _, wt, _, rfl⟩ := h3
        rfl
      · rw [if_neg hv] at h3
        simp only [Option.some.injEq] at h3
        subst h3
        rfl
    split at h4
    · cases h4
    · rename_i l2 hs
      simp only [Option.some.injEq] at h4
      subst h4
      obtain ⟨v, rfl⟩ := set_lc_locale_name_eq P _ _ _ hs
      exact hl3

/-- The grouping arrays of the record create_locinfo returns: for the
Monetary and for the Numeric category built from a locale, the conversion of
the grouping string the provider reports. -/
theorem create_locinfo_grouping (P : Provider) (charmax : Nat) (category : Int)
    (old : Option MSVCRT_threadlocinfo) (lcid cp : Nat → Nat) (new : MSVCRT_threadlocinfo)
    (h : build_categories P charmax category old lcid cp = some (some new)) :
    (category_needs_update MSVCRT_LC_MONETARY category old (lcid MSVCRT_LC_MONETARY)
        (cp MSVCRT_LC_MONETARY) = true →
      lcid MSVCRT_LC_MONETARY ≠ 0 ∧ selects category MSVCRT_LC_MONETARY = true →
      ∃ buf gr, P.GetLocaleInfoA (lcid MSVCRT_LC_MONETARY) true .LOCALE_SMONGROUPING = some buf ∧
        convert_grouping buf = some gr ∧ new.lconv.mon_grouping = some gr) ∧
    (category_needs_update MSVCRT_LC_NUMERIC category old (lcid MSVCRT_LC_NUMERIC)
        (cp MSVCRT_LC_NUMERIC) = true →
      lcid MSVCRT_LC_NUMERIC ≠ 0 ∧ selects category MSVCRT_LC_NUMERIC = true →
      ∃ buf gr, P.GetLocaleInfoA (lcid MSVCRT_LC_NUMERIC) true .LOCALE_SGROUPING = some buf ∧
        convert_grouping buf = some gr ∧ new.lconv.grouping = some gr) := by
  obtain ⟨l1, l2, l3, l4, _, _, h3, h4, h5⟩ := build_categories_chain P _ _ _ _ _ _ h
  have kM : is_category MSVCRT_LC_MONETARY := ⟨by decide, by decide⟩
  have kN : is_category MSVCRT_LC_NUMERIC := ⟨by decide, by decide⟩
  have f4 := (build_numeric_cases P _ _ _ _ _ _ h4).1 MSVCRT_LC_MONETARY kM (by decide)
  have f5 := (build_time_cases P _ _ _ _ _ _ h5).1 MSVCRT_LC_MONETARY kM (by decide)
  have g5 := (build_time_cases P _ _ _ _ _ _ h5).1 MSVCRT_LC_NUMERIC kN (by decide)
  have eM : new.lconv.mon_grouping = l3.lconv.mon_grouping := by
    have e := f5.trans f4
    simp only [category_block_of, category_block.mk.injEq] at e
    have e5 := e.2.2.2.2
    simp only [category_data_of, MSVCRT_LC_MONETARY, MSVCRT_LC_COLLATE, MSVCRT_LC_CTYPE,
      show (3 : Nat) ≠ 1 from by decide, show (3 : Nat) ≠ 2 from by decide, if_true, if_false,
      category_data.monetary.injEq] at e5
    exact e5.2.1
  have eN : new.lconv.grouping = l4.lconv.grouping := by
    have e := g5
    simp only [category_block_of, category_block.mk.injEq] at e
    have e5 := e.2.2.2.2
    simp only [category_data_of, MSVCRT_LC_MONETARY, MSVCRT_LC_COLLATE, MSVCRT_LC_CTYPE,
      MSVCRT_LC_NUMERIC, show (4 : Nat) ≠ 1 from by decide, show (4 : Nat) ≠ 2 from by decide,
      show (4 : Nat) ≠ 3 from by decide, if_true, if_false,
      category_data.numeric.injEq] at e5
    exact e5.2.2.1
  constructor
  · intro hnu hsel
    obtain ⟨buf, gr, e1, e2, e3⟩ := build_monetary_grouping P _ _ _ _ _ _ _ h3 hnu hsel
    exact ⟨buf, gr, e1, e2, eM.trans e3⟩
  · intro hnu hsel
    obtain ⟨buf, gr, e1, e2, e3⟩ := build_numeric_grouping P _ _ _ _ _ _ h4 hnu hsel
    exact ⟨buf, gr, e1, e2, eN.trans e3⟩

/-- C37: for every provider grouping string d1;d2;...;dn (n at least 1) made
of single decimal digits, the conversion loop of create_locinfo (used for the
Numeric and for the Monetary grouping) writes the bytes d1, ..., dn, followed
by 127 when dn is not 0; the number of bytes allocated,
`i/2 + (buf[i-2]=='0' ? 0 : 1)` with `i` the length of the string including
its terminator, is the number of bytes written, so the array built is exactly
this one; and in every record create_locinfo returns, the Monetary and the
Numeric category that were built from a locale whose grouping string is
d1;...;dn hold this array as `mon_grouping` and as `grouping`. -/
theorem grouping_conversion (d : Nat) (ds : List Nat) (hd : ∀ x ∈ d :: ds, x ≤ 9) :
    grouping_bytes (grouping_string (d :: ds)) = some (grouping_array (d :: ds)) ∧
    grouping_alloc (grouping_string (d :: ds)) = (grouping_array (d :: ds)).length ∧
    convert_grouping (grouping_string (d :: ds)) = some (grouping_array (d :: ds)) ∧
    grouping_array (d :: ds)
      = (d :: ds).map (fun (x : Nat) => (x : Int)) ++
          (if (d :: ds).getLast (List.cons_ne_nil d ds) = 0 then [] else [127]) ∧
    (∀ (P : Provider) (charmax : Nat) (category : Int) (locale : CStr)
      (old : Option MSVCRT_threadlocinfo) (data data1 : thread_data_t)
      (new : MSVCRT_threadlocinfo),
      create_locinfo P charmax category (some locale) old data = some (some new, data1) →
      ∃ lcid cp, create_locinfo_lcids P locale data = some (some (lcid, cp), data1) ∧
        (category_needs_update MSVCRT_LC_MONETARY category old (lcid MSVCRT_LC_MONETARY)
            (cp MSVCRT_LC_MONETARY) = true →
          lcid MSVCRT_LC_MONETARY ≠ 0 ∧ selects category MSVCRT_LC_MONETARY = true →
          P.GetLocaleInfoA (lcid MSVCRT_LC_MONETARY) true .LOCALE_SMONGROUPING
            = some (grouping_string (d :: ds)) →
          new.lconv.mon_grouping = some (grouping_array (d :: ds))) ∧
        (category_needs_update MSVCRT_LC_NUMERIC category old (lcid MSVCRT_LC_NUMERIC)
            (cp MSVCRT_LC_NUMERIC) = true →
          lcid MSVCRT_LC_NUMERIC ≠ 0 ∧ selects category MSVCRT_LC_NUMERIC = true →
          P.GetLocaleInfoA (lcid MSVCRT_LC_NUMERIC) true .LOCALE_SGROUPING
            = some (grouping_string (d :: ds)) →
          new.lconv.grouping = some (grouping_array (d :: ds)))) := by
  have hb := grouping_bytes_string d ds hd
  have hlen := grouping_string_length d ds
  have hlast := grouping_string_getLast d ds
  have hl : (d :: ds).getLast? = some ((d :: ds).getLast (List.cons_ne_nil d ds)) :=
    List.getLast?_eq_getLast _ _
  have hmem : (d :: ds).getLast (List.cons_ne_nil d ds) ∈ d :: ds := List.getLast_mem _
  obtain ⟨_, _, h3⟩ := digit_char_facts _ (hd _ hmem)
  have ha : grouping_alloc (grouping_string (d :: ds)) = (grouping_array (d :: ds)).length := by
    simp only [grouping_alloc, hlast, hl, Option.map_some', Option.some.injEq, h3,
      grouping_array, List.length_append, List.length_map]
    have h1 : 1 < (grouping_string (d :: ds)).length + 1 := by
      simp only [List.length_cons] at hlen
      omega
    rw [if_pos h1, hlen]
    by_cases h0 : (d :: ds).getLast (List.cons_ne_nil d ds) = 0
    · rw [if_pos h0, if_pos h0]
      simp only [List.length_nil, List.length_cons]
      omega
    · rw [if_neg h0, if_neg h0]
      simp only [List.length_cons, List.length_nil]
      omega
  have hcv : convert_grouping (grouping_string (d :: ds)) = some (grouping_array (d :: ds)) := by
    simp only [convert_grouping, hb, Option.some_bind, ha, le_refl, if_true]
  refine ⟨hb, ha, hcv, ?_, ?_⟩
  · simp only [grouping_array, hl, Option.some.injEq]
  · intro P charmax category locale old data data1 new hcr
    obtain ⟨_, lcid, cp, hlc, hbc⟩ := create_locinfo_success P _ _ _ _ _ _ _ hcr
    obtain ⟨gM, gN⟩ := create_locinfo_grouping P _ _ _ _ _ _ hbc
    refine ⟨lcid, cp, hlc, ?_, ?_⟩
    · intro hnu hsel hstr
      obtain ⟨buf, gr, e1, e2, e3⟩ := gM hnu hsel
      rw [hstr] at e1
      simp only [Option.some.injEq] at e1
      subst e1
      rw [hcv] at e2
      simp only [Option.some.injEq] at e2
      rw [e3, e2]
    · intro hnu hsel hstr
      obtain ⟨buf, gr, e1, e2, e3⟩ := gN hnu hsel
      rw [hstr] at e1
      simp only [Option.some.injEq] at e1
      subst e1
      rw [hcv] at e2
      simp only [Option.some.injEq] at e2
      rw [e3, e2]

/-- C37 at "3;0" and "3;2": the arrays are [3, 0] and [3, 2, 127]; the
demo provider reports "3;0" for 1036, and the French record holds [3, 0]. -/
theorem grouping_conversion_witness :
    grouping_string [3, 0] = cstr "3;0" ∧
    convert_grouping (grouping_string [3, 0]) = some (grouping_array [3, 0]) ∧
    grouping_array [3, 0] = [3, 0] ∧
    grouping_string [3, 2] = cstr "3;2" ∧
    convert_grouping (grouping_string [3, 2]) = some (grouping_array [3, 2]) ∧
    grouping_array [3, 2] = [3, 2, 127] ∧
    (create_locinfo demoProvider 127 0 (some (cstr "French")) none thread_data_initial).map
      (fun r => r.1.map fun l => l.lconv.grouping) = some (some (some [3, 0])) :=
  ⟨by decide, (grouping_conversion 3 [0] (by decide)).2.2.1, by decide, by decide,
    (grouping_conversion 3 [2] (by decide)).2.2.1, by decide, by decide⟩

/-! ### C38: the descriptor string of a category built from a locale -/

/-- What update_threadlocinfo_category stores when the provider reports both
English names: the locale id, the codepage, and the descriptor string
"Language_Country.codepage". -/
theorem update_threadlocinfo_category_descriptor (P : Provider) (lcid cp : Nat)
    (l l1 : MSVCRT_threadlocinfo) (cat : Nat) (b : Bool) (language country : CStr)
    (h : update_threadlocinfo_category P lcid cp l cat = some (b, l1))
    (hl : P.GetLocaleInfoA lcid true .LOCALE_SENGLANGUAGE = some language)
    (hc : P.GetLocaleInfoA lcid true .LOCALE_SENGCOUNTRY = some country) :
    (l1.lc_category cat).locale = some (language ++ '_' :: country ++ '.' :: decimal cp) ∧
    l1.lc_handle cat = lcid ∧ (l1.lc_id cat).wCodePage = cp := by
  unfold update_threadlocinfo_category at h
  rw [hl, hc] at h
  simp only at h
  split_ifs at h
  simp only [Option.some.injEq, Prod.mk.injEq] at h
  obtain ⟨_, rfl⟩ := h
  simp

theorem build_collate_update (P : Provider) (category : Int)
    (old : Option MSVCRT_threadlocinfo) (lcid cp : Nat → Nat) (l l' : MSVCRT_threadlocinfo)
    (h : build_collate P category old lcid cp l = some (some l'))
    (hnu : category_needs_update MSVCRT_LC_COLLATE category old (lcid MSVCRT_LC_COLLATE)
      (cp MSVCRT_LC_COLLATE) = true)
    (hsel : lcid MSVCRT_LC_COLLATE ≠ 0 ∧ selects category MSVCRT_LC_COLLATE = true) :
    ∃ b l1, update_threadlocinfo_category P (lcid MSVCRT_LC_COLLATE) (cp MSVCRT_LC_COLLATE) l
        MSVCRT_LC_COLLATE = some (b, l1) ∧
      l'.lc_category MSVCRT_LC_COLLATE = l1.lc_category MSVCRT_LC_COLLATE := by
  unfold build_collate at h
  split at h
  · rename_i o hb
    rw [hb] at hnu; cases hnu
  · rw [if_pos hsel] at h
    simp only [Option.map_eq_some'] at h
    obtain ⟨⟨failed, l1⟩, hu, h2⟩ := h
    refine ⟨failed, l1, hu, ?_⟩
    obtain ⟨rfl, id, buf, hid, rfl⟩ := update_threadlocinfo_category_eq P _ _ _ _ _ _ hu
    simp only [Bool.false_eq_true, if_false] at h2
    split at h2
    · cases h2
    · rename_i l2 hs
      simp only [Option.some.injEq] at h2
      subst h2
      obtain ⟨v, rfl⟩ := set_lc_locale_name_eq P _ _ _ hs
      rfl

theorem build_ctype_update (P : Provider) (category : Int)
    (old : Option MSVCRT_threadlocinfo) (lcid cp : Nat → Nat) (l l' : MSVCRT_threadlocinfo)
    (h : build_ctype P category old lcid cp l = some (some l'))
    (hnu : category_needs_update MSVCRT_LC_CTYPE category old (lcid MSVCRT_LC_CTYPE)
      (cp MSVCRT_LC_CTYPE) = true)
    (hsel : lcid MSVCRT_LC_CTYPE ≠ 0 ∧ selects category MSVCRT_LC_CTYPE = true) :
    ∃ b l1, update_threadlocinfo_category P (lcid MSVCRT_LC_CTYPE) (cp MSVCRT_LC_CTYPE) l
        MSVCRT_LC_CTYPE = some (b, l1) ∧
      l'.lc_category MSVCRT_LC_CTYPE = l1.lc_category MSVCRT_LC_CTYPE := by
  unfold build_ctype at h
  split at h
  · rename_i o hb
    rw [hb] at hnu; cases hnu
  · rw [if_pos hsel] at h
    simp only [Option.bind_eq_some] at h
    obtain ⟨⟨failed, l1⟩, hu, h2⟩ := h
    refine ⟨failed, l1, hu, ?_⟩
    obtain ⟨rfl, id, buf, hid, rfl⟩ := update_threadlocinfo_category_eq P _ _ _ _ _ _ hu
    simp only [Bool.false_eq_true, if_false] at h2
    split at h2
    · cases h2
    · rename_i cp_info hcp
      simp only [Option.map_eq_some'] at h2
      obtain ⟨ranges, _, h3⟩ := h2
      split at h3
      · cases h3
      · rename_i l2 hs
        simp only [Option.some.injEq] at h3
        subst h3
        obtain ⟨v, rfl⟩ := set_lc_locale_name_eq P _ _ _ hs
        rfl

theorem build_monetary_update (P : Provider) (charmax : Nat) (category : Int)
    (old : Option MSVCRT_threadlocinfo) (lcid cp : Nat → Nat) (l l' : MSVCRT_threadlocinfo)
    (h : build_monetary P charmax category old lcid cp l = some (some l'))
    (hnu : category_needs_update MSVCRT_LC_MONETARY category old (lcid MSVCRT_LC_MONETARY)
      (cp MSVCRT_LC_MONETARY) = true)
    (hsel : lcid MSVCRT_LC_MONETARY ≠ 0 ∧ selects category MSVCRT_LC_MONETARY = true) :
    ∃ b l1, update_threadlocinfo_category P (lcid MSVCRT_LC_MONETARY) (cp MSVCRT_LC_MONETARY) l
        MSVCRT_LC_MONETARY = some (b, l1) ∧
      l'.lc_category MSVCRT_LC_MONETARY = l1.lc_category MSVCRT_LC_MONETARY := by
  unfold build_monetary at h
  split at h
  · rename_i o hb
    rw [hb] at hnu; cases hnu
  · rw [if_pos hsel] at h
    simp only [Option.bind_eq_some] at h
    obtain ⟨⟨failed, l1⟩, hu, h2⟩ := h
    refine ⟨failed, l1, hu, ?_⟩
    obtain ⟨rfl, id, buf, hid, rfl⟩ := update_threadlocinfo_category_eq P _ _ _ _ _ _ hu
    simp only [Bool.false_eq_true, if_false, Option.map_eq_some', Option.bind_eq_some] at h2
    obtain ⟨q, hq, m, rfl, l3, h3, h4⟩ := h2
    have hl3 : l3.lc_category MSVCRT_LC_MONETARY
        = Function.update l.lc_category MSVCRT_LC_MONETARY ⟨some buf, some 1⟩
          MSVCRT_LC_MONETARY := by
      by_cases hv : 100 ≤ P._MSVCR_VER
      · rw [if_pos hv] at h3
        simp only [Option.map_eq_some'] at h3
        obtain ⟨w, _, rfl⟩ := h3
        rfl
      · rw [if_neg hv] at h3
        simp only [Option.some.injEq] at h3
        subst h3
        rfl
    split at h4
    · cases h4
    · rename_i l2 hs
      simp only [Option.some.injEq] at h4
      subst h4
      obtain ⟨v, rfl⟩ := set_lc_locale_name_eq P _ _ _ hs
      exact hl3

theorem build_numeric_update (P : Provider) (category : Int)
    (old : Option MSVCRT_threadlocinfo) (lcid cp : Nat → Nat) (l l' : MSVCRT_threadlocinfo)
    (h : build_numeric P category old lcid cp l = some (some l'))
    (hnu : category_needs_update MSVCRT_LC_NUMERIC category old (lcid MSVCRT_LC_NUMERIC)
      (cp MSVCRT_LC_NUMERIC) = true)
    (hsel : lcid MSVCRT_LC_NUMERIC ≠ 0 ∧ selects category MSVCRT_LC_NUMERIC = true) :
    ∃ b l1, update_threadlocinfo_category P (lcid MSVCRT_LC_NUMERIC) (cp MSVCRT_LC_NUMERIC) l
        MSVCRT_LC_NUMERIC = some (b, l1) ∧
      l'.lc_category MSVCRT_LC_NUMERIC = l1.lc_category MSVCRT_LC_NUMERIC := by
  unfold build_numeric at h
  split at h
  · rename_i o hb
    rw [hb] at hnu; cases hnu
  · rw [if_pos hsel] at h
    simp only [Option.bind_eq_some] at h
    obtain ⟨⟨failed, l1⟩, hu, h2⟩ := h
    refine ⟨failed, l1, hu, ?_⟩
    obtain ⟨rfl, id, buf, hid, rfl⟩ := update_threadlocinfo_category_eq P _ _ _ _ _ _ hu
    simp only [Bool.false_eq_true, if_false] at h2
    obtain ⟨dp, _, h2⟩ := or_null_eq_some_some _ _ _ h2
    obtain ⟨ts, _, h2⟩ := or_null_eq_some_some _ _ _ h2
    obtain ⟨gb, hgb, h2⟩ := or_null_eq_some_some _ _ _ h2
    simp only [Option.map_eq_some', Option.bind_eq_some] at h2
    obtain ⟨gr, hgr, l3, h3, h4⟩ := h2
    have hl3 : l3.lc_category MSVCRT_LC_NUMERIC
        = Function.update l.lc_category MSVCRT_LC_NUMERIC ⟨some buf, some 1⟩
          MSVCRT_LC_NUMERIC := by
      by_cases hv : 100 ≤ P._MSVCR_VER
      · rw [if_pos hv] at h3
        simp only [Option.map_eq_some', Option.bind_eq_some] at h3
        obtain ⟨wd, _, wt, _, rfl⟩ := h3
        rfl
      · rw [if_neg hv] at h3
        simp only [Option.some.injEq] at h3
        subst h3
        rfl
    split at h4
    · cases h4
    · rename_i l2 hs
      simp only [Option.some.injEq] at h4
      subst h4
      obtain ⟨v, rfl⟩ := set_lc_locale_name_eq P _ _ _ hs
      exact hl3

theorem build_time_update (P : Provider) (category : Int)
    (old : Option MSVCRT_threadlocinfo) (lcid cp : Nat → Nat) (l l' : MSVCRT_threadlocinfo)
    (h : build_time P category old lcid cp l = some (some l'))
    (hnu : category_needs_update MSVCRT_LC_TIME category old (lcid MSVCRT_LC_TIME)
      (cp MSVCRT_LC_TIME) = true)
    (hsel : lcid MSVCRT_LC_TIME ≠ 0 ∧ selects category MSVCRT_LC_TIME = true) :
    ∃ b l1, update_threadlocinfo_category P (lcid MSVCRT_LC_TIME) (cp MSVCRT_LC_TIME) l
        MSVCRT_LC_TIME = some (b, l1) ∧
      l'.lc_category MSVCRT_LC_TIME = l1.lc_category MSVCRT_LC_TIME := by
  unfold build_time at h
  split at h
  · rename_i o hb
    rw [hb] at hnu; cases hnu
  · rw [if_pos hsel] at h
    simp only [Option.map_eq_some', Option.bind_eq_some] at h
    obtain ⟨r, ⟨⟨failed, l1⟩, hu, h2⟩, l3, h3, t, ht, rfl⟩ := h
    refine ⟨failed, l1, hu, ?_⟩
    obtain ⟨rfl, id, buf, hid, rfl⟩ := update_threadlocinfo_category_eq P _ _ _ _ _ _ hu
    simp only [Bool.false_eq_true, if_false] at h2
    subst h2
    split at h3
    · cases h3
    · rename_i l2 hs
      simp only [Option.some.injEq] at h3
      subst h3
      obtain ⟨v, rfl⟩ := set_lc_locale_name_eq P _ _ _ hs
      rfl


/-- In the record assembled by create_locinfo, a category built from a locale
holds the descriptor string update_threadlocinfo_category stored for it. -/
theorem build_categories_update (P : Provider) (charmax : Nat) (category : Int)
    (old : Option MSVCRT_threadlocinfo) (lcid cp : Nat → Nat) (new : MSVCRT_threadlocinfo)
    (h : build_categories P charmax category old lcid cp = some (some new))
    (X : Nat) (hX : is_category X)
    (hnu : category_needs_update X category old (lcid X) (cp X) = true)
    (hsel : lcid X ≠ 0 ∧ selects category X = true) :
    ∃ b l0 l1, update_threadlocinfo_category P (lcid X) (cp X) l0 X = some (b, l1) ∧
      new.lc_category X = l1.lc_category X := by
  obtain ⟨l1, l2, l3, l4, h1, h2, h3, h4, h5⟩ := build_categories_chain P _ _ _ _ _ _ h
  have f2 := fun Y hY hne =>
    congrArg category_block.lc_category ((build_ctype_cases P _ _ _ _ _ _ h2).1 Y hY hne)
  have f3 := fun Y hY hne =>
    congrArg category_block.lc_category ((build_monetary_cases P _ _ _ _ _ _ _ h3).1 Y hY hne)
  have f4 := fun Y hY hne =>
    congrArg category_block.lc_category ((build_numeric_cases P _ _ _ _ _ _ h4).1 Y hY hne)
  have f5 := fun Y hY hne =>
    congrArg category_block.lc_category ((build_time_cases P _ _ _ _ _ _ h5).1 Y hY hne)
  simp only [category_block_of] at f2 f3 f4 f5
  obtain ⟨hX1, hX2⟩ := hX
  simp only [MSVCRT_LC_COLLATE, MSVCRT_LC_TIME] at hX1 hX2
  interval_cases X
  · obtain ⟨b, m, hu, e⟩ := build_collate_update P _ _ _ _ _ _ h1 hnu hsel
    refine ⟨b, _, m, hu, ?_⟩
    have k : is_category 1 := ⟨by decide, by decide⟩
    rw [f5 1 k (by decide), f4 1 k (by decide), f3 1 k (by decide), f2 1 k (by decide)]
    exact e
  · obtain ⟨b, m, hu, e⟩ := build_ctype_update P _ _ _ _ _ _ h2 hnu hsel
    refine ⟨b, _, m, hu, ?_⟩
    have k : is_category 2 := ⟨by decide, by decide⟩
    rw [f5 2 k (by decide), f4 2 k (by decide), f3 2 k (by decide)]
    exact e
  · obtain ⟨b, m, hu, e⟩ := build_monetary_update P _ _ _ _ _ _ _ h3 hnu hsel
    refine ⟨b, _, m, hu, ?_⟩
    have k : is_category 3 := ⟨by decide, by decide⟩
    rw [f5 3 k (by decide), f4 3 k (by decide)]
    exact e
  · obtain ⟨b, m, hu, e⟩ := build_numeric_update P _ _ _ _ _ _ h4 hnu hsel
    refine ⟨b, _, m, hu, ?_⟩
    have k : is_category 4 := ⟨by decide, by decide⟩
    rw [f5 4 k (by decide)]
    exact e
  · obtain ⟨b, m, hu, e⟩ := build_time_update P _ _ _ _ _ _ h5 hnu hsel
    exact ⟨b, _, m, hu, e⟩

/-- C38: let a call of MSVCRT_setlocale succeed, and let a category X be built
from a resolved locale: X is selected by the call, the locale id L resolved
for X is not 0, and L or the codepage cp resolved for X differs from what the
current record holds for X. When the provider reports the English language
name and the English country name of L, the record in force after the call
holds for X the locale id L, the codepage cp and the descriptor string
"<language>_<country>.<cp in decimal>", and a call for the single category X
returns this string. -/
theorem built_category_descriptor (P : Provider) (g g' : Globals) (data data' : thread_data_t)
    (category : Int) (X : Nat) (locale : CStr) (locinfo : MSVCRT_threadlocinfo) (r : CStr)
    (language country : CStr) (hX : is_category X)
    (hloc : get_locinfo g data = some locinfo)
    (h : MSVCRT_setlocale P g data category (some locale) = some (some r, g', data')) :
    ∃ lcid cp data1 cur,
      create_locinfo_lcids P locale data = some (some (lcid, cp), data1) ∧
      get_locinfo g' data' = some cur ∧
      (selects category X = true → lcid X ≠ 0 →
        category_needs_update X category (some locinfo) (lcid X) (cp X) = true →
        P.GetLocaleInfoA (lcid X) true .LOCALE_SENGLANGUAGE = some language →
        P.GetLocaleInfoA (lcid X) true .LOCALE_SENGCOUNTRY = some country →
        (cur.lc_category X).locale
            = some (language ++ '_' :: country ++ '.' :: decimal (cp X)) ∧
          cur.lc_handle X = lcid X ∧ (cur.lc_id X).wCodePage = cp X ∧
          (category = (X : Int) → r = language ++ '_' :: country ++ '.' :: decimal (cp X))) := by
  rcases setlocale_cases P g g' data data' category locale locinfo (some r) hloc h with
    ⟨hr, _⟩ | ⟨new, data1, hcr, hget, _, _, _, _, _, _, hret⟩
  · cases hr
  · obtain ⟨_, lcid, cp, hl, hb⟩ := create_locinfo_success P _ _ _ _ _ _ _ hcr
    refine ⟨lcid, cp, data1, _, hl, hget, ?_⟩
    intro hs h0 hnu hlang hctry
    obtain ⟨b, l0, l1, hu, e⟩ := build_categories_update P _ _ _ _ _ _ hb X hX hnu ⟨h0, hs⟩
    obtain ⟨d1, d2, d3⟩ := update_threadlocinfo_category_descriptor P _ _ _ _ _ _ _ _
      hu hlang hctry
    have hh : new.lc_handle X = lcid X ∧ (new.lc_id X).wCodePage = cp X := by
      rcases built_outcome_handle P _ _ _ _ _ X hX new
          (build_categories_outcome P _ _ _ _ _ new hb X hX) with
        ⟨o, _, hn, _⟩ | ⟨_, _, _, e1, e2, _⟩ | ⟨_, hn, _⟩
      · rw [hnu] at hn; cases hn
      · exact ⟨e1, e2⟩
      · exact absurd ⟨h0, hs⟩ hn
    have hd : category_differs locinfo new X = true := by
      simp only [category_needs_update] at hnu
      split_ifs at hnu
      simp only [category_differs, hh.1, hh.2]
      simp only [Bool.or_eq_true, decide_eq_true_eq] at hnu ⊢
      rcases hnu with hn | hn
      · exact Or.inl (Ne.symm hn)
      · exact Or.inr (Ne.symm hn)
    have hblock := install_categories_block P locinfo new X hX
    obtain ⟨i1, i2, i3, _⟩ := install_one_differs P X hX locinfo new hd
    have c1 : (install_categories P locinfo new).lc_category X = new.lc_category X := by
      have := congrArg category_block.lc_category hblock
      simp only [category_block_of] at this
      rw [this, i3]
    have c2 := install_categories_handle P locinfo new X hX
    have hdesc : ((install_categories P locinfo new).lc_category X).locale
        = some (language ++ '_' :: country ++ '.' :: decimal (cp X)) := by
      rw [c1, e, d1]
    refine ⟨hdesc, c2.1.trans hh.1, c2.2.trans hh.2, ?_⟩
    intro hcat
    rcases hret with ⟨hall, _⟩ | ⟨_, hr⟩
    · exfalso
      rw [hcat] at hall
      have : X = 0 := by
        simp only [MSVCRT_LC_ALL] at hall
        exact_mod_cast hall
      obtain ⟨hX1, _⟩ := hX
      simp only [MSVCRT_LC_COLLATE] at hX1
      omega
    · rw [hcat, Int.toNat_ofNat, hdesc] at hr
      exact Option.some.inj hr


/-- C38 at the demo provider: `setlocale (LC_NUMERIC, "French")` after
start-up builds the Numeric category from 1036 with codepage 1252; the
record then holds the descriptor "French_France.1252" for it, which is the
string returned. -/
theorem built_category_descriptor_witness :
    (MSVCRT_setlocale demoProvider demo_started.1 demo_started.2 (MSVCRT_LC_NUMERIC : Int)
        (some (cstr "French"))).map Prod.fst = some (some (cstr "French_France.1252")) ∧
    (get_locinfo demo_numeric.1 demo_numeric.2).map
        (fun l => ((l.lc_category MSVCRT_LC_NUMERIC).locale, l.lc_handle MSVCRT_LC_NUMERIC,
          (l.lc_id MSVCRT_LC_NUMERIC).wCodePage))
      = some (some (cstr "French" ++ '_' :: cstr "France" ++ '.' :: decimal 1252), 1036, 1252) ∧
    cstr "French" ++ '_' :: cstr "France" ++ '.' :: decimal 1252
      = cstr "French_France.1252" := by
  refine ⟨by decide, ?_, by decide⟩
  obtain ⟨lcid, cp, data1, cur, hl, hget, himp⟩ :=
    built_category_descriptor demoProvider demo_started.1 demo_numeric.1 demo_started.2
      demo_numeric.2 (MSVCRT_LC_NUMERIC : Int) MSVCRT_LC_NUMERIC (cstr "French")
      ((get_locinfo demo_started.1 demo_started.2).getD locinfo_fresh)
      (cstr "French_France.1252") (cstr "French") (cstr "France") ⟨by decide, by decide⟩
      demo_started_locinfo (eq_some_of_map_fst _ _ (none, demo_started) (by decide))
  have e : (create_locinfo_lcids demoProvider (cstr "French") demo_started.2).map
      (fun r => r.1.map fun p => (p.1 MSVCRT_LC_NUMERIC, p.2 MSVCRT_LC_NUMERIC))
        = some (some (1036, 1252)) := by decide
  rw [hl] at e
  simp only [Option.map_some', Option.some.injEq, Prod.mk.injEq] at e
  obtain ⟨e1, e2⟩ := e
  rw [e1, e2] at himp
  obtain ⟨c1, c2, c3, _⟩ := himp (by decide) (by decide) (by decide) (by decide) (by decide)
  rw [hget]
  simp only [Option.map_some', c1, c2, c3]

/-! ### C40: the classification table of a Ctype category built from a locale -/

theorem leadbyte_flag_set (w : Nat) : (w ||| MSVCRT__LEADBYTE) &&& MSVCRT__LEADBYTE ≠ 0 := by
  have h : (w ||| MSVCRT__LEADBYTE) &&& MSVCRT__LEADBYTE = MSVCRT__LEADBYTE := by
    apply Nat.eq_of_testBit_eq
    intro i
    simp only [Nat.testBit_land, Nat.testBit_lor]
    cases Nat.testBit MSVCRT__LEADBYTE i <;> simp
  rw [h]
  decide

theorem in_lead_ranges_iff (ranges : List (Nat × Nat)) (b : Nat) :
    in_lead_ranges ranges b = true ↔ ∃ r ∈ ranges, r.1 ≤ b ∧ b ≤ r.2 := by
  simp [in_lead_ranges, List.any_eq_true]

/-- The table `build_ctype1`: 257 entries, entry 0 is 0, and the entry of
byte b is the provider's word with the lead-byte flag set for a byte of the
ranges and the provider's word itself otherwise. -/
theorem build_ctype1_spec (P : Provider) (lcid : Nat) (ranges : List (Nat × Nat)) :
    (build_ctype1 P lcid ranges).length = 257 ∧
    (build_ctype1 P lcid ranges).getD 0 0 = 0 ∧
    ∀ b, b < 256 →
      ((∃ r ∈ ranges, r.1 ≤ b ∧ b ≤ r.2) →
        (build_ctype1 P lcid ranges).getD (b + 1) 0
          = (P.GetStringTypeA lcid b).getD 0 ||| MSVCRT__LEADBYTE) ∧
      (¬ (∃ r ∈ ranges, r.1 ≤ b ∧ b ≤ r.2) →
        (build_ctype1 P lcid ranges).getD (b + 1) 0 = (P.GetStringTypeA lcid b).getD 0) := by
  refine ⟨by simp [build_ctype1], rfl, ?_⟩
  intro b hb
  have hget : (build_ctype1 P lcid ranges).getD (b + 1) 0
      = if in_lead_ranges ranges b then (P.GetStringTypeA lcid b).getD 0 ||| MSVCRT__LEADBYTE
        else (P.GetStringTypeA lcid b).getD 0 := by
    simp only [build_ctype1, List.getD_eq_getElem?_getD, List.getElem?_cons_succ,
      List.getElem?_map, List.getElem?_range hb, Option.map_some', Option.getD_some]
  constructor
  · intro h
    rw [hget, if_pos ((in_lead_ranges_iff ranges b).mpr h)]
  · intro h
    rw [hget, if_neg (fun hh => h ((in_lead_ranges_iff ranges b).mp hh))]

theorem case_map_source_spec (pctype : List Nat) :
    (case_map_source pctype).length = 256 ∧
    ∀ b, b < 256 → (case_map_source pctype).getD b 0
      = if pctype.getD b 0 &&& MSVCRT__LEADBYTE ≠ 0 then 32 else b := by
  refine ⟨by simp [case_map_source], ?_⟩
  intro b hb
  simp only [case_map_source, List.getD_eq_getElem?_getD, List.getElem?_map,
    List.getElem?_range hb, Option.map_some', Option.getD_some]

/-- The Ctype data left by build_ctype when it builds the category from a
locale. -/
theorem build_ctype_tables (P : Provider) (category : Int)
    (old : Option MSVCRT_threadlocinfo) (lcid cp : Nat → Nat) (l l' : MSVCRT_threadlocinfo)
    (h : build_ctype P category old lcid cp l = some (some l'))
    (hnu : category_needs_update MSVCRT_LC_CTYPE category old (lcid MSVCRT_LC_CTYPE)
      (cp MSVCRT_LC_CTYPE) = true)
    (hsel : lcid MSVCRT_LC_CTYPE ≠ 0 ∧ selects category MSVCRT_LC_CTYPE = true) :
    ∃ cp_info ranges, P.GetCPInfo (cp MSVCRT_LC_CTYPE) = some cp_info ∧
      lead_byte_ranges cp_info.LeadByte = some ranges ∧
      l'.ctype1 = some (build_ctype1 P (lcid MSVCRT_LC_CTYPE) ranges) ∧
      l'.pctype = some ((build_ctype1 P (lcid MSVCRT_LC_CTYPE) ranges).drop 1) ∧
      l'.pclmap = P.LCMapStringA (lcid MSVCRT_LC_CTYPE) false
        (case_map_source ((build_ctype1 P (lcid MSVCRT_LC_CTYPE) ranges).drop 1)) ∧
      l'.pcumap = P.LCMapStringA (lcid MSVCRT_LC_CTYPE) true
        (case_map_source ((build_ctype1 P (lcid MSVCRT_LC_CTYPE) ranges).drop 1)) := by
  unfold build_ctype at h
  split at h
  · rename_i o hb
    rw [hb] at hnu; cases hnu
  · rw [if_pos hsel] at h
    simp only [Option.bind_eq_some] at h
    obtain ⟨⟨failed, l1⟩, hu, h2⟩ := h
    obtain ⟨rfl, id, buf, hid, rfl⟩ := update_threadlocinfo_category_eq P _ _ _ _ _ _ hu
    simp only [Bool.false_eq_true, if_false, Function.update_same, hid] at h2
    split at h2
    · cases h2
    · rename_i cp_info hcp
      simp only [Option.map_eq_some'] at h2
      obtain ⟨ranges, hr, h3⟩ := h2
      refine ⟨cp_info, ranges, hcp, hr, ?_⟩
      split at h3
      · cases h3
      · rename_i l2 hs
        simp only [Option.some.injEq] at h3
        subst h3
        obtain ⟨v, rfl⟩ := set_lc_locale_name_eq P _ _ _ hs
        exact ⟨rfl, rfl, rfl, rfl⟩


/-- C40: in every record create_locinfo returns whose Ctype category was built
from a locale (selected, locale id not 0, not reused), the classification
table has 257 entries and entry 0 is 0; for every byte b the entry b + 1 is
the provider's classification word with the lead-byte flag set when b lies in
one of the lead-byte ranges [lo, hi] of the codepage, and exactly the
provider's word when b lies in none; `pctype` is the table from entry 1 on;
and the two case maps are the provider's mappings of a 256-byte buffer that
holds a space for every byte whose entry has the lead-byte flag and the byte
itself for every other byte. -/
theorem ctype_table_of_locale (P : Provider) (charmax : Nat) (category : Int) (locale : CStr)
    (old : Option MSVCRT_threadlocinfo) (data data1 : thread_data_t)
    (new : MSVCRT_threadlocinfo)
    (h : create_locinfo P charmax category (some locale) old data = some (some new, data1)) :
    ∃ lcid cp, create_locinfo_lcids P locale data = some (some (lcid, cp), data1) ∧
      (category_needs_update MSVCRT_LC_CTYPE category old (lcid MSVCRT_LC_CTYPE)
          (cp MSVCRT_LC_CTYPE) = true →
        lcid MSVCRT_LC_CTYPE ≠ 0 ∧ selects category MSVCRT_LC_CTYPE = true →
        ∃ cp_info ranges table src,
          P.GetCPInfo (cp MSVCRT_LC_CTYPE) = some cp_info ∧
          lead_byte_ranges cp_info.LeadByte = some ranges ∧
          new.ctype1 = some table ∧ table.length = 257 ∧ table.getD 0 0 = 0 ∧
          new.pctype = some (table.drop 1) ∧
          (∀ b, b < 256 →
            ((∃ r ∈ ranges, r.1 ≤ b ∧ b ≤ r.2) →
              table.getD (b + 1) 0
                = (P.GetStringTypeA (lcid MSVCRT_LC_CTYPE) b).getD 0 ||| MSVCRT__LEADBYTE ∧
              table.getD (b + 1) 0 &&& MSVCRT__LEADBYTE ≠ 0) ∧
            (¬ (∃ r ∈ ranges, r.1 ≤ b ∧ b ≤ r.2) →
              table.getD (b + 1) 0 = (P.GetStringTypeA (lcid MSVCRT_LC_CTYPE) b).getD 0)) ∧
          src.length = 256 ∧
          (∀ b, b < 256 →
            src.getD b 0 = if table.getD (b + 1) 0 &&& MSVCRT__LEADBYTE ≠ 0 then 32 else b) ∧
          new.pclmap = P.LCMapStringA (lcid MSVCRT_LC_CTYPE) false src ∧
          new.pcumap = P.LCMapStringA (lcid MSVCRT_LC_CTYPE) true src) := by
  obtain ⟨_, lcid, cp, hlc, hbc⟩ := create_locinfo_success P _ _ _ _ _ _ _ h
  refine ⟨lcid, cp, hlc, ?_⟩
  intro hnu hsel
  obtain ⟨l1, l2, l3, l4, _, h2, h3, h4, h5⟩ := build_categories_chain P _ _ _ _ _ _ hbc
  obtain ⟨cp_info, ranges, e1, e2, e3, e4, e5, e6⟩ :=
    build_ctype_tables P _ _ _ _ _ _ h2 hnu hsel
  have k : is_category MSVCRT_LC_CTYPE := ⟨by decide, by decide⟩
  have f3 := (build_monetary_cases P _ _ _ _ _ _ _ h3).1 MSVCRT_LC_CTYPE k (by decide)
  have f4 := (build_numeric_cases P _ _ _ _ _ _ h4).1 MSVCRT_LC_CTYPE k (by decide)
  have f5 := (build_time_cases P _ _ _ _ _ _ h5).1 MSVCRT_LC_CTYPE k (by decide)
  have e := (f5.trans f4).trans f3
  simp only [category_block_of, category_block.mk.injEq] at e
  have ed := e.2.2.2.2
  simp only [category_data_of, MSVCRT_LC_CTYPE, MSVCRT_LC_COLLATE,
    show (2 : Nat) ≠ 1 from by decide, if_true, if_false, category_data.ctype.injEq] at ed
  obtain ⟨_, _, _, _, d5, d6, d7, d8⟩ := ed
  obtain ⟨t1, t2, t3⟩ := build_ctype1_spec P (lcid MSVCRT_LC_CTYPE) ranges
  obtain ⟨s1, s2⟩ := case_map_source_spec
    ((build_ctype1 P (lcid MSVCRT_LC_CTYPE) ranges).drop 1)
  refine ⟨cp_info, ranges, build_ctype1 P (lcid MSVCRT_LC_CTYPE) ranges,
    case_map_source ((build_ctype1 P (lcid MSVCRT_LC_CTYPE) ranges).drop 1),
    e1, e2, d5.trans e3, t1, t2, d6.trans e4, ?_, s1, ?_, d7.trans e5, d8.trans e6⟩
  · intro b hb
    obtain ⟨a1, a2⟩ := t3 b hb
    refine ⟨fun hr => ⟨a1 hr, ?_⟩, a2⟩
    rw [a1 hr]
    exact leadbyte_flag_set _
  · intro b hb
    rw [s2 b hb]
    have hd : ((build_ctype1 P (lcid MSVCRT_LC_CTYPE) ranges).drop 1).getD b 0
        = (build_ctype1 P (lcid MSVCRT_LC_CTYPE) ranges).getD (b + 1) 0 := by
      simp only [List.getD_eq_getElem?_getD, List.getElem?_drop, Nat.add_comm 1 b]
    rw [hd]


/-- C40 at the provider with lead bytes 129..159: in the record for "French"
the table has 257 entries, entry 0 is 0, the entry of byte 130 is the
lead-byte flag alone, the entry of byte 65 ('A') is the provider's word 1, and
the buffer handed to the case mapping holds a space for byte 130, so the
lower-case map sends 130 to 32 and 65 to 97. -/
theorem ctype_table_of_locale_witness :
    (create_locinfo dbcsProvider 127 0 (some (cstr "French")) none thread_data_initial).map
      (fun r => r.1.map fun l =>
        (l.ctype1.map (fun t => (t.getD 131 0, t.getD 66 0)),
          l.pclmap.map (fun m => (m.getD 130 0, m.getD 65 0))))
      = some (some (some (32768, 1), some (32, 97))) ∧
    ∃ table, (((create_locinfo dbcsProvider 127 0 (some (cstr "French")) none
        thread_data_initial).getD (none, thread_data_initial)).1.getD locinfo_fresh).ctype1
        = some table ∧ table.length = 257 ∧ table.getD 0 0 = 0 := by
  refine ⟨by decide, ?_⟩
  obtain ⟨lcid, cp, hl, himp⟩ :=
    ctype_table_of_locale dbcsProvider 127 0 (cstr "French") none thread_data_initial _ _
      (eq_some_some_getD _ locinfo_fresh thread_data_initial (by decide))
  have e : (create_locinfo_lcids dbcsProvider (cstr "French") thread_data_initial).map
      (fun r => r.1.map fun p => p.1 MSVCRT_LC_CTYPE) = some (some 1036) := by decide
  rw [hl] at e
  simp only [Option.map_some', Option.some.injEq] at e
  obtain ⟨_, _, table, _, _, _, h3, h4, h5, _⟩ := himp rfl ⟨by rw [e]; decide, by decide⟩
  exact ⟨table, h3, h4, h5⟩

/-! ### C30: concurrent calls of setlocale -/

/-- The two phases of `MSVCRT_setlocale` compose to the whole call: with a
selector in range and a descriptor, the call is the assembly of line 1692
followed, when it succeeds, by the locked install. -/
theorem setlocale_two_phases (P : Provider) (g : Globals) (data : thread_data_t)
    (category : Int) (locale : CStr)
    (hcat : ¬ (category < (MSVCRT_LC_MIN : Int) ∨ category > (MSVCRT_LC_MAX : Int))) :
    MSVCRT_setlocale P g data category (some locale)
      = (setlocale_assemble P g data category locale).bind fun (newlocinfo, data1) =>
          match newlocinfo with
          | none => some (none, g, data1)
          | some newlocinfo => setlocale_install P g data1 category newlocinfo := by
  unfold MSVCRT_setlocale setlocale_assemble setlocale_install
  cases hl : get_locinfo g data with
  | none => rfl
  | some locinfo =>
    simp only [Option.some_bind, if_neg hcat]
    cases hc : create_locinfo P g.charmax category (some locale) (some locinfo) data with
    | none => rfl
    | some r =>
      obtain ⟨n, data1⟩ := r
      obtain ⟨e1, e2⟩ := create_locinfo_data_frame P _ _ _ _ _ _ hc
      have hg : get_locinfo g data1 = some locinfo := by
        rw [← hl]
        unfold get_locinfo
        simp only at e1 e2
        rw [e1, e2]
      cases n with
      | none => rfl
      | some n =>
        simp only [Option.some_bind, hg]

/-- C30: after start-up with the demo provider, thread A calls
setlocale (LC_NUMERIC, "French") and thread B calls
setlocale (LC_MONETARY, "French"), both on the process-wide record. When both
assemble their record (line 1692) before either takes the lock, and A then
installs before B, the process-wide record ends with Monetary 1036 and Numeric
0: the update of A is lost. Each of the two sequential orders ends with
Monetary 1036 and Numeric 1036. -/
theorem concurrent_setlocale_loses_update :
    demo_concurrent = some ([0, 0, 1036, 0, 0], [0, 0, 1036, 0, 0]) ∧
    demo_sequential (MSVCRT_LC_NUMERIC : Int) (MSVCRT_LC_MONETARY : Int)
      = some ([0, 0, 1036, 1036, 0], [0, 0, 1036, 1036, 0]) ∧
    demo_sequential (MSVCRT_LC_MONETARY : Int) (MSVCRT_LC_NUMERIC : Int)
      = some ([0, 0, 1036, 1036, 0], [0, 0, 1036, 1036, 0]) := by
  refine ⟨by decide, by decide, by decide⟩

end Msvcrt
